import Mathlib

/-! # IR learn: capture state machine and NEC / RC5 / RC6 codecs

A shallow embedding of `components/features/ir_learn` (`ir_codec.c`, `ir_nec.c`,
`ir_rc5.c`, `ir_rc6.c`, `ir_learn.c`) and the properties proved about it.

Conventions of the embedding

* C `int` values are `Int`; the two sums of `ir_decode_check_range` and the
  multiples of `ir_decode_get_level` are reduced to the 32-bit range by `wrap32`.
* Unsigned fields (`uint8_t`, `uint16_t`, `uint32_t`) are `Nat`, reduced modulo
  their width where the code stores a computed value.
* Arrays are lists.  A read at an index outside the list yields `0`; a write at
  an index outside the list leaves the list as it is, and the edge handler
  reports every index it writes in a log, so that such writes stay visible.
* Loops whose trip count is not fixed take a fuel argument; the callers pass a
  bound that is proved never to be used up.
* The RTOS calls (semaphores, RMT driver, logging) are left out; the one
  completion signal of the edge handler is returned as a flag.
-/

namespace IrLearn

/-! ## `ir_codec.h` / `ir_codec.c` -/

/-- Reduction of an integer to the range of a 32-bit two's-complement `int`. -/
def wrap32 (x : Int) : Int := (x + 2147483648) % 4294967296 - 2147483648

def RC_MARK : Int := 1
def RC_SPACE : Int := 0
def RMT_CLK_DIV : Nat := 100
def RMT_TICK_10_US : Nat := 80000000 / RMT_CLK_DIV / 100000

inductive ir_proto_t where
  | NOT_SUPPORT
  | IR_PROTO_NEC
  | IR_PROTO_RC5
  | IR_PROTO_RC6
  | IR_PROTO_MAX
  deriving DecidableEq, Repr

open ir_proto_t

/-- The struct `ir_learn_result_t`.  `freq` and `duty` are `float` in the source and
are carried as rationals; `message` is the caller's buffer behind the flexible
array member and `message_len` the length field next to it. -/
structure ir_learn_result_t where
  proto : ir_proto_t
  freq : Rat
  duty : Rat
  bits : Int
  value : Nat
  addr : Nat
  cmd : Nat
  repeat_len : Nat
  repeat_buf : List Nat
  message_len : Nat
  message : List Nat
  deriving DecidableEq

/-- The struct `rmt_item32_t` of the RMT driver: two (duration, level) halves, the
durations being 15-bit fields. -/
structure rmt_item32_t where
  duration0 : Nat
  level0 : Nat
  duration1 : Nat
  level1 : Nat
  deriving DecidableEq, Repr

def ir_decode_check_range (duration_us target_us bit_margin : Int) : Bool :=
  decide (duration_us < wrap32 (target_us + bit_margin))
    && decide (duration_us > wrap32 (target_us - bit_margin))

/-- The function `ir_decode_get_level`: the returned triple is the return value and the new
`*offset` and `*used`. -/
def ir_decode_get_level (result : ir_learn_result_t) (offset used : Nat)
    (bit_us bit_margin : Int) : Int × Nat × Nat :=
  if offset ≥ result.message_len then (RC_SPACE, offset, used)
  else
    let width : Int := (result.message.getD offset 0 : Nat)
    let value : Int := if offset % 2 ≠ 0 then RC_SPACE else RC_MARK
    let fin (avail : Nat) : Int × Nat × Nat :=
      if used + 1 ≥ avail then (value, offset + 1, 0) else (value, offset, used + 1)
    if ir_decode_check_range width bit_us bit_margin then fin 1
    else if ir_decode_check_range width (wrap32 (2 * bit_us)) bit_margin then fin 2
    else if ir_decode_check_range width (wrap32 (3 * bit_us)) bit_margin then fin 3
    else (-1, offset, used)

/-- The function `ir_encode_set_level`: every field of the item is assigned. -/
def ir_encode_set_level (logic_dir : Nat) (high_us low_us : Nat) : rmt_item32_t :=
  if logic_dir ≠ 0 then
    { level0 := 1, duration0 := (high_us / 10 * RMT_TICK_10_US) % 32768,
      level1 := 0, duration1 := (low_us / 10 * RMT_TICK_10_US) % 32768 }
  else
    { level0 := 0, duration0 := (low_us / 10 * RMT_TICK_10_US) % 32768,
      level1 := 1, duration1 := (high_us / 10 * RMT_TICK_10_US) % 32768 }

/-! ## `ir_nec.c` -/

def NEC_BITS : Nat := 34
def NEC_DATA_BITS : Nat := 32
def NEC_BIT_MARGIN : Int := 100
def NEC_HDR_HIGH_US : Nat := 9000
def NEC_HDR_LOW_US : Nat := 4500
def NEC_BIT_HIGH_US : Nat := 560
def NEC_ONE_LOW_US : Nat := 1690
def NEC_ZERO_LOW_US : Nat := 560

/-- One of the two 16-step loops of `nec_build_items`: `n` items for the low `n` bits of
`v`, least significant first (`v >>= 1` after each). -/
def nec_build_bits : Nat → Nat → List rmt_item32_t
  | 0, _ => []
  | n + 1, v =>
    (if v &&& 1 ≠ 0 then ir_encode_set_level 1 NEC_BIT_HIGH_US NEC_ONE_LOW_US
     else ir_encode_set_level 1 NEC_BIT_HIGH_US NEC_ZERO_LOW_US)
      :: nec_build_bits n (v >>> 1)

def nec_build_items (addr cmd : Nat) : List rmt_item32_t :=
  [ir_encode_set_level 1 NEC_HDR_HIGH_US NEC_HDR_LOW_US]
    ++ nec_build_bits 16 addr
    ++ nec_build_bits 16 cmd
    ++ [ir_encode_set_level 1 NEC_BIT_HIGH_US 0x7fff]

/-- The argument `((~x) << 8) | x` of `ir_nec_send`, for a `uint16_t x`: computed in 32-bit
`int` and converted to the `uint16_t` parameter of `nec_build_items`. -/
def nec_send_arg (x : Nat) : Nat :=
  ((((4294967295 - x % 65536) <<< 8) % 4294967296) ||| (x % 65536)) % 65536

/-- The item array that `ir_nec_send` hands to `rmt_write_items` for its first frame. -/
def ir_nec_send_items (addr cmd : Nat) : List rmt_item32_t :=
  nec_build_items (nec_send_arg addr) (nec_send_arg cmd)

/-- The data loop of `ir_nec_decode`: `n` iterations left, loop counter `i`. The result is
`none` for `return false`, else the final `data`. -/
def nec_decode_loop (result : ir_learn_result_t) : Nat → Nat → Nat → Nat → Option Nat
  | 0, _, _, data => some data
  | n + 1, i, offset, data =>
    if ir_decode_check_range (result.message.getD offset 0 : Nat) NEC_BIT_HIGH_US NEC_BIT_MARGIN
        = false then none
    else
      let offset := offset + 1
      if ir_decode_check_range (result.message.getD offset 0 : Nat) NEC_ONE_LOW_US NEC_BIT_MARGIN
      then nec_decode_loop result n (i + 1) (offset + 1) ((data ||| (1 <<< i)) % 4294967296)
      else if
        ir_decode_check_range (result.message.getD offset 0 : Nat) NEC_ZERO_LOW_US NEC_BIT_MARGIN
      then nec_decode_loop result n (i + 1) (offset + 1) data
      else none

/-- The function `ir_nec_decode`: the returned pair is the verdict and the result struct
after the call. -/
def ir_nec_decode (result : ir_learn_result_t) : Bool × ir_learn_result_t :=
  if ir_decode_check_range (result.message.getD 0 0 : Nat) NEC_HDR_HIGH_US NEC_BIT_MARGIN
      = false then (false, result)
  else if result.message_len < 2 * NEC_DATA_BITS then (false, result)
  else if ir_decode_check_range (result.message.getD 1 0 : Nat) NEC_HDR_LOW_US NEC_BIT_MARGIN
      = false then (false, result)
  else
    match nec_decode_loop result NEC_DATA_BITS 0 2 0 with
    | none => (false, result)
    | some data =>
      (true, { result with
                proto := IR_PROTO_NEC, bits := NEC_DATA_BITS, value := data,
                addr := (data &&& 0x000000ff) % 65536,
                cmd := ((data >>> 16) &&& 0x000000ff) % 65536 })

/-- Tick count of the RMT counter read back in microseconds (`RMT_TICK_10_US` ticks are
10 us). -/
def ticks_to_us (t : Nat) : Nat := t * 10 / RMT_TICK_10_US

/-- The (level, ticks) halves of an item array in transmission order. -/
def frame_halves (items : List rmt_item32_t) : List (Nat × Nat) :=
  items.flatMap fun it => [(it.level0, it.duration0), (it.level1, it.duration1)]

/-- The ordered mark/space durations of an item array, in microseconds. -/
def frame_durations_us (items : List rmt_item32_t) : List Nat :=
  (frame_halves items).map fun h => ticks_to_us h.2

/-- A result struct holding the received durations `msg`, the other fields taken from
`r0`. -/
def result_of_message (r0 : ir_learn_result_t) (msg : List Nat) : ir_learn_result_t :=
  { r0 with message := msg, message_len := msg.length }


/-- The value of `1 << k` as a 32-bit pattern.  The count is reduced modulo 32, which is what
the shifter of the target does with a count outside 0..31 (C leaves that case undefined). -/
def shl1 (k : Int) : Nat := 1 <<< (k % 32).toNat

/-! ## `ir_rc5.c` -/

def RC5_BIT_LEN : Nat := 11
def RC5_ADDR_BIT_LEN : Nat := 5
def RC5_CMD_BIT_LEN : Nat := 6
def RC5_BIT_MARGIN : Int := 100
def RC5_BIT_US : Nat := 889

/-- The loop `for (i = n - 1; i >= 0; i--)` of `ir_rc5_send` over the bits of `v`, most
significant first. -/
def rc5_build_bits : Nat → Nat → List rmt_item32_t
  | 0, _ => []
  | n + 1, v =>
    (if v &&& (1 <<< n) ≠ 0 then ir_encode_set_level 0 RC5_BIT_US RC5_BIT_US
     else ir_encode_set_level 1 RC5_BIT_US RC5_BIT_US)
      :: rc5_build_bits n v

/-- The item array that `ir_rc5_send` hands to `rmt_write_items` for its first frame
(`addr` and `cmd` are `uint8_t` parameters). -/
def ir_rc5_send_items (toggle : Bool) (addr cmd : Nat) : List rmt_item32_t :=
  [ir_encode_set_level 0 RC5_BIT_US RC5_BIT_US,
   ir_encode_set_level 0 RC5_BIT_US RC5_BIT_US,
   ir_encode_set_level toggle.toNat RC5_BIT_US RC5_BIT_US]
    ++ rc5_build_bits RC5_ADDR_BIT_LEN (addr % 256)
    ++ rc5_build_bits RC5_CMD_BIT_LEN (cmd % 256)

/-- The data loop of `ir_rc5_decode`, with fuel.  The result is `none` when the fuel is used
up, else the verdict and the result struct at the `return`.  The branches of the source that
or a zero into `data`, `addr` or `cmd` change nothing and are left out. -/
def rc5_decode_loop : Nat → ir_learn_result_t → Nat → Nat → Nat → Nat →
    Option (Bool × ir_learn_result_t)
  | 0, _, _, _, _, _ => none
  | fuel + 1, result, bits, offset, used, data =>
    if offset < result.message_len then
      let a := ir_decode_get_level result offset used RC5_BIT_US RC5_BIT_MARGIN
      let b := ir_decode_get_level result a.2.1 a.2.2 RC5_BIT_US RC5_BIT_MARGIN
      let levelA := a.1
      let levelB := b.1
      if levelA = RC_SPACE ∧ levelB = RC_MARK then
        let data := (data ||| shl1 bits) % 4294967296
        let result :=
          if bits ≠ 0 ∧ bits ≤ RC5_ADDR_BIT_LEN then
            { result with
              addr := (result.addr ||| shl1 ((RC5_ADDR_BIT_LEN : Int) - bits)) % 65536 }
          else if bits > RC5_ADDR_BIT_LEN ∧ bits ≤ RC5_BIT_LEN then
            { result with cmd := (result.cmd ||| shl1 ((RC5_BIT_LEN : Int) - bits)) % 65536 }
          else result
        rc5_decode_loop fuel result (bits + 1) b.2.1 b.2.2 data
      else if levelA = RC_MARK ∧ levelB = RC_SPACE then
        rc5_decode_loop fuel result (bits + 1) b.2.1 b.2.2 data
      else some (false, result)
    else
      some (true, { result with bits := bits, value := data, proto := IR_PROTO_RC5 })

/-- The function `ir_rc5_decode`.  Every pass of the loop that does not return consumes at
least one level unit and a duration holds at most three, so `3 * message_len + 1` passes are
never used up (`rc5_decode_returns`). -/
def ir_rc5_decode (result : ir_learn_result_t) : Bool × ir_learn_result_t :=
  if result.message_len < (RC5_BIT_LEN + 1) / 2 + 2 then (false, result)
  else
    let s1 := ir_decode_get_level result 0 0 RC5_BIT_US RC5_BIT_MARGIN
    if s1.1 ≠ RC_MARK then (false, result)
    else
      let s2 := ir_decode_get_level result s1.2.1 s1.2.2 RC5_BIT_US RC5_BIT_MARGIN
      if s2.1 ≠ RC_SPACE then (false, result)
      else
        let s3 := ir_decode_get_level result s2.2.1 s2.2.2 RC5_BIT_US RC5_BIT_MARGIN
        if s3.1 ≠ RC_MARK then (false, result)
        else
          match rc5_decode_loop (3 * result.message_len + 1) result 0 s3.2.1 s3.2.2 0 with
          | some out => out
          | none => (false, result)

/-! ## `ir_rc6.c` -/

def RC6_BIT_LEN : Nat := 16
def RC6_ADDR_BIT_LEN : Nat := 8
def RC6_CMD_BIT_LEN : Nat := 8
def RC6_BIT_MARGIN : Int := 100
def RC6_HDR_MARK : Nat := 2666
def RC6_HDR_SPACE : Nat := 889
def RC6_BIT_US : Nat := 444

/-- The loop `for (i = n - 1; i >= 0; i--)` of `ir_rc6_send` over the bits of `v`, most
significant first. -/
def rc6_build_bits : Nat → Nat → List rmt_item32_t
  | 0, _ => []
  | n + 1, v =>
    (if v &&& (1 <<< n) ≠ 0 then ir_encode_set_level 1 RC6_BIT_US RC6_BIT_US
     else ir_encode_set_level 0 RC6_BIT_US RC6_BIT_US)
      :: rc6_build_bits n v

/-- The item array that `ir_rc6_send` hands to `rmt_write_items` (`mode`, `addr` and `cmd`
are `uint8_t` parameters). -/
def ir_rc6_send_items (mode : Nat) (toggle : Bool) (addr cmd : Nat) : List rmt_item32_t :=
  [ir_encode_set_level 1 RC6_HDR_MARK RC6_HDR_SPACE,
   ir_encode_set_level 1 RC6_BIT_US RC6_BIT_US,
   ir_encode_set_level ((mode % 256) &&& 0x04) RC6_BIT_US RC6_BIT_US,
   ir_encode_set_level ((mode % 256) &&& 0x02) RC6_BIT_US RC6_BIT_US,
   ir_encode_set_level ((mode % 256) &&& 0x01) RC6_BIT_US RC6_BIT_US,
   ir_encode_set_level toggle.toNat (RC6_BIT_US * 2) (RC6_BIT_US * 2)]
    ++ rc6_build_bits RC6_ADDR_BIT_LEN (addr % 256)
    ++ rc6_build_bits RC6_CMD_BIT_LEN (cmd % 256)

/-- The data loop of `ir_rc6_decode`, with fuel.  The result is `none` when the fuel is used
up, else the verdict and the result struct at the `return`.  The second reads of the
double-wide toggle bit happen only for `bits == 3`.  The branches of the source that or a
zero into `data`, `addr` or `cmd` change nothing and are left out. -/
def rc6_decode_loop : Nat → ir_learn_result_t → Nat → Nat → Nat → Nat →
    Option (Bool × ir_learn_result_t)
  | 0, _, _, _, _, _ => none
  | fuel + 1, result, bits, offset, used, data =>
    if offset < result.message_len then
      let a := ir_decode_get_level result offset used RC6_BIT_US RC6_BIT_MARGIN
      let levelA := a.1
      let a2 := if bits = 3 then ir_decode_get_level result a.2.1 a.2.2 RC6_BIT_US RC6_BIT_MARGIN
                else a
      if bits = 3 ∧ levelA ≠ a2.1 then some (false, result)
      else
        let b := ir_decode_get_level result a2.2.1 a2.2.2 RC6_BIT_US RC6_BIT_MARGIN
        let levelB := b.1
        let b2 := if bits = 3 then ir_decode_get_level result b.2.1 b.2.2 RC6_BIT_US RC6_BIT_MARGIN
                  else b
        if bits = 3 ∧ levelB ≠ b2.1 then some (false, result)
        else if levelA = RC_MARK ∧ levelB = RC_SPACE then
          let data := (data ||| shl1 bits) % 4294967296
          let result :=
            if bits ≥ 4 ∧ bits < RC6_ADDR_BIT_LEN + 4 then
              { result with
                addr := (result.addr
                  ||| shl1 (((RC6_ADDR_BIT_LEN : Int) - 1) - ((bits : Int) - 4))) % 65536 }
            else if bits ≥ RC6_ADDR_BIT_LEN + 4 ∧ bits ≤ RC6_BIT_LEN + 4 then
              { result with
                cmd := (result.cmd
                  ||| shl1 (((RC6_BIT_LEN : Int) - 1) - ((bits : Int) - 4))) % 65536 }
            else result
          rc6_decode_loop fuel result (bits + 1) b2.2.1 b2.2.2 data
        else if levelA = RC_SPACE ∧ levelB = RC_MARK then
          rc6_decode_loop fuel result (bits + 1) b2.2.1 b2.2.2 data
        else some (false, result)
    else
      some (true, { result with bits := bits, value := data, proto := IR_PROTO_RC6 })

/-- The function `ir_rc6_decode`.  Every pass of the loop that does not return consumes at
least one level unit and a duration holds at most three, so `3 * message_len + 1` passes are
never used up (`rc6_decode_returns`). -/
def ir_rc6_decode (result : ir_learn_result_t) : Bool × ir_learn_result_t :=
  if result.message_len < RC6_BIT_LEN then (false, result)
  else if ir_decode_check_range (result.message.getD 0 0 : Nat) RC6_HDR_MARK RC6_BIT_MARGIN
      = false then (false, result)
  else if ir_decode_check_range (result.message.getD 1 0 : Nat) RC6_HDR_SPACE RC6_BIT_MARGIN
      = false then (false, result)
  else
    let s1 := ir_decode_get_level result 2 0 RC6_BIT_US RC6_BIT_MARGIN
    if s1.1 ≠ RC_MARK then (false, result)
    else
      let s2 := ir_decode_get_level result s1.2.1 s1.2.2 RC6_BIT_US RC6_BIT_MARGIN
      if s2.1 ≠ RC_SPACE then (false, result)
      else
        match rc6_decode_loop (3 * result.message_len + 1) result 0 s2.2.1 s2.2.2 0 with
        | some out => out
        | none => (false, result)

/-! ## Reception of a transmitted frame -/

/-- Drop the leading idle space: the halves of level 0 in front of the first mark. -/
def drop_leading_space (h : List (Nat × Nat)) : List (Nat × Nat) :=
  h.dropWhile fun x => x.1 = 0

/-- Merge the halves that follow `cur` and have its level into it. -/
def merge_levels_from (cur : Nat × Nat) : List (Nat × Nat) → List (Nat × Nat)
  | [] => [cur]
  | x :: rest =>
    if x.1 = cur.1 then merge_levels_from (cur.1, cur.2 + x.2) rest
    else cur :: merge_levels_from x rest

/-- Merge adjacent halves of equal level into one duration. -/
def merge_levels : List (Nat × Nat) → List (Nat × Nat)
  | [] => []
  | x :: rest => merge_levels_from x rest

/-- Drop the trailing space: a last duration of level 0. -/
def drop_trailing_space : List (Nat × Nat) → List (Nat × Nat)
  | [] => []
  | [x] => if x.1 = 0 then [] else [x]
  | x :: y :: rest => x :: drop_trailing_space (y :: rest)

/-- The duration sequence a receiver captures from a transmitted item array: leading idle
space dropped, adjacent halves of equal level merged, trailing space dropped, tick counts
converted to microseconds. -/
def received_durations_us (items : List rmt_item32_t) : List Nat :=
  (drop_trailing_space (merge_levels (drop_leading_space (frame_halves items)))).map
    fun h => ticks_to_us h.2

/-! ## `ir_learn.c` -/

inductive esp_err_t where
  | ESP_OK
  | ESP_FAIL
  | ESP_ERR_NO_MEM
  | ESP_ERR_INVALID_ARG
  | ESP_ERR_INVALID_STATE
  | ESP_ERR_TIMEOUT
  deriving DecidableEq, Repr

open esp_err_t

inductive ir_learn_state_t where
  | IR_LEARN_NONE
  | IR_LEARN_IDLE
  | IR_LEARN_READY
  | IR_LEARN_CARRIER
  | IR_LEARN_MSG
  | IR_LEARN_FINISH
  | IR_LEARN_SUCCESS
  | IR_LEARN_CHECK_FAIL
  | IR_LEARN_OVERFLOW
  | IR_LEARN_STATE_MAX
  deriving DecidableEq, Repr

open ir_learn_state_t

def IR_LEARN_MSG_BUF_LEN : Nat := 250
def IR_LEARN_RPT_BUF_LEN : Nat := 10
def IR_FILTER_BUF_LEN : Nat := 10
def IR_CARRIER_BUF_LEN : Nat := 100
def IR_CARRIER_FILTER_LEN : Nat := 10
def IR_LEARN_FREQ_MIN : Nat := 20000
def IR_LEARN_FREQ_MAX : Nat := 80000
def IR_LEARN_CARRIER_WIDTH_MAX : Nat := 1000000 / IR_LEARN_FREQ_MIN
def IR_LEARN_CARRIER_WIDTH_MIN : Nat := 1000000 / 2 / IR_LEARN_FREQ_MAX
def IR_LEARN_PERIOD_MIN : Nat := 200
def IR_LEARN_PERIOD_MAX : Nat := 20000
def IR_LEARN_REPEAT_MAX : Nat := 120000
/-- The macro `IR_LEARN_MSG` of `ir_learn.c`, the learn type "message data".  The file defines
it after it has included `ir_learn.h`, so from there on the name stands for the number 0
wherever it is written, also where the state enumerator of the same name is meant: the
comparison `state == IR_LEARN_MSG` tests for `IR_LEARN_IDLE`, whose value is 0, and the
assignment `state = IR_LEARN_MSG` stores `IR_LEARN_IDLE`. -/
def IR_LEARN_TYPE_MSG : Nat := 0
/-- The learn type `IR_LEARN_RPT` (repeat data). -/
def IR_LEARN_RPT : Nat := 1

/-- The struct `ir_learn_carrier_t`: `uint8_t` counters and `uint8_t` buffers of 100, 100 and
10 elements. -/
structure ir_learn_carrier_t where
  low_cnt : Nat
  high_cnt : Nat
  filter_cnt : Nat
  low : List Nat
  high : List Nat
  filter : List Nat
  deriving DecidableEq

/-- The struct `ir_learn_msg_t`: `msg` has 250 and `repeat_buf` (the field `repeat`) 10
elements of `uint32_t`. -/
structure ir_learn_msg_t where
  type : Nat
  msg_len : Nat
  repeat_len : Nat
  msg : List Nat
  repeat_buf : List Nat
  deriving DecidableEq

/-- The struct `ir_learn_t`.  The binary semaphore `sem` is the flag "a completion signal is
pending". -/
structure ir_learn_t where
  carrier : ir_learn_carrier_t
  msg : ir_learn_msg_t
  state : ir_learn_state_t
  finished : Bool
  pre_time : Int
  gpio : Nat
  sem : Bool
  deriving DecidableEq

/-- What one call of the edge handler leaves behind: the session, whether it gave the
completion semaphore, and the indices of `msg.msg` and of `msg.repeat` it wrote, in
order. -/
structure isr_out where
  s : ir_learn_t
  gave : Bool
  msg_writes : List Nat
  repeat_writes : List Nat
  deriving DecidableEq

/-- The statement `buf[i] += v` on a `uint32_t` buffer. -/
def buf_add (buf : List Nat) (i : Nat) (v : Int) : List Nat :=
  buf.set i ((((buf.getD i 0 : Nat) : Int) + v) % 4294967296).toNat

/-- The statement `buf[i] = v` on a buffer of `2 ^ w`-valued elements. -/
def buf_store (modulus : Nat) (buf : List Nat) (i : Nat) (v : Int) : List Nat :=
  buf.set i (v % (modulus : Int)).toNat

/-- The statement `msg.msg[msg.msg_len] += v`, logged. -/
def msg_slot_add (o : isr_out) (v : Int) : isr_out :=
  { o with
    s := { o.s with msg := { o.s.msg with msg := buf_add o.s.msg.msg o.s.msg.msg_len v } },
    msg_writes := o.msg_writes ++ [o.s.msg.msg_len] }

/-- The statement `msg.repeat[msg.repeat_len] += v`, logged. -/
def repeat_slot_add (o : isr_out) (v : Int) : isr_out :=
  { o with
    s := { o.s with
           msg := { o.s.msg with
                    repeat_buf := buf_add o.s.msg.repeat_buf o.s.msg.repeat_len v } },
    repeat_writes := o.repeat_writes ++ [o.s.msg.repeat_len] }

/-- The statement `if (type == IR_LEARN_MSG) msg[msg_len] += v; else repeat[repeat_len] += v`. -/
def slot_add (o : isr_out) (v : Int) : isr_out :=
  if o.s.msg.type = IR_LEARN_TYPE_MSG then msg_slot_add o v else repeat_slot_add o v

/-- The loop `for (i = 0; i < n; ++i)` adding `filter[i]` to the current slot. -/
def filter_flush (o : isr_out) (n : Nat) : isr_out :=
  (List.range n).foldl (fun o i => slot_add o (o.s.carrier.filter.getD i 0 : Nat)) o

/-- The code behind the label `EXIT`. -/
def isr_exit (o : isr_out) : isr_out :=
  if o.s.finished then
    let s :=
      if o.s.state = IR_LEARN_FINISH then
        { o.s with msg := { o.s.msg with msg_len := (o.s.msg.msg_len + 1) % 65536 } }
      else o.s
    { o with s := { s with sem := true }, gave := true }
  else o

/-- The second half of the carrier band of the edge handler: the jitter filter ("save data to
filter buffer firstly in order to remove jitter"). -/
def isr_carrier_filter (s : ir_learn_t) (period : Int) : isr_out :=
  let o : isr_out := { s := s, gave := false, msg_writes := [], repeat_writes := [] }
  if s.carrier.filter_cnt < IR_FILTER_BUF_LEN then
    isr_exit { o with s := { s with carrier := { s.carrier with
        filter := buf_store 256 s.carrier.filter s.carrier.filter_cnt period,
        filter_cnt := (s.carrier.filter_cnt + 1) % 256 } } }
  else
    let o1 : isr_out :=
      if s.carrier.filter_cnt = IR_FILTER_BUF_LEN then
        -- the filter buffer is full, start a new mark
        let s2 : ir_learn_t :=
          { s with carrier := { s.carrier with filter_cnt := (s.carrier.filter_cnt + 1) % 256 } }
        let s3 : ir_learn_t :=
          if s2.msg.type = IR_LEARN_TYPE_MSG ∧ s2.msg.msg_len > 0 then
            { s2 with msg := { s2.msg with msg_len := (s2.msg.msg_len + 1) % 65536 } }
          else if s2.msg.type = IR_LEARN_RPT ∧ s2.msg.repeat_len > 0
              ∧ s2.msg.repeat_len < IR_LEARN_RPT_BUF_LEN then
            { s2 with msg := { s2.msg with repeat_len := (s2.msg.repeat_len + 1) % 65536 } }
          else s2
        filter_flush { o with s := s3 } IR_FILTER_BUF_LEN
      else o
    -- the filter buffer is full, accumulate the carrier time to current mark
    isr_exit (slot_add o1 period)

/-- The carrier band of the edge handler ("save mark data"). -/
def isr_carrier (s : ir_learn_t) (period : Int) (gpio_level : Int) : isr_out :=
  -- save carrier data independently
  if s.carrier.high_cnt < IR_CARRIER_BUF_LEN ∧ s.carrier.low_cnt < IR_CARRIER_BUF_LEN then
    if gpio_level = 1 then
      isr_carrier_filter
        { s with carrier := { s.carrier with
            high := buf_store 256 s.carrier.high s.carrier.high_cnt period,
            high_cnt := (s.carrier.high_cnt + 1) % 256 } } period
    else
      isr_carrier_filter
        { s with carrier := { s.carrier with
            low := buf_store 256 s.carrier.low s.carrier.low_cnt period,
            low_cnt := (s.carrier.low_cnt + 1) % 256 } } period
  else
    -- carrier is saved, if message data is saved already, the learn process is finished;
    -- `state == IR_LEARN_MSG` is `state == (0)` after macro replacement
    if s.state = IR_LEARN_IDLE then
      isr_exit { s := { s with state := IR_LEARN_FINISH, finished := true }, gave := false,
                 msg_writes := [], repeat_writes := [] }
    else
      isr_carrier_filter { s with state := IR_LEARN_CARRIER } period

/-- The first statement of the bit band of the edge handler ("the previous mark is end,
start a new space"): the slot is advanced, or the front jitter data is added to it. -/
def isr_bit_start (s : ir_learn_t) : isr_out :=
  let o : isr_out := { s := s, gave := false, msg_writes := [], repeat_writes := [] }
  if s.carrier.filter_cnt > IR_LEARN_TYPE_MSG then
    if s.msg.type = IR_LEARN_TYPE_MSG then
      { o with s := { s with msg := { s.msg with msg_len := (s.msg.msg_len + 1) % 65536 } } }
    else if s.msg.repeat_len < IR_LEARN_RPT_BUF_LEN then
      { o with s := { s with msg := { s.msg with
          repeat_len := (s.msg.repeat_len + 1) % 65536 } } }
    else o
  else
    -- remove the front jitter data
    if s.msg.msg_len > 0 then filter_flush o s.carrier.filter_cnt else o

/-- The bit band of the edge handler. -/
def isr_bit (s : ir_learn_t) (period : Int) : isr_out :=
  let o1 : isr_out := isr_bit_start s
  -- reset filter buffer length to zero to save next mark data
  let o2 : isr_out :=
    { o1 with s := { o1.s with carrier := { o1.s.carrier with filter_cnt := 0 } } }
  if o2.s.msg.type = IR_LEARN_TYPE_MSG ∧ o2.s.msg.msg_len > 0 then
    isr_exit (msg_slot_add o2 period)
  else if o2.s.msg.type = IR_LEARN_RPT ∧ o2.s.msg.repeat_len > 0 then
    isr_exit (repeat_slot_add o2 period)
  else isr_exit o2

/-- The repeat-gap band of the edge handler ("save repeat data after message data"). -/
def isr_repeat (s : ir_learn_t) (period : Int) : isr_out :=
  let o : isr_out := { s := s, gave := false, msg_writes := [], repeat_writes := [] }
  if s.msg.msg_len > 0 ∧ s.msg.repeat_len = 0 then
    isr_exit { o with
      s := { s with msg := { s.msg with
              type := IR_LEARN_RPT,
              repeat_buf := buf_store 4294967296 s.msg.repeat_buf s.msg.repeat_len period,
              repeat_len := (s.msg.repeat_len + 1) % 65536 } },
      repeat_writes := [s.msg.repeat_len] }
  else if s.msg.type = IR_LEARN_RPT ∧ s.msg.repeat_len > 0
      ∧ s.msg.repeat_len < IR_LEARN_RPT_BUF_LEN - 1 then
    let l1 := (s.msg.repeat_len + 1) % 65536
    isr_exit { o with
      s := { s with
             msg := { s.msg with
              repeat_buf := buf_store 4294967296 s.msg.repeat_buf l1 period,
              repeat_len := (l1 + 1) % 65536,
              type := IR_LEARN_TYPE_MSG },
             state := IR_LEARN_FINISH,
             finished := true },
      repeat_writes := [l1] }
  else isr_exit o

/-- The oversized band of the edge handler (`period > IR_LEARN_REPEAT_MAX`).  Its last
statement `state = IR_LEARN_MSG` is `state = (0)` after macro replacement, which stores the
enumerator of value 0, `IR_LEARN_IDLE`. -/
def isr_oversized (s : ir_learn_t) : isr_out :=
  let o : isr_out := { s := s, gave := false, msg_writes := [], repeat_writes := [] }
  if s.msg.msg_len = 0 then isr_exit o
  else if s.state = IR_LEARN_CARRIER then
    isr_exit { o with s := { s with state := IR_LEARN_FINISH, finished := true } }
  else isr_exit { o with s := { s with state := IR_LEARN_IDLE } }

/-- The function `ir_learn_isr_handle`.  `cur_time` is what `esp_timer_get_time` returns in
the call and `gpio_level` what `gpio_get_level` returns. -/
def ir_learn_isr_handle (ir_learn : ir_learn_t) (cur_time : Int) (gpio_level : Int) :
    isr_out :=
  let period : Int := cur_time - ir_learn.pre_time
  if ir_learn.pre_time = 0 ∨ ir_learn.finished = true then
    { s := { ir_learn with pre_time := cur_time }, gave := false, msg_writes := [],
      repeat_writes := [] }
  else
    let s : ir_learn_t := { ir_learn with pre_time := cur_time }
    -- check overflow
    if s.msg.msg_len ≥ IR_LEARN_MSG_BUF_LEN then
      isr_exit { s := { s with state := IR_LEARN_OVERFLOW, finished := true }, gave := false,
                 msg_writes := [], repeat_writes := [] }
    else if period ≥ IR_LEARN_CARRIER_WIDTH_MIN ∧ period ≤ IR_LEARN_CARRIER_WIDTH_MAX then
      isr_carrier s period gpio_level
    else if period > IR_LEARN_CARRIER_WIDTH_MAX ∧ period ≤ IR_LEARN_PERIOD_MAX then
      isr_bit s period
    else if period > IR_LEARN_PERIOD_MAX ∧ period ≤ IR_LEARN_REPEAT_MAX then
      isr_repeat s period
    else if period > IR_LEARN_REPEAT_MAX then
      isr_oversized s
    else
      isr_exit { s := s, gave := false, msg_writes := [], repeat_writes := [] }

/-- The function `ir_learn_start` on a created session: the error code and the session after
the call (the two `memset` calls zero the carrier and message structs). -/
def ir_learn_start (ir_learn : ir_learn_t) : esp_err_t × ir_learn_t :=
  if ir_learn.state ≠ IR_LEARN_IDLE ∧ ir_learn.finished ≠ true then
    (ESP_ERR_INVALID_STATE, ir_learn)
  else
    (ESP_OK,
     { ir_learn with
       state := IR_LEARN_READY,
       finished := false,
       carrier := { low_cnt := 0, high_cnt := 0, filter_cnt := 0,
                    low := List.replicate IR_CARRIER_BUF_LEN 0,
                    high := List.replicate IR_CARRIER_BUF_LEN 0,
                    filter := List.replicate IR_FILTER_BUF_LEN 0 },
       msg := { type := 0, msg_len := 0, repeat_len := 0,
                msg := List.replicate IR_LEARN_MSG_BUF_LEN 0,
                repeat_buf := List.replicate IR_LEARN_RPT_BUF_LEN 0 } })

/-- The session that `ir_learn_create` returns (`calloc` zeroes it). -/
def ir_learn_create (gpio : Nat) : ir_learn_t :=
  { carrier := { low_cnt := 0, high_cnt := 0, filter_cnt := 0,
                 low := List.replicate IR_CARRIER_BUF_LEN 0,
                 high := List.replicate IR_CARRIER_BUF_LEN 0,
                 filter := List.replicate IR_FILTER_BUF_LEN 0 },
    msg := { type := 0, msg_len := 0, repeat_len := 0,
             msg := List.replicate IR_LEARN_MSG_BUF_LEN 0,
             repeat_buf := List.replicate IR_LEARN_RPT_BUF_LEN 0 },
    state := IR_LEARN_IDLE,
    finished := false,
    pre_time := 0,
    gpio := gpio,
    sem := false }

/-- The function `ir_learn_decode` on a non-null result: the error code and the result struct
after the call. -/
def ir_learn_decode (result : ir_learn_result_t) : esp_err_t × ir_learn_result_t :=
  if result.message_len = 0 ∧ result.repeat_len = 0 then (ESP_ERR_INVALID_ARG, result)
  else
    let n := ir_nec_decode result
    if n.1 then (ESP_OK, n.2)
    else
      let r5 := ir_rc5_decode n.2
      if r5.1 then (ESP_OK, r5.2)
      else
        let r6 := ir_rc6_decode r5.2
        if r6.1 then (ESP_OK, r6.2) else (ESP_FAIL, r6.2)

/-- The session after the edge handler has run on the edges `es` (time stamp and level of
each), first edge first. -/
def run_edges (s : ir_learn_t) : List (Int × Int) → ir_learn_t
  | [] => s
  | e :: es => run_edges (ir_learn_isr_handle s e.1 e.2).s es

/-- The session after the edge handler has run on edges given by their intervals: each
element is the distance of an edge to the edge before it (whose time the session holds in
`pre_time`) and the line level at the edge. -/
def feed_intervals (s : ir_learn_t) : List (Int × Int) → ir_learn_t
  | [] => s
  | iv :: ivs => feed_intervals (ir_learn_isr_handle s (s.pre_time + iv.1) iv.2).s ivs

/-- The sessions that `ir_learn_start` and calls of the edge handler lead to. -/
inductive Reachable : ir_learn_t → Prop
  | start (x : ir_learn_t) : (ir_learn_start x).1 = ESP_OK → Reachable (ir_learn_start x).2
  | edge (s : ir_learn_t) (cur_time gpio_level : Int) :
      Reachable s → Reachable (ir_learn_isr_handle s cur_time gpio_level).s

/-! ## `ir_learn.c`: result assembly, stop -/

/-- The enumerator values of `ir_learn_state_t` (`IR_LEARN_NONE = -1`, `IR_LEARN_IDLE = 0`,
then counting up). -/
def state_value : ir_learn_state_t → Int
  | IR_LEARN_NONE => -1
  | IR_LEARN_IDLE => 0
  | IR_LEARN_READY => 1
  | IR_LEARN_CARRIER => 2
  | ir_learn_state_t.IR_LEARN_MSG => 3
  | IR_LEARN_FINISH => 4
  | IR_LEARN_SUCCESS => 5
  | IR_LEARN_CHECK_FAIL => 6
  | IR_LEARN_OVERFLOW => 7
  | IR_LEARN_STATE_MAX => 8

/-- The body of the inner loop of `array_sort`: `array[i]` and `array[j]` are exchanged when
`array[j] < array[i]`. -/
def array_sort_step (array : List Nat) (i j : Nat) : List Nat :=
  if array.getD j 0 < array.getD i 0 then
    let temp := array.getD i 0
    (array.set i (array.getD j 0)).set j temp
  else array

/-- The inner loop of `array_sort`: `for (j = i + 1; j < arr_len; ++j)`. -/
def array_sort_inner (array : List Nat) (arr_len i : Nat) : List Nat :=
  (List.range' (i + 1) (arr_len - (i + 1))).foldl (fun a j => array_sort_step a i j) array

/-- The function `array_sort` (`arr_len` is a `uint8_t`, so the `uint8_t` counters `i` and
`j` do not wrap). -/
def array_sort (array : List Nat) (arr_len : Nat) : List Nat :=
  (List.range arr_len).foldl (fun a i => array_sort_inner a arr_len i) array

/-- One of the two sums of the loop
`for (i = IR_CARRIER_FILTER_LEN; i < carrier_cnt - IR_CARRIER_FILTER_LEN; ++i)` of
`ir_learn_get_result`; the loop does not run when `carrier_cnt` is at most 20. -/
def carrier_sum (buf : List Nat) (carrier_cnt : Nat) : Nat :=
  (List.range' IR_CARRIER_FILTER_LEN (carrier_cnt - 2 * IR_CARRIER_FILTER_LEN)).foldl
    (fun sum i => sum + buf.getD i 0) 0

/-- The loop `for (i = 0; i < n; ++i) dst[i] = (uint16_t)src[i]`. -/
def copy_u16 (dst src : List Nat) (n : Nat) : List Nat :=
  (List.range n).foldl (fun d i => d.set i (src.getD i 0 % 65536)) dst

/-- The check loops of `ir_learn_get_result`: some `buf[i]`, `i < n`, is below
`IR_LEARN_PERIOD_MIN` or above `hi`. -/
def period_check_fails (buf : List Nat) (n hi : Nat) : Bool :=
  (List.range n).any
    (fun i => decide (buf.getD i 0 < IR_LEARN_PERIOD_MIN) || decide (buf.getD i 0 > hi))

/-- The function `ir_learn_get_result` on a created session and a non-null result: the error
code, the session and the result struct after the call.  The logging under `enable_debug` is
left out.  The `float` computations are taken exactly, in rational arithmetic; where the
source divides by zero (the `float` quotient is then a NaN or an infinity) the quotient
here is 0. -/
def ir_learn_get_result (ir_learn : ir_learn_t) (result : ir_learn_result_t)
    (_enable_debug : Bool) : esp_err_t × ir_learn_t × ir_learn_result_t :=
  if ir_learn.state ≠ IR_LEARN_FINISH then (ESP_ERR_INVALID_STATE, ir_learn, result)
  else if result.message_len < ir_learn.msg.msg_len then (ESP_ERR_INVALID_ARG, ir_learn, result)
  -- check the IR message data
  else if period_check_fails ir_learn.msg.msg ir_learn.msg.msg_len IR_LEARN_PERIOD_MAX then
    (ESP_FAIL, { ir_learn with state := IR_LEARN_CHECK_FAIL }, result)
  else
    -- check the IR repeat data
    let s1 : ir_learn_t :=
      if ir_learn.msg.repeat_len ≥ IR_LEARN_RPT_BUF_LEN - 1 then
        { ir_learn with msg := { ir_learn.msg with repeat_len := 0 } }
      else ir_learn
    if ¬ (ir_learn.msg.repeat_len ≥ IR_LEARN_RPT_BUF_LEN - 1)
        ∧ period_check_fails ir_learn.msg.repeat_buf ir_learn.msg.repeat_len IR_LEARN_REPEAT_MAX
          = true then
      (ESP_FAIL, { ir_learn with state := IR_LEARN_CHECK_FAIL }, result)
    else
      let s2 : ir_learn_t :=
        { s1 with
          state := IR_LEARN_SUCCESS,
          carrier := { s1.carrier with
                       high := array_sort s1.carrier.high s1.carrier.high_cnt,
                       low := array_sort s1.carrier.low s1.carrier.low_cnt } }
      let carrier_cnt : Nat := min s2.carrier.high_cnt s2.carrier.low_cnt
      let high_sum : Rat := carrier_sum s2.carrier.high carrier_cnt
      let low_sum : Rat := carrier_sum s2.carrier.low carrier_cnt
      let trimmed_cnt : Int := (carrier_cnt : Int) - ((IR_CARRIER_FILTER_LEN * 2 : Nat) : Int)
      let time : Rat := (high_sum + low_sum) / (trimmed_cnt : Rat)
      let duty : Rat := high_sum / (high_sum + low_sum)
      let freq : Rat := 1000 * 1000 / time
      (ESP_OK, s2,
       { result with
         freq := freq,
         duty := duty,
         repeat_len := s2.msg.repeat_len,
         message_len := s2.msg.msg_len,
         repeat_buf := copy_u16 result.repeat_buf s2.msg.repeat_buf s2.msg.repeat_len,
         message := copy_u16 result.message s2.msg.msg s2.msg.msg_len })

/-- The function `ir_learn_stop` on a created session: `finished` is latched and a pending
completion signal is taken; the removal of the interrupt handler is not part of the
session struct. -/
def ir_learn_stop (ir_learn : ir_learn_t) : esp_err_t × ir_learn_t :=
  (ESP_OK, { ir_learn with finished := true, sem := false })

/-! ## Definitions used in the proofs -/

def lsb_bits : Nat → Nat → List Bool
  | 0, _ => []
  | n + 1, v => decide (v &&& 1 ≠ 0) :: lsb_bits n (v >>> 1)

def nec_bit_us (b : Bool) : List Nat := [560, if b then 1690 else 560]

def nec_acc : List Bool → Nat → Nat → Nat
  | [], _, d => d
  | b :: bs, i, d => nec_acc bs (i + 1) (if b then (d ||| (1 <<< i)) % 4294967296 else d)

/-- The unit count that `ir_decode_get_level` assigns to a duration (`avail`). -/
def level_avail (bit_us bit_margin width : Int) : Option Nat :=
  if ir_decode_check_range width bit_us bit_margin then some 1
  else if ir_decode_check_range width (wrap32 (2 * bit_us)) bit_margin then some 2
  else if ir_decode_check_range width (wrap32 (3 * bit_us)) bit_margin then some 3
  else none

/-- The symbol `ir_decode_get_level` returns for the slot at `offset`. -/
def parity_level (offset : Nat) : Int := if offset % 2 ≠ 0 then RC_SPACE else RC_MARK

/-- The relation `ReadPos msg len bu bm off used U`: from the reader state `(off, used)` on the message
`msg` of length field `len`, the level units still to be read are exactly `U`. -/
inductive ReadPos (msg : List Nat) (len : Nat) (bu bm : Int) : Nat → Nat → List Int → Prop
  | done (off : Nat) : len ≤ off → ReadPos msg len bu bm off 0 []
  | run (off used n : Nat) (U V : List Int) :
      off < len → level_avail bu bm (msg.getD off 0 : Nat) = some n → used < n →
      ReadPos msg len bu bm (off + 1) 0 U →
      V = List.replicate (n - used) (parity_level off) ++ U →
      ReadPos msg len bu bm off used V

/-- Drop the trailing spaces of a list of level units. -/
def strip_spaces : List Int → List Int
  | [] => []
  | x :: xs => if x = 0 ∧ strip_spaces xs = [] then [] else x :: strip_spaces xs

/-- Halves given in level units of `u` ticks. -/
def scale_halves (u : Nat) (H : List (Nat × Nat)) : List (Nat × Nat) :=
  H.map fun h => (h.1, h.2 * u)

/-- The level units of a list of halves given in units. -/
def units_of (H : List (Nat × Nat)) : List Int :=
  H.flatMap fun h => List.replicate h.2 (h.1 : Int)

/-- Every run that merging `H` behind a run of `m` units of level `c` produces is at most
three units long (levels are 0 or 1, halves are at least one unit). -/
def merge_ok : Nat → Nat → List (Nat × Nat) → Bool
  | m, _, [] => decide (m ≤ 3)
  | m, c, h :: rest =>
    decide (h.1 ≤ 1) && decide (1 ≤ h.2)
      && (if h.1 = c then merge_ok (m + h.2) c rest
          else decide (m ≤ 3) && merge_ok h.2 h.1 rest)

/-- Bi-phase halves, in units: per element a mark then a space (`true`) or a space then a
mark (`false`). -/
def man_halves (xs : List Bool) : List (Nat × Nat) :=
  xs.flatMap fun x => if x then [(1, 1), (0, 1)] else [(0, 1), (1, 1)]

/-- The level units of `man_halves`. -/
def man_units (xs : List Bool) : List Int :=
  xs.flatMap fun x => if x then [1, 0] else [0, 1]

/-- The bits `n - 1`, ..., `0` of `v`, most significant first. -/
def msb_bits : Nat → Nat → List Bool
  | 0, _ => []
  | n + 1, v => decide (v &&& (1 <<< n) ≠ 0) :: msb_bits n v

/-- The stores of one pass of the RC5 loop that decodes a one. -/
def rc5_store (result : ir_learn_result_t) (bits data : Nat) : ir_learn_result_t × Nat :=
  (if bits ≠ 0 ∧ bits ≤ RC5_ADDR_BIT_LEN then
      { result with
        addr := (result.addr ||| shl1 ((RC5_ADDR_BIT_LEN : Int) - bits)) % 65536 }
    else if bits > RC5_ADDR_BIT_LEN ∧ bits ≤ RC5_BIT_LEN then
      { result with cmd := (result.cmd ||| shl1 ((RC5_BIT_LEN : Int) - bits)) % 65536 }
    else result,
   (data ||| shl1 bits) % 4294967296)

/-- The stores of the RC5 loop over a list of bi-phase symbols (`false`, space then mark,
decodes to a one). -/
def rc5_fold : List Bool → ir_learn_result_t → Nat → Nat → ir_learn_result_t × Nat
  | [], r, _, d => (r, d)
  | x :: xs, r, bits, d =>
    if x then rc5_fold xs r (bits + 1) d
    else rc5_fold xs (rc5_store r bits d).1 (bits + 1) (rc5_store r bits d).2

/-- The bi-phase symbols of the RC5 frame behind its two start bits. -/
def rc5_symbols (toggle : Bool) (a c : Nat) : List Bool :=
  toggle :: ((msb_bits 5 (a % 256)).map (!·) ++ (msb_bits 6 (c % 256)).map (!·))

/-- The `addr` field after the stores of the RC5 loop over bi-phase symbols. -/
def rc5_addr_acc : List Bool → Nat → Nat → Nat
  | [], _, v => v
  | x :: xs, bits, v =>
    rc5_addr_acc xs (bits + 1)
      (if x = false ∧ bits ≠ 0 ∧ bits ≤ RC5_ADDR_BIT_LEN then
        (v ||| shl1 ((RC5_ADDR_BIT_LEN : Int) - bits)) % 65536 else v)

/-- The `cmd` field after the stores of the RC5 loop over bi-phase symbols. -/
def rc5_cmd_acc : List Bool → Nat → Nat → Nat
  | [], _, v => v
  | x :: xs, bits, v =>
    rc5_cmd_acc xs (bits + 1)
      (if x = false ∧ ¬ (bits ≠ 0 ∧ bits ≤ RC5_ADDR_BIT_LEN)
          ∧ bits > RC5_ADDR_BIT_LEN ∧ bits ≤ RC5_BIT_LEN then
        (v ||| shl1 ((RC5_BIT_LEN : Int) - bits)) % 65536 else v)

/-- The stores of one pass of the RC6 loop that decodes a one. -/
def rc6_store (result : ir_learn_result_t) (bits data : Nat) : ir_learn_result_t × Nat :=
  (if bits ≥ 4 ∧ bits < RC6_ADDR_BIT_LEN + 4 then
      { result with
        addr := (result.addr
          ||| shl1 (((RC6_ADDR_BIT_LEN : Int) - 1) - ((bits : Int) - 4))) % 65536 }
    else if bits ≥ RC6_ADDR_BIT_LEN + 4 ∧ bits ≤ RC6_BIT_LEN + 4 then
      { result with
        cmd := (result.cmd
          ||| shl1 (((RC6_BIT_LEN : Int) - 1) - ((bits : Int) - 4))) % 65536 }
    else result,
   (data ||| shl1 bits) % 4294967296)

/-- The stores of the RC6 loop over a list of bi-phase symbols (`true`, mark then space,
decodes to a one). -/
def rc6_fold : List Bool → ir_learn_result_t → Nat → Nat → ir_learn_result_t × Nat
  | [], r, _, d => (r, d)
  | x :: xs, r, bits, d =>
    if x then rc6_fold xs (rc6_store r bits d).1 (bits + 1) (rc6_store r bits d).2
    else rc6_fold xs r (bits + 1) d

/-- The four level units of the double-wide toggle bit. -/
def rc6_toggle_units (t : Bool) : List Int := if t then [1, 1, 0, 0] else [0, 0, 1, 1]

/-- The `addr` field after the stores of the RC6 loop over bi-phase symbols. -/
def rc6_addr_acc : List Bool → Nat → Nat → Nat
  | [], _, v => v
  | x :: xs, bits, v =>
    rc6_addr_acc xs (bits + 1)
      (if x = true ∧ bits ≥ 4 ∧ bits < RC6_ADDR_BIT_LEN + 4 then
        (v ||| shl1 (((RC6_ADDR_BIT_LEN : Int) - 1) - ((bits : Int) - 4))) % 65536 else v)

/-- The `cmd` field after the stores of the RC6 loop over bi-phase symbols. -/
def rc6_cmd_acc : List Bool → Nat → Nat → Nat
  | [], _, v => v
  | x :: xs, bits, v =>
    rc6_cmd_acc xs (bits + 1)
      (if x = true ∧ ¬ (bits ≥ 4 ∧ bits < RC6_ADDR_BIT_LEN + 4)
          ∧ bits ≥ RC6_ADDR_BIT_LEN + 4 ∧ bits ≤ RC6_BIT_LEN + 4 then
        (v ||| shl1 (((RC6_BIT_LEN : Int) - 1) - ((bits : Int) - 4))) % 65536 else v)

/-- The bi-phase symbols of the three mode bits of an RC6 frame. -/
def rc6_mode_symbols (mode : Nat) : List Bool :=
  [decide ((mode % 256) &&& 0x04 ≠ 0), decide ((mode % 256) &&& 0x02 ≠ 0),
   decide ((mode % 256) &&& 0x01 ≠ 0)]

/-- The bi-phase symbols of the address and command bits of an RC6 frame. -/
def rc6_data_symbols (a c : Nat) : List Bool := msb_bits 8 (a % 256) ++ msb_bits 8 (c % 256)

/-- The two halves of the double-wide toggle bit, in units. -/
def rc6_toggle_halves (t : Bool) : List (Nat × Nat) :=
  if t then [(1, 2), (0, 2)] else [(0, 2), (1, 2)]

/-- The fields of a session that `msg.msg[..] += v` and `msg.repeat[..] += v` leave alone. -/
def SameShape (a b : ir_learn_t) : Prop :=
  a.msg.type = b.msg.type ∧ a.msg.msg_len = b.msg.msg_len ∧ a.msg.repeat_len = b.msg.repeat_len
    ∧ a.carrier = b.carrier ∧ a.state = b.state ∧ a.finished = b.finished
    ∧ a.pre_time = b.pre_time ∧ a.gpio = b.gpio ∧ a.sem = b.sem
    ∧ a.msg.msg.length = b.msg.msg.length ∧ a.msg.repeat_buf.length = b.msg.repeat_buf.length

/-- A session in message mode that is ready to take a carrier-band interval followed by a
bit-band interval: unfinished, past its first edge, `k` message slots committed, jitter filter
not full, and not in the state of value 0, which the handler takes for "message saved". -/
def PairReady (k : Nat) (s : ir_learn_t) : Prop :=
  s.finished = false ∧ 0 < s.pre_time ∧ s.msg.type = IR_LEARN_TYPE_MSG ∧ s.msg.msg_len = k
    ∧ s.carrier.filter_cnt < 10 ∧ s.state ≠ IR_LEARN_IDLE
    ∧ s.msg.msg.length = 250

/-- A carrier-band interval followed by a bit-band interval, each with the line level at its
edge. -/
def PairBands (p : (Int × Int) × (Int × Int)) : Prop :=
  6 ≤ p.1.1 ∧ p.1.1 ≤ 50 ∧ 50 < p.2.1 ∧ p.2.1 ≤ 20000

/-- The intervals of a list of (carrier-band, bit-band) pairs, in order. -/
def pair_intervals (ps : List ((Int × Int) × (Int × Int))) : List (Int × Int) :=
  ps.flatMap fun p => [p.1, p.2]

/-- A session that has stored nothing yet: unfinished, past its first edge, in message mode
with no message slot committed and an empty jitter filter. -/
def IdleReady (s : ir_learn_t) : Prop :=
  s.finished = false ∧ 0 < s.pre_time ∧ s.msg.type = IR_LEARN_TYPE_MSG ∧ s.msg.msg_len = 0
    ∧ s.carrier.filter_cnt = 0

/-- The loop variables of `ir_rc6_decode` at the head of a pass: the result struct, `bits`,
`offset`, `used` and `data`. -/
structure rc6_loop_state where
  result : ir_learn_result_t
  bits : Nat
  offset : Nat
  used : Nat
  data : Nat
  deriving DecidableEq

/-- One pass of the loop body of `ir_rc6_decode`, entered with `offset < message_len`: `none`
for `return false`, else the loop variables at the head of the next pass. -/
def rc6_pass (st : rc6_loop_state) : Option rc6_loop_state :=
  let a := ir_decode_get_level st.result st.offset st.used RC6_BIT_US RC6_BIT_MARGIN
  let levelA := a.1
  let a2 := if st.bits = 3 then
              ir_decode_get_level st.result a.2.1 a.2.2 RC6_BIT_US RC6_BIT_MARGIN
            else a
  if st.bits = 3 ∧ levelA ≠ a2.1 then none
  else
    let b := ir_decode_get_level st.result a2.2.1 a2.2.2 RC6_BIT_US RC6_BIT_MARGIN
    let levelB := b.1
    let b2 := if st.bits = 3 then
                ir_decode_get_level st.result b.2.1 b.2.2 RC6_BIT_US RC6_BIT_MARGIN
              else b
    if st.bits = 3 ∧ levelB ≠ b2.1 then none
    else if levelA = RC_MARK ∧ levelB = RC_SPACE then
      let data := (st.data ||| shl1 st.bits) % 4294967296
      let result :=
        if st.bits ≥ 4 ∧ st.bits < RC6_ADDR_BIT_LEN + 4 then
          { st.result with
            addr := (st.result.addr
              ||| shl1 (((RC6_ADDR_BIT_LEN : Int) - 1) - ((st.bits : Int) - 4))) % 65536 }
        else if st.bits ≥ RC6_ADDR_BIT_LEN + 4 ∧ st.bits ≤ RC6_BIT_LEN + 4 then
          { st.result with
            cmd := (st.result.cmd
              ||| shl1 (((RC6_BIT_LEN : Int) - 1) - ((st.bits : Int) - 4))) % 65536 }
        else st.result
      some { result := result, bits := st.bits + 1, offset := b2.2.1, used := b2.2.2,
             data := data }
    else if levelA = RC_SPACE ∧ levelB = RC_MARK then
      some { result := st.result, bits := st.bits + 1, offset := b2.2.1, used := b2.2.2,
             data := st.data }
    else none

/-- The loop variables of `ir_rc6_decode` at the head of pass `k` (counted from the state
`st`), when the loop gets there: `none` when it has ended before. -/
def rc6_run : Nat → rc6_loop_state → Option rc6_loop_state
  | 0, st => some st
  | k + 1, st =>
    if st.offset < st.result.message_len then (rc6_pass st).bind (rc6_run k) else none

/-- The loop variables with which `ir_rc6_decode` enters its loop: `none` when the length
check, the header or the start bit makes it return false before. -/
def rc6_entry (result : ir_learn_result_t) : Option rc6_loop_state :=
  if result.message_len < RC6_BIT_LEN then none
  else if ir_decode_check_range (result.message.getD 0 0 : Nat) RC6_HDR_MARK RC6_BIT_MARGIN
      = false then none
  else if ir_decode_check_range (result.message.getD 1 0 : Nat) RC6_HDR_SPACE RC6_BIT_MARGIN
      = false then none
  else
    let s1 := ir_decode_get_level result 2 0 RC6_BIT_US RC6_BIT_MARGIN
    if s1.1 ≠ RC_MARK then none
    else
      let s2 := ir_decode_get_level result s1.2.1 s1.2.2 RC6_BIT_US RC6_BIT_MARGIN
      if s2.1 ≠ RC_SPACE then none
      else some { result := result, bits := 0, offset := s2.2.1, used := s2.2.2, data := 0 }

/-- The condition of the two toggle checks of `ir_rc6_decode` at the loop state `st`: the
level read first differs from the next level read, or the level read third differs from
the one read after it. -/
def rc6_toggle_mismatch (st : rc6_loop_state) : Prop :=
  (ir_decode_get_level st.result st.offset st.used RC6_BIT_US RC6_BIT_MARGIN).1
    ≠ (ir_decode_get_level st.result
        (ir_decode_get_level st.result st.offset st.used RC6_BIT_US RC6_BIT_MARGIN).2.1
        (ir_decode_get_level st.result st.offset st.used RC6_BIT_US RC6_BIT_MARGIN).2.2
        RC6_BIT_US RC6_BIT_MARGIN).1
  ∨ (ir_decode_get_level st.result
        (ir_decode_get_level st.result
          (ir_decode_get_level st.result st.offset st.used RC6_BIT_US RC6_BIT_MARGIN).2.1
          (ir_decode_get_level st.result st.offset st.used RC6_BIT_US RC6_BIT_MARGIN).2.2
          RC6_BIT_US RC6_BIT_MARGIN).2.1
        (ir_decode_get_level st.result
          (ir_decode_get_level st.result st.offset st.used RC6_BIT_US RC6_BIT_MARGIN).2.1
          (ir_decode_get_level st.result st.offset st.used RC6_BIT_US RC6_BIT_MARGIN).2.2
          RC6_BIT_US RC6_BIT_MARGIN).2.2
        RC6_BIT_US RC6_BIT_MARGIN).1
    ≠ (ir_decode_get_level st.result
        (ir_decode_get_level st.result
          (ir_decode_get_level st.result
            (ir_decode_get_level st.result st.offset st.used RC6_BIT_US RC6_BIT_MARGIN).2.1
            (ir_decode_get_level st.result st.offset st.used RC6_BIT_US RC6_BIT_MARGIN).2.2
            RC6_BIT_US RC6_BIT_MARGIN).2.1
          (ir_decode_get_level st.result
            (ir_decode_get_level st.result st.offset st.used RC6_BIT_US RC6_BIT_MARGIN).2.1
            (ir_decode_get_level st.result st.offset st.used RC6_BIT_US RC6_BIT_MARGIN).2.2
            RC6_BIT_US RC6_BIT_MARGIN).2.2
          RC6_BIT_US RC6_BIT_MARGIN).2.1
        (ir_decode_get_level st.result
          (ir_decode_get_level st.result
            (ir_decode_get_level st.result st.offset st.used RC6_BIT_US RC6_BIT_MARGIN).2.1
            (ir_decode_get_level st.result st.offset st.used RC6_BIT_US RC6_BIT_MARGIN).2.2
            RC6_BIT_US RC6_BIT_MARGIN).2.1
          (ir_decode_get_level st.result
            (ir_decode_get_level st.result st.offset st.used RC6_BIT_US RC6_BIT_MARGIN).2.1
            (ir_decode_get_level st.result st.offset st.used RC6_BIT_US RC6_BIT_MARGIN).2.2
            RC6_BIT_US RC6_BIT_MARGIN).2.2
          RC6_BIT_US RC6_BIT_MARGIN).2.2
        RC6_BIT_US RC6_BIT_MARGIN).1

/-- How one call of the edge handler may change `state` and `finished`: not at all, or, on
an unfinished session, by finishing (with `IR_LEARN_FINISH` or `IR_LEARN_OVERFLOW`), by
moving to `IR_LEARN_CARRIER` from a state other than the one of value 0, or by moving to the
state of value 0, `IR_LEARN_IDLE`, from a state other than `IR_LEARN_CARRIER`. -/
def StateStep (a b : ir_learn_t) : Prop :=
  (b.state = a.state ∧ b.finished = a.finished)
  ∨ (a.finished = false
      ∧ ((b.finished = true ∧ (b.state = IR_LEARN_FINISH ∨ b.state = IR_LEARN_OVERFLOW))
        ∨ (b.finished = false ∧ b.state = IR_LEARN_CARRIER ∧ a.state ≠ IR_LEARN_IDLE)
        ∨ (b.finished = false ∧ b.state = IR_LEARN_IDLE ∧ a.state ≠ IR_LEARN_CARRIER)))

/-- The sessions on which an unfinished capture is in `IR_LEARN_READY`, in
`IR_LEARN_CARRIER` or in the state of value 0, `IR_LEARN_IDLE`. -/
def CaptureInv (s : ir_learn_t) : Prop :=
  s.finished = false →
    s.state = IR_LEARN_READY ∨ s.state = IR_LEARN_CARRIER ∨ s.state = IR_LEARN_IDLE

/-- The sessions that the API leads to: a successful `ir_learn_start` (on any session, so
also a restart), then calls of the edge handler, of `ir_learn_get_result` and of
`ir_learn_stop`. -/
inductive ApiReachable : ir_learn_t → Prop
  | start (x : ir_learn_t) : (ir_learn_start x).1 = ESP_OK → ApiReachable (ir_learn_start x).2
  | edge (s : ir_learn_t) (cur_time gpio_level : Int) :
      ApiReachable s → ApiReachable (ir_learn_isr_handle s cur_time gpio_level).s
  | get_result (s : ir_learn_t) (result : ir_learn_result_t) (enable_debug : Bool) :
      ApiReachable s → ApiReachable (ir_learn_get_result s result enable_debug).2.1
  | stop (s : ir_learn_t) : ApiReachable s → ApiReachable (ir_learn_stop s).2

/-- The session that a successful `ir_learn_get_result` leaves: the repeat data are discarded
when `repeat_len` is 9 or more, the carrier samples are sorted, the state is
`IR_LEARN_SUCCESS`. -/
def result_session (s : ir_learn_t) : ir_learn_t :=
  { s with
    state := IR_LEARN_SUCCESS,
    msg := { s.msg with
             repeat_len := if s.msg.repeat_len ≥ IR_LEARN_RPT_BUF_LEN - 1 then 0
                           else s.msg.repeat_len },
    carrier := { s.carrier with
                 high := array_sort s.carrier.high s.carrier.high_cnt,
                 low := array_sort s.carrier.low s.carrier.low_cnt } }

/-- The trimmed sum of the sorted high samples that `ir_learn_get_result` computes. -/
def trimmed_high_sum (s : ir_learn_t) : Nat :=
  carrier_sum (array_sort s.carrier.high s.carrier.high_cnt)
    (min s.carrier.high_cnt s.carrier.low_cnt)

/-- The trimmed sum of the sorted low samples that `ir_learn_get_result` computes. -/
def trimmed_low_sum (s : ir_learn_t) : Nat :=
  carrier_sum (array_sort s.carrier.low s.carrier.low_cnt)
    (min s.carrier.high_cnt s.carrier.low_cnt)

/-- The failure condition of the two check loops in words: some message duration
`msg[i]`, `i < msg_len`, lies outside [200, 20000], or `repeat_len < 9` and some repeat
duration `repeat[i]`, `i < repeat_len`, lies outside [200, 120000]. -/
def DurationOutOfRange (s : ir_learn_t) : Prop :=
  (∃ i, i < s.msg.msg_len ∧ (s.msg.msg.getD i 0 < 200 ∨ 20000 < s.msg.msg.getD i 0))
  ∨ (s.msg.repeat_len < 9
      ∧ ∃ i, i < s.msg.repeat_len
          ∧ (s.msg.repeat_buf.getD i 0 < 200 ∨ 120000 < s.msg.repeat_buf.getD i 0))

/-- The carrier sample counters and buffers of a session. -/
def carrier_samples (s : ir_learn_t) : Nat × Nat × List Nat × List Nat :=
  (s.carrier.high_cnt, s.carrier.low_cnt, s.carrier.high, s.carrier.low)

/-- The sessions whose carrier sample buffers have 100 elements, hold at most 100 samples
each, and hold only samples of the carrier band, 6 to 50 microseconds. -/
def CarrierInv (s : ir_learn_t) : Prop :=
  s.carrier.high.length = 100 ∧ s.carrier.low.length = 100
  ∧ s.carrier.high_cnt ≤ 100 ∧ s.carrier.low_cnt ≤ 100
  ∧ (∀ k, k < s.carrier.high_cnt → 6 ≤ s.carrier.high.getD k 0 ∧ s.carrier.high.getD k 0 ≤ 50)
  ∧ (∀ k, k < s.carrier.low_cnt → 6 ≤ s.carrier.low.getD k 0 ∧ s.carrier.low.getD k 0 ≤ 50)

/-- The duration `w` is within `bit_margin` of `k * bit_us`, in integer arithmetic. -/
def within_multiple (bit_us bit_margin w : Int) (k : Nat) : Prop :=
  (k : Int) * bit_us - bit_margin < w ∧ w < (k : Int) * bit_us + bit_margin

/-- The number of completion signals that the edge handler gives over the edges `es` (time
stamp and level of each), starting from the session `s`. -/
def signal_count (s : ir_learn_t) : List (Int × Int) → Nat
  | [] => 0
  | e :: es =>
    (if (ir_learn_isr_handle s e.1 e.2).gave = true then 1 else 0)
      + signal_count (ir_learn_isr_handle s e.1 e.2).s es

/-- What a decoder call shows of the decoded protocol: the verdict and, on success, `proto`,
`bits` and `value`. -/
def decoded_head (out : Bool × ir_learn_result_t) : Bool × Option (ir_proto_t × Int × Nat) :=
  (out.1, if out.1 then some (out.2.proto, out.2.bits, out.2.value) else none)

/-- The fields `addr` and `cmd` of a decoder output. -/
def decoded_fields (out : Bool × ir_learn_result_t) : Nat × Nat := (out.2.addr, out.2.cmd)

/-- The sessions whose message and repeat buffers have 250 and 10 elements, whose message
length is below 250 while a repeat frame is being captured, and whose repeat frame is empty
and whose mode is Message while no message slot is committed. -/
def ModeInv (s : ir_learn_t) : Prop :=
  s.msg.msg.length = 250 ∧ s.msg.repeat_buf.length = 10
  ∧ (s.finished = false → s.msg.type = IR_LEARN_RPT → s.msg.msg_len < 250)
  ∧ (s.msg.msg_len = 0 → s.msg.type = IR_LEARN_TYPE_MSG ∧ s.msg.repeat_len = 0)

/-- The sum `filter[0] + ... + filter[9]` of the ten samples of the jitter filter. -/
def filter_sum (filter : List Nat) : Nat :=
  ((List.range IR_FILTER_BUF_LEN).map fun i => filter.getD i 0).sum

/-- What a finishing call leaves: `IR_LEARN_FINISH` with `msg_len` counted up by one, or
`IR_LEARN_OVERFLOW` with `msg_len` as it was. -/
def FinalStep (a b : ir_learn_t) : Prop :=
  (b.state = IR_LEARN_FINISH ∧ b.msg.msg_len = a.msg.msg_len + 1)
  ∨ (b.state = IR_LEARN_OVERFLOW ∧ b.msg.msg_len = a.msg.msg_len)

/-- What the loops of `array_sort` with bound `n` keep: the length, the elements as a
multiset, and the elements from index `n` on. -/
def SortKeeps (n : Nat) (a b : List Nat) : Prop :=
  b.length = a.length ∧ b.Perm a ∧ b.drop n = a.drop n

/-- The elements at indices below `i` are in order and not above any later element in the
first `n`. -/
def SortedBelow (n i : Nat) (a : List Nat) : Prop :=
  ∀ p q, p < i → p < q → q < n → a.getD p 0 ≤ a.getD q 0

/-- The state of the inner loop of `array_sort` before the pass with index `j`. -/
def InnerInv (n i j : Nat) (a : List Nat) : Prop :=
  SortedBelow n i a ∧ ∀ k, i < k → k < j → a.getD i 0 ≤ a.getD k 0

/-- An item of a frame layout: a mark of `mark_us` followed by a space of `space_us`
microseconds, the durations stored as ticks `(us / 10) * 8`. -/
def layout_item (mark_us space_us : Nat) : rmt_item32_t :=
  { level0 := 1, duration0 := mark_us / 10 * 8, level1 := 0, duration1 := space_us / 10 * 8 }

/-- The eight bits of a byte, least significant first. -/
def byte_bits_lsb (x : Nat) : List Bool :=
  (List.range 8).map fun i => decide (x / 2 ^ i % 2 = 1)

/-- The NEC frame layout in words: a 9000/4500 us header item, 32 data items with a 560 us
mark and a space of 1690 us for a one and 560 us for a zero, carrying the address, its 8-bit
complement, the command and its 8-bit complement, each least significant bit first, and a
trailing item with a 560 us mark. -/
def nec_layout (a c : Nat) : List rmt_item32_t :=
  [layout_item 9000 4500]
    ++ (byte_bits_lsb a ++ byte_bits_lsb (255 - a) ++ byte_bits_lsb c
          ++ byte_bits_lsb (255 - c)).map (fun b => layout_item 560 (if b then 1690 else 560))
    ++ [layout_item 560 0x7fff]

/-- The duration `w` is within `margin` of `target`: `target - margin < w < target + margin`. -/
def within_margin (w target margin : Int) : Prop :=
  target - margin < w ∧ w < target + margin

/-- The bits that the data loop of `ir_nec_decode` reads in `n` passes from `offset`: a
pass reads a one when the space at `offset + 1` is within the margin of `NEC_ONE_LOW_US`. -/
def nec_space_bits (r : ir_learn_result_t) : Nat → Nat → List Bool
  | 0, _ => []
  | n + 1, offset =>
    ir_decode_check_range (r.message.getD (offset + 1) 0 : Nat) NEC_ONE_LOW_US NEC_BIT_MARGIN
      :: nec_space_bits r n (offset + 2)

/-- The header and the 32 mark/space pairs of a message match the NEC timing. -/
def NecMatches (r : ir_learn_result_t) : Prop :=
  within_margin (r.message.getD 0 0 : Nat) 9000 100
  ∧ within_margin (r.message.getD 1 0 : Nat) 4500 100
  ∧ ∀ i, i < 32 →
      within_margin (r.message.getD (2 + 2 * i) 0 : Nat) 560 100
      ∧ (within_margin (r.message.getD (3 + 2 * i) 0 : Nat) 1690 100
        ∨ within_margin (r.message.getD (3 + 2 * i) 0 : Nat) 560 100)

/-- The indices at which the data loop of `ir_nec_decode` reads `result->message`, in order,
with `n` passes left: the mark, then the space unless the mark fails (the two checks of the
space read the same element). -/
def nec_loop_reads (result : ir_learn_result_t) : Nat → Nat → List Nat
  | 0, _ => []
  | n + 1, offset =>
    offset ::
      (if ir_decode_check_range (result.message.getD offset 0 : Nat) NEC_BIT_HIGH_US
            NEC_BIT_MARGIN = false then []
       else
        (offset + 1) ::
          (if ir_decode_check_range (result.message.getD (offset + 1) 0 : Nat) NEC_ONE_LOW_US
                NEC_BIT_MARGIN = true
              ∨ ir_decode_check_range (result.message.getD (offset + 1) 0 : Nat)
                NEC_ZERO_LOW_US NEC_BIT_MARGIN = true
           then nec_loop_reads result n (offset + 2) else []))

/-- The indices at which `ir_nec_decode` reads `result->message`, in order: index 0 before
the length is looked at, index 1 after the length check, then the data loop. -/
def ir_nec_decode_reads (result : ir_learn_result_t) : List Nat :=
  0 ::
    (if ir_decode_check_range (result.message.getD 0 0 : Nat) NEC_HDR_HIGH_US NEC_BIT_MARGIN
          = false then []
     else if result.message_len < 2 * NEC_DATA_BITS then []
     else
      1 ::
        (if ir_decode_check_range (result.message.getD 1 0 : Nat) NEC_HDR_LOW_US
              NEC_BIT_MARGIN = false then []
         else nec_loop_reads result NEC_DATA_BITS 2))

/-- The index at which one call of `ir_decode_get_level` reads `result->message`: none past
the end, else `*offset`. -/
def get_level_reads (result : ir_learn_result_t) (offset : Nat) : List Nat :=
  if offset ≥ result.message_len then [] else [offset]

/-- The indices at which the data loop of `ir_rc5_decode` reads `result->message`, all of
them through `ir_decode_get_level`; the loop changes `addr` and `cmd` only, which no read
depends on. -/
def rc5_loop_reads : Nat → ir_learn_result_t → Nat → Nat → List Nat
  | 0, _, _, _ => []
  | fuel + 1, result, offset, used =>
    if offset < result.message_len then
      let a := ir_decode_get_level result offset used RC5_BIT_US RC5_BIT_MARGIN
      let b := ir_decode_get_level result a.2.1 a.2.2 RC5_BIT_US RC5_BIT_MARGIN
      get_level_reads result offset ++ get_level_reads result a.2.1 ++
        (if (a.1 = RC_SPACE ∧ b.1 = RC_MARK) ∨ (a.1 = RC_MARK ∧ b.1 = RC_SPACE) then
          rc5_loop_reads fuel result b.2.1 b.2.2
         else [])
    else []

/-- The indices at which `ir_rc5_decode` reads `result->message`, in order. -/
def ir_rc5_decode_reads (result : ir_learn_result_t) : List Nat :=
  if result.message_len < (RC5_BIT_LEN + 1) / 2 + 2 then []
  else
    let s1 := ir_decode_get_level result 0 0 RC5_BIT_US RC5_BIT_MARGIN
    get_level_reads result 0 ++
      (if s1.1 ≠ RC_MARK then []
       else
        let s2 := ir_decode_get_level result s1.2.1 s1.2.2 RC5_BIT_US RC5_BIT_MARGIN
        get_level_reads result s1.2.1 ++
          (if s2.1 ≠ RC_SPACE then []
           else
            let s3 := ir_decode_get_level result s2.2.1 s2.2.2 RC5_BIT_US RC5_BIT_MARGIN
            get_level_reads result s2.2.1 ++
              (if s3.1 ≠ RC_MARK then []
               else rc5_loop_reads (3 * result.message_len + 1) result s3.2.1 s3.2.2)))

/-- The indices at which the data loop of `ir_rc6_decode` reads `result->message`, all of
them through `ir_decode_get_level`; the pass with `bits == 3` makes two more calls. -/
def rc6_loop_reads : Nat → ir_learn_result_t → Nat → Nat → Nat → List Nat
  | 0, _, _, _, _ => []
  | fuel + 1, result, bits, offset, used =>
    if offset < result.message_len then
      let a := ir_decode_get_level result offset used RC6_BIT_US RC6_BIT_MARGIN
      let a2 := if bits = 3 then ir_decode_get_level result a.2.1 a.2.2 RC6_BIT_US RC6_BIT_MARGIN
                else a
      get_level_reads result offset ++ (if bits = 3 then get_level_reads result a.2.1 else []) ++
        (if bits = 3 ∧ a.1 ≠ a2.1 then []
         else
          let b := ir_decode_get_level result a2.2.1 a2.2.2 RC6_BIT_US RC6_BIT_MARGIN
          let b2 := if bits = 3 then
                      ir_decode_get_level result b.2.1 b.2.2 RC6_BIT_US RC6_BIT_MARGIN
                    else b
          get_level_reads result a2.2.1
            ++ (if bits = 3 then get_level_reads result b.2.1 else []) ++
            (if bits = 3 ∧ b.1 ≠ b2.1 then []
             else if (a.1 = RC_MARK ∧ b.1 = RC_SPACE) ∨ (a.1 = RC_SPACE ∧ b.1 = RC_MARK) then
              rc6_loop_reads fuel result (bits + 1) b2.2.1 b2.2.2
             else []))
    else []

/-- The indices at which `ir_rc6_decode` reads `result->message`, in order: 0 and 1 for the
header after the length check, then through `ir_decode_get_level`. -/
def ir_rc6_decode_reads (result : ir_learn_result_t) : List Nat :=
  if result.message_len < RC6_BIT_LEN then []
  else
    0 ::
      (if ir_decode_check_range (result.message.getD 0 0 : Nat) RC6_HDR_MARK RC6_BIT_MARGIN
            = false then []
       else
        1 ::
          (if ir_decode_check_range (result.message.getD 1 0 : Nat) RC6_HDR_SPACE
                RC6_BIT_MARGIN = false then []
           else
            let s1 := ir_decode_get_level result 2 0 RC6_BIT_US RC6_BIT_MARGIN
            get_level_reads result 2 ++
              (if s1.1 ≠ RC_MARK then []
               else
                let s2 := ir_decode_get_level result s1.2.1 s1.2.2 RC6_BIT_US RC6_BIT_MARGIN
                get_level_reads result s1.2.1 ++
                  (if s2.1 ≠ RC_SPACE then []
                   else rc6_loop_reads (3 * result.message_len + 1) result 0 s2.2.1 s2.2.2))))

/-! ## Concrete inputs -/

/-- A result struct as `calloc` returns it, with an empty message buffer. -/
def result_zero : ir_learn_result_t :=
  { proto := NOT_SUPPORT, freq := 0, duty := 0, bits := 0, value := 0, addr := 0, cmd := 0,
    repeat_len := 0, repeat_buf := List.replicate 10 0, message_len := 0, message := [] }

/-- A zeroed result holding the single duration 9000. -/
def one_duration_result : ir_learn_result_t := result_of_message result_zero [9000]

/-- The session after `ir_learn_create` and `ir_learn_start`. -/
def fresh_session : ir_learn_t := (ir_learn_start (ir_learn_create 17)).2

/-- The fresh session after the handler has seen its first edge, at time 1000. -/
def first_edge_session : ir_learn_t := (ir_learn_isr_handle fresh_session 1000 1).s

/-- The fresh session after its first edge and `ir_learn_stop`, which latches `finished`. -/
def stopped_session : ir_learn_t := { first_edge_session with finished := true }

/-- An unfinished session past its first edge with 250 committed message slots. -/
def full_session : ir_learn_t :=
  { first_edge_session with msg := { first_edge_session.msg with msg_len := 250 } }

/-- A list of 249 pairs of a 10 us (carrier band) and a 500 us (bit band) interval, then one more
carrier-band interval. -/
def msg_overflow_intervals : List (Int × Int) :=
  pair_intervals (List.replicate 249 ((10, 1), (500, 1))) ++ [(10, 1)]

/-- One (carrier, bit) pair, a 30 ms repeat gap, eight more pairs and one more carrier-band
interval. -/
def repeat_overflow_intervals : List (Int × Int) :=
  [(10, 1), (500, 1), (30000, 1)]
    ++ pair_intervals (List.replicate 8 ((10, 1), (500, 1))) ++ [(10, 1)]

/-- A burst of `n` carrier-band intervals of 50 us, the line level alternating from 1. -/
def carrier_burst : Nat → List (Int × Int)
  | 0 => []
  | n + 1 => carrier_burst n ++ [(50, if n % 2 = 0 then 1 else 0)]

/-- A short capture: a mark of 11 carrier intervals, a 500 us space, a second mark of 11
carrier intervals, a 30 ms repeat gap, a repeat mark of 5 carrier intervals and a second
30 ms gap, which finishes the capture. -/
def short_carrier_intervals : List (Int × Int) :=
  carrier_burst 11 ++ [(500, 0)] ++ carrier_burst 11 ++ [(30000, 0)] ++ carrier_burst 5
    ++ [(30000, 0)]

/-- The session after the short capture: `IR_LEARN_FINISH` with three message and three
repeat durations, 15 high and 12 low carrier samples. -/
def short_carrier_session : ir_learn_t :=
  feed_intervals first_edge_session short_carrier_intervals

/-- A capture whose marks are single carrier intervals, so that the jitter filter never
fills and the first message duration stays 0: mark, 500 us space, mark, 600 us space and two
30 ms gaps. -/
def bad_duration_session : ir_learn_t :=
  feed_intervals first_edge_session
    [(10, 1), (500, 0), (10, 1), (600, 0), (30000, 1), (30000, 1)]

/-- The short capture with the repeat length set to 9. -/
def long_repeat_session : ir_learn_t :=
  { short_carrier_session with msg := { short_carrier_session.msg with repeat_len := 9 } }

/-- A zeroed result struct with a message buffer of 250 elements, `message_len` giving that
capacity. -/
def result_buffer : ir_learn_result_t :=
  { result_zero with message_len := 250, message := List.replicate 250 0 }

/-- The received NEC frame of address 0x33 and command 0x9B in a result whose
`message_len` is 64, below the 66 durations that the decoder reads. -/
def nec_short_len_result : ir_learn_result_t :=
  { result_of_message result_zero (frame_durations_us (ir_nec_send_items 0x33 0x9b)) with
    message_len := 64 }

/-- The received RC6 frame of mode 0, toggle set, address 0x34 and command 0x29 with the
mark at index 8 shortened from three half-bit units to two, so that the first half of the
double-width toggle bit is one unit of mark followed by space. -/
def rc6_bad_toggle_result : ir_learn_result_t :=
  result_of_message result_zero
    ((received_durations_us (ir_rc6_send_items 0 true 0x34 0x29)).set 8 880)

/-- The loop variables with which `ir_rc6_decode` enters its loop on the frame with the
shortened toggle mark. -/
def rc6_bad_toggle_entry : rc6_loop_state :=
  { result := rc6_bad_toggle_result, bits := 0, offset := 3, used := 1, data := 0 }

/-- The loop variables at the head of the toggle pass on the frame with the shortened toggle
mark, after the three mode bits. -/
def rc6_bad_toggle_state : rc6_loop_state :=
  { result := rc6_bad_toggle_result, bits := 3, offset := 8, used := 1, data := 0 }

/-- The received RC5 frame of the example (toggle set, address 0x14, command 0x25) in a zeroed
result struct. -/
def rc5_example_result : ir_learn_result_t :=
  result_of_message result_zero (received_durations_us (ir_rc5_send_items true 0x14 0x25))

/-- The same received RC5 frame in a result struct whose `addr` and `cmd` hold 0x0A and 0x10,
as an earlier decode may have left them. -/
def rc5_stale_result : ir_learn_result_t :=
  { rc5_example_result with addr := 0x0a, cmd := 0x10 }

/-- The received RC5 frame of the example with the duration at index 14 distorted to 100 us,
which fits no multiple of the RC5 half-bit, in a zeroed result struct. -/
def rc5_distorted_result : ir_learn_result_t :=
  result_of_message result_zero
    ((received_durations_us (ir_rc5_send_items true 0x14 0x25)).set 14 100)

/-- A capture with one committed mark: a mark of 11 carrier intervals and a 500 us space.
The mark of 550 us is in slot 0, the space in slot 1, and `msg_len` is 1. -/
def one_mark_session : ir_learn_t :=
  feed_intervals first_edge_session (carrier_burst 11 ++ [(500, 0)])

/-- The capture with one committed mark after three more carrier intervals, which the jitter
filter holds: `filter_cnt` is 3. -/
def residual_session : ir_learn_t :=
  feed_intervals one_mark_session (carrier_burst 3)

/-- The capture with one committed mark after ten more carrier intervals: the jitter filter
is full, `filter_cnt` is 10. -/
def full_filter_session : ir_learn_t :=
  feed_intervals one_mark_session (carrier_burst 10)

/-- The capture with one committed mark after a gap of 200 ms, 94 more carrier intervals at
line level 1, which fill the high sample buffer, and a 500 us space, which empties the
jitter filter. -/
def full_carrier_session : ir_learn_t :=
  feed_intervals one_mark_session ([(200000, 0)] ++ List.replicate 94 (50, 1) ++ [(500, 0)])

/-- The capture with one committed mark after a repeat gap of 30 ms: repeat mode with one
repeat duration. -/
def repeat_mode_session : ir_learn_t :=
  feed_intervals one_mark_session [(30000, 0)]

/-- The capture in repeat mode after eight marks of one carrier interval, each followed by a
500 us space: repeat mode with nine repeat durations. -/
def long_repeat_mode_session : ir_learn_t :=
  feed_intervals repeat_mode_session (List.replicate 8 [(50, 1), (500, 0)]).flatten

/-- The reader state `(offset, used)` after `n` successive calls of `ir_decode_get_level`
from the state `st`, with the values that the calls returned, first call first. -/
def get_level_calls (result : ir_learn_result_t) (bit_us bit_margin : Int) :
    Nat → Nat × Nat → List Int × (Nat × Nat)
  | 0, st => ([], st)
  | n + 1, st =>
    ((ir_decode_get_level result st.1 st.2 bit_us bit_margin).1
        :: (get_level_calls result bit_us bit_margin n
              (ir_decode_get_level result st.1 st.2 bit_us bit_margin).2).1,
      (get_level_calls result bit_us bit_margin n
          (ir_decode_get_level result st.1 st.2 bit_us bit_margin).2).2)

/-- A capture whose high sample buffer is full and whose low sample buffer has room: 199
carrier intervals of 50 us after the first edge, the line level alternating from 1. -/
def alternating_full_session : ir_learn_t :=
  feed_intervals first_edge_session
    ((List.replicate 99 [((50 : Int), (1 : Int)), (50, 0)]).flatten ++ [(50, 1)])

/-- A short capture with repeat gaps of 70 ms: a mark of 11 carrier intervals, a 500 us
space, a second mark of 11 carrier intervals, a 70 ms gap, a repeat mark of 5 carrier
intervals and a second 70 ms gap, which finishes the capture. -/
def wide_repeat_session : ir_learn_t :=
  feed_intervals first_edge_session
    (carrier_burst 11 ++ [(500, 0)] ++ carrier_burst 11 ++ [(70000, 0)] ++ carrier_burst 5
      ++ [(70000, 0)])

/-- A zeroed result struct with one repeat duration and no message: `message_len` is 0 and
`repeat_len` is 1, which `ir_learn_decode` lets pass. -/
def repeat_only_result : ir_learn_result_t :=
  { result_zero with repeat_len := 1 }

/-- The NEC frame of address 0x33 and command 0x9B in a zeroed result struct: 68 durations,
the header, 32 mark/space pairs and the trailing item. -/
def nec_example_result : ir_learn_result_t :=
  result_of_message result_zero (frame_durations_us (ir_nec_send_items 0x33 0x9b))

/-! ## Lemmas -/

theorem getD_at_length (pre : List Nat) (a : Nat) (rest : List Nat) (d : Nat) :
    (pre ++ a :: rest).getD pre.length d = a := by
  induction pre with
  | nil => simp
  | cons x xs ih => simpa using ih

theorem frame_durations_us_cons (x : rmt_item32_t) (xs : List rmt_item32_t) :
    frame_durations_us (x :: xs) = frame_durations_us [x] ++ frame_durations_us xs := by
  simp [frame_durations_us, frame_halves]

theorem frame_durations_us_append (xs ys : List rmt_item32_t) :
    frame_durations_us (xs ++ ys) = frame_durations_us xs ++ frame_durations_us ys := by
  simp [frame_durations_us, frame_halves]

theorem nec_item_durations (c : Prop) [Decidable c] :
    frame_durations_us [if c then ir_encode_set_level 1 NEC_BIT_HIGH_US NEC_ONE_LOW_US
      else ir_encode_set_level 1 NEC_BIT_HIGH_US NEC_ZERO_LOW_US] = nec_bit_us (decide c) := by
  by_cases h : c
  · rw [if_pos h, decide_eq_true h]; rfl
  · rw [if_neg h, decide_eq_false h]; rfl

theorem frame_durations_nec_bits (n v : Nat) :
    frame_durations_us (nec_build_bits n v) = (lsb_bits n v).flatMap nec_bit_us := by
  induction n generalizing v with
  | zero => rfl
  | succ n ih =>
    rw [nec_build_bits, frame_durations_us_cons, nec_item_durations, ih, lsb_bits,
      List.flatMap_cons]

theorem nec_decode_loop_bits (r : ir_learn_result_t) (bs : List Bool) :
    ∀ (pre post : List Nat) (i d : Nat), r.message = pre ++ bs.flatMap nec_bit_us ++ post →
      nec_decode_loop r bs.length i pre.length d = some (nec_acc bs i d) := by
  induction bs with
  | nil => intro pre post i d _; rfl
  | cons b bs ih =>
    intro pre post i d h
    have h0 : r.message.getD pre.length 0 = 560 := by
      rw [h, show pre ++ (b :: bs).flatMap nec_bit_us ++ post
        = pre ++ 560 :: ((if b then 1690 else 560) :: (bs.flatMap nec_bit_us ++ post)) by
          simp [nec_bit_us]]
      exact getD_at_length _ _ _ _
    have h1 : r.message.getD (pre.length + 1) 0 = if b then 1690 else 560 := by
      have : r.message = (pre ++ [560]) ++ (if b then 1690 else 560) :: (bs.flatMap nec_bit_us ++ post) := by
        rw [h]; simp [nec_bit_us]
      rw [this]
      have := getD_at_length (pre ++ [560]) (if b then 1690 else 560) (bs.flatMap nec_bit_us ++ post) 0
      simpa using this
    have h2 : r.message = (pre ++ [560, if b then 1690 else 560]) ++ bs.flatMap nec_bit_us ++ post := by
      rw [h]; simp [nec_bit_us]
    have ih2 := ih (pre ++ [560, if b then 1690 else 560]) post (i + 1)
    simp only [List.length_append, List.length_cons, List.length_nil] at ih2
    simp only [List.length_cons, nec_decode_loop, h0, h1]
    cases b
    · simp only [Bool.false_eq_true, if_false, nec_acc]
      have e1 : ir_decode_check_range ((560 : Nat) : Int) NEC_BIT_HIGH_US NEC_BIT_MARGIN = true := by decide
      have e2 : ir_decode_check_range ((560 : Nat) : Int) NEC_ONE_LOW_US NEC_BIT_MARGIN = false := by decide
      have e3 : ir_decode_check_range ((560 : Nat) : Int) NEC_ZERO_LOW_US NEC_BIT_MARGIN = true := by decide
      simp only [e1, e2, e3, Bool.true_eq_false, if_false, if_true, Bool.false_eq_true]
      exact ih2 d h2
    · simp only [if_true, nec_acc]
      have e1 : ir_decode_check_range ((560 : Nat) : Int) NEC_BIT_HIGH_US NEC_BIT_MARGIN = true := by decide
      have e2 : ir_decode_check_range ((1690 : Nat) : Int) NEC_ONE_LOW_US NEC_BIT_MARGIN = true := by decide
      simp only [e1, e2, Bool.true_eq_false, if_false, if_true]
      exact ih2 _ h2

theorem or_mod_two_pow32 (d x : Nat) (h : d < 4294967296) :
    (d ||| x) % 4294967296 = d ||| (x % 4294967296) := by
  apply Nat.eq_of_testBit_eq
  intro j
  have e : (4294967296 : Nat) = 2 ^ 32 := by norm_num
  rw [e] at h ⊢
  simp only [Nat.testBit_mod_two_pow, Nat.testBit_or]
  by_cases hj : j < 32
  · simp [hj]
  · have : d.testBit j = false :=
      Nat.testBit_lt_two_pow (lt_of_lt_of_le h (Nat.pow_le_pow_right (by norm_num) (by omega)))
    simp [hj, this]

theorem or_and_right (x y z : Nat) : (x ||| y) &&& z = (x &&& z) ||| (y &&& z) := by
  rw [Nat.and_comm, Nat.and_or_distrib_left, Nat.and_comm z x, Nat.and_comm z y]

theorem or_shiftRight (x y n : Nat) : (x ||| y) >>> n = (x >>> n) ||| (y >>> n) := by
  apply Nat.eq_of_testBit_eq
  intro j
  simp only [Nat.testBit_shiftRight, Nat.testBit_or]

theorem nec_acc_append (xs ys : List Bool) (i d : Nat) :
    nec_acc (xs ++ ys) i d = nec_acc ys (i + xs.length) (nec_acc xs i d) := by
  induction xs generalizing i d with
  | nil => rfl
  | cons b xs ih =>
    show nec_acc (xs ++ ys) (i + 1) _ = nec_acc ys (i + (xs.length + 1)) (nec_acc xs (i + 1) _)
    rw [ih, show i + 1 + xs.length = i + (xs.length + 1) by omega]

theorem nec_acc_or (bs : List Bool) :
    ∀ (i d : Nat), d < 4294967296 → nec_acc bs i d = d ||| nec_acc bs i 0 := by
  induction bs with
  | nil => intro i d _; simp [nec_acc]
  | cons b bs ih =>
    intro i d hd
    cases b
    · simpa [nec_acc] using ih (i + 1) d hd
    · simp only [nec_acc, if_true]
      rw [ih (i + 1) _ (Nat.mod_lt _ (by norm_num)),
        ih (i + 1) ((0 ||| 1 <<< i) % 4294967296) (Nat.mod_lt _ (by norm_num)),
        or_mod_two_pow32 d _ hd, Nat.zero_or, Nat.or_assoc]

set_option maxRecDepth 100000 in
theorem nec_low_field : ∀ a, a < 256 →
    nec_acc (lsb_bits 16 (nec_send_arg a)) 0 0 < 4294967296 ∧
    nec_acc (lsb_bits 16 (nec_send_arg a)) 0 0 &&& 255 = a ∧
    nec_acc (lsb_bits 16 (nec_send_arg a)) 0 0 >>> 16 = 0 := by
  decide

set_option maxRecDepth 100000 in
theorem nec_high_field : ∀ c, c < 256 →
    nec_acc (lsb_bits 16 (nec_send_arg c)) 16 0 &&& 255 = 0 ∧
    (nec_acc (lsb_bits 16 (nec_send_arg c)) 16 0 >>> 16) &&& 255 = c := by
  decide

theorem lsb_bits_length (n v : Nat) : (lsb_bits n v).length = n := by
  induction n generalizing v with
  | zero => rfl
  | succ n ih => simp [lsb_bits, ih]

theorem nec_frame_durations (a c : Nat) :
    frame_durations_us (ir_nec_send_items a c)
      = [9000, 4500]
        ++ (lsb_bits 16 (nec_send_arg a) ++ lsb_bits 16 (nec_send_arg c)).flatMap nec_bit_us
        ++ [560, 32760] := by
  have h1 : frame_durations_us [ir_encode_set_level 1 NEC_HDR_HIGH_US NEC_HDR_LOW_US]
      = [9000, 4500] := by decide
  have h2 : frame_durations_us [ir_encode_set_level 1 NEC_BIT_HIGH_US 0x7fff]
      = [560, 32760] := by decide
  simp only [ir_nec_send_items, nec_build_items, frame_durations_us_append,
    frame_durations_nec_bits, List.flatMap_append, h1, h2, List.append_assoc]

theorem nec_bits_flatMap_length (bs : List Bool) :
    (bs.flatMap nec_bit_us).length = 2 * bs.length := by
  induction bs with
  | nil => rfl
  | cons b bs ih => simp [List.flatMap_cons, nec_bit_us, ih]; omega

theorem ir_nec_decode_of_frame (r : ir_learn_result_t) (bs : List Bool) (post : List Nat)
    (hmsg : r.message = [9000, 4500] ++ bs.flatMap nec_bit_us ++ post)
    (hbs : bs.length = 32) (hlen : 64 ≤ r.message_len) :
    ir_nec_decode r =
      (true, { r with
                proto := IR_PROTO_NEC, bits := 32, value := nec_acc bs 0 0,
                addr := (nec_acc bs 0 0 &&& 255) % 65536,
                cmd := ((nec_acc bs 0 0 >>> 16) &&& 255) % 65536 }) := by
  have h0 : r.message.getD 0 0 = 9000 := by rw [hmsg]; rfl
  have h1 : r.message.getD 1 0 = 4500 := by rw [hmsg]; rfl
  have hl := nec_decode_loop_bits r bs [9000, 4500] post 0 0 hmsg
  rw [hbs] at hl
  have e0 : ir_decode_check_range ((9000 : Nat) : Int) NEC_HDR_HIGH_US NEC_BIT_MARGIN = true := by
    decide
  have e1 : ir_decode_check_range ((4500 : Nat) : Int) NEC_HDR_LOW_US NEC_BIT_MARGIN = true := by
    decide
  have e2 : ¬ (r.message_len < 2 * NEC_DATA_BITS) := by
    simp only [NEC_DATA_BITS]; omega
  simp only [ir_nec_decode, h0, h1, e0, e1, e2, Bool.true_eq_false, if_false]
  have hl2 : nec_decode_loop r NEC_DATA_BITS 0 2 0 = some (nec_acc bs 0 0) := hl
  rw [hl2]
  rfl

/-! ## Reading a duration sequence as level units -/

theorem level_avail_le {bu bm w : Int} {n : Nat} (h : level_avail bu bm w = some n) :
    1 ≤ n ∧ n ≤ 3 := by
  unfold level_avail at h
  split at h
  · cases h; omega
  · split at h
    · cases h; omega
    · split at h
      · cases h; omega
      · cases h

theorem get_level_of_avail (r : ir_learn_result_t) (off used n : Nat) (bu bm : Int)
    (hlt : off < r.message_len)
    (ha : level_avail bu bm (r.message.getD off 0 : Nat) = some n) :
    ir_decode_get_level r off used bu bm =
      if used + 1 ≥ n then (parity_level off, off + 1, 0)
      else (parity_level off, off, used + 1) := by
  have hge : ¬ (off ≥ r.message_len) := by omega
  unfold level_avail at ha
  unfold ir_decode_get_level
  simp only [hge, if_false]
  split at ha
  · rename_i h1
    cases ha
    simp only [h1, if_true, parity_level]
  · rename_i h1
    split at ha
    · rename_i h2
      cases ha
      simp only [h1, h2, if_true, parity_level, Bool.false_eq_true, if_false]
    · rename_i h2
      split at ha
      · rename_i h3
        cases ha
        simp only [h1, h2, h3, if_true, parity_level, Bool.false_eq_true, if_false]
      · cases ha

theorem get_level_past_end (r : ir_learn_result_t) (off used : Nat) (bu bm : Int)
    (h : r.message_len ≤ off) :
    ir_decode_get_level r off used bu bm = (RC_SPACE, off, used) := by
  unfold ir_decode_get_level
  simp only [ge_iff_le, h, if_true]

theorem readPos_nil {msg : List Nat} {len : Nat} {bu bm : Int} {off used : Nat}
    (h : ReadPos msg len bu bm off used []) : len ≤ off := by
  cases h with
  | done _ h => exact h
  | run _ _ n U V _ ha hu _ hV =>
    exfalso
    have : (List.replicate (n - used) (parity_level off) ++ U).length = 0 := by rw [← hV]; rfl
    simp only [List.length_append, List.length_replicate] at this
    omega

theorem readPos_cons {msg : List Nat} {len : Nat} {bu bm : Int} {off used : Nat} {x : Int}
    {U : List Int} (r : ir_learn_result_t) (hm : r.message = msg) (hl : r.message_len = len)
    (h : ReadPos msg len bu bm off used (x :: U)) :
    off < len ∧ ∃ o u, ir_decode_get_level r off used bu bm = (x, o, u)
      ∧ ReadPos msg len bu bm o u U := by
  cases h with
  | run _ _ n U' V hlt ha hu hrest hV =>
    refine ⟨hlt, ?_⟩
    have hg := get_level_of_avail r off used n bu bm (by rw [hl]; exact hlt) (by rw [hm]; exact ha)
    obtain ⟨k, hk⟩ : ∃ k, n - used = k + 1 := ⟨n - used - 1, by omega⟩
    rw [hk, List.replicate_succ, List.cons_append] at hV
    injection hV with hx hU
    by_cases hlast : used + 1 ≥ n
    · have hk0 : k = 0 := by omega
      subst hk0
      rw [if_pos hlast] at hg
      refine ⟨off + 1, 0, ?_, ?_⟩
      · rw [hg, hx]
      · simpa [hU] using hrest
    · rw [if_neg hlast] at hg
      refine ⟨off, used + 1, ?_, ?_⟩
      · rw [hg, hx]
      · refine ReadPos.run off (used + 1) n U' U hlt ha (by omega) hrest ?_
        rw [hU, show n - (used + 1) = k by omega]

theorem readPos_length {msg : List Nat} {len : Nat} {bu bm : Int} {off used : Nat}
    {U : List Int} (h : ReadPos msg len bu bm off used U) : U.length ≤ 3 * (len - off) := by
  induction h with
  | done _ _ => simp
  | run off used n U V hlt ha hu _ hV ih =>
    have := level_avail_le ha
    rw [hV, List.length_append, List.length_replicate]
    omega

theorem strip_spaces_mid (A : List Int) (x : Int) (B : List Int) (hx : x ≠ 0) :
    strip_spaces (A ++ x :: B) = A ++ x :: strip_spaces B := by
  induction A with
  | nil => simp [strip_spaces, hx]
  | cons a A ih => simp [strip_spaces, ih]

/-- Reading one unit `x` (a mark or a space) in front of a stripped unit list. -/
theorem readPos_read {msg : List Nat} {len : Nat} {bu bm : Int} {off used : Nat} {x : Int}
    {R : List Int} (r : ir_learn_result_t) (hm : r.message = msg) (hl : r.message_len = len)
    (h : ReadPos msg len bu bm off used (strip_spaces (x :: R))) :
    ∃ o u, ir_decode_get_level r off used bu bm = (x, o, u)
      ∧ ReadPos msg len bu bm o u (strip_spaces R) := by
  by_cases hs : x = 0 ∧ strip_spaces R = []
  · have e : strip_spaces (x :: R) = [] := by simp [strip_spaces, hs]
    rw [e] at h
    refine ⟨off, used, ?_, ?_⟩
    · rw [get_level_past_end r off used bu bm (by rw [hl]; exact readPos_nil h), hs.1]; rfl
    · rw [hs.2]; exact h
  · have e : strip_spaces (x :: R) = x :: strip_spaces R := by simp only [strip_spaces, hs, if_false]
    rw [e] at h
    exact (readPos_cons r hm hl h).2

theorem readPos_lt_of_ne_nil {msg : List Nat} {len : Nat} {bu bm : Int} {off used : Nat}
    {U : List Int} (h : ReadPos msg len bu bm off used U) (hU : U ≠ []) : off < len := by
  cases h with
  | done _ _ => exact absurd rfl hU
  | run _ _ _ _ _ hlt _ _ _ _ => exact hlt

theorem merge_levels_from_ne_nil (cur : Nat × Nat) (H : List (Nat × Nat)) :
    merge_levels_from cur H ≠ [] := by
  induction H generalizing cur with
  | nil => simp [merge_levels_from]
  | cons x rest ih =>
    unfold merge_levels_from
    split
    · exact ih _
    · simp

theorem drop_trailing_space_cons (x : Nat × Nat) (Y : List (Nat × Nat)) (hY : Y ≠ []) :
    drop_trailing_space (x :: Y) = x :: drop_trailing_space Y := by
  cases Y with
  | nil => exact absurd rfl hY
  | cons y rest => rfl

theorem strip_spaces_replicate_zero (m : Nat) : strip_spaces (List.replicate m 0) = [] := by
  induction m with
  | zero => rfl
  | succ m ih => simp [List.replicate_succ, strip_spaces, ih]

theorem strip_spaces_replicate_one (m : Nat) (B : List Int) (hm : 1 ≤ m) :
    strip_spaces (List.replicate m 1 ++ B) = List.replicate m 1 ++ strip_spaces B := by
  obtain ⟨k, rfl⟩ : ∃ k, m = k + 1 := ⟨m - 1, by omega⟩
  rw [List.replicate_succ', List.append_assoc, List.singleton_append,
    strip_spaces_mid _ 1 B (by norm_num)]
  simp

theorem parity_level_succ (k : Nat) (c l : Nat) (hc : c ≤ 1) (hl : l ≤ 1) (hne : l ≠ c)
    (hp : (c : Int) = parity_level k) : (l : Int) = parity_level (k + 1) := by
  unfold parity_level RC_SPACE RC_MARK at *
  have h1 : c = 0 ∨ c = 1 := by omega
  have h2 : l = 0 ∨ l = 1 := by omega
  rcases Nat.mod_two_eq_zero_or_one k with hk | hk
  · have : (k + 1) % 2 = 1 := by omega
    rw [this]
    rw [hk] at hp
    rcases h1 with rfl | rfl <;> rcases h2 with rfl | rfl <;> simp_all
  · have : (k + 1) % 2 = 0 := by omega
    rw [this]
    rw [hk] at hp
    rcases h1 with rfl | rfl <;> rcases h2 with rfl | rfl <;> simp_all

theorem readPos_merge (bu bm : Int) (u : Nat)
    (hu : ∀ n, 1 ≤ n → n ≤ 3 → level_avail bu bm (ticks_to_us (n * u) : Nat) = some n) :
    ∀ (H : List (Nat × Nat)) (m c : Nat) (pre msg : List Nat),
      merge_ok m c H = true → c ≤ 1 → 1 ≤ m → (c : Int) = parity_level pre.length →
      msg = pre ++ (drop_trailing_space (merge_levels_from (c, m * u) (scale_halves u H))).map
        (fun h => ticks_to_us h.2) →
      ReadPos msg msg.length bu bm pre.length 0
        (strip_spaces (List.replicate m (c : Int) ++ units_of H)) := by
  intro H
  induction H with
  | nil =>
    intro m c pre msg hok hc hm hp hmsg
    have hm3 : m ≤ 3 := by simpa [merge_ok] using hok
    have hc01 : c = 0 ∨ c = 1 := by omega
    rcases hc01 with rfl | rfl
    · have e : msg = pre := by
        rw [hmsg]; simp [scale_halves, merge_levels_from, drop_trailing_space]
      have e2 : strip_spaces (List.replicate m ((0 : Nat) : Int) ++ units_of []) = [] := by
        simp [units_of, strip_spaces_replicate_zero]
      rw [e2, e]
      exact ReadPos.done _ (le_refl _)
    · have e : msg = pre ++ [ticks_to_us (m * u)] := by
        rw [hmsg]; simp [scale_halves, merge_levels_from, drop_trailing_space]
      have e2 : strip_spaces (List.replicate m ((1 : Nat) : Int) ++ units_of [])
          = List.replicate m 1 := by
        have := strip_spaces_replicate_one m [] hm
        simpa [units_of, strip_spaces] using this
      rw [e2]
      refine ReadPos.run pre.length 0 m [] _ ?_ ?_ hm (ReadPos.done _ ?_) ?_
      · rw [e]; simp
      · rw [e, getD_at_length]; exact hu m hm hm3
      · rw [e]; simp
      · rw [← hp]; simp
  | cons h rest ih =>
    intro m c pre msg hok hc hm hp hmsg
    obtain ⟨l, n⟩ := h
    simp only [merge_ok, Bool.and_eq_true, decide_eq_true_eq] at hok
    obtain ⟨⟨hl, hn⟩, hbr⟩ := hok
    by_cases hlc : l = c
    · subst hlc
      rw [if_pos rfl] at hbr
      have hmsg2 : msg = pre ++ (drop_trailing_space
          (merge_levels_from (l, (m + n) * u) (scale_halves u rest))).map
            (fun h => ticks_to_us h.2) := by
        rw [hmsg]
        simp [scale_halves, merge_levels_from, Nat.add_mul]
      have := ih (m + n) l pre msg hbr hc (by omega) hp hmsg2
      have e : List.replicate m (l : Int) ++ units_of ((l, n) :: rest)
          = List.replicate (m + n) (l : Int) ++ units_of rest := by
        simp only [units_of, List.flatMap_cons, List.replicate_add, List.append_assoc]
      rw [e]
      exact this
    · rw [if_neg hlc] at hbr
      simp only [Bool.and_eq_true, decide_eq_true_eq] at hbr
      obtain ⟨hm3, hrest⟩ := hbr
      have hmsg2 : msg = (pre ++ [ticks_to_us (m * u)]) ++ (drop_trailing_space
          (merge_levels_from (l, n * u) (scale_halves u rest))).map
            (fun h => ticks_to_us h.2) := by
        rw [hmsg]
        have : merge_levels_from (c, m * u) (scale_halves u ((l, n) :: rest))
            = (c, m * u) :: merge_levels_from (l, n * u) (scale_halves u rest) := by
          simp [scale_halves, merge_levels_from, hlc]
        rw [this, drop_trailing_space_cons _ _ (merge_levels_from_ne_nil _ _)]
        simp
      have hp2 : (l : Int) = parity_level (pre ++ [ticks_to_us (m * u)]).length := by
        rw [List.length_append]
        exact parity_level_succ pre.length c l hc hl hlc hp
      have h2 := ih n l (pre ++ [ticks_to_us (m * u)]) msg hrest hl hn hp2 hmsg2
      rw [List.length_append] at h2
      refine ReadPos.run pre.length 0 m _ _ ?_ ?_ hm h2 ?_
      · rw [hmsg2]; simp
      · rw [hmsg2, List.append_assoc, List.singleton_append, getD_at_length]; exact hu m hm hm3
      · rw [← hp, Nat.sub_zero]
        have hc01 : c = 0 ∨ c = 1 := by omega
        have hl01 : l = 0 ∨ l = 1 := by omega
        rcases hc01 with rfl | rfl
        · have hl1 : l = 1 := by omega
          subst hl1
          obtain ⟨k, rfl⟩ : ∃ k, n = k + 1 := ⟨n - 1, by omega⟩
          have e1 : List.replicate m ((0 : Nat) : Int) ++ units_of ((1, k + 1) :: rest)
              = List.replicate m 0 ++ (1 : Int) :: (List.replicate k 1 ++ units_of rest) := by
            simp [units_of, List.replicate_succ]
          have e2 : List.replicate (k + 1) ((1 : Nat) : Int) ++ units_of rest
              = [] ++ (1 : Int) :: (List.replicate k 1 ++ units_of rest) := by
            simp [List.replicate_succ]
          rw [e1, e2, strip_spaces_mid _ 1 _ (by norm_num), strip_spaces_mid _ 1 _ (by norm_num)]
          simp
        · have e1 : List.replicate m ((1 : Nat) : Int) ++ units_of ((l, n) :: rest)
              = List.replicate m 1 ++ (List.replicate n (l : Int) ++ units_of rest) := by
            simp [units_of]
          rw [e1, strip_spaces_replicate_one m _ hm]
          simp

theorem units_of_append (A B : List (Nat × Nat)) :
    units_of (A ++ B) = units_of A ++ units_of B := by
  simp [units_of]

theorem units_of_man_halves (xs : List Bool) : units_of (man_halves xs) = man_units xs := by
  induction xs with
  | nil => rfl
  | cons x xs ih =>
    have e : man_halves (x :: xs) = (if x then [(1, 1), (0, 1)] else [(0, 1), (1, 1)])
        ++ man_halves xs := by simp [man_halves]
    have e2 : man_units (x :: xs) = (if x then [1, 0] else [0, 1]) ++ man_units xs := by
      simp [man_units]
    rw [e, e2, units_of_append, ih]
    cases x <;> simp [units_of]

theorem man_halves_cons (x : Bool) (xs : List Bool) :
    man_halves (x :: xs) = (if x then [(1, 1), (0, 1)] else [(0, 1), (1, 1)])
      ++ man_halves xs := by simp [man_halves]

theorem man_units_cons (x : Bool) (xs : List Bool) :
    man_units (x :: xs) = (if x then [1, 0] else [0, 1]) ++ man_units xs := by
  simp [man_units]

theorem merge_ok_man (T : List (Nat × Nat)) (hT : ∀ c, c ≤ 1 → merge_ok 1 c T = true) :
    ∀ (xs : List Bool) (m c : Nat), 1 ≤ m → m ≤ 2 → c ≤ 1 → (xs = [] → m = 1) →
      merge_ok m c (man_halves xs ++ T) = true := by
  intro xs
  induction xs with
  | nil =>
    intro m c _ _ hc hnil
    rw [hnil rfl]
    exact hT c hc
  | cons x xs ih =>
    intro m c hm1 hm2 hc _
    have hc01 : c = 0 ∨ c = 1 := by omega
    have i0 := ih 1 0 (le_refl _) (by omega) (by omega) (fun _ => rfl)
    have i1 := ih 1 1 (le_refl _) (by omega) (by omega) (fun _ => rfl)
    rw [man_halves_cons]
    rcases hc01 with rfl | rfl <;> cases x <;>
      simp [merge_ok, i0, i1] <;> omega

theorem strip_spaces_man_units_ne_nil (x : Bool) (xs : List Bool) (T : List Int) :
    strip_spaces (man_units (x :: xs) ++ T) ≠ [] := by
  rw [man_units_cons]
  cases x
  · have := strip_spaces_mid [0] 1 (man_units xs ++ T) (by norm_num)
    simp only [List.singleton_append] at this
    simp [this]
  · have := strip_spaces_mid [] 1 (0 :: (man_units xs ++ T)) (by norm_num)
    simp only [List.nil_append] at this
    simp [this]

theorem rc5_store_message (r : ir_learn_result_t) (bits d : Nat) :
    (rc5_store r bits d).1.message = r.message
      ∧ (rc5_store r bits d).1.message_len = r.message_len := by
  unfold rc5_store
  split
  · exact ⟨rfl, rfl⟩
  · split <;> exact ⟨rfl, rfl⟩

theorem rc5_loop_pairs (msg : List Nat) (len : Nat) :
    ∀ (xs : List Bool) (fuel : Nat) (r : ir_learn_result_t) (bits off used data : Nat),
      r.message = msg → r.message_len = len →
      ReadPos msg len RC5_BIT_US RC5_BIT_MARGIN off used (strip_spaces (man_units xs)) →
      xs.length < fuel →
      rc5_decode_loop fuel r bits off used data =
        some (true, { (rc5_fold xs r bits data).1 with
                        bits := ((bits + xs.length : Nat) : Int),
                        value := (rc5_fold xs r bits data).2,
                        proto := IR_PROTO_RC5 }) := by
  intro xs
  induction xs with
  | nil =>
    intro fuel r bits off used data hm hl hp hf
    obtain ⟨f, rfl⟩ : ∃ f, fuel = f + 1 := ⟨fuel - 1, by simp at hf; omega⟩
    have hge : ¬ (off < r.message_len) := by
      rw [hl]; exact Nat.not_lt.mpr (readPos_nil hp)
    simp only [rc5_decode_loop, hge, if_false, rc5_fold, List.length_nil, Nat.add_zero]
  | cons x xs ih =>
    intro fuel r bits off used data hm hl hp hf
    obtain ⟨f, rfl⟩ : ∃ f, fuel = f + 1 := ⟨fuel - 1, by simp at hf; omega⟩
    have hne := strip_spaces_man_units_ne_nil x xs []
    rw [List.append_nil] at hne
    have hlt : off < r.message_len := by rw [hl]; exact readPos_lt_of_ne_nil hp hne
    have hf2 : xs.length < f := by simp at hf; omega
    rw [man_units_cons] at hp
    cases x
    · simp only [Bool.false_eq_true, if_false, List.cons_append, List.nil_append] at hp
      obtain ⟨o1, u1, h1, hp1⟩ := readPos_read r hm hl hp
      obtain ⟨o2, u2, h2, hp2⟩ := readPos_read r hm hl hp1
      have hs := rc5_store_message r bits data
      have := ih f (rc5_store r bits data).1 (bits + 1) o2 u2 (rc5_store r bits data).2
        (by rw [hs.1, hm]) (by rw [hs.2, hl]) hp2 hf2
      simp only [rc5_decode_loop, hlt, if_true, h1, h2, RC_SPACE, RC_MARK]
      simp only [rc5_store, RC_SPACE, RC_MARK] at this
      simp only [rc5_fold, rc5_store, Bool.false_eq_true, if_false, List.length_cons]
      rw [show bits + (xs.length + 1) = bits + 1 + xs.length by omega]
      simpa using this
    · simp only [if_true, List.cons_append, List.nil_append] at hp
      obtain ⟨o1, u1, h1, hp1⟩ := readPos_read r hm hl hp
      obtain ⟨o2, u2, h2, hp2⟩ := readPos_read r hm hl hp1
      have := ih f r (bits + 1) o2 u2 data hm hl hp2 hf2
      simp only [rc5_decode_loop, hlt, if_true, h1, h2, RC_SPACE, RC_MARK]
      simp only [rc5_fold, if_true, List.length_cons]
      rw [show bits + (xs.length + 1) = bits + 1 + xs.length by omega]
      simpa using this

theorem frame_halves_cons (x : rmt_item32_t) (xs : List rmt_item32_t) :
    frame_halves (x :: xs) = [(x.level0, x.duration0), (x.level1, x.duration1)]
      ++ frame_halves xs := by
  simp [frame_halves]

theorem frame_halves_append (xs ys : List rmt_item32_t) :
    frame_halves (xs ++ ys) = frame_halves xs ++ frame_halves ys := by
  simp [frame_halves]

theorem scale_halves_append (u : Nat) (A B : List (Nat × Nat)) :
    scale_halves u (A ++ B) = scale_halves u A ++ scale_halves u B := by
  simp [scale_halves]

theorem man_halves_append (xs ys : List Bool) :
    man_halves (xs ++ ys) = man_halves xs ++ man_halves ys := by
  simp [man_halves]

theorem man_units_append (xs ys : List Bool) :
    man_units (xs ++ ys) = man_units xs ++ man_units ys := by
  simp [man_units]

theorem msb_bits_length (n v : Nat) : (msb_bits n v).length = n := by
  induction n with
  | zero => rfl
  | succ n ih => simp [msb_bits, ih]

theorem strip_spaces_man_units_length (xs : List Bool) :
    2 * xs.length - 1 ≤ (strip_spaces (man_units xs)).length := by
  induction xs with
  | nil => simp
  | cons x xs ih =>
    rw [man_units_cons]
    cases x
    · have := strip_spaces_mid [0] 1 (man_units xs) (by norm_num)
      simp only [List.singleton_append] at this
      simp only [Bool.false_eq_true, if_false, List.cons_append, List.nil_append, this,
        List.length_cons]
      omega
    · have := strip_spaces_mid [] 1 (0 :: man_units xs) (by norm_num)
      simp only [List.nil_append] at this
      simp only [if_true, List.cons_append, List.nil_append, this, List.length_cons]
      cases xs with
      | nil => simp
      | cons y ys =>
        have hne := strip_spaces_man_units_ne_nil y ys []
        rw [List.append_nil] at hne
        have e : strip_spaces (0 :: man_units (y :: ys)) = 0 :: strip_spaces (man_units (y :: ys)) := by
          simp [strip_spaces, hne]
        rw [e]
        simp only [List.length_cons] at ih ⊢
        omega

/-! ### RC5 -/

theorem rc5_unit_avail : ∀ n, 1 ≤ n → n ≤ 3 →
    level_avail RC5_BIT_US RC5_BIT_MARGIN (ticks_to_us (n * 704) : Nat) = some n := by
  intro n h1 h3
  interval_cases n <;> decide

theorem rc5_item_halves (c : Prop) [Decidable c] :
    frame_halves [if c then ir_encode_set_level 0 RC5_BIT_US RC5_BIT_US
      else ir_encode_set_level 1 RC5_BIT_US RC5_BIT_US]
      = scale_halves 704 (man_halves [!decide c]) := by
  by_cases h : c
  · rw [if_pos h, decide_eq_true h]; decide
  · rw [if_neg h, decide_eq_false h]; decide

theorem rc5_build_bits_halves (n v : Nat) :
    frame_halves (rc5_build_bits n v)
      = scale_halves 704 (man_halves ((msb_bits n v).map (!·))) := by
  induction n with
  | zero => rfl
  | succ n ih =>
    rw [rc5_build_bits, ← List.singleton_append, frame_halves_append, rc5_item_halves, ih,
      msb_bits, List.map_cons, ← List.singleton_append (l := List.map _ _), man_halves_append,
      scale_halves_append]

theorem rc5_frame_halves (toggle : Bool) (a c : Nat) :
    frame_halves (ir_rc5_send_items toggle a c)
      = scale_halves 704 (man_halves (false :: false :: rc5_symbols toggle a c)) := by
  have h1 : frame_halves [ir_encode_set_level 0 RC5_BIT_US RC5_BIT_US,
      ir_encode_set_level 0 RC5_BIT_US RC5_BIT_US,
      ir_encode_set_level toggle.toNat RC5_BIT_US RC5_BIT_US]
      = scale_halves 704 (man_halves [false, false, toggle]) := by
    cases toggle <;> decide
  have e : false :: false :: rc5_symbols toggle a c
      = [false, false, toggle] ++ ((msb_bits 5 (a % 256)).map (!·)
          ++ (msb_bits 6 (c % 256)).map (!·)) := rfl
  rw [e]
  simp only [ir_rc5_send_items, frame_halves_append, h1, rc5_build_bits_halves,
    RC5_ADDR_BIT_LEN, RC5_CMD_BIT_LEN, man_halves_append, scale_halves_append,
    List.append_assoc]

theorem rc5_received (toggle : Bool) (a c : Nat) :
    received_durations_us (ir_rc5_send_items toggle a c)
      = [] ++ (drop_trailing_space (merge_levels_from (1, 1 * 704)
          (scale_halves 704 (man_halves (false :: rc5_symbols toggle a c))))).map
            (fun h => ticks_to_us h.2) := by
  rw [received_durations_us, rc5_frame_halves, man_halves_cons, scale_halves_append]
  rfl

theorem rc5_readPos (toggle : Bool) (a c : Nat) :
    ReadPos (received_durations_us (ir_rc5_send_items toggle a c))
      (received_durations_us (ir_rc5_send_items toggle a c)).length
      RC5_BIT_US RC5_BIT_MARGIN 0 0
      (1 :: 0 :: 1 :: strip_spaces (man_units (rc5_symbols toggle a c))) := by
  have hok : merge_ok 1 1 (man_halves (false :: rc5_symbols toggle a c)) = true := by
    have := merge_ok_man [] (fun c _ => by simp [merge_ok])
      (false :: rc5_symbols toggle a c) 1 1 (le_refl _) (by omega) (le_refl _) (fun _ => rfl)
    rwa [List.append_nil] at this
  have := readPos_merge RC5_BIT_US RC5_BIT_MARGIN 704 rc5_unit_avail
    (man_halves (false :: rc5_symbols toggle a c)) 1 1 []
    (received_durations_us (ir_rc5_send_items toggle a c)) hok (le_refl _) (le_refl _)
    (by decide) (rc5_received toggle a c)
  have e : strip_spaces (List.replicate 1 ((1 : Nat) : Int)
      ++ units_of (man_halves (false :: rc5_symbols toggle a c)))
      = 1 :: 0 :: 1 :: strip_spaces (man_units (rc5_symbols toggle a c)) := by
    rw [units_of_man_halves, man_units_cons]
    have := strip_spaces_mid [1, 0] 1 (man_units (rc5_symbols toggle a c)) (by norm_num)
    simpa using this
  rw [e] at this
  exact this

theorem rc5_store_fields (r : ir_learn_result_t) (bits d : Nat) :
    (rc5_store r bits d).1 =
      { r with
        addr := if bits ≠ 0 ∧ bits ≤ RC5_ADDR_BIT_LEN then
            (r.addr ||| shl1 ((RC5_ADDR_BIT_LEN : Int) - bits)) % 65536 else r.addr,
        cmd := if ¬ (bits ≠ 0 ∧ bits ≤ RC5_ADDR_BIT_LEN)
              ∧ bits > RC5_ADDR_BIT_LEN ∧ bits ≤ RC5_BIT_LEN then
            (r.cmd ||| shl1 ((RC5_BIT_LEN : Int) - bits)) % 65536 else r.cmd } := by
  unfold rc5_store
  by_cases h1 : bits ≠ 0 ∧ bits ≤ RC5_ADDR_BIT_LEN
  · rw [if_pos h1, if_pos h1, if_neg (fun h => h.1 h1)]
  · by_cases h2 : bits > RC5_ADDR_BIT_LEN ∧ bits ≤ RC5_BIT_LEN
    · rw [if_neg h1, if_pos h2, if_neg h1, if_pos ⟨h1, h2⟩]
    · rw [if_neg h1, if_neg h2, if_neg h1, if_neg (fun h => h2 h.2)]

theorem rc5_fold_fields (xs : List Bool) :
    ∀ (r : ir_learn_result_t) (bits d : Nat),
      (rc5_fold xs r bits d).1 =
        { r with addr := rc5_addr_acc xs bits r.addr, cmd := rc5_cmd_acc xs bits r.cmd } := by
  induction xs with
  | nil => intro r bits d; rfl
  | cons x xs ih =>
    intro r bits d
    cases x
    · rw [rc5_fold, if_neg (by decide), ih, rc5_store_fields, rc5_addr_acc, rc5_cmd_acc]
      simp only [eq_self, true_and]
    · rw [rc5_fold, if_pos rfl, ih, rc5_addr_acc, rc5_cmd_acc]
      simp only [Bool.true_eq_false, false_and, if_false]

theorem rc5_addr_acc_append (xs ys : List Bool) (bits v : Nat) :
    rc5_addr_acc (xs ++ ys) bits v = rc5_addr_acc ys (bits + xs.length) (rc5_addr_acc xs bits v) := by
  induction xs generalizing bits v with
  | nil => rfl
  | cons x xs ih =>
    show rc5_addr_acc (xs ++ ys) (bits + 1) _ = rc5_addr_acc ys (bits + (xs.length + 1)) _
    rw [ih, show bits + 1 + xs.length = bits + (xs.length + 1) by omega]
    rfl

theorem rc5_cmd_acc_append (xs ys : List Bool) (bits v : Nat) :
    rc5_cmd_acc (xs ++ ys) bits v = rc5_cmd_acc ys (bits + xs.length) (rc5_cmd_acc xs bits v) := by
  induction xs generalizing bits v with
  | nil => rfl
  | cons x xs ih =>
    show rc5_cmd_acc (xs ++ ys) (bits + 1) _ = rc5_cmd_acc ys (bits + (xs.length + 1)) _
    rw [ih, show bits + 1 + xs.length = bits + (xs.length + 1) by omega]
    rfl

theorem rc5_addr_acc_late (xs : List Bool) :
    ∀ (bits v : Nat), RC5_ADDR_BIT_LEN < bits → rc5_addr_acc xs bits v = v := by
  induction xs with
  | nil => intro bits v _; rfl
  | cons x xs ih =>
    intro bits v h
    have : ¬ (x = false ∧ bits ≠ 0 ∧ bits ≤ RC5_ADDR_BIT_LEN) := by
      intro h2; exact absurd h2.2.2 (Nat.not_le.mpr h)
    rw [rc5_addr_acc, if_neg this]
    exact ih (bits + 1) v (by omega)

set_option maxRecDepth 100000 in
theorem rc5_addr_field : ∀ a, a < 32 →
    rc5_addr_acc ((msb_bits 5 a).map (!·)) 1 0 = a
      ∧ rc5_cmd_acc ((msb_bits 5 a).map (!·)) 1 0 = 0 := by
  decide

set_option maxRecDepth 100000 in
theorem rc5_cmd_field : ∀ c, c < 64 → rc5_cmd_acc ((msb_bits 6 c).map (!·)) 6 0 = c := by
  decide

theorem rc5_symbols_fields (toggle : Bool) (a c : Nat) (ha : a < 32) (hc : c < 64) :
    rc5_addr_acc (rc5_symbols toggle a c) 0 0 = a
      ∧ rc5_cmd_acc (rc5_symbols toggle a c) 0 0 = c := by
  have ha' : a % 256 = a := Nat.mod_eq_of_lt (by omega)
  have hc' : c % 256 = c := Nat.mod_eq_of_lt (by omega)
  obtain ⟨h1, h2⟩ := rc5_addr_field a ha
  have h3 := rc5_cmd_field c hc
  have e1 : rc5_addr_acc (rc5_symbols toggle a c) 0 0
      = rc5_addr_acc ((msb_bits 5 a).map (!·) ++ (msb_bits 6 c).map (!·)) 1 0 := by
    rw [rc5_symbols, ha', hc', rc5_addr_acc]
    have : ¬ (toggle = false ∧ (0 : Nat) ≠ 0 ∧ 0 ≤ RC5_ADDR_BIT_LEN) := by
      intro h; exact h.2.1 rfl
    rw [if_neg this]
  have e2 : rc5_cmd_acc (rc5_symbols toggle a c) 0 0
      = rc5_cmd_acc ((msb_bits 5 a).map (!·) ++ (msb_bits 6 c).map (!·)) 1 0 := by
    rw [rc5_symbols, ha', hc', rc5_cmd_acc]
    have : ¬ (toggle = false ∧ ¬ ((0 : Nat) ≠ 0 ∧ 0 ≤ RC5_ADDR_BIT_LEN)
        ∧ 0 > RC5_ADDR_BIT_LEN ∧ 0 ≤ RC5_BIT_LEN) := by
      intro h; exact absurd h.2.2.1 (by decide)
    rw [if_neg this]
  constructor
  · rw [e1, rc5_addr_acc_append, h1, List.length_map, msb_bits_length]
    exact rc5_addr_acc_late _ _ _ (by decide)
  · rw [e2, rc5_cmd_acc_append, h2, List.length_map, msb_bits_length]
    exact h3

theorem rc5_symbols_length (toggle : Bool) (a c : Nat) :
    (rc5_symbols toggle a c).length = 12 := by
  simp [rc5_symbols, msb_bits_length]

theorem rc5_decode_received (r0 : ir_learn_result_t) (toggle : Bool) (a c : Nat) :
    ir_rc5_decode (result_of_message r0 (received_durations_us (ir_rc5_send_items toggle a c)))
      = (true, { (rc5_fold (rc5_symbols toggle a c)
                    (result_of_message r0
                      (received_durations_us (ir_rc5_send_items toggle a c))) 0 0).1 with
                  bits := 12,
                  value := (rc5_fold (rc5_symbols toggle a c)
                    (result_of_message r0
                      (received_durations_us (ir_rc5_send_items toggle a c))) 0 0).2,
                  proto := IR_PROTO_RC5 }) := by
  generalize hmsg : received_durations_us (ir_rc5_send_items toggle a c) = msg
  have hp := rc5_readPos toggle a c
  rw [hmsg] at hp
  generalize hr : result_of_message r0 msg = r
  have hm : r.message = msg := by rw [← hr]; rfl
  have hl : r.message_len = msg.length := by rw [← hr]; rfl
  have hlen := readPos_length hp
  have hsl := strip_spaces_man_units_length (rc5_symbols toggle a c)
  rw [rc5_symbols_length] at hsl
  simp only [List.length_cons] at hlen
  obtain ⟨o1, u1, h1, hp1⟩ := (readPos_cons r hm hl hp).2
  obtain ⟨o2, u2, h2, hp2⟩ := (readPos_cons r hm hl hp1).2
  obtain ⟨o3, u3, h3, hp3⟩ := (readPos_cons r hm hl hp2).2
  have hloop := rc5_loop_pairs msg msg.length (rc5_symbols toggle a c)
    (3 * r.message_len + 1) r 0 o3 u3 0 hm hl hp3 (by rw [rc5_symbols_length, hl]; omega)
  have hge : ¬ (r.message_len < (RC5_BIT_LEN + 1) / 2 + 2) := by
    rw [hl]; simp only [RC5_BIT_LEN]; omega
  simp only [ir_rc5_decode, hge, if_false, h1, h2, h3, hloop, RC_MARK, RC_SPACE, ne_eq,
    not_true_eq_false, Nat.zero_add, rc5_symbols_length]
  rfl

/-! ### RC6 -/

theorem rc6_unit_avail : ∀ n, 1 ≤ n → n ≤ 3 →
    level_avail RC6_BIT_US RC6_BIT_MARGIN (ticks_to_us (n * 352) : Nat) = some n := by
  intro n h1 h3
  interval_cases n <;> decide

theorem rc6_store_message (r : ir_learn_result_t) (bits d : Nat) :
    (rc6_store r bits d).1.message = r.message
      ∧ (rc6_store r bits d).1.message_len = r.message_len := by
  unfold rc6_store
  split
  · exact ⟨rfl, rfl⟩
  · split <;> exact ⟨rfl, rfl⟩

theorem rc6_fold_message (xs : List Bool) :
    ∀ (r : ir_learn_result_t) (bits d : Nat),
      (rc6_fold xs r bits d).1.message = r.message
        ∧ (rc6_fold xs r bits d).1.message_len = r.message_len := by
  induction xs with
  | nil => intro r bits d; exact ⟨rfl, rfl⟩
  | cons x xs ih =>
    intro r bits d
    cases x
    · rw [rc6_fold, if_neg (by decide)]; exact ih _ _ _
    · rw [rc6_fold, if_pos rfl]
      have h1 := ih (rc6_store r bits d).1 (bits + 1) (rc6_store r bits d).2
      have h2 := rc6_store_message r bits d
      exact ⟨h1.1.trans h2.1, h1.2.trans h2.2⟩

theorem rc6_loop_pairs (msg : List Nat) (len : Nat) (T : List Int) :
    ∀ (xs : List Bool) (fuel : Nat) (r : ir_learn_result_t) (bits off used data : Nat),
      r.message = msg → r.message_len = len →
      ReadPos msg len RC6_BIT_US RC6_BIT_MARGIN off used (strip_spaces (man_units xs ++ T)) →
      (bits + xs.length ≤ 3 ∨ 4 ≤ bits) →
      ∃ o u, rc6_decode_loop (fuel + xs.length) r bits off used data
          = rc6_decode_loop fuel (rc6_fold xs r bits data).1 (bits + xs.length) o u
              (rc6_fold xs r bits data).2
        ∧ ReadPos msg len RC6_BIT_US RC6_BIT_MARGIN o u (strip_spaces T) := by
  intro xs
  induction xs with
  | nil =>
    intro fuel r bits off used data _ _ hp _
    exact ⟨off, used, rfl, hp⟩
  | cons x xs ih =>
    intro fuel r bits off used data hm hl hp hb
    have hne := strip_spaces_man_units_ne_nil x xs T
    have hlt : off < r.message_len := by rw [hl]; exact readPos_lt_of_ne_nil hp hne
    have hb3 : bits ≠ 3 := by simp only [List.length_cons] at hb; omega
    have hb' : bits + 1 + xs.length ≤ 3 ∨ 4 ≤ bits + 1 := by
      simp only [List.length_cons] at hb; omega
    rw [man_units_cons] at hp
    cases x
    · simp only [Bool.false_eq_true, if_false, List.cons_append, List.nil_append] at hp
      obtain ⟨o1, u1, h1, hp1⟩ := readPos_read r hm hl hp
      obtain ⟨o2, u2, h2, hp2⟩ := readPos_read r hm hl hp1
      obtain ⟨o, u, hloop, hpo⟩ := ih fuel r (bits + 1) o2 u2 data hm hl hp2 hb'
      refine ⟨o, u, ?_, hpo⟩
      rw [List.length_cons, ← Nat.add_assoc, rc6_decode_loop]
      simp only [hlt, if_true, hb3, if_false, false_and, h1, h2, RC_SPACE, RC_MARK]
      rw [rc6_fold, if_neg (by decide), show bits + (xs.length + 1) = bits + 1 + xs.length by omega]
      simpa using hloop
    · simp only [if_true, List.cons_append, List.nil_append] at hp
      obtain ⟨o1, u1, h1, hp1⟩ := readPos_read r hm hl hp
      obtain ⟨o2, u2, h2, hp2⟩ := readPos_read r hm hl hp1
      have hs := rc6_store_message r bits data
      obtain ⟨o, u, hloop, hpo⟩ := ih fuel (rc6_store r bits data).1 (bits + 1) o2 u2
        (rc6_store r bits data).2 (by rw [hs.1, hm]) (by rw [hs.2, hl]) hp2 hb'
      refine ⟨o, u, ?_, hpo⟩
      rw [List.length_cons, ← Nat.add_assoc, rc6_decode_loop]
      simp only [hlt, if_true, hb3, if_false, false_and, h1, h2, RC_SPACE, RC_MARK]
      rw [rc6_fold, if_pos rfl, show bits + (xs.length + 1) = bits + 1 + xs.length by omega]
      simp only [rc6_store] at hloop
      simpa using hloop

theorem rc6_loop_toggle (msg : List Nat) (len : Nat) (T : List Int) (t : Bool) (fuel : Nat)
    (r : ir_learn_result_t) (off used data : Nat)
    (hm : r.message = msg) (hl : r.message_len = len)
    (hp : ReadPos msg len RC6_BIT_US RC6_BIT_MARGIN off used
      (strip_spaces (rc6_toggle_units t ++ T))) :
    ∃ o u, rc6_decode_loop (fuel + 1) r 3 off used data
        = rc6_decode_loop fuel r 4 o u (if t then (data ||| shl1 3) % 4294967296 else data)
      ∧ ReadPos msg len RC6_BIT_US RC6_BIT_MARGIN o u (strip_spaces T) := by
  have hne : strip_spaces (rc6_toggle_units t ++ T) ≠ [] := by
    cases t
    · have := strip_spaces_mid [0, 0] 1 (1 :: T) (by norm_num)
      simp only [rc6_toggle_units, Bool.false_eq_true, if_false, List.cons_append,
        List.nil_append] at this ⊢
      rw [this]; simp
    · have := strip_spaces_mid [] 1 (1 :: 0 :: 0 :: T) (by norm_num)
      simp only [rc6_toggle_units, if_true, List.cons_append, List.nil_append] at this ⊢
      rw [this]; simp
  have hlt : off < r.message_len := by rw [hl]; exact readPos_lt_of_ne_nil hp hne
  cases t
  · simp only [rc6_toggle_units, Bool.false_eq_true, if_false, List.cons_append,
      List.nil_append] at hp
    obtain ⟨o1, u1, h1, hp1⟩ := readPos_read r hm hl hp
    obtain ⟨o2, u2, h2, hp2⟩ := readPos_read r hm hl hp1
    obtain ⟨o3, u3, h3, hp3⟩ := readPos_read r hm hl hp2
    obtain ⟨o4, u4, h4, hp4⟩ := readPos_read r hm hl hp3
    refine ⟨o4, u4, ?_, hp4⟩
    rw [rc6_decode_loop]
    simp [hlt, h1, h2, h3, h4, RC_SPACE, RC_MARK]
  · simp only [rc6_toggle_units, if_true, List.cons_append, List.nil_append] at hp
    obtain ⟨o1, u1, h1, hp1⟩ := readPos_read r hm hl hp
    obtain ⟨o2, u2, h2, hp2⟩ := readPos_read r hm hl hp1
    obtain ⟨o3, u3, h3, hp3⟩ := readPos_read r hm hl hp2
    obtain ⟨o4, u4, h4, hp4⟩ := readPos_read r hm hl hp3
    refine ⟨o4, u4, ?_, hp4⟩
    rw [rc6_decode_loop]
    simp [hlt, h1, h2, h3, h4, RC_SPACE, RC_MARK, RC6_ADDR_BIT_LEN, RC6_BIT_LEN]

theorem rc6_loop_end (msg : List Nat) (len : Nat) (fuel : Nat)
    (r : ir_learn_result_t) (bits off used data : Nat) (hl : r.message_len = len)
    (hp : ReadPos msg len RC6_BIT_US RC6_BIT_MARGIN off used []) :
    rc6_decode_loop (fuel + 1) r bits off used data
      = some (true, { r with bits := bits, value := data, proto := IR_PROTO_RC6 }) := by
  have hge : ¬ (off < r.message_len) := by
    rw [hl]; exact Nat.not_lt.mpr (readPos_nil hp)
  simp only [rc6_decode_loop, hge, if_false]

theorem rc6_store_fields (r : ir_learn_result_t) (bits d : Nat) :
    (rc6_store r bits d).1 =
      { r with
        addr := if bits ≥ 4 ∧ bits < RC6_ADDR_BIT_LEN + 4 then
            (r.addr ||| shl1 (((RC6_ADDR_BIT_LEN : Int) - 1) - ((bits : Int) - 4))) % 65536
          else r.addr,
        cmd := if ¬ (bits ≥ 4 ∧ bits < RC6_ADDR_BIT_LEN + 4)
              ∧ bits ≥ RC6_ADDR_BIT_LEN + 4 ∧ bits ≤ RC6_BIT_LEN + 4 then
            (r.cmd ||| shl1 (((RC6_BIT_LEN : Int) - 1) - ((bits : Int) - 4))) % 65536
          else r.cmd } := by
  unfold rc6_store
  by_cases h1 : bits ≥ 4 ∧ bits < RC6_ADDR_BIT_LEN + 4
  · rw [if_pos h1, if_pos h1, if_neg (fun h => h.1 h1)]
  · by_cases h2 : bits ≥ RC6_ADDR_BIT_LEN + 4 ∧ bits ≤ RC6_BIT_LEN + 4
    · rw [if_neg h1, if_pos h2, if_neg h1, if_pos ⟨h1, h2⟩]
    · rw [if_neg h1, if_neg h2, if_neg h1, if_neg (fun h => h2 h.2)]

theorem rc6_fold_fields (xs : List Bool) :
    ∀ (r : ir_learn_result_t) (bits d : Nat),
      (rc6_fold xs r bits d).1 =
        { r with addr := rc6_addr_acc xs bits r.addr, cmd := rc6_cmd_acc xs bits r.cmd } := by
  induction xs with
  | nil => intro r bits d; rfl
  | cons x xs ih =>
    intro r bits d
    cases x
    · rw [rc6_fold, if_neg (by decide), ih, rc6_addr_acc, rc6_cmd_acc]
      simp only [Bool.false_eq_true, false_and, if_false]
    · rw [rc6_fold, if_pos rfl, ih, rc6_store_fields, rc6_addr_acc, rc6_cmd_acc]
      simp only [eq_self, true_and]

theorem rc6_addr_acc_append (xs ys : List Bool) (bits v : Nat) :
    rc6_addr_acc (xs ++ ys) bits v = rc6_addr_acc ys (bits + xs.length) (rc6_addr_acc xs bits v) := by
  induction xs generalizing bits v with
  | nil => rfl
  | cons x xs ih =>
    show rc6_addr_acc (xs ++ ys) (bits + 1) _ = rc6_addr_acc ys (bits + (xs.length + 1)) _
    rw [ih, show bits + 1 + xs.length = bits + (xs.length + 1) by omega]
    rfl

theorem rc6_cmd_acc_append (xs ys : List Bool) (bits v : Nat) :
    rc6_cmd_acc (xs ++ ys) bits v = rc6_cmd_acc ys (bits + xs.length) (rc6_cmd_acc xs bits v) := by
  induction xs generalizing bits v with
  | nil => rfl
  | cons x xs ih =>
    show rc6_cmd_acc (xs ++ ys) (bits + 1) _ = rc6_cmd_acc ys (bits + (xs.length + 1)) _
    rw [ih, show bits + 1 + xs.length = bits + (xs.length + 1) by omega]
    rfl

theorem rc6_addr_acc_late (xs : List Bool) :
    ∀ (bits v : Nat), RC6_ADDR_BIT_LEN + 4 ≤ bits → rc6_addr_acc xs bits v = v := by
  induction xs with
  | nil => intro bits v _; rfl
  | cons x xs ih =>
    intro bits v h
    have : ¬ (x = true ∧ bits ≥ 4 ∧ bits < RC6_ADDR_BIT_LEN + 4) := by
      intro h2; exact absurd h2.2.2 (Nat.not_lt.mpr h)
    rw [rc6_addr_acc, if_neg this]
    exact ih (bits + 1) v (by omega)

theorem rc6_acc_early (xs : List Bool) :
    ∀ (bits v : Nat), bits + xs.length ≤ 4 →
      rc6_addr_acc xs bits v = v ∧ rc6_cmd_acc xs bits v = v := by
  induction xs with
  | nil => intro bits v _; exact ⟨rfl, rfl⟩
  | cons x xs ih =>
    intro bits v h
    simp only [List.length_cons] at h
    have h1 : ¬ (x = true ∧ bits ≥ 4 ∧ bits < RC6_ADDR_BIT_LEN + 4) := by
      intro h2; have := h2.2.1; omega
    have h2 : ¬ (x = true ∧ ¬ (bits ≥ 4 ∧ bits < RC6_ADDR_BIT_LEN + 4)
        ∧ bits ≥ RC6_ADDR_BIT_LEN + 4 ∧ bits ≤ RC6_BIT_LEN + 4) := by
      intro h2; have := h2.2.2.1; simp only [RC6_ADDR_BIT_LEN] at this; omega
    rw [rc6_addr_acc, rc6_cmd_acc, if_neg h1, if_neg h2]
    exact ih (bits + 1) v (by omega)

set_option maxRecDepth 100000 in
theorem rc6_addr_field : ∀ a, a < 256 →
    rc6_addr_acc (msb_bits 8 a) 4 0 = a ∧ rc6_cmd_acc (msb_bits 8 a) 4 0 = 0 := by
  decide

set_option maxRecDepth 100000 in
theorem rc6_cmd_field : ∀ c, c < 256 → rc6_cmd_acc (msb_bits 8 c) 12 0 = c := by
  decide

theorem rc6_data_fields (a c : Nat) (ha : a < 256) (hc : c < 256) :
    rc6_addr_acc (rc6_data_symbols a c) 4 0 = a ∧ rc6_cmd_acc (rc6_data_symbols a c) 4 0 = c := by
  have ha' : a % 256 = a := Nat.mod_eq_of_lt ha
  have hc' : c % 256 = c := Nat.mod_eq_of_lt hc
  obtain ⟨h1, h2⟩ := rc6_addr_field a ha
  have h3 := rc6_cmd_field c hc
  rw [rc6_data_symbols, ha', hc', rc6_addr_acc_append, rc6_cmd_acc_append, h1, h2,
    msb_bits_length]
  exact ⟨rc6_addr_acc_late _ _ _ (by decide), h3⟩

theorem rc6_item_halves (d : Nat) :
    frame_halves [ir_encode_set_level d RC6_BIT_US RC6_BIT_US]
      = scale_halves 352 (man_halves [decide (d ≠ 0)]) := by
  by_cases h : d ≠ 0
  · rw [ir_encode_set_level, if_pos h, decide_eq_true h]; decide
  · rw [ir_encode_set_level, if_neg h, decide_eq_false h]; decide

theorem rc6_bit_item_halves (c : Prop) [Decidable c] :
    frame_halves [if c then ir_encode_set_level 1 RC6_BIT_US RC6_BIT_US
      else ir_encode_set_level 0 RC6_BIT_US RC6_BIT_US]
      = scale_halves 352 (man_halves [decide c]) := by
  by_cases h : c
  · rw [if_pos h, decide_eq_true h]; decide
  · rw [if_neg h, decide_eq_false h]; decide

theorem rc6_build_bits_halves (n v : Nat) :
    frame_halves (rc6_build_bits n v) = scale_halves 352 (man_halves (msb_bits n v)) := by
  induction n with
  | zero => rfl
  | succ n ih =>
    rw [rc6_build_bits, ← List.singleton_append, frame_halves_append, rc6_bit_item_halves, ih,
      msb_bits, ← List.singleton_append (l := msb_bits n v), man_halves_append,
      scale_halves_append]

theorem rc6_frame_halves (mode : Nat) (toggle : Bool) (a c : Nat) :
    frame_halves (ir_rc6_send_items mode toggle a c)
      = (1, 2128) :: (0, 704) :: (1, 1 * 352) :: scale_halves 352
          ((0, 1) :: (man_halves (rc6_mode_symbols mode)
            ++ (rc6_toggle_halves toggle ++ man_halves (rc6_data_symbols a c)))) := by
  have h1 : frame_halves [ir_encode_set_level 1 RC6_HDR_MARK RC6_HDR_SPACE,
      ir_encode_set_level 1 RC6_BIT_US RC6_BIT_US]
      = [(1, 2128), (0, 704), (1, 1 * 352), (0, 1 * 352)] := by decide
  have h2 : frame_halves [ir_encode_set_level toggle.toNat (RC6_BIT_US * 2) (RC6_BIT_US * 2)]
      = scale_halves 352 (rc6_toggle_halves toggle) := by
    cases toggle <;> decide
  have e : ir_rc6_send_items mode toggle a c
      = [ir_encode_set_level 1 RC6_HDR_MARK RC6_HDR_SPACE,
          ir_encode_set_level 1 RC6_BIT_US RC6_BIT_US]
        ++ ([ir_encode_set_level ((mode % 256) &&& 0x04) RC6_BIT_US RC6_BIT_US]
        ++ ([ir_encode_set_level ((mode % 256) &&& 0x02) RC6_BIT_US RC6_BIT_US]
        ++ ([ir_encode_set_level ((mode % 256) &&& 0x01) RC6_BIT_US RC6_BIT_US]
        ++ ([ir_encode_set_level toggle.toNat (RC6_BIT_US * 2) (RC6_BIT_US * 2)]
        ++ (rc6_build_bits RC6_ADDR_BIT_LEN (a % 256)
        ++ rc6_build_bits RC6_CMD_BIT_LEN (c % 256)))))) := by
    simp [ir_rc6_send_items]
  rw [e]
  simp only [frame_halves_append, h1, h2, rc6_item_halves, rc6_build_bits_halves,
    rc6_mode_symbols, rc6_data_symbols, RC6_ADDR_BIT_LEN, RC6_CMD_BIT_LEN]
  simp [scale_halves, man_halves]

theorem rc6_received (mode : Nat) (toggle : Bool) (a c : Nat) :
    received_durations_us (ir_rc6_send_items mode toggle a c)
      = [2660, 880] ++ (drop_trailing_space (merge_levels_from (1, 1 * 352)
          (scale_halves 352 ((0, 1) :: (man_halves (rc6_mode_symbols mode)
            ++ (rc6_toggle_halves toggle ++ man_halves (rc6_data_symbols a c))))))).map
            (fun h => ticks_to_us h.2) := by
  rw [received_durations_us, rc6_frame_halves]
  generalize scale_halves 352 ((0, 1) :: (man_halves (rc6_mode_symbols mode)
            ++ (rc6_toggle_halves toggle ++ man_halves (rc6_data_symbols a c)))) = R
  have e1 : drop_leading_space ((1, 2128) :: (0, 704) :: (1, 1 * 352) :: R)
      = (1, 2128) :: (0, 704) :: (1, 1 * 352) :: R := by
    simp [drop_leading_space]
  have e2 : merge_levels ((1, 2128) :: (0, 704) :: (1, 1 * 352) :: R)
      = (1, 2128) :: (0, 704) :: merge_levels_from (1, 1 * 352) R := by
    simp [merge_levels, merge_levels_from]
  rw [e1, e2, drop_trailing_space_cons _ _ (by simp),
    drop_trailing_space_cons _ _ (merge_levels_from_ne_nil _ _)]
  rfl

theorem man_units_length (xs : List Bool) : (man_units xs).length = 2 * xs.length := by
  induction xs with
  | nil => rfl
  | cons x xs ih =>
    rw [man_units_cons, List.length_append, ih, List.length_cons]
    cases x <;> simp <;> omega

theorem rc6_data_symbols_length (a c : Nat) : (rc6_data_symbols a c).length = 16 := by
  simp [rc6_data_symbols, msb_bits_length]

theorem rc6_merge_ok (mode : Nat) (toggle : Bool) (a c : Nat) :
    merge_ok 1 1 ((0, 1) :: (man_halves (rc6_mode_symbols mode)
      ++ (rc6_toggle_halves toggle ++ man_halves (rc6_data_symbols a c)))) = true := by
  have hdata : ∀ c', c' ≤ 1 → merge_ok 2 c' (man_halves (rc6_data_symbols a c)) = true := by
    intro c' hc'
    have := merge_ok_man [] (fun c _ => by simp [merge_ok]) (rc6_data_symbols a c) 2 c'
      (by omega) (le_refl _) hc'
      (fun h => by
        have := rc6_data_symbols_length a c
        rw [h] at this
        simp at this)
    rwa [List.append_nil] at this
  have hT : ∀ c', c' ≤ 1 →
      merge_ok 1 c' (rc6_toggle_halves toggle ++ man_halves (rc6_data_symbols a c)) = true := by
    intro c' hc'
    have h0 := hdata 0 (by omega)
    have h1 := hdata 1 (by omega)
    have hc01 : c' = 0 ∨ c' = 1 := by omega
    rcases hc01 with rfl | rfl <;> cases toggle <;>
      simp [rc6_toggle_halves, merge_ok, h0, h1]
  have hm := merge_ok_man _ hT (rc6_mode_symbols mode) 1 0 (le_refl _) (by omega) (by omega)
    (fun _ => rfl)
  simp [merge_ok, hm]

theorem rc6_readPos (mode : Nat) (toggle : Bool) (a c : Nat) :
    ReadPos (received_durations_us (ir_rc6_send_items mode toggle a c))
      (received_durations_us (ir_rc6_send_items mode toggle a c)).length
      RC6_BIT_US RC6_BIT_MARGIN 2 0
      (strip_spaces (1 :: 0 :: (man_units (rc6_mode_symbols mode)
        ++ (rc6_toggle_units toggle ++ man_units (rc6_data_symbols a c))))) := by
  have := readPos_merge RC6_BIT_US RC6_BIT_MARGIN 352 rc6_unit_avail
    ((0, 1) :: (man_halves (rc6_mode_symbols mode)
      ++ (rc6_toggle_halves toggle ++ man_halves (rc6_data_symbols a c)))) 1 1 [2660, 880]
    (received_durations_us (ir_rc6_send_items mode toggle a c)) (rc6_merge_ok mode toggle a c)
    (le_refl _) (le_refl _) (by decide) (rc6_received mode toggle a c)
  have e : List.replicate 1 ((1 : Nat) : Int)
      ++ units_of ((0, 1) :: (man_halves (rc6_mode_symbols mode)
        ++ (rc6_toggle_halves toggle ++ man_halves (rc6_data_symbols a c))))
      = 1 :: 0 :: (man_units (rc6_mode_symbols mode)
        ++ (rc6_toggle_units toggle ++ man_units (rc6_data_symbols a c))) := by
    have ht : units_of (rc6_toggle_halves toggle) = rc6_toggle_units toggle := by
      cases toggle <;> decide
    rw [← List.singleton_append (l := man_halves _ ++ _), units_of_append, units_of_append,
      units_of_append, units_of_man_halves, units_of_man_halves, ht]
    rfl
  rw [e] at this
  exact this

theorem strip_spaces_length_ge (A B : List Int) :
    (strip_spaces B ≠ []) → (strip_spaces (A ++ B)).length = A.length + (strip_spaces B).length := by
  intro hB
  induction A with
  | nil => simp
  | cons x A ih =>
    have hne : strip_spaces (A ++ B) ≠ [] := by
      intro h
      rw [h] at ih
      simp only [List.length_nil] at ih
      have : (strip_spaces B).length = 0 := by omega
      exact hB (List.length_eq_zero.mp this)
    have e : strip_spaces (x :: (A ++ B)) = x :: strip_spaces (A ++ B) := by
      rw [strip_spaces, if_neg (fun h => hne h.2)]
    rw [List.cons_append, e, List.length_cons, ih, List.length_cons]
    omega

theorem rc6_decode_received (r0 : ir_learn_result_t) (mode : Nat) (toggle : Bool) (a c : Nat) :
    ∃ d : Nat,
    ir_rc6_decode
        (result_of_message r0 (received_durations_us (ir_rc6_send_items mode toggle a c)))
      = (true, { (rc6_fold (rc6_data_symbols a c)
                    (rc6_fold (rc6_mode_symbols mode)
                      (result_of_message r0
                        (received_durations_us (ir_rc6_send_items mode toggle a c))) 0 0).1
                    4 d).1 with
                  bits := 20,
                  value := (rc6_fold (rc6_data_symbols a c)
                    (rc6_fold (rc6_mode_symbols mode)
                      (result_of_message r0
                        (received_durations_us (ir_rc6_send_items mode toggle a c))) 0 0).1
                    4 d).2,
                  proto := IR_PROTO_RC6 }) := by
  have hrx := rc6_received mode toggle a c
  generalize hmsg : received_durations_us (ir_rc6_send_items mode toggle a c) = msg at hrx
  have hp := rc6_readPos mode toggle a c
  rw [hmsg] at hp
  generalize hr : result_of_message r0 msg = r
  have hm : r.message = msg := by rw [← hr]; rfl
  have hl : r.message_len = msg.length := by rw [← hr]; rfl
  -- length of the message
  have hlen := readPos_length hp
  have hdl := strip_spaces_man_units_length (rc6_data_symbols a c)
  rw [rc6_data_symbols_length] at hdl
  have hdne : strip_spaces (man_units (rc6_data_symbols a c)) ≠ [] := by
    intro h; rw [h] at hdl; simp at hdl
  have hsl := strip_spaces_length_ge
    (1 :: 0 :: (man_units (rc6_mode_symbols mode) ++ rc6_toggle_units toggle))
    (man_units (rc6_data_symbols a c)) hdne
  have hA : (1 :: 0 :: (man_units (rc6_mode_symbols mode) ++ rc6_toggle_units toggle)).length
      = 12 := by
    have ht : (rc6_toggle_units toggle).length = 4 := by cases toggle <;> rfl
    simp only [List.length_cons, List.length_append, man_units_length, ht]
    rfl
  rw [hA] at hsl
  simp only [List.cons_append, List.append_assoc] at hsl
  rw [hsl] at hlen
  -- the header
  have h0 : r.message.getD 0 0 = 2660 := by rw [hm, hrx]; rfl
  have h1 : r.message.getD 1 0 = 880 := by rw [hm, hrx]; rfl
  have e0 : ir_decode_check_range ((2660 : Nat) : Int) RC6_HDR_MARK RC6_BIT_MARGIN = true := by
    decide
  have e1 : ir_decode_check_range ((880 : Nat) : Int) RC6_HDR_SPACE RC6_BIT_MARGIN = true := by
    decide
  -- the start bit
  obtain ⟨o1, u1, hs1, hp1⟩ := readPos_read r hm hl hp
  obtain ⟨o2, u2, hs2, hp2⟩ := readPos_read r hm hl hp1
  -- the loop
  obtain ⟨f, hf⟩ : ∃ f, 3 * r.message_len + 1 = f + 1 + 16 + 1 + 3 :=
    ⟨3 * r.message_len + 1 - 21, by rw [hl]; omega⟩
  obtain ⟨o3, u3, hl3, hp3⟩ := rc6_loop_pairs msg msg.length _ (rc6_mode_symbols mode)
    (f + 1 + 16 + 1) r 0 o2 u2 0 hm hl hp2 (Or.inl (by simp [rc6_mode_symbols]))
  have hm3 := rc6_fold_message (rc6_mode_symbols mode) r 0 0
  obtain ⟨o4, u4, hl4, hp4⟩ := rc6_loop_toggle msg msg.length _ toggle (f + 1 + 16)
    (rc6_fold (rc6_mode_symbols mode) r 0 0).1 o3 u3 (rc6_fold (rc6_mode_symbols mode) r 0 0).2
    (by rw [hm3.1, hm]) (by rw [hm3.2, hl]) hp3
  rw [← List.append_nil (man_units (rc6_data_symbols a c))] at hp4
  obtain ⟨o5, u5, hl5, hp5⟩ := rc6_loop_pairs msg msg.length [] (rc6_data_symbols a c)
    (f + 1) (rc6_fold (rc6_mode_symbols mode) r 0 0).1 4 o4 u4
    (if toggle then ((rc6_fold (rc6_mode_symbols mode) r 0 0).2 ||| shl1 3) % 4294967296
      else (rc6_fold (rc6_mode_symbols mode) r 0 0).2)
    (by rw [hm3.1, hm]) (by rw [hm3.2, hl]) hp4 (Or.inr (le_refl _))
  have hm5 := rc6_fold_message (rc6_data_symbols a c)
    (rc6_fold (rc6_mode_symbols mode) r 0 0).1 4
    (if toggle then ((rc6_fold (rc6_mode_symbols mode) r 0 0).2 ||| shl1 3) % 4294967296
      else (rc6_fold (rc6_mode_symbols mode) r 0 0).2)
  have hl6 := rc6_loop_end msg msg.length f
    (rc6_fold (rc6_data_symbols a c) (rc6_fold (rc6_mode_symbols mode) r 0 0).1 4
      (if toggle then ((rc6_fold (rc6_mode_symbols mode) r 0 0).2 ||| shl1 3) % 4294967296
        else (rc6_fold (rc6_mode_symbols mode) r 0 0).2)).1
    (4 + (rc6_data_symbols a c).length) o5 u5
    (rc6_fold (rc6_data_symbols a c) (rc6_fold (rc6_mode_symbols mode) r 0 0).1 4
      (if toggle then ((rc6_fold (rc6_mode_symbols mode) r 0 0).2 ||| shl1 3) % 4294967296
        else (rc6_fold (rc6_mode_symbols mode) r 0 0).2)).2
    (by rw [hm5.2, hm3.2, hl]) hp5
  have hmode : (rc6_mode_symbols mode).length = 3 := rfl
  rw [hmode] at hl3
  rw [rc6_data_symbols_length] at hl5 hl6
  have hge : ¬ (r.message_len < RC6_BIT_LEN) := by
    rw [hl]; simp only [RC6_BIT_LEN]; omega
  refine ⟨if toggle then ((rc6_fold (rc6_mode_symbols mode) r 0 0).2 ||| shl1 3) % 4294967296
      else (rc6_fold (rc6_mode_symbols mode) r 0 0).2, ?_⟩
  simp only [ir_rc6_decode, hge, if_false, h0, h1, e0, e1, hs1, hs2, RC_MARK, RC_SPACE, ne_eq,
    not_true_eq_false, Bool.true_eq_false, hf]
  rw [hl3, Nat.zero_add, hl4, hl5, hl6]
  rfl

/-! ## The edge handler -/

theorem SameShape.rfl' (a : ir_learn_t) : SameShape a a :=
  ⟨rfl, rfl, rfl, rfl, rfl, rfl, rfl, rfl, rfl, rfl, rfl⟩

theorem SameShape.trans' {a b c : ir_learn_t} (h1 : SameShape a b) (h2 : SameShape b c) :
    SameShape a c := by
  obtain ⟨a1, a2, a3, a4, a5, a6, a7, a8, a9, a10, a11⟩ := h1
  obtain ⟨b1, b2, b3, b4, b5, b6, b7, b8, b9, b10, b11⟩ := h2
  exact ⟨a1.trans b1, a2.trans b2, a3.trans b3, a4.trans b4, a5.trans b5, a6.trans b6,
    a7.trans b7, a8.trans b8, a9.trans b9, a10.trans b10, a11.trans b11⟩

theorem buf_add_length (buf : List Nat) (i : Nat) (v : Int) :
    (buf_add buf i v).length = buf.length := by
  simp [buf_add]

theorem buf_store_length (m : Nat) (buf : List Nat) (i : Nat) (v : Int) :
    (buf_store m buf i v).length = buf.length := by
  simp [buf_store]

theorem slot_add_shape (o : isr_out) (v : Int) :
    SameShape (slot_add o v).s o.s ∧ (slot_add o v).gave = o.gave := by
  unfold slot_add
  split
  · exact ⟨⟨rfl, rfl, rfl, rfl, rfl, rfl, rfl, rfl, rfl, buf_add_length _ _ _, rfl⟩, rfl⟩
  · exact ⟨⟨rfl, rfl, rfl, rfl, rfl, rfl, rfl, rfl, rfl, rfl, buf_add_length _ _ _⟩, rfl⟩

theorem filter_flush_shape (o : isr_out) (n : Nat) :
    SameShape (filter_flush o n).s o.s ∧ (filter_flush o n).gave = o.gave := by
  unfold filter_flush
  generalize List.range n = l
  induction l generalizing o with
  | nil => exact ⟨SameShape.rfl' _, rfl⟩
  | cons i l ih =>
    rw [List.foldl_cons]
    have h1 := ih (slot_add o (o.s.carrier.filter.getD i 0 : Nat))
    have h2 := slot_add_shape o (o.s.carrier.filter.getD i 0 : Nat)
    exact ⟨h1.1.trans' h2.1, h1.2.trans h2.2⟩

theorem isr_exit_unfinished (o : isr_out) (h : o.s.finished = false) : isr_exit o = o := by
  unfold isr_exit
  simp [h]

/-- The handler on a finished session. -/
theorem isr_handle_finished (s : ir_learn_t) (cur_time gpio_level : Int)
    (h : s.finished = true) :
    ir_learn_isr_handle s cur_time gpio_level
      = { s := { s with pre_time := cur_time }, gave := false, msg_writes := [],
          repeat_writes := [] } := by
  unfold ir_learn_isr_handle
  simp [h]

/-- The handler on an unfinished session whose message buffer is full. -/
theorem isr_handle_overflow (s : ir_learn_t) (cur_time gpio_level : Int)
    (hp : s.pre_time ≠ 0) (hf : s.finished = false)
    (hl : s.msg.msg_len ≥ IR_LEARN_MSG_BUF_LEN) :
    ir_learn_isr_handle s cur_time gpio_level
      = { s := { s with pre_time := cur_time, state := IR_LEARN_OVERFLOW, finished := true,
                        sem := true },
          gave := true, msg_writes := [], repeat_writes := [] } := by
  unfold ir_learn_isr_handle
  simp [hp, hf, hl, isr_exit]

theorem isr_carrier_filter_lens (s : ir_learn_t) (period : Int) (hf : s.finished = false)
    (hr : s.msg.repeat_len ≤ 10) :
    (isr_carrier_filter s period).s.msg.msg_len ≤ s.msg.msg_len + 1
      ∧ (isr_carrier_filter s period).s.msg.repeat_len ≤ 10 := by
  unfold isr_carrier_filter
  split
  · rw [isr_exit_unfinished _ hf]
    exact ⟨Nat.le_succ _, hr⟩
  · split
    · -- commit
      simp only []
      split
      · rename_i h1
        have hs := slot_add_shape (filter_flush
          { s := { s with
                    carrier := { s.carrier with filter_cnt := (s.carrier.filter_cnt + 1) % 256 },
                    msg := { s.msg with msg_len := (s.msg.msg_len + 1) % 65536 } },
            gave := false, msg_writes := [], repeat_writes := [] } IR_FILTER_BUF_LEN) period
        have hfl := filter_flush_shape
          { s := { s with
                    carrier := { s.carrier with filter_cnt := (s.carrier.filter_cnt + 1) % 256 },
                    msg := { s.msg with msg_len := (s.msg.msg_len + 1) % 65536 } },
            gave := false, msg_writes := [], repeat_writes := [] } IR_FILTER_BUF_LEN
        have hsh := hs.1.trans' hfl.1
        rw [isr_exit_unfinished _ (by rw [hsh.2.2.2.2.2.1]; exact hf)]
        rw [hsh.2.1, hsh.2.2.1]
        exact ⟨Nat.mod_le _ _, hr⟩
      · split
        · rename_i h1 h2
          have hs := slot_add_shape (filter_flush
            { s := { s with
                      carrier := { s.carrier with filter_cnt := (s.carrier.filter_cnt + 1) % 256 },
                      msg := { s.msg with repeat_len := (s.msg.repeat_len + 1) % 65536 } },
              gave := false, msg_writes := [], repeat_writes := [] } IR_FILTER_BUF_LEN) period
          have hfl := filter_flush_shape
            { s := { s with
                      carrier := { s.carrier with filter_cnt := (s.carrier.filter_cnt + 1) % 256 },
                      msg := { s.msg with repeat_len := (s.msg.repeat_len + 1) % 65536 } },
              gave := false, msg_writes := [], repeat_writes := [] } IR_FILTER_BUF_LEN
          have hsh := hs.1.trans' hfl.1
          rw [isr_exit_unfinished _ (by rw [hsh.2.2.2.2.2.1]; exact hf)]
          rw [hsh.2.1, hsh.2.2.1]
          have := h2.2.2
          simp only [IR_LEARN_RPT_BUF_LEN] at this
          refine ⟨Nat.le_succ _, ?_⟩
          show (s.msg.repeat_len + 1) % 65536 ≤ 10
          omega
        · have hs := slot_add_shape (filter_flush
            { s := { s with
                      carrier := { s.carrier with filter_cnt := (s.carrier.filter_cnt + 1) % 256 } },
              gave := false, msg_writes := [], repeat_writes := [] } IR_FILTER_BUF_LEN) period
          have hfl := filter_flush_shape
            { s := { s with
                      carrier := { s.carrier with filter_cnt := (s.carrier.filter_cnt + 1) % 256 } },
              gave := false, msg_writes := [], repeat_writes := [] } IR_FILTER_BUF_LEN
          have hsh := hs.1.trans' hfl.1
          rw [isr_exit_unfinished _ (by rw [hsh.2.2.2.2.2.1]; exact hf)]
          rw [hsh.2.1, hsh.2.2.1]
          exact ⟨Nat.le_succ _, hr⟩
    · have hs := slot_add_shape
        { s := s, gave := false, msg_writes := [], repeat_writes := [] } period
      rw [isr_exit_unfinished _ (by rw [hs.1.2.2.2.2.2.1]; exact hf)]
      rw [hs.1.2.1, hs.1.2.2.1]
      exact ⟨Nat.le_succ _, hr⟩

theorem isr_exit_lens (o : isr_out) :
    (isr_exit o).s.msg.msg_len ≤ o.s.msg.msg_len + 1
      ∧ (isr_exit o).s.msg.repeat_len = o.s.msg.repeat_len := by
  unfold isr_exit
  split
  · split
    · exact ⟨Nat.mod_le _ _, rfl⟩
    · exact ⟨Nat.le_succ _, rfl⟩
  · exact ⟨Nat.le_succ _, rfl⟩

theorem msg_slot_add_shape (o : isr_out) (v : Int) :
    SameShape (msg_slot_add o v).s o.s ∧ (msg_slot_add o v).gave = o.gave :=
  ⟨⟨rfl, rfl, rfl, rfl, rfl, rfl, rfl, rfl, rfl, buf_add_length _ _ _, rfl⟩, rfl⟩

theorem repeat_slot_add_shape (o : isr_out) (v : Int) :
    SameShape (repeat_slot_add o v).s o.s ∧ (repeat_slot_add o v).gave = o.gave :=
  ⟨⟨rfl, rfl, rfl, rfl, rfl, rfl, rfl, rfl, rfl, rfl, buf_add_length _ _ _⟩, rfl⟩

theorem isr_carrier_lens (s : ir_learn_t) (period gpio_level : Int) (hf : s.finished = false)
    (hr : s.msg.repeat_len ≤ 10) :
    (isr_carrier s period gpio_level).s.msg.msg_len ≤ s.msg.msg_len + 1
      ∧ (isr_carrier s period gpio_level).s.msg.repeat_len ≤ 10 := by
  unfold isr_carrier
  split
  · split
    · exact isr_carrier_filter_lens _ period hf hr
    · exact isr_carrier_filter_lens _ period hf hr
  · split
    · have := isr_exit_lens
        ({ s := { s with state := IR_LEARN_FINISH, finished := true }, gave := false,
           msg_writes := [], repeat_writes := [] } : isr_out)
      exact ⟨this.1, by rw [this.2]; exact hr⟩
    · exact isr_carrier_filter_lens ({ s with state := IR_LEARN_CARRIER } : ir_learn_t)
        period hf hr

theorem isr_bit_start_lens (s : ir_learn_t) (hf : s.finished = false)
    (hr : s.msg.repeat_len ≤ 10) :
    (isr_bit_start s).s.msg.msg_len ≤ s.msg.msg_len + 1
      ∧ (isr_bit_start s).s.msg.repeat_len ≤ 10
      ∧ (isr_bit_start s).s.finished = false := by
  unfold isr_bit_start
  simp only []
  split
  · split
    · exact ⟨Nat.mod_le _ _, hr, hf⟩
    · split
      · rename_i h
        simp only [IR_LEARN_RPT_BUF_LEN] at h
        refine ⟨Nat.le_succ _, ?_, hf⟩
        show (s.msg.repeat_len + 1) % 65536 ≤ 10
        omega
      · exact ⟨Nat.le_succ _, hr, hf⟩
  · split
    · have hfl := filter_flush_shape
        ({ s := s, gave := false, msg_writes := [], repeat_writes := [] } : isr_out)
        s.carrier.filter_cnt
      rw [hfl.1.2.1, hfl.1.2.2.1, hfl.1.2.2.2.2.2.1]
      exact ⟨Nat.le_succ _, hr, hf⟩
    · exact ⟨Nat.le_succ _, hr, hf⟩

theorem isr_bit_lens (s : ir_learn_t) (period : Int) (hf : s.finished = false)
    (hr : s.msg.repeat_len ≤ 10) :
    (isr_bit s period).s.msg.msg_len ≤ s.msg.msg_len + 1
      ∧ (isr_bit s period).s.msg.repeat_len ≤ 10
      ∧ (isr_bit s period).s.finished = false := by
  obtain ⟨h1, h2, h3⟩ := isr_bit_start_lens s hf hr
  unfold isr_bit
  simp only []
  generalize isr_bit_start s = o1 at h1 h2 h3
  split
  · simp only [isr_exit, msg_slot_add, h3, Bool.false_eq_true, if_false]
    exact ⟨h1, h2, trivial⟩
  · split
    · simp only [isr_exit, repeat_slot_add, h3, Bool.false_eq_true, if_false]
      exact ⟨h1, h2, trivial⟩
    · simp only [isr_exit, h3, Bool.false_eq_true, if_false]
      exact ⟨h1, h2, trivial⟩

theorem isr_repeat_lens (s : ir_learn_t) (period : Int) (hr : s.msg.repeat_len ≤ 10) :
    (isr_repeat s period).s.msg.msg_len ≤ s.msg.msg_len + 1
      ∧ (isr_repeat s period).s.msg.repeat_len ≤ 10 := by
  unfold isr_repeat
  simp only []
  split
  · rename_i h
    have := isr_exit_lens
      ({ s := { s with msg := { s.msg with
                  type := IR_LEARN_RPT,
                  repeat_buf := buf_store 4294967296 s.msg.repeat_buf s.msg.repeat_len period,
                  repeat_len := (s.msg.repeat_len + 1) % 65536 } },
         gave := false, msg_writes := [], repeat_writes := [s.msg.repeat_len] } : isr_out)
    refine ⟨this.1, ?_⟩
    rw [this.2]
    show (s.msg.repeat_len + 1) % 65536 ≤ 10
    omega
  · split
    · rename_i h
      have h2 := h.2.2
      simp only [IR_LEARN_RPT_BUF_LEN] at h2
      have := isr_exit_lens
        ({ s := { s with
                  msg := { s.msg with
                    repeat_buf := buf_store 4294967296 s.msg.repeat_buf
                      ((s.msg.repeat_len + 1) % 65536) period,
                    repeat_len := ((s.msg.repeat_len + 1) % 65536 + 1) % 65536,
                    type := IR_LEARN_TYPE_MSG },
                  state := IR_LEARN_FINISH,
                  finished := true },
           gave := false, msg_writes := [],
           repeat_writes := [(s.msg.repeat_len + 1) % 65536] } : isr_out)
      refine ⟨this.1, ?_⟩
      rw [this.2]
      show ((s.msg.repeat_len + 1) % 65536 + 1) % 65536 ≤ 10
      omega
    · have := isr_exit_lens
        ({ s := s, gave := false, msg_writes := [], repeat_writes := [] } : isr_out)
      exact ⟨this.1, by rw [this.2]; exact hr⟩

theorem isr_oversized_lens (s : ir_learn_t) (hr : s.msg.repeat_len ≤ 10) :
    (isr_oversized s).s.msg.msg_len ≤ s.msg.msg_len + 1
      ∧ (isr_oversized s).s.msg.repeat_len ≤ 10 := by
  unfold isr_oversized
  simp only []
  split
  · have := isr_exit_lens
        ({ s := s, gave := false, msg_writes := [], repeat_writes := [] } : isr_out)
    exact ⟨this.1, by rw [this.2]; exact hr⟩
  · split
    · have := isr_exit_lens
        ({ s := { s with state := IR_LEARN_FINISH, finished := true }, gave := false,
           msg_writes := [], repeat_writes := [] } : isr_out)
      exact ⟨this.1, by rw [this.2]; exact hr⟩
    · have := isr_exit_lens
        ({ s := { s with state := IR_LEARN_IDLE }, gave := false,
           msg_writes := [], repeat_writes := [] } : isr_out)
      exact ⟨this.1, by rw [this.2]; exact hr⟩

theorem isr_handle_lens (s : ir_learn_t) (cur_time gpio_level : Int)
    (hm : s.msg.msg_len ≤ 250) (hr : s.msg.repeat_len ≤ 10) :
    (ir_learn_isr_handle s cur_time gpio_level).s.msg.msg_len ≤ 250
      ∧ (ir_learn_isr_handle s cur_time gpio_level).s.msg.repeat_len ≤ 10 := by
  unfold ir_learn_isr_handle
  simp only []
  split
  · exact ⟨hm, hr⟩
  · rename_i h0
    have hf : s.finished = false := by
      cases hfin : s.finished
      · rfl
      · exact absurd (Or.inr hfin) h0
    split
    · rename_i hov
      rw [isr_exit]
      simp only [if_true]
      exact ⟨hm, hr⟩
    · rename_i hov
      have hlt : s.msg.msg_len + 1 ≤ 250 := by
        simp only [IR_LEARN_MSG_BUF_LEN, ge_iff_le, not_le] at hov
        omega
      split
      · have := isr_carrier_lens ({ s with pre_time := cur_time } : ir_learn_t)
          (cur_time - s.pre_time) gpio_level hf hr
        exact ⟨le_trans this.1 hlt, this.2⟩
      · split
        · have := isr_bit_lens ({ s with pre_time := cur_time } : ir_learn_t)
            (cur_time - s.pre_time) hf hr
          exact ⟨le_trans this.1 hlt, this.2.1⟩
        · split
          · have := isr_repeat_lens ({ s with pre_time := cur_time } : ir_learn_t)
              (cur_time - s.pre_time) hr
            exact ⟨le_trans this.1 hlt, this.2⟩
          · split
            · have := isr_oversized_lens ({ s with pre_time := cur_time } : ir_learn_t) hr
              exact ⟨le_trans this.1 hlt, this.2⟩
            · have := isr_exit_lens
                ({ s := { s with pre_time := cur_time }, gave := false,
                   msg_writes := [], repeat_writes := [] } : isr_out)
              exact ⟨le_trans this.1 hlt, by rw [this.2]; exact hr⟩

theorem reachable_lens (s : ir_learn_t) (h : Reachable s) :
    s.msg.msg_len ≤ IR_LEARN_MSG_BUF_LEN ∧ s.msg.repeat_len ≤ IR_LEARN_RPT_BUF_LEN := by
  induction h with
  | start x hx =>
    unfold ir_learn_start at hx ⊢
    split at hx
    · cases hx
    · rename_i h
      simp only [h, if_false]
      exact ⟨Nat.zero_le _, Nat.zero_le _⟩
  | edge s t l _ ih => exact isr_handle_lens s t l ih.1 ih.2

theorem isr_carrier_filter_append (s : ir_learn_t) (period : Int)
    (hf : s.finished = false) (hc : s.carrier.filter_cnt < 10) :
    isr_carrier_filter s period
      = { s := { s with carrier := { s.carrier with
                  filter := buf_store 256 s.carrier.filter s.carrier.filter_cnt period,
                  filter_cnt := (s.carrier.filter_cnt + 1) % 256 } },
          gave := false, msg_writes := [], repeat_writes := [] } := by
  unfold isr_carrier_filter
  simp only [IR_FILTER_BUF_LEN, hc, if_true]
  exact isr_exit_unfinished _ hf

theorem isr_carrier_pair (s : ir_learn_t) (p l : Int)
    (hf : s.finished = false) (hfc : s.carrier.filter_cnt < 10)
    (hst : s.state ≠ IR_LEARN_IDLE) :
    (isr_carrier s p l).s.finished = false
      ∧ (isr_carrier s p l).s.pre_time = s.pre_time
      ∧ (isr_carrier s p l).s.msg = s.msg
      ∧ (isr_carrier s p l).s.carrier.filter_cnt = s.carrier.filter_cnt + 1
      ∧ (isr_carrier s p l).s.state ≠ IR_LEARN_IDLE
      ∧ (isr_carrier s p l).msg_writes = []
      ∧ (isr_carrier s p l).repeat_writes = []
      ∧ (isr_carrier s p l).gave = false := by
  have hcnt : (s.carrier.filter_cnt + 1) % 256 = s.carrier.filter_cnt + 1 := by omega
  have hne : ir_learn_state_t.IR_LEARN_CARRIER ≠ IR_LEARN_IDLE := by decide
  unfold isr_carrier
  split
  · split
    · rw [isr_carrier_filter_append]
      · exact ⟨hf, rfl, rfl, hcnt, hst, rfl, rfl, rfl⟩
      · exact hf
      · exact hfc
    · rw [isr_carrier_filter_append]
      · exact ⟨hf, rfl, rfl, hcnt, hst, rfl, rfl, rfl⟩
      · exact hf
      · exact hfc
  · rw [isr_carrier_filter_append]
    · exact ⟨hf, rfl, rfl, hcnt, hne, rfl, rfl, rfl⟩
    · exact hf
    · exact hfc

theorem isr_handle_pair_carrier (k : Nat) (s : ir_learn_t) (p l : Int)
    (h : PairReady k s) (hk : k < 250) (hp1 : 6 ≤ p) (hp2 : p ≤ 50) :
    (ir_learn_isr_handle s (s.pre_time + p) l).s.finished = false
      ∧ 0 < (ir_learn_isr_handle s (s.pre_time + p) l).s.pre_time
      ∧ (ir_learn_isr_handle s (s.pre_time + p) l).s.msg = s.msg
      ∧ (ir_learn_isr_handle s (s.pre_time + p) l).s.carrier.filter_cnt
          = s.carrier.filter_cnt + 1
      ∧ (ir_learn_isr_handle s (s.pre_time + p) l).s.state ≠ IR_LEARN_IDLE
      ∧ (ir_learn_isr_handle s (s.pre_time + p) l).msg_writes = []
      ∧ (ir_learn_isr_handle s (s.pre_time + p) l).repeat_writes = []
      ∧ (ir_learn_isr_handle s (s.pre_time + p) l).gave = false := by
  obtain ⟨hf, ht, hty, hlen, hfc, hst, hbuf⟩ := h
  have h0 : ¬ (s.pre_time = 0 ∨ s.finished = true) := by
    rw [hf]; intro h; rcases h with h | h
    · omega
    · cases h
  have hov : ¬ (s.msg.msg_len ≥ IR_LEARN_MSG_BUF_LEN) := by
    simp only [IR_LEARN_MSG_BUF_LEN, hlen]; omega
  have hper : s.pre_time + p - s.pre_time = p := by omega
  have hband : p ≥ (IR_LEARN_CARRIER_WIDTH_MIN : Int) ∧ p ≤ (IR_LEARN_CARRIER_WIDTH_MAX : Int) := by
    constructor
    · show ((6 : Nat) : Int) ≤ p
      omega
    · show p ≤ ((50 : Nat) : Int)
      omega
  have hc := isr_carrier_pair ({ s with pre_time := s.pre_time + p } : ir_learn_t) p l hf hfc hst
  unfold ir_learn_isr_handle
  simp only [h0, if_false, hov, hper, hband, and_self, if_true]
  obtain ⟨c1, c2, c3, c4, c5, c6, c7, c8⟩ := hc
  refine ⟨c1, ?_, c3, c4, c5, c6, c7, c8⟩
  rw [c2]
  show 0 < s.pre_time + p
  omega

theorem isr_handle_pair_bit (k : Nat) (s : ir_learn_t) (p l : Int)
    (hf : s.finished = false) (ht : 0 < s.pre_time) (hty : s.msg.type = IR_LEARN_TYPE_MSG)
    (hlen : s.msg.msg_len = k) (hfc : 0 < s.carrier.filter_cnt)
    (hst : s.state ≠ IR_LEARN_IDLE) (hbuf : s.msg.msg.length = 250)
    (hk : k < 250) (hp1 : 50 < p) (hp2 : p ≤ 20000) :
    PairReady (k + 1) (ir_learn_isr_handle s (s.pre_time + p) l).s
      ∧ (ir_learn_isr_handle s (s.pre_time + p) l).msg_writes = [k + 1]
      ∧ (ir_learn_isr_handle s (s.pre_time + p) l).repeat_writes = []
      ∧ (ir_learn_isr_handle s (s.pre_time + p) l).gave = false := by
  have h0 : ¬ (s.pre_time = 0 ∨ s.finished = true) := by
    rw [hf]; intro h; rcases h with h | h
    · omega
    · cases h
  have hov : ¬ (s.msg.msg_len ≥ IR_LEARN_MSG_BUF_LEN) := by
    simp only [IR_LEARN_MSG_BUF_LEN, hlen]; omega
  have hper : s.pre_time + p - s.pre_time = p := by omega
  have hb1 : ¬ (p ≥ (IR_LEARN_CARRIER_WIDTH_MIN : Int) ∧ p ≤ (IR_LEARN_CARRIER_WIDTH_MAX : Int)) := by
    intro h
    have : p ≤ ((50 : Nat) : Int) := h.2
    omega
  have hb2 : p > (IR_LEARN_CARRIER_WIDTH_MAX : Int) ∧ p ≤ (IR_LEARN_PERIOD_MAX : Int) := by
    constructor
    · show p > ((50 : Nat) : Int)
      omega
    · show p ≤ ((20000 : Nat) : Int)
      omega
  have hmod : (k + 1) % 65536 = k + 1 := by omega
  unfold ir_learn_isr_handle
  simp only [h0, if_false, hov, hper, hb1, hb2, and_self, if_true]
  have hstart : isr_bit_start { s with pre_time := s.pre_time + p }
      = { s := { s with pre_time := s.pre_time + p,
                        msg := { s.msg with msg_len := k + 1 } },
          gave := false, msg_writes := [], repeat_writes := [] } := by
    unfold isr_bit_start
    simp only [IR_LEARN_TYPE_MSG, gt_iff_lt, hfc, if_true, hty, hlen, hmod]
  unfold isr_bit
  simp only [hstart, hty, true_and, gt_iff_lt, Nat.succ_pos, if_true]
  rw [isr_exit_unfinished]
  · refine ⟨⟨hf, by show 0 < s.pre_time + p; omega, rfl, rfl, by show 0 < 10; omega, hst, ?_⟩,
      rfl, rfl, rfl⟩
    show (buf_add s.msg.msg (k + 1) p).length = 250
    rw [buf_add_length, hbuf]
  · exact hf

theorem feed_intervals_append (s : ir_learn_t) (a b : List (Int × Int)) :
    feed_intervals s (a ++ b) = feed_intervals (feed_intervals s a) b := by
  induction a generalizing s with
  | nil => rfl
  | cons x a ih => exact ih _

theorem feed_intervals_reachable (s : ir_learn_t) (ivs : List (Int × Int)) (h : Reachable s) :
    Reachable (feed_intervals s ivs) := by
  induction ivs generalizing s with
  | nil => exact h
  | cons x ivs ih => exact ih _ (Reachable.edge s _ _ h)

theorem feed_intervals_finished (s : ir_learn_t) (ivs : List (Int × Int))
    (h : s.finished = true) :
    (feed_intervals s ivs).state = s.state ∧ (feed_intervals s ivs).finished = true := by
  induction ivs generalizing s with
  | nil => exact ⟨rfl, h⟩
  | cons x ivs ih =>
    have e := isr_handle_finished s (s.pre_time + x.1) x.2 h
    have := ih (ir_learn_isr_handle s (s.pre_time + x.1) x.2).s (by rw [e]; exact h)
    show (feed_intervals (ir_learn_isr_handle s (s.pre_time + x.1) x.2).s ivs).state = s.state
      ∧ (feed_intervals (ir_learn_isr_handle s (s.pre_time + x.1) x.2).s ivs).finished = true
    exact ⟨this.1.trans (by rw [e]), this.2⟩

theorem isr_handle_pair (k : Nat) (s : ir_learn_t) (p : (Int × Int) × (Int × Int))
    (h : PairReady k s) (hk : k < 250) (hp : PairBands p) :
    PairReady (k + 1) (feed_intervals s [p.1, p.2]) := by
  obtain ⟨c1, c2, c3, c4, c5, _, _, _⟩ :=
    isr_handle_pair_carrier k s p.1.1 p.1.2 h hk hp.1 hp.2.1
  obtain ⟨_, _, hty, hlen, hfc, _, hbuf⟩ := h
  exact (isr_handle_pair_bit k (ir_learn_isr_handle s (s.pre_time + p.1.1) p.1.2).s p.2.1 p.2.2
    c1 c2 (by rw [c3]; exact hty) (by rw [c3]; exact hlen) (by rw [c4]; omega) c5
    (by rw [c3]; exact hbuf) hk hp.2.2.1 hp.2.2.2).1

theorem feed_pairs (ps : List ((Int × Int) × (Int × Int))) :
    ∀ (k : Nat) (s : ir_learn_t), PairReady k s → (∀ p ∈ ps, PairBands p) →
      k + ps.length ≤ 250 → PairReady (k + ps.length) (feed_intervals s (pair_intervals ps)) := by
  induction ps with
  | nil => intro k s h _ _; exact h
  | cons p ps ih =>
    intro k s h hb hk
    simp only [List.length_cons] at hk
    have h1 := isr_handle_pair k s p h (by omega) (hb p (List.mem_cons_self _ _))
    have h2 := ih (k + 1) _ h1 (fun q hq => hb q (List.mem_cons_of_mem _ hq)) (by omega)
    have e : pair_intervals (p :: ps) = [p.1, p.2] ++ pair_intervals ps := by
      simp [pair_intervals]
    rw [e, feed_intervals_append, List.length_cons,
      show k + (ps.length + 1) = k + 1 + ps.length by omega]
    exact h2

/-- A started session when the handler has seen its first edge. -/
theorem start_first_edge (x : ir_learn_t) (t0 l0 : Int)
    (hx : (ir_learn_start x).1 = ESP_OK) (ht : 0 < t0) :
    PairReady 0 (ir_learn_isr_handle (ir_learn_start x).2 t0 l0).s := by
  have hs : (ir_learn_start x).2 =
      { x with
        state := IR_LEARN_READY,
        finished := false,
        carrier := { low_cnt := 0, high_cnt := 0, filter_cnt := 0,
                     low := List.replicate IR_CARRIER_BUF_LEN 0,
                     high := List.replicate IR_CARRIER_BUF_LEN 0,
                     filter := List.replicate IR_FILTER_BUF_LEN 0 },
        msg := { type := 0, msg_len := 0, repeat_len := 0,
                 msg := List.replicate IR_LEARN_MSG_BUF_LEN 0,
                 repeat_buf := List.replicate IR_LEARN_RPT_BUF_LEN 0 } } := by
    unfold ir_learn_start at hx ⊢
    split at hx
    · cases hx
    · rename_i h
      simp only [h, if_false]
  rw [hs]
  have hne : ir_learn_state_t.IR_LEARN_READY ≠ IR_LEARN_IDLE := by decide
  have hlen : (List.replicate IR_LEARN_MSG_BUF_LEN (0 : Nat)).length = 250 := by
    rw [List.length_replicate]; rfl
  have h010 : (0 : Nat) < 10 := by omega
  unfold ir_learn_isr_handle
  simp only []
  split
  · exact ⟨rfl, ht, rfl, rfl, h010, hne, hlen⟩
  · split
    · rename_i h
      exact absurd h (by decide)
    split
    · obtain ⟨c1, c2, c3, c4, c5, _, _, _⟩ := isr_carrier_pair
        ({ x with
            state := IR_LEARN_READY,
            finished := false,
            carrier := { low_cnt := 0, high_cnt := 0, filter_cnt := 0,
                         low := List.replicate IR_CARRIER_BUF_LEN 0,
                         high := List.replicate IR_CARRIER_BUF_LEN 0,
                         filter := List.replicate IR_FILTER_BUF_LEN 0 },
            msg := { type := 0, msg_len := 0, repeat_len := 0,
                     msg := List.replicate IR_LEARN_MSG_BUF_LEN 0,
                     repeat_buf := List.replicate IR_LEARN_RPT_BUF_LEN 0 },
            pre_time := t0 } : ir_learn_t) (t0 - x.pre_time) l0 rfl h010 hne
      refine ⟨c1, by rw [c2]; exact ht, by rw [c3]; rfl, by rw [c3], ?_, c5,
        by rw [c3]; exact hlen⟩
      rw [c4]
      show 0 + 1 < 10
      omega
    · split
      · exact ⟨rfl, ht, rfl, rfl, h010, hne, hlen⟩
      · split
        · exact ⟨rfl, ht, rfl, rfl, h010, hne, hlen⟩
        · split
          · exact ⟨rfl, ht, rfl, rfl, h010, hne, hlen⟩
          · exact ⟨rfl, ht, rfl, rfl, h010, hne, hlen⟩

theorem isr_handle_bit_idle (s : ir_learn_t) (p l : Int) (h : IdleReady s)
    (hp1 : 50 < p) (hp2 : p ≤ 20000) :
    (ir_learn_isr_handle s (s.pre_time + p) l).s = { s with pre_time := s.pre_time + p } := by
  obtain ⟨hf, ht, hty, hlen, hfc⟩ := h
  have h0 : ¬ (s.pre_time = 0 ∨ s.finished = true) := by
    rw [hf]; intro h; rcases h with h | h
    · omega
    · cases h
  have hov : ¬ (s.msg.msg_len ≥ IR_LEARN_MSG_BUF_LEN) := by
    rw [hlen]; decide
  have hper : s.pre_time + p - s.pre_time = p := by omega
  have hb1 : ¬ (p ≥ (IR_LEARN_CARRIER_WIDTH_MIN : Int) ∧ p ≤ (IR_LEARN_CARRIER_WIDTH_MAX : Int)) := by
    intro h
    have : p ≤ ((50 : Nat) : Int) := h.2
    omega
  have hb2 : p > (IR_LEARN_CARRIER_WIDTH_MAX : Int) ∧ p ≤ (IR_LEARN_PERIOD_MAX : Int) := by
    constructor
    · show p > ((50 : Nat) : Int)
      omega
    · show p ≤ ((20000 : Nat) : Int)
      omega
  unfold ir_learn_isr_handle
  simp only [h0, if_false, hov, hper, hb1, hb2, and_self, if_true]
  have hstart : isr_bit_start { s with pre_time := s.pre_time + p }
      = { s := { s with pre_time := s.pre_time + p },
          gave := false, msg_writes := [], repeat_writes := [] } := by
    unfold isr_bit_start
    simp [hfc, hlen, IR_LEARN_TYPE_MSG]
  have hcar : ({ s.carrier with filter_cnt := 0 } : ir_learn_carrier_t) = s.carrier := by
    rw [← hfc]
  unfold isr_bit
  simp only [hstart, hty, hlen, hcar, gt_iff_lt, Nat.lt_irrefl, and_false, if_false,
    IR_LEARN_TYPE_MSG, IR_LEARN_RPT, Nat.zero_ne_one, false_and]
  rw [isr_exit_unfinished]
  exact hf

theorem feed_bit_idle (ivs : List (Int × Int)) :
    ∀ s : ir_learn_t, IdleReady s → (∀ iv ∈ ivs, 50 < iv.1 ∧ iv.1 ≤ 20000) →
      IdleReady (feed_intervals s ivs) ∧ (feed_intervals s ivs).state = s.state
        ∧ (feed_intervals s ivs).msg = s.msg := by
  induction ivs with
  | nil => intro s h _; exact ⟨h, rfl, rfl⟩
  | cons iv ivs ih =>
    intro s h hb
    have hiv := hb iv (List.mem_cons_self _ _)
    have e := isr_handle_bit_idle s iv.1 iv.2 h hiv.1 hiv.2
    obtain ⟨hf, ht, hty, hlen, hfc⟩ := h
    have h2 : IdleReady (ir_learn_isr_handle s (s.pre_time + iv.1) iv.2).s := by
      rw [e]
      exact ⟨hf, by show 0 < s.pre_time + iv.1; omega, hty, hlen, hfc⟩
    have := ih _ h2 (fun q hq => hb q (List.mem_cons_of_mem _ hq))
    show IdleReady (feed_intervals (ir_learn_isr_handle s (s.pre_time + iv.1) iv.2).s ivs)
      ∧ (feed_intervals (ir_learn_isr_handle s (s.pre_time + iv.1) iv.2).s ivs).state = s.state
      ∧ (feed_intervals (ir_learn_isr_handle s (s.pre_time + iv.1) iv.2).s ivs).msg = s.msg
    exact ⟨this.1, this.2.1.trans (by rw [e]), this.2.2.trans (by rw [e])⟩

theorem pair_intervals_append (a b : List ((Int × Int) × (Int × Int))) :
    pair_intervals (a ++ b) = pair_intervals a ++ pair_intervals b := by
  simp [pair_intervals]

/-- More than 250 (carrier-band, bit-band) interval pairs overflow a ready session. -/
theorem feed_pairs_overflow (s : ir_learn_t) (ps : List ((Int × Int) × (Int × Int)))
    (h : PairReady 0 s) (hb : ∀ p ∈ ps, PairBands p) (hn : 250 < ps.length) :
    (feed_intervals s (pair_intervals ps)).state = IR_LEARN_OVERFLOW
      ∧ (feed_intervals s (pair_intervals ps)).finished = true := by
  have hsplit : ps = ps.take 250 ++ ps.drop 250 := (List.take_append_drop 250 ps).symm
  have htake : (ps.take 250).length = 250 := by
    rw [List.length_take]; omega
  have h250 := feed_pairs (ps.take 250) 0 s h
    (fun p hp => hb p (List.mem_of_mem_take hp)) (by rw [htake])
  rw [htake, Nat.zero_add] at h250
  obtain ⟨q, rest, hdrop⟩ : ∃ q rest, ps.drop 250 = q :: rest := by
    cases hd : ps.drop 250 with
    | nil =>
      have : (ps.drop 250).length = 0 := by rw [hd]; rfl
      rw [List.length_drop] at this
      omega
    | cons q rest => exact ⟨q, rest, rfl⟩
  rw [hsplit, pair_intervals_append, feed_intervals_append, hdrop]
  generalize feed_intervals s (pair_intervals (List.take 250 ps)) = s250 at h250
  obtain ⟨hf, ht, hty, hlen, hfc, hst, hbuf⟩ := h250
  have e := isr_handle_overflow s250 (s250.pre_time + q.1.1) q.1.2 (by omega) hf
    (by rw [hlen]; decide)
  have hfin := feed_intervals_finished (ir_learn_isr_handle s250 (s250.pre_time + q.1.1) q.1.2).s
    (q.2 :: pair_intervals rest) (by rw [e])
  have e2 : pair_intervals (q :: rest) = q.1 :: q.2 :: pair_intervals rest := by
    simp [pair_intervals]
  rw [e2]
  show (feed_intervals (ir_learn_isr_handle s250 (s250.pre_time + q.1.1) q.1.2).s
      (q.2 :: pair_intervals rest)).state = IR_LEARN_OVERFLOW
    ∧ (feed_intervals (ir_learn_isr_handle s250 (s250.pre_time + q.1.1) q.1.2).s
      (q.2 :: pair_intervals rest)).finished = true
  exact ⟨hfin.1.trans (by rw [e]), hfin.2⟩

/-! ## The decoders as functions of the message -/

theorem get_level_congr (r r' : ir_learn_result_t) (hm : r.message = r'.message)
    (hl : r.message_len = r'.message_len) (off used : Nat) (bu bm : Int) :
    ir_decode_get_level r off used bu bm = ir_decode_get_level r' off used bu bm := by
  unfold ir_decode_get_level
  rw [hm, hl]

theorem ir_nec_decode_false (r : ir_learn_result_t) (h : (ir_nec_decode r).1 = false) :
    (ir_nec_decode r).2 = r := by
  unfold ir_nec_decode at h ⊢
  cases hd : nec_decode_loop r NEC_DATA_BITS 0 2 0 with
  | none =>
    simp only [hd]
    split_ifs <;> rfl
  | some d =>
    simp only [hd] at h ⊢
    split_ifs at h ⊢ <;> rfl

theorem ir_nec_decode_proto (r : ir_learn_result_t) (h : (ir_nec_decode r).1 = true) :
    (ir_nec_decode r).2.proto = IR_PROTO_NEC := by
  unfold ir_nec_decode at h ⊢
  cases hd : nec_decode_loop r NEC_DATA_BITS 0 2 0 with
  | none =>
    simp only [hd] at h
    split_ifs at h
  | some d =>
    simp only [hd] at h ⊢
    split_ifs at h ⊢
    rfl

theorem rc5_loop_props (fuel : Nat) :
    ∀ (r : ir_learn_result_t) (bits off used data : Nat) (out : Bool × ir_learn_result_t),
      rc5_decode_loop fuel r bits off used data = some out →
      out.2.message = r.message ∧ out.2.message_len = r.message_len
        ∧ (out.1 = true → out.2.proto = IR_PROTO_RC5) := by
  induction fuel with
  | zero => intro r bits off used data out h; cases h
  | succ f ih =>
    intro r bits off used data out h
    rw [rc5_decode_loop] at h
    simp only [] at h
    split_ifs at h <;>
      first
      | (have hq := ih _ _ _ _ _ _ h; exact hq)
      | (cases h; exact ⟨rfl, rfl, fun _ => rfl⟩)
      | (cases h; exact ⟨rfl, rfl, fun h => absurd h Bool.false_ne_true⟩)

theorem ir_rc5_decode_props (r : ir_learn_result_t) :
    (ir_rc5_decode r).2.message = r.message ∧ (ir_rc5_decode r).2.message_len = r.message_len
      ∧ ((ir_rc5_decode r).1 = true → (ir_rc5_decode r).2.proto = IR_PROTO_RC5) := by
  unfold ir_rc5_decode
  simp only []
  split_ifs <;> try exact ⟨rfl, rfl, fun h => h.elim⟩
  split
  · rename_i out hout
    exact rc5_loop_props _ _ _ _ _ _ _ hout
  · exact ⟨rfl, rfl, fun h => absurd h Bool.false_ne_true⟩

theorem rc6_loop_props (fuel : Nat) :
    ∀ (r : ir_learn_result_t) (bits off used data : Nat) (out : Bool × ir_learn_result_t),
      rc6_decode_loop fuel r bits off used data = some out →
      (out.1 = true → out.2.proto = IR_PROTO_RC6) := by
  induction fuel with
  | zero => intro r bits off used data out h; cases h
  | succ f ih =>
    intro r bits off used data out h
    rw [rc6_decode_loop] at h
    simp only [] at h
    split_ifs at h <;>
      first
      | exact ih _ _ _ _ _ _ h
      | (cases h; intro _; rfl)
      | (cases h; exact fun h => absurd h Bool.false_ne_true)

theorem ir_rc6_decode_proto (r : ir_learn_result_t) (h : (ir_rc6_decode r).1 = true) :
    (ir_rc6_decode r).2.proto = IR_PROTO_RC6 := by
  unfold ir_rc6_decode at h ⊢
  simp only [] at h ⊢
  split_ifs at h ⊢
  split
  · rename_i out hout
    rw [hout] at h
    exact rc6_loop_props _ _ _ _ _ _ _ hout h
  · rename_i hout
    rw [hout] at h
    exact absurd h Bool.false_ne_true

theorem rc6_loop_verdict (fuel : Nat) :
    ∀ (r r' : ir_learn_result_t) (bits off used data : Nat),
      r.message = r'.message → r.message_len = r'.message_len →
      Option.map Prod.fst (rc6_decode_loop fuel r bits off used data)
        = Option.map Prod.fst (rc6_decode_loop fuel r' bits off used data) := by
  induction fuel with
  | zero => intro r r' bits off used data _ _; rfl
  | succ f ih =>
    intro r r' bits off used data hm hl
    rw [rc6_decode_loop, rc6_decode_loop]
    simp only [get_level_congr r r' hm hl, hl]
    split_ifs <;>
      first | rfl | exact ih _ _ _ _ _ _ hm hl | exact ih _ _ _ _ _ _ hm rfl

theorem ir_rc6_decode_verdict (r r' : ir_learn_result_t) (hm : r.message = r'.message)
    (hl : r.message_len = r'.message_len) : (ir_rc6_decode r).1 = (ir_rc6_decode r').1 := by
  have hloop := fun off used =>
    rc6_loop_verdict (3 * r'.message_len + 1) r r' 0 off used 0 hm hl
  unfold ir_rc6_decode
  simp only [get_level_congr r r' hm hl, hl, hm]
  split_ifs <;> try rfl
  have := hloop
    (ir_decode_get_level r' (ir_decode_get_level r' 2 0 RC6_BIT_US RC6_BIT_MARGIN).2.1
      (ir_decode_get_level r' 2 0 RC6_BIT_US RC6_BIT_MARGIN).2.2 RC6_BIT_US
      RC6_BIT_MARGIN).2.1
    (ir_decode_get_level r' (ir_decode_get_level r' 2 0 RC6_BIT_US RC6_BIT_MARGIN).2.1
      (ir_decode_get_level r' 2 0 RC6_BIT_US RC6_BIT_MARGIN).2.2 RC6_BIT_US
      RC6_BIT_MARGIN).2.2
  split
  · rename_i out hout
    split
    · rename_i out2 hout2
      rw [hout, hout2] at this
      simpa using this
    · rename_i hout2
      rw [hout, hout2] at this
      cases this
  · rename_i hout
    split
    · rename_i out2 hout2
      rw [hout, hout2] at this
      cases this
    · rfl

/-! ## The decoder loops return -/

theorem get_level_weak (r : ir_learn_result_t) (off used : Nat) (bu bm : Int) (hu : used ≤ 2) :
    (ir_decode_get_level r off used bu bm).2.2 ≤ 2
    ∧ 3 * (r.message_len - (ir_decode_get_level r off used bu bm).2.1)
        - (ir_decode_get_level r off used bu bm).2.2
      ≤ 3 * (r.message_len - off) - used := by
  unfold ir_decode_get_level
  simp only []
  split_ifs <;> simp only [] <;> omega

theorem get_level_progress (r : ir_learn_result_t) (off used : Nat) (bu bm : Int)
    (hu : used ≤ 2) (ho : off < r.message_len)
    (hl : (ir_decode_get_level r off used bu bm).1 ≠ -1) :
    3 * (r.message_len - (ir_decode_get_level r off used bu bm).2.1)
        - (ir_decode_get_level r off used bu bm).2.2
      < 3 * (r.message_len - off) - used := by
  unfold ir_decode_get_level at hl ⊢
  simp only [] at hl ⊢
  split_ifs at hl ⊢ <;> simp only [] at hl ⊢ <;> omega

theorem rc5_loop_fuel (fuel : Nat) :
    ∀ (r : ir_learn_result_t) (bits off used data : Nat), used ≤ 2 →
      3 * (r.message_len - off) - used < fuel →
      rc5_decode_loop fuel r bits off used data ≠ none := by
  induction fuel with
  | zero => intro r bits off used data _ h; omega
  | succ f ih =>
    intro r bits off used data hu hf
    rw [rc5_decode_loop]
    simp only []
    have wa := get_level_weak r off used RC5_BIT_US RC5_BIT_MARGIN hu
    have wb := get_level_weak r (ir_decode_get_level r off used RC5_BIT_US RC5_BIT_MARGIN).2.1
      (ir_decode_get_level r off used RC5_BIT_US RC5_BIT_MARGIN).2.2 RC5_BIT_US RC5_BIT_MARGIN
      wa.1
    split_ifs with h1 h2 h3 h4 h5
    all_goals first
      | exact Option.some_ne_none _
      | (apply ih _ _ _ _ _ wb.1
         have pa := get_level_progress r off used RC5_BIT_US RC5_BIT_MARGIN hu h1
           (by first
                | (rw [h2.1]; decide)
                | (rw [h5.1]; decide))
         show 3 * (r.message_len - _) - _ < f
         omega)

theorem rc6_loop_fuel (fuel : Nat) :
    ∀ (r : ir_learn_result_t) (bits off used data : Nat), used ≤ 2 →
      3 * (r.message_len - off) - used < fuel →
      rc6_decode_loop fuel r bits off used data ≠ none := by
  induction fuel with
  | zero => intro r bits off used data _ h; omega
  | succ f ih =>
    intro r bits off used data hu hf
    rw [rc6_decode_loop]
    simp only []
    have wa := get_level_weak r off used RC6_BIT_US RC6_BIT_MARGIN hu
    generalize ha : ir_decode_get_level r off used RC6_BIT_US RC6_BIT_MARGIN = a at wa
    have wa2 := get_level_weak r a.2.1 a.2.2 RC6_BIT_US RC6_BIT_MARGIN wa.1
    by_cases hb3 : bits = 3
    · simp only [hb3, if_true, true_and]
      generalize ha2 : ir_decode_get_level r a.2.1 a.2.2 RC6_BIT_US RC6_BIT_MARGIN = a2 at wa2
      have wb := get_level_weak r a2.2.1 a2.2.2 RC6_BIT_US RC6_BIT_MARGIN wa2.1
      generalize hb : ir_decode_get_level r a2.2.1 a2.2.2 RC6_BIT_US RC6_BIT_MARGIN = b at wb
      have wb2 := get_level_weak r b.2.1 b.2.2 RC6_BIT_US RC6_BIT_MARGIN wb.1
      generalize hb2 : ir_decode_get_level r b.2.1 b.2.2 RC6_BIT_US RC6_BIT_MARGIN = b2 at wb2
      split_ifs with h1
      all_goals first
        | exact Option.some_ne_none _
        | (apply ih _ _ _ _ _ wb2.1
           have pa := get_level_progress r off used RC6_BIT_US RC6_BIT_MARGIN hu h1
             (by rw [ha]; simp only [RC_MARK, RC_SPACE] at *; omega)
           rw [ha] at pa
           show 3 * (r.message_len - _) - _ < f
           omega)
    · simp only [hb3, if_false, false_and]
      have wb := get_level_weak r a.2.1 a.2.2 RC6_BIT_US RC6_BIT_MARGIN wa.1
      generalize hb : ir_decode_get_level r a.2.1 a.2.2 RC6_BIT_US RC6_BIT_MARGIN = b at wb
      split_ifs with h1
      all_goals first
        | exact Option.some_ne_none _
        | (apply ih _ _ _ _ _ wb.1
           have pa := get_level_progress r off used RC6_BIT_US RC6_BIT_MARGIN hu h1
             (by rw [ha]; simp only [RC_MARK, RC_SPACE] at *; omega)
           rw [ha] at pa
           show 3 * (r.message_len - _) - _ < f
           omega)

theorem rc5_loop_returns (r : ir_learn_result_t) (bits off used data : Nat) (hu : used ≤ 2) :
    rc5_decode_loop (3 * r.message_len + 1) r bits off used data ≠ none :=
  rc5_loop_fuel _ r bits off used data hu (by omega)

theorem rc6_loop_returns (r : ir_learn_result_t) (bits off used data : Nat) (hu : used ≤ 2) :
    rc6_decode_loop (3 * r.message_len + 1) r bits off used data ≠ none :=
  rc6_loop_fuel _ r bits off used data hu (by omega)

/-- The fuel that `ir_rc5_decode` passes to its loop is never used up: the `none` branch of
its `match` is not taken. -/
theorem rc5_decode_returns (r : ir_learn_result_t) :
    rc5_decode_loop (3 * r.message_len + 1) r 0
      (ir_decode_get_level r
        (ir_decode_get_level r (ir_decode_get_level r 0 0 RC5_BIT_US RC5_BIT_MARGIN).2.1
          (ir_decode_get_level r 0 0 RC5_BIT_US RC5_BIT_MARGIN).2.2
          RC5_BIT_US RC5_BIT_MARGIN).2.1
        (ir_decode_get_level r (ir_decode_get_level r 0 0 RC5_BIT_US RC5_BIT_MARGIN).2.1
          (ir_decode_get_level r 0 0 RC5_BIT_US RC5_BIT_MARGIN).2.2
          RC5_BIT_US RC5_BIT_MARGIN).2.2
        RC5_BIT_US RC5_BIT_MARGIN).2.1
      (ir_decode_get_level r
        (ir_decode_get_level r (ir_decode_get_level r 0 0 RC5_BIT_US RC5_BIT_MARGIN).2.1
          (ir_decode_get_level r 0 0 RC5_BIT_US RC5_BIT_MARGIN).2.2
          RC5_BIT_US RC5_BIT_MARGIN).2.1
        (ir_decode_get_level r (ir_decode_get_level r 0 0 RC5_BIT_US RC5_BIT_MARGIN).2.1
          (ir_decode_get_level r 0 0 RC5_BIT_US RC5_BIT_MARGIN).2.2
          RC5_BIT_US RC5_BIT_MARGIN).2.2
        RC5_BIT_US RC5_BIT_MARGIN).2.2 0 ≠ none := by
  apply rc5_loop_returns
  apply (get_level_weak r _ _ _ _ ?_).1
  apply (get_level_weak r _ _ _ _ ?_).1
  exact (get_level_weak r 0 0 _ _ (by decide)).1

/-- The fuel that `ir_rc6_decode` passes to its loop is never used up: the `none` branch of
its `match` is not taken. -/
theorem rc6_decode_returns (r : ir_learn_result_t) :
    rc6_decode_loop (3 * r.message_len + 1) r 0
      (ir_decode_get_level r (ir_decode_get_level r 2 0 RC6_BIT_US RC6_BIT_MARGIN).2.1
        (ir_decode_get_level r 2 0 RC6_BIT_US RC6_BIT_MARGIN).2.2
        RC6_BIT_US RC6_BIT_MARGIN).2.1
      (ir_decode_get_level r (ir_decode_get_level r 2 0 RC6_BIT_US RC6_BIT_MARGIN).2.1
        (ir_decode_get_level r 2 0 RC6_BIT_US RC6_BIT_MARGIN).2.2
        RC6_BIT_US RC6_BIT_MARGIN).2.2 0 ≠ none := by
  apply rc6_loop_returns
  apply (get_level_weak r _ _ _ _ ?_).1
  exact (get_level_weak r 2 0 _ _ (by decide)).1

theorem wrap32_of_range (x : Int) (h1 : -2147483648 ≤ x) (h2 : x ≤ 2147483647) :
    wrap32 x = x := by
  unfold wrap32
  omega

theorem pair_bands_replicate (n : Nat) :
    ∀ p ∈ List.replicate n (((10 : Int), (1 : Int)), ((500 : Int), (1 : Int))), PairBands p := by
  intro p hp
  rw [List.eq_of_mem_replicate hp]
  exact ⟨by decide, by decide, by decide, by decide⟩

theorem pair_proto (n : Bool × ir_learn_result_t) (x : esp_err_t × ir_learn_result_t)
    (p : ir_proto_t) (e : x = (ESP_OK, n.2)) (hp : n.2.proto = p) :
    x = (ESP_OK, n.2) ∧ x.2.proto = p := by
  subst e
  exact ⟨rfl, hp⟩

/-! ## Forward-only state -/

theorem isr_exit_phase (o : isr_out) :
    (isr_exit o).s.state = o.s.state ∧ (isr_exit o).s.finished = o.s.finished := by
  unfold isr_exit
  split
  · split
    · exact ⟨rfl, rfl⟩
    · exact ⟨rfl, rfl⟩
  · exact ⟨rfl, rfl⟩

theorem isr_carrier_filter_phase (s : ir_learn_t) (period : Int) :
    (isr_carrier_filter s period).s.state = s.state
      ∧ (isr_carrier_filter s period).s.finished = s.finished := by
  unfold isr_carrier_filter
  simp only []
  split
  · exact isr_exit_phase _
  · have he := isr_exit_phase
    split
    · split
      all_goals
        rw [(he _).1, (he _).2, (slot_add_shape _ _).1.2.2.2.2.1,
          (slot_add_shape _ _).1.2.2.2.2.2.1, (filter_flush_shape _ _).1.2.2.2.2.1,
          (filter_flush_shape _ _).1.2.2.2.2.2.1]
        first
          | exact ⟨rfl, rfl⟩
          | (split <;> exact ⟨rfl, rfl⟩)
    · rw [(he _).1, (he _).2, (slot_add_shape _ _).1.2.2.2.2.1,
          (slot_add_shape _ _).1.2.2.2.2.2.1]
      exact ⟨rfl, rfl⟩

theorem isr_bit_start_phase (s : ir_learn_t) :
    (isr_bit_start s).s.state = s.state ∧ (isr_bit_start s).s.finished = s.finished := by
  unfold isr_bit_start
  simp only []
  split_ifs
  all_goals first
    | exact ⟨rfl, rfl⟩
    | exact ⟨(filter_flush_shape _ _).1.2.2.2.2.1, (filter_flush_shape _ _).1.2.2.2.2.2.1⟩

theorem isr_bit_phase (s : ir_learn_t) (period : Int) :
    (isr_bit s period).s.state = s.state ∧ (isr_bit s period).s.finished = s.finished := by
  unfold isr_bit
  simp only []
  have hb := isr_bit_start_phase s
  split_ifs
  all_goals
    rw [(isr_exit_phase _).1, (isr_exit_phase _).2]
    exact hb

theorem isr_repeat_phase (s : ir_learn_t) (period : Int) :
    ((isr_repeat s period).s.state = s.state ∧ (isr_repeat s period).s.finished = s.finished)
    ∨ ((isr_repeat s period).s.finished = true
        ∧ (isr_repeat s period).s.state = IR_LEARN_FINISH) := by
  unfold isr_repeat
  simp only []
  split_ifs
  · left; rw [(isr_exit_phase _).1, (isr_exit_phase _).2]; exact ⟨rfl, rfl⟩
  · right; rw [(isr_exit_phase _).1, (isr_exit_phase _).2]; exact ⟨rfl, rfl⟩
  · left; rw [(isr_exit_phase _).1, (isr_exit_phase _).2]; exact ⟨rfl, rfl⟩

theorem isr_oversized_phase (s : ir_learn_t) :
    ((isr_oversized s).s.state = s.state ∧ (isr_oversized s).s.finished = s.finished)
    ∨ ((isr_oversized s).s.finished = true ∧ (isr_oversized s).s.state = IR_LEARN_FINISH)
    ∨ ((isr_oversized s).s.finished = s.finished
        ∧ (isr_oversized s).s.state = IR_LEARN_IDLE
        ∧ s.state ≠ IR_LEARN_CARRIER) := by
  unfold isr_oversized
  simp only []
  split_ifs with h1 h2
  · left; rw [(isr_exit_phase _).1, (isr_exit_phase _).2]; exact ⟨rfl, rfl⟩
  · right; left; rw [(isr_exit_phase _).1, (isr_exit_phase _).2]; exact ⟨rfl, rfl⟩
  · right; right; rw [(isr_exit_phase _).1, (isr_exit_phase _).2]; exact ⟨rfl, rfl, h2⟩

theorem isr_carrier_phase (s : ir_learn_t) (period gpio_level : Int) :
    ((isr_carrier s period gpio_level).s.state = s.state
      ∧ (isr_carrier s period gpio_level).s.finished = s.finished)
    ∨ ((isr_carrier s period gpio_level).s.finished = true
        ∧ (isr_carrier s period gpio_level).s.state = IR_LEARN_FINISH)
    ∨ ((isr_carrier s period gpio_level).s.finished = s.finished
        ∧ (isr_carrier s period gpio_level).s.state = IR_LEARN_CARRIER
        ∧ s.state ≠ IR_LEARN_IDLE) := by
  unfold isr_carrier
  split_ifs with h1 h2 h3
  · left; exact isr_carrier_filter_phase _ _
  · left; exact isr_carrier_filter_phase _ _
  · right; left; rw [(isr_exit_phase _).1, (isr_exit_phase _).2]; exact ⟨rfl, rfl⟩
  · right; right
    have h := isr_carrier_filter_phase ({ s with state := IR_LEARN_CARRIER } : ir_learn_t) period
    exact ⟨h.2, h.1, h3⟩

theorem isr_handle_step (s : ir_learn_t) (cur_time gpio_level : Int) :
    StateStep s (ir_learn_isr_handle s cur_time gpio_level).s := by
  unfold ir_learn_isr_handle
  simp only []
  split_ifs with h1 h2 h3 h4 h5 h6
  · exact Or.inl ⟨rfl, rfl⟩
  all_goals
    have hf : s.finished = false := by
      cases hc : s.finished
      · rfl
      · exact absurd (Or.inr hc) h1
  · right
    rw [(isr_exit_phase _).1, (isr_exit_phase _).2]
    exact ⟨hf, Or.inl ⟨rfl, Or.inr rfl⟩⟩
  · rcases isr_carrier_phase ({ s with pre_time := cur_time } : ir_learn_t)
      (cur_time - s.pre_time) gpio_level with h | h | h
    · exact Or.inl h
    · exact Or.inr ⟨hf, Or.inl ⟨h.1, Or.inl h.2⟩⟩
    · exact Or.inr ⟨hf, Or.inr (Or.inl ⟨h.1.trans hf, h.2.1, h.2.2⟩)⟩
  · exact Or.inl (isr_bit_phase ({ s with pre_time := cur_time } : ir_learn_t) _)
  · rcases isr_repeat_phase ({ s with pre_time := cur_time } : ir_learn_t)
      (cur_time - s.pre_time) with h | h
    · exact Or.inl h
    · exact Or.inr ⟨hf, Or.inl ⟨h.1, Or.inl h.2⟩⟩
  · rcases isr_oversized_phase ({ s with pre_time := cur_time } : ir_learn_t) with h | h | h
    · exact Or.inl h
    · exact Or.inr ⟨hf, Or.inl ⟨h.1, Or.inl h.2⟩⟩
    · exact Or.inr ⟨hf, Or.inr (Or.inr ⟨h.1.trans hf, h.2.1, h.2.2⟩)⟩
  · left
    rw [(isr_exit_phase _).1, (isr_exit_phase _).2]
    exact ⟨rfl, rfl⟩

theorem state_step_forward (a b : ir_learn_t) (hi : CaptureInv a) (h : StateStep a b) :
    (state_value a.state ≤ state_value b.state ∨ b.state = IR_LEARN_IDLE) ∧ CaptureInv b := by
  rcases h with ⟨h1, h2⟩ | ⟨hf, h | h | h⟩
  · refine ⟨Or.inl (by rw [h1]), ?_⟩
    intro hb
    rw [h1]
    exact hi (h2 ▸ hb)
  · refine ⟨Or.inl ?_, fun hb => absurd (h.1 ▸ hb) (by decide)⟩
    rcases hi hf with e | e | e <;> rcases h.2 with e2 | e2 <;> rw [e, e2] <;> decide
  · refine ⟨Or.inl ?_, fun _ => Or.inr (Or.inl h.2.1)⟩
    rcases hi hf with e | e | e
    · rw [e, h.2.1]; decide
    · rw [e, h.2.1]
    · exact absurd e h.2.2
  · exact ⟨Or.inr h.2.1, fun _ => Or.inr (Or.inr h.2.1)⟩

theorem get_result_phase (s : ir_learn_t) (r : ir_learn_result_t) (d : Bool) :
    (ir_learn_get_result s r d).2.1.finished = s.finished
    ∧ ((ir_learn_get_result s r d).2.1.state = s.state
      ∨ (s.state = IR_LEARN_FINISH
          ∧ ((ir_learn_get_result s r d).2.1.state = IR_LEARN_SUCCESS
            ∨ (ir_learn_get_result s r d).2.1.state = IR_LEARN_CHECK_FAIL))) := by
  unfold ir_learn_get_result
  simp only []
  split_ifs with h1
  all_goals first
    | exact ⟨rfl, Or.inl rfl⟩
    | exact ⟨rfl, Or.inr ⟨not_not.mp h1, Or.inr rfl⟩⟩
    | exact ⟨rfl, Or.inr ⟨not_not.mp h1, Or.inl rfl⟩⟩

theorem start_capture_inv (x : ir_learn_t) (h : (ir_learn_start x).1 = ESP_OK) :
    CaptureInv (ir_learn_start x).2 := by
  unfold ir_learn_start at h ⊢
  split_ifs at h ⊢ with h1
  intro _
  exact Or.inl rfl

theorem api_reachable_inv (s : ir_learn_t) (h : ApiReachable s) : CaptureInv s := by
  induction h with
  | start x hx => exact start_capture_inv x hx
  | edge s t l _ ih => exact (state_step_forward _ _ ih (isr_handle_step s t l)).2
  | get_result s r d _ ih =>
    intro hf
    obtain ⟨h1, h2⟩ := get_result_phase s r d
    rw [h1] at hf
    rcases h2 with h2 | h2
    · rw [h2]; exact ih hf
    · rcases ih hf with e | e | e <;> rw [e] at h2 <;> exact absurd h2.1 (by decide)
  | stop s _ _ => intro hf; cases hf

/-- The handler moves `state` forward in the enumeration, or to `IR_LEARN_IDLE`. -/
theorem isr_handle_forward (s : ir_learn_t) (h : ApiReachable s) (cur_time gpio_level : Int) :
    state_value s.state ≤ state_value (ir_learn_isr_handle s cur_time gpio_level).s.state
      ∨ (ir_learn_isr_handle s cur_time gpio_level).s.state = IR_LEARN_IDLE :=
  (state_step_forward _ _ (api_reachable_inv s h) (isr_handle_step s cur_time gpio_level)).1

theorem get_result_forward (s : ir_learn_t) (r : ir_learn_result_t) (d : Bool) :
    state_value s.state ≤ state_value (ir_learn_get_result s r d).2.1.state := by
  rcases (get_result_phase s r d).2 with h | ⟨h1, h2 | h2⟩
  · rw [h]
  · rw [h1, h2]; decide
  · rw [h1, h2]; decide

theorem ir_learn_start_cases (s : ir_learn_t) :
    ((ir_learn_start s).1 = ESP_OK ∧ (ir_learn_start s).2.state = IR_LEARN_READY
      ∧ (s.state = IR_LEARN_IDLE ∨ s.finished = true))
    ∨ (ir_learn_start s = (ESP_ERR_INVALID_STATE, s)
      ∧ s.state ≠ IR_LEARN_IDLE ∧ s.finished = false) := by
  unfold ir_learn_start
  split_ifs with h
  · right
    refine ⟨rfl, h.1, ?_⟩
    cases hf : s.finished
    · rfl
    · exact absurd hf h.2
  · left
    refine ⟨rfl, rfl, ?_⟩
    by_cases hs : s.state = IR_LEARN_IDLE
    · exact Or.inl hs
    · right
      by_contra hf
      exact h ⟨hs, hf⟩

theorem reachable_api (s : ir_learn_t) (h : Reachable s) : ApiReachable s := by
  induction h with
  | start x hx => exact ApiReachable.start x hx
  | edge s t l _ ih => exact ApiReachable.edge s t l ih

theorem short_carrier_session_reachable : Reachable short_carrier_session :=
  feed_intervals_reachable _ _ (Reachable.edge _ _ _ (Reachable.start (ir_learn_create 17) rfl))

/-! ## Result assembly -/

theorem period_check_fails_iff (buf : List Nat) (n hi : Nat) :
    period_check_fails buf n hi = true
      ↔ ∃ i, i < n ∧ (buf.getD i 0 < IR_LEARN_PERIOD_MIN ∨ buf.getD i 0 > hi) := by
  unfold period_check_fails
  simp only [List.any_eq_true, List.mem_range, Bool.or_eq_true, decide_eq_true_eq]

theorem period_check_passes_iff (buf : List Nat) (n hi : Nat) :
    period_check_fails buf n hi = false
      ↔ ∀ i, i < n → IR_LEARN_PERIOD_MIN ≤ buf.getD i 0 ∧ buf.getD i 0 ≤ hi := by
  rw [← Bool.not_eq_true, period_check_fails_iff]
  constructor
  · intro h i hi'
    by_contra hc
    exact h ⟨i, hi', by omega⟩
  · rintro h ⟨i, hi', hc⟩
    have := h i hi'
    omega

theorem get_result_invalid_state (s : ir_learn_t) (r : ir_learn_result_t) (d : Bool)
    (h : s.state ≠ IR_LEARN_FINISH) :
    ir_learn_get_result s r d = (ESP_ERR_INVALID_STATE, s, r) := by
  unfold ir_learn_get_result
  rw [if_pos h]

theorem get_result_invalid_arg (s : ir_learn_t) (r : ir_learn_result_t) (d : Bool)
    (h : s.state = IR_LEARN_FINISH) (hl : r.message_len < s.msg.msg_len) :
    ir_learn_get_result s r d = (ESP_ERR_INVALID_ARG, s, r) := by
  unfold ir_learn_get_result
  rw [if_neg (not_not.mpr h), if_pos hl]

theorem get_result_msg_fail (s : ir_learn_t) (r : ir_learn_result_t) (d : Bool)
    (h : s.state = IR_LEARN_FINISH) (hl : s.msg.msg_len ≤ r.message_len)
    (hm : period_check_fails s.msg.msg s.msg.msg_len IR_LEARN_PERIOD_MAX = true) :
    ir_learn_get_result s r d = (ESP_FAIL, { s with state := IR_LEARN_CHECK_FAIL }, r) := by
  unfold ir_learn_get_result
  rw [if_neg (not_not.mpr h), if_neg (Nat.not_lt.mpr hl), if_pos hm]

theorem get_result_repeat_fail (s : ir_learn_t) (r : ir_learn_result_t) (d : Bool)
    (h : s.state = IR_LEARN_FINISH) (hl : s.msg.msg_len ≤ r.message_len)
    (hm : period_check_fails s.msg.msg s.msg.msg_len IR_LEARN_PERIOD_MAX = false)
    (hr : s.msg.repeat_len < IR_LEARN_RPT_BUF_LEN - 1)
    (hp : period_check_fails s.msg.repeat_buf s.msg.repeat_len IR_LEARN_REPEAT_MAX = true) :
    ir_learn_get_result s r d = (ESP_FAIL, { s with state := IR_LEARN_CHECK_FAIL }, r) := by
  unfold ir_learn_get_result
  rw [if_neg (not_not.mpr h), if_neg (Nat.not_lt.mpr hl), if_neg (by rw [hm]; decide)]
  simp only []
  rw [if_pos ⟨Nat.not_le.mpr hr, hp⟩]

theorem get_result_ok (s : ir_learn_t) (r : ir_learn_result_t) (d : Bool)
    (h : s.state = IR_LEARN_FINISH) (hl : s.msg.msg_len ≤ r.message_len)
    (hm : period_check_fails s.msg.msg s.msg.msg_len IR_LEARN_PERIOD_MAX = false)
    (hr : s.msg.repeat_len ≥ IR_LEARN_RPT_BUF_LEN - 1
      ∨ period_check_fails s.msg.repeat_buf s.msg.repeat_len IR_LEARN_REPEAT_MAX = false) :
    ir_learn_get_result s r d
      = (ESP_OK, result_session s,
         { r with
           freq := 1000 * 1000 /
             ((((trimmed_high_sum s : Nat) : Rat) + ((trimmed_low_sum s : Nat) : Rat))
               / (((((min s.carrier.high_cnt s.carrier.low_cnt : Nat) : Int)
                   - ((IR_CARRIER_FILTER_LEN * 2 : Nat) : Int) : Int)) : Rat)),
           duty := ((trimmed_high_sum s : Nat) : Rat)
             / (((trimmed_high_sum s : Nat) : Rat) + ((trimmed_low_sum s : Nat) : Rat)),
           repeat_len := (result_session s).msg.repeat_len,
           message_len := s.msg.msg_len,
           repeat_buf := copy_u16 r.repeat_buf s.msg.repeat_buf (result_session s).msg.repeat_len,
           message := copy_u16 r.message s.msg.msg s.msg.msg_len }) := by
  unfold ir_learn_get_result
  rw [if_neg (not_not.mpr h), if_neg (Nat.not_lt.mpr hl), if_neg (by rw [hm]; decide)]
  simp only []
  rw [if_neg (by
    rintro ⟨h1, h2⟩
    rcases hr with hr | hr
    · exact h1 hr
    · rw [hr] at h2; exact absurd h2 (by decide))]
  unfold result_session trimmed_high_sum trimmed_low_sum
  by_cases h9 : s.msg.repeat_len ≥ IR_LEARN_RPT_BUF_LEN - 1
  · simp only [h9, if_true]
  · simp only [h9, if_false]

theorem get_result_checked (s : ir_learn_t) (r : ir_learn_result_t) (d : Bool)
    (h : s.state = IR_LEARN_FINISH) (hl : s.msg.msg_len ≤ r.message_len) :
    (DurationOutOfRange s
      ∧ ir_learn_get_result s r d = (ESP_FAIL, { s with state := IR_LEARN_CHECK_FAIL }, r))
    ∨ (¬ DurationOutOfRange s ∧ (ir_learn_get_result s r d).1 = ESP_OK
      ∧ (ir_learn_get_result s r d).2.1 = result_session s) := by
  cases hm : period_check_fails s.msg.msg s.msg.msg_len IR_LEARN_PERIOD_MAX
  · by_cases h9 : s.msg.repeat_len ≥ IR_LEARN_RPT_BUF_LEN - 1
    · right
      have hm2 := (period_check_passes_iff _ _ _).mp hm
      refine ⟨?_, ?_⟩
      · rintro (⟨i, hi, hc⟩ | ⟨hlt, _⟩)
        · have := hm2 i hi
          simp only [IR_LEARN_PERIOD_MIN, IR_LEARN_PERIOD_MAX] at this
          omega
        · simp only [IR_LEARN_RPT_BUF_LEN] at h9
          omega
      · rw [get_result_ok s r d h hl hm (Or.inl h9)]
        exact ⟨rfl, rfl⟩
    · cases hp : period_check_fails s.msg.repeat_buf s.msg.repeat_len IR_LEARN_REPEAT_MAX
      · right
        have hm2 := (period_check_passes_iff _ _ _).mp hm
        have hp2 := (period_check_passes_iff _ _ _).mp hp
        refine ⟨?_, ?_⟩
        · rintro (⟨i, hi, hc⟩ | ⟨_, i, hi, hc⟩)
          · have := hm2 i hi
            simp only [IR_LEARN_PERIOD_MIN, IR_LEARN_PERIOD_MAX] at this
            omega
          · have := hp2 i hi
            simp only [IR_LEARN_PERIOD_MIN, IR_LEARN_REPEAT_MAX] at this
            omega
        · rw [get_result_ok s r d h hl hm (Or.inr hp)]
          exact ⟨rfl, rfl⟩
      · left
        obtain ⟨i, hi, hc⟩ := (period_check_fails_iff _ _ _).mp hp
        refine ⟨Or.inr ⟨?_, i, hi, ?_⟩,
          get_result_repeat_fail s r d h hl hm (Nat.not_le.mp h9) hp⟩
        · simp only [IR_LEARN_RPT_BUF_LEN] at h9
          omega
        · simp only [IR_LEARN_PERIOD_MIN, IR_LEARN_REPEAT_MAX] at hc
          omega
  · left
    obtain ⟨i, hi, hc⟩ := (period_check_fails_iff _ _ _).mp hm
    refine ⟨Or.inl ⟨i, hi, ?_⟩, get_result_msg_fail s r d h hl hm⟩
    simp only [IR_LEARN_PERIOD_MIN, IR_LEARN_PERIOD_MAX] at hc
    omega

/-! ## The concrete captures -/

set_option maxRecDepth 100000 in
theorem short_carrier_session_fields :
    short_carrier_session.state = IR_LEARN_FINISH
    ∧ short_carrier_session.finished = true
    ∧ short_carrier_session.msg.msg_len = 3
    ∧ short_carrier_session.msg.repeat_len = 3
    ∧ short_carrier_session.msg.msg.take 3 = [550, 500, 550]
    ∧ short_carrier_session.msg.repeat_buf.take 3 = [30000, 250, 30000]
    ∧ short_carrier_session.carrier.high_cnt = 15
    ∧ short_carrier_session.carrier.low_cnt = 12 := by
  decide

set_option maxRecDepth 100000 in
theorem short_carrier_session_checks :
    period_check_fails short_carrier_session.msg.msg short_carrier_session.msg.msg_len
        IR_LEARN_PERIOD_MAX = false
    ∧ period_check_fails short_carrier_session.msg.repeat_buf
        short_carrier_session.msg.repeat_len IR_LEARN_REPEAT_MAX = false
    ∧ trimmed_high_sum short_carrier_session = 0
    ∧ trimmed_low_sum short_carrier_session = 0 := by
  decide

set_option maxRecDepth 100000 in
theorem bad_duration_session_fields :
    bad_duration_session.state = IR_LEARN_FINISH
    ∧ bad_duration_session.msg.msg_len = 3
    ∧ bad_duration_session.msg.msg.getD 0 0 = 0
    ∧ period_check_fails bad_duration_session.msg.msg bad_duration_session.msg.msg_len
        IR_LEARN_PERIOD_MAX = true := by
  decide

set_option maxRecDepth 100000 in
theorem short_carrier_session_restart :
    (ir_learn_start short_carrier_session).1 = ESP_OK
    ∧ (ir_learn_start short_carrier_session).2.state = IR_LEARN_READY := by
  decide

set_option maxRecDepth 100000 in
theorem long_repeat_session_fields :
    long_repeat_session.state = IR_LEARN_FINISH
    ∧ long_repeat_session.msg.msg_len = 3
    ∧ long_repeat_session.msg.repeat_len = 9
    ∧ period_check_fails long_repeat_session.msg.msg long_repeat_session.msg.msg_len
        IR_LEARN_PERIOD_MAX = false
    ∧ period_check_fails long_repeat_session.msg.repeat_buf
        long_repeat_session.msg.repeat_len IR_LEARN_REPEAT_MAX = true := by
  decide

/-! ## Carrier statistics -/

theorem get_result_ok_inv (s : ir_learn_t) (r : ir_learn_result_t) (d : Bool)
    (h : (ir_learn_get_result s r d).1 = ESP_OK) :
    s.state = IR_LEARN_FINISH ∧ s.msg.msg_len ≤ r.message_len
    ∧ period_check_fails s.msg.msg s.msg.msg_len IR_LEARN_PERIOD_MAX = false
    ∧ (s.msg.repeat_len ≥ IR_LEARN_RPT_BUF_LEN - 1
      ∨ period_check_fails s.msg.repeat_buf s.msg.repeat_len IR_LEARN_REPEAT_MAX = false) := by
  unfold ir_learn_get_result at h
  simp only [] at h
  split_ifs at h with h1 h2 h3 h4
  all_goals
    refine ⟨not_not.mp h1, Nat.not_lt.mp h2, by simpa using h3, ?_⟩
    by_cases h9 : s.msg.repeat_len ≥ IR_LEARN_RPT_BUF_LEN - 1
    · exact Or.inl h9
    · right
      cases hp : period_check_fails s.msg.repeat_buf s.msg.repeat_len IR_LEARN_REPEAT_MAX
      · rfl
      · exact absurd ⟨h9, hp⟩ h4

theorem array_sort_step_pos (a : List Nat) (n i j : Nat) (hi : i < n) (hj : j < n)
    (h : ∀ k, k < n → 0 < a.getD k 0) : ∀ k, k < n → 0 < (array_sort_step a i j).getD k 0 := by
  intro k hk
  unfold array_sort_step
  split_ifs with hc
  · simp only [List.getD_eq_getElem?_getD, List.getElem?_set]
    have hlen : n ≤ a.length := by
      by_contra hn
      have := h a.length (by omega)
      simp at this
    have hki := h i hi
    have hkj := h j hj
    have hkk := h k hk
    simp only [List.getD_eq_getElem?_getD] at hki hkj hkk
    split_ifs <;> first | omega | (simp_all <;> omega)
  · exact h k hk

theorem array_sort_inner_pos (a : List Nat) (n i : Nat) (hi : i < n)
    (h : ∀ k, k < n → 0 < a.getD k 0) :
    ∀ k, k < n → 0 < (array_sort_inner a n i).getD k 0 := by
  unfold array_sort_inner
  have hmem : ∀ j ∈ List.range' (i + 1) (n - (i + 1)), j < n := by
    intro j hj
    rw [List.mem_range'_1] at hj
    omega
  generalize List.range' (i + 1) (n - (i + 1)) = l at hmem
  induction l generalizing a with
  | nil => exact h
  | cons j l ih =>
    rw [List.foldl_cons]
    exact ih _ (array_sort_step_pos a n i j hi (hmem j (List.mem_cons_self _ _)) h)
      (fun x hx => hmem x (List.mem_cons_of_mem _ hx))

theorem array_sort_pos (a : List Nat) (n : Nat) (h : ∀ k, k < n → 0 < a.getD k 0) :
    ∀ k, k < n → 0 < (array_sort a n).getD k 0 := by
  unfold array_sort
  have hmem : ∀ i ∈ List.range n, i < n := fun i hi => List.mem_range.mp hi
  generalize List.range n = l at hmem
  induction l generalizing a with
  | nil => exact h
  | cons i l ih =>
    rw [List.foldl_cons]
    exact ih _ (array_sort_inner_pos a n i (hmem i (List.mem_cons_self _ _)) h)
      (fun x hx => hmem x (List.mem_cons_of_mem _ hx))

theorem foldl_sum_ge (f : Nat → Nat) (l : List Nat) (acc : Nat) :
    acc ≤ l.foldl (fun sum i => sum + f i) acc := by
  induction l generalizing acc with
  | nil => exact Nat.le_refl _
  | cons i l ih =>
    rw [List.foldl_cons]
    exact Nat.le_trans (Nat.le_add_right _ _) (ih _)

theorem carrier_sum_pos (buf : List Nat) (n : Nat) (hn : 21 ≤ n)
    (h : ∀ k, k < n → 0 < buf.getD k 0) : 0 < carrier_sum buf n := by
  unfold carrier_sum
  have e : n - 2 * IR_CARRIER_FILTER_LEN = (n - 21) + 1 := by
    simp only [IR_CARRIER_FILTER_LEN]; omega
  rw [e, List.range'_succ, List.foldl_cons]
  have h10 := h IR_CARRIER_FILTER_LEN (by simp only [IR_CARRIER_FILTER_LEN]; omega)
  exact Nat.lt_of_lt_of_le (by omega) (foldl_sum_ge _ _ _)

/-- With at least 21 samples on each side, all of them positive, a successful
`ir_learn_get_result` reports `duty = H / (H + L)` and `freq = 1000000 * (n - 20) / (H + L)`
with `0 < duty < 1` and `freq > 0`. -/
theorem get_result_carrier_bounds (s : ir_learn_t) (r : ir_learn_result_t) (d : Bool)
    (hok : (ir_learn_get_result s r d).1 = ESP_OK)
    (hn : 21 ≤ min s.carrier.high_cnt s.carrier.low_cnt)
    (hh : ∀ k, k < s.carrier.high_cnt → 0 < s.carrier.high.getD k 0)
    (hl : ∀ k, k < s.carrier.low_cnt → 0 < s.carrier.low.getD k 0) :
    (ir_learn_get_result s r d).2.2.duty
        = (trimmed_high_sum s : Rat) / ((trimmed_high_sum s : Rat) + (trimmed_low_sum s : Rat))
    ∧ (ir_learn_get_result s r d).2.2.freq
        = 1000000 * ((min s.carrier.high_cnt s.carrier.low_cnt : Nat) - 20 : Rat)
            / ((trimmed_high_sum s : Rat) + (trimmed_low_sum s : Rat))
    ∧ 0 < (ir_learn_get_result s r d).2.2.duty
    ∧ (ir_learn_get_result s r d).2.2.duty < 1
    ∧ 0 < (ir_learn_get_result s r d).2.2.freq := by
  obtain ⟨h1, h2, h3, h4⟩ := get_result_ok_inv s r d hok
  rw [get_result_ok s r d h1 h2 h3 h4]
  have hH : 0 < trimmed_high_sum s :=
    carrier_sum_pos _ _ hn (fun k hk => array_sort_pos _ _ hh k
      (Nat.lt_of_lt_of_le hk (Nat.min_le_left _ _)))
  have hL : 0 < trimmed_low_sum s :=
    carrier_sum_pos _ _ hn (fun k hk => array_sort_pos _ _ hl k
      (Nat.lt_of_lt_of_le hk (Nat.min_le_right _ _)))
  have hHq : (0 : Rat) < (trimmed_high_sum s : Rat) := by exact_mod_cast hH
  have hLq : (0 : Rat) < (trimmed_low_sum s : Rat) := by exact_mod_cast hL
  have hnq : (0 : Rat) < ((min s.carrier.high_cnt s.carrier.low_cnt : Nat) : Rat) - 20 := by
    have : (21 : Rat) ≤ ((min s.carrier.high_cnt s.carrier.low_cnt : Nat) : Rat) := by
      exact_mod_cast hn
    linarith
  have hcast : (((((min s.carrier.high_cnt s.carrier.low_cnt : Nat) : Int)
      - ((IR_CARRIER_FILTER_LEN * 2 : Nat) : Int) : Int)) : Rat)
      = ((min s.carrier.high_cnt s.carrier.low_cnt : Nat) : Rat) - 20 := by
    simp only [IR_CARRIER_FILTER_LEN]
    push_cast
    norm_num
  simp only [hcast]
  have hsum : (0 : Rat) < (trimmed_high_sum s : Rat) + (trimmed_low_sum s : Rat) := by linarith
  refine ⟨trivial, ?_, div_pos hHq hsum, ?_, ?_⟩
  · rw [div_div_eq_mul_div]
    norm_num
  · rw [div_lt_one hsum]; linarith
  · exact div_pos (by norm_num) (div_pos hsum hnq)

/-! ## What `ir_nec_decode` rejects -/

theorem nec_decode_loop_some (r : ir_learn_result_t) :
    ∀ (n i off data d : Nat), nec_decode_loop r n i off data = some d →
      ∀ k, k < n →
        ir_decode_check_range (r.message.getD (off + 2 * k) 0 : Nat) NEC_BIT_HIGH_US
            NEC_BIT_MARGIN = true
        ∧ (ir_decode_check_range (r.message.getD (off + 2 * k + 1) 0 : Nat) NEC_ONE_LOW_US
              NEC_BIT_MARGIN = true
          ∨ ir_decode_check_range (r.message.getD (off + 2 * k + 1) 0 : Nat) NEC_ZERO_LOW_US
              NEC_BIT_MARGIN = true) := by
  intro n
  induction n with
  | zero => intro i off data d _ k hk; omega
  | succ n ih =>
    intro i off data d h k hk
    rw [nec_decode_loop] at h
    simp only [] at h
    split_ifs at h with h1 h2 h3
    · cases k with
      | zero =>
        refine ⟨by simpa using h1, Or.inl h2⟩
      | succ k =>
        have := ih _ _ _ _ h k (by omega)
        rw [show off + 2 * (k + 1) = off + 1 + 1 + 2 * k by omega]
        exact this
    · cases k with
      | zero =>
        refine ⟨by simpa using h1, Or.inr h3⟩
      | succ k =>
        have := ih _ _ _ _ h k (by omega)
        rw [show off + 2 * (k + 1) = off + 1 + 1 + 2 * k by omega]
        exact this

/-- What an accepted message satisfies, so what `ir_nec_decode` rejects: it returns false
when `message_len < 64`, when `message[0]` is not within 100 of 9000, when `message[1]` is not
within 100 of 4500, when some data mark `message[2 + 2 i]` is not within 100 of 560, and when
some data space `message[3 + 2 i]` is within 100 of neither 1690 nor 560 (`i < 32`). -/
theorem ir_nec_decode_accepts (r : ir_learn_result_t) (h : (ir_nec_decode r).1 = true) :
    64 ≤ r.message_len
    ∧ ir_decode_check_range (r.message.getD 0 0 : Nat) 9000 100 = true
    ∧ ir_decode_check_range (r.message.getD 1 0 : Nat) 4500 100 = true
    ∧ ∀ i, i < 32 →
        ir_decode_check_range (r.message.getD (2 + 2 * i) 0 : Nat) 560 100 = true
        ∧ (ir_decode_check_range (r.message.getD (3 + 2 * i) 0 : Nat) 1690 100 = true
          ∨ ir_decode_check_range (r.message.getD (3 + 2 * i) 0 : Nat) 560 100 = true) := by
  unfold ir_nec_decode at h
  split_ifs at h with h1 h2 h3
  cases hd : nec_decode_loop r NEC_DATA_BITS 0 2 0 with
  | none => rw [hd] at h; cases h
  | some d =>
    refine ⟨?_, by simpa using h1, by simpa using h3, fun i hi => ?_⟩
    · simp only [NEC_DATA_BITS] at h2; omega
    · have := nec_decode_loop_some r _ _ _ _ _ hd i hi
      rw [show 3 + 2 * i = 2 + 2 * i + 1 by omega]
      exact this

set_option maxRecDepth 100000 in
theorem nec_short_len_result_decode :
    nec_short_len_result.message_len = 64
    ∧ nec_short_len_result.message.length = 68
    ∧ (ir_nec_decode nec_short_len_result).1 = true
    ∧ (ir_nec_decode nec_short_len_result).2.addr = 0x33
    ∧ (ir_nec_decode nec_short_len_result).2.cmd = 0x9b := by
  decide

/-! ## The loop of `ir_rc6_decode`, pass by pass -/

theorem rc6_loop_pass (fuel : Nat) (st : rc6_loop_state) (h : st.offset < st.result.message_len) :
    rc6_decode_loop (fuel + 1) st.result st.bits st.offset st.used st.data
      = match rc6_pass st with
        | none => some (false, st.result)
        | some st2 => rc6_decode_loop fuel st2.result st2.bits st2.offset st2.used st2.data := by
  rw [rc6_decode_loop, if_pos h]
  unfold rc6_pass
  simp only []
  split_ifs <;> rfl

theorem rc6_pass_props (st st2 : rc6_loop_state) (h : rc6_pass st = some st2) :
    st2.bits = st.bits + 1 ∧ st2.result.message = st.result.message
      ∧ st2.result.message_len = st.result.message_len := by
  unfold rc6_pass at h
  simp only [] at h
  split_ifs at h
  all_goals
    cases h
    exact ⟨rfl, rfl, rfl⟩

theorem rc6_run_props (k : Nat) :
    ∀ (st st2 : rc6_loop_state), rc6_run k st = some st2 →
      st2.bits = st.bits + k ∧ st2.result.message = st.result.message
        ∧ st2.result.message_len = st.result.message_len := by
  induction k with
  | zero =>
    intro st st2 h
    rw [rc6_run] at h
    cases h
    exact ⟨rfl, rfl, rfl⟩
  | succ k ih =>
    intro st st2 h
    rw [rc6_run] at h
    split_ifs at h with h1
    cases hp : rc6_pass st with
    | none => rw [hp] at h; cases h
    | some st1 =>
      rw [hp] at h
      have h1 := rc6_pass_props st st1 hp
      have h2 := ih st1 st2 h
      exact ⟨by rw [h2.1, h1.1]; omega, h2.2.1.trans h1.2.1, h2.2.2.trans h1.2.2⟩

theorem rc6_loop_run (k : Nat) :
    ∀ (fuel : Nat) (st st2 : rc6_loop_state), rc6_run k st = some st2 →
      rc6_decode_loop (fuel + k) st.result st.bits st.offset st.used st.data
        = rc6_decode_loop fuel st2.result st2.bits st2.offset st2.used st2.data := by
  induction k with
  | zero =>
    intro fuel st st2 h
    rw [rc6_run] at h
    cases h
    rfl
  | succ k ih =>
    intro fuel st st2 h
    rw [rc6_run] at h
    split_ifs at h with h1
    cases hp : rc6_pass st with
    | none => rw [hp] at h; cases h
    | some st1 =>
      rw [hp] at h
      rw [show fuel + (k + 1) = (fuel + k) + 1 by omega, rc6_loop_pass _ st h1, hp]
      exact ih fuel st1 st2 h

theorem rc6_pass_mismatch (st : rc6_loop_state) (hb : st.bits = 3)
    (hm : rc6_toggle_mismatch st) : rc6_pass st = none := by
  unfold rc6_toggle_mismatch at hm
  unfold rc6_pass
  simp only [hb, if_true, true_and]
  rcases hm with hm | hm
  · rw [if_pos hm]
  · split_ifs <;> rfl

theorem ir_rc6_decode_entry (r : ir_learn_result_t) (st : rc6_loop_state)
    (h : rc6_entry r = some st) :
    st.result = r ∧ st.bits = 0 ∧ st.data = 0 ∧ RC6_BIT_LEN ≤ r.message_len
    ∧ ir_rc6_decode r
        = (rc6_decode_loop (3 * r.message_len + 1) r 0 st.offset st.used 0).getD (false, r) := by
  unfold rc6_entry at h
  simp only [] at h
  split_ifs at h with h1 h2 h3 h4 h5
  cases h
  refine ⟨rfl, rfl, rfl, Nat.not_lt.mp h1, ?_⟩
  unfold ir_rc6_decode
  simp only []
  simp only [if_neg h1, if_neg h2, if_neg h3, if_neg h4, if_neg h5]
  cases rc6_decode_loop (3 * r.message_len + 1) r 0
    (ir_decode_get_level r (ir_decode_get_level r 2 0 RC6_BIT_US RC6_BIT_MARGIN).2.1
      (ir_decode_get_level r 2 0 RC6_BIT_US RC6_BIT_MARGIN).2.2 RC6_BIT_US RC6_BIT_MARGIN).2.1
    (ir_decode_get_level r (ir_decode_get_level r 2 0 RC6_BIT_US RC6_BIT_MARGIN).2.1
      (ir_decode_get_level r 2 0 RC6_BIT_US RC6_BIT_MARGIN).2.2 RC6_BIT_US RC6_BIT_MARGIN).2.2 0
  · exact Eq.refl _
  · exact Eq.refl _

/-- When `ir_rc6_decode` gets to the head of its fourth pass (`bits == 3`) with durations
left and the toggle check fails there, it returns false and leaves the result struct as the
first three passes left it, which is as it was. -/
theorem ir_rc6_decode_toggle (r : ir_learn_result_t) (st0 st : rc6_loop_state)
    (he : rc6_entry r = some st0) (hr : rc6_run 3 st0 = some st)
    (ho : st.offset < r.message_len) (hm : rc6_toggle_mismatch st) :
    st.bits = 3 ∧ ir_rc6_decode r = (false, st.result) := by
  obtain ⟨e1, e2, e3, e4, e5⟩ := ir_rc6_decode_entry r st0 he
  obtain ⟨p1, _, p3⟩ := rc6_run_props 3 st0 st hr
  have hb : st.bits = 3 := by rw [p1, e2]
  have hlen : st.result.message_len = r.message_len := by rw [p3, e1]
  refine ⟨hb, ?_⟩
  have hrun := rc6_loop_run 3 (3 * r.message_len - 2) st0 st hr
  have hf : 3 * r.message_len - 2 + 3 = 3 * r.message_len + 1 := by
    simp only [RC6_BIT_LEN] at e4
    omega
  rw [hf, e1, e2, e3] at hrun
  have hf2 : 3 * r.message_len - 2 = (3 * r.message_len - 3) + 1 := by
    simp only [RC6_BIT_LEN] at e4
    omega
  have hloop : rc6_decode_loop (3 * r.message_len + 1) r 0 st0.offset st0.used 0
      = some (false, st.result) := by
    have hp := rc6_loop_pass (3 * r.message_len - 3) st (by rw [hlen]; exact ho)
    simp only [rc6_pass_mismatch st hb hm] at hp
    exact hrun.trans ((congrArg (fun f => rc6_decode_loop f st.result st.bits st.offset
      st.used st.data) hf2).trans hp)
  exact e5.trans (congrArg (fun o => Option.getD o (false, r)) hloop)

set_option maxRecDepth 100000 in
theorem rc6_bad_toggle_facts :
    rc6_entry rc6_bad_toggle_result = some rc6_bad_toggle_entry
    ∧ rc6_run 3 rc6_bad_toggle_entry = some rc6_bad_toggle_state
    ∧ rc6_bad_toggle_state.offset < rc6_bad_toggle_result.message_len
    ∧ rc6_toggle_mismatch rc6_bad_toggle_state := by
  unfold rc6_toggle_mismatch
  decide

/-! ## The carrier samples of a capture -/

theorem carrier_inv_congr (a b : ir_learn_t) (h : carrier_samples b = carrier_samples a)
    (hi : CarrierInv a) : CarrierInv b := by
  unfold carrier_samples at h
  simp only [Prod.mk.injEq] at h
  obtain ⟨h1, h2, h3, h4⟩ := h
  unfold CarrierInv at hi ⊢
  rw [h1, h2, h3, h4]
  exact hi

theorem isr_exit_samples (o : isr_out) : carrier_samples (isr_exit o).s = carrier_samples o.s := by
  unfold isr_exit
  split_ifs <;> rfl

theorem slot_add_samples (o : isr_out) (v : Int) :
    carrier_samples (slot_add o v).s = carrier_samples o.s := by
  unfold carrier_samples
  rw [(slot_add_shape o v).1.2.2.2.1]

theorem filter_flush_samples (o : isr_out) (n : Nat) :
    carrier_samples (filter_flush o n).s = carrier_samples o.s := by
  unfold carrier_samples
  rw [(filter_flush_shape o n).1.2.2.2.1]

theorem isr_carrier_filter_samples (s : ir_learn_t) (period : Int) :
    carrier_samples (isr_carrier_filter s period).s = carrier_samples s := by
  unfold isr_carrier_filter
  simp only []
  split_ifs
  all_goals
    simp only [isr_exit_samples, slot_add_samples, filter_flush_samples]
    try rfl

theorem isr_bit_samples (s : ir_learn_t) (period : Int) :
    carrier_samples (isr_bit s period).s = carrier_samples s := by
  have hb : carrier_samples (isr_bit_start s).s = carrier_samples s := by
    unfold isr_bit_start
    simp only []
    split_ifs
    all_goals first
      | rfl
      | exact filter_flush_samples _ _
  unfold isr_bit
  simp only []
  split_ifs
  all_goals exact (isr_exit_samples _).trans hb

theorem isr_repeat_samples (s : ir_learn_t) (period : Int) :
    carrier_samples (isr_repeat s period).s = carrier_samples s := by
  unfold isr_repeat
  simp only []
  split_ifs
  all_goals exact (isr_exit_samples _).trans rfl

theorem isr_oversized_samples (s : ir_learn_t) :
    carrier_samples (isr_oversized s).s = carrier_samples s := by
  unfold isr_oversized
  simp only []
  split_ifs
  all_goals exact (isr_exit_samples _).trans rfl

theorem buf_store_getD (buf : List Nat) (i k : Nat) (v : Int) (hv1 : 6 ≤ v) (hv2 : v ≤ 50)
    (hi : i < buf.length) :
    (buf_store 256 buf i v).getD k 0 = if k = i then v.toNat else buf.getD k 0 := by
  unfold buf_store
  have e : (v % ((256 : Nat) : Int)).toNat = v.toNat := by
    congr 1
    omega
  rw [e]
  simp only [List.getD_eq_getElem?_getD, List.getElem?_set]
  by_cases hk : k = i
  · subst hk
    simp [hi]
  · rw [if_neg (Ne.symm hk), if_neg hk]

theorem isr_carrier_inv (s : ir_learn_t) (period gpio_level : Int)
    (hp1 : period ≥ IR_LEARN_CARRIER_WIDTH_MIN) (hp2 : period ≤ IR_LEARN_CARRIER_WIDTH_MAX)
    (hi : CarrierInv s) : CarrierInv (isr_carrier s period gpio_level).s := by
  have h6 : (6 : Int) ≤ period := hp1
  have h50 : period ≤ (50 : Int) := hp2
  obtain ⟨l1, l2, c1, c2, v1, v2⟩ := hi
  unfold isr_carrier
  split_ifs with h1 h2 h3
  · refine carrier_inv_congr _ _ (isr_carrier_filter_samples _ _) ?_
    simp only [IR_CARRIER_BUF_LEN] at h1
    refine ⟨by simp [buf_store_length, l1], l2, ?_, c2, ?_, v2⟩
    · show (s.carrier.high_cnt + 1) % 256 ≤ 100
      omega
    · intro k hk
      have hk2 : k < (s.carrier.high_cnt + 1) % 256 := hk
      show 6 ≤ (buf_store 256 s.carrier.high s.carrier.high_cnt period).getD k 0
        ∧ (buf_store 256 s.carrier.high s.carrier.high_cnt period).getD k 0 ≤ 50
      rw [buf_store_getD _ _ _ _ h6 h50 (by omega)]
      split_ifs with hk3
      · omega
      · exact v1 k (by omega)
  · refine carrier_inv_congr _ _ (isr_carrier_filter_samples _ _) ?_
    simp only [IR_CARRIER_BUF_LEN] at h1
    refine ⟨l1, by simp [buf_store_length, l2], c1, ?_, v1, ?_⟩
    · show (s.carrier.low_cnt + 1) % 256 ≤ 100
      omega
    · intro k hk
      have hk2 : k < (s.carrier.low_cnt + 1) % 256 := hk
      show 6 ≤ (buf_store 256 s.carrier.low s.carrier.low_cnt period).getD k 0
        ∧ (buf_store 256 s.carrier.low s.carrier.low_cnt period).getD k 0 ≤ 50
      rw [buf_store_getD _ _ _ _ h6 h50 (by omega)]
      split_ifs with hk3
      · omega
      · exact v2 k (by omega)
  · exact carrier_inv_congr _ _ ((isr_exit_samples _).trans rfl) ⟨l1, l2, c1, c2, v1, v2⟩
  · exact carrier_inv_congr _ _ ((isr_carrier_filter_samples _ _).trans rfl)
      ⟨l1, l2, c1, c2, v1, v2⟩

theorem isr_handle_carrier_inv (s : ir_learn_t) (cur_time gpio_level : Int)
    (hi : CarrierInv s) : CarrierInv (ir_learn_isr_handle s cur_time gpio_level).s := by
  unfold ir_learn_isr_handle
  simp only []
  split_ifs with h1 h2 h3 h4 h5 h6
  · exact hi
  · exact carrier_inv_congr _ _ ((isr_exit_samples _).trans rfl) hi
  · exact isr_carrier_inv ({ s with pre_time := cur_time } : ir_learn_t) _ _ h3.1 h3.2 hi
  · exact carrier_inv_congr _ _ ((isr_bit_samples _ _).trans rfl) hi
  · exact carrier_inv_congr _ _ ((isr_repeat_samples _ _).trans rfl) hi
  · exact carrier_inv_congr _ _ ((isr_oversized_samples _).trans rfl) hi
  · exact carrier_inv_congr _ _ ((isr_exit_samples _).trans rfl) hi

theorem reachable_carrier_inv (s : ir_learn_t) (h : Reachable s) : CarrierInv s := by
  induction h with
  | start x hx =>
    unfold ir_learn_start at hx ⊢
    split_ifs at hx ⊢
    refine ⟨by simp [IR_CARRIER_BUF_LEN], by simp [IR_CARRIER_BUF_LEN], Nat.zero_le _,
      Nat.zero_le _, ?_, ?_⟩
    · intro k hk; exact absurd hk (Nat.not_lt_zero _)
    · intro k hk; exact absurd hk (Nat.not_lt_zero _)
  | edge s t l _ ih => exact isr_handle_carrier_inv s t l ih

/-- On a session that `ir_learn_start` and the edge handler lead to, with at least 21 high
and 21 low carrier samples, a successful `ir_learn_get_result` reports
`duty = H / (H + L)` in (0, 1) and `freq = 1000000 * (n - 20) / (H + L) > 0`. -/
theorem reachable_carrier_bounds (s : ir_learn_t) (r : ir_learn_result_t) (d : Bool)
    (h : Reachable s) (hok : (ir_learn_get_result s r d).1 = ESP_OK)
    (hn : 21 ≤ min s.carrier.high_cnt s.carrier.low_cnt) :
    (ir_learn_get_result s r d).2.2.duty
        = (trimmed_high_sum s : Rat) / ((trimmed_high_sum s : Rat) + (trimmed_low_sum s : Rat))
    ∧ (ir_learn_get_result s r d).2.2.freq
        = 1000000 * ((min s.carrier.high_cnt s.carrier.low_cnt : Nat) - 20 : Rat)
            / ((trimmed_high_sum s : Rat) + (trimmed_low_sum s : Rat))
    ∧ 0 < (ir_learn_get_result s r d).2.2.duty
    ∧ (ir_learn_get_result s r d).2.2.duty < 1
    ∧ 0 < (ir_learn_get_result s r d).2.2.freq := by
  obtain ⟨_, _, _, _, v1, v2⟩ := reachable_carrier_inv s h
  exact get_result_carrier_bounds s r d hok hn
    (fun k hk => Nat.lt_of_lt_of_le (by decide) (v1 k hk).1)
    (fun k hk => Nat.lt_of_lt_of_le (by decide) (v2 k hk).1)

/-! ## The capture with one committed mark -/

theorem one_mark_session_reachable : Reachable one_mark_session :=
  feed_intervals_reachable _ _ (Reachable.edge _ _ _ (Reachable.start (ir_learn_create 17) rfl))

set_option maxRecDepth 100000 in
theorem one_mark_session_fields :
    one_mark_session.state = IR_LEARN_READY
    ∧ one_mark_session.finished = false
    ∧ one_mark_session.pre_time ≠ 0
    ∧ one_mark_session.msg.type = IR_LEARN_TYPE_MSG
    ∧ one_mark_session.msg.msg_len = 1
    ∧ one_mark_session.msg.repeat_len = 0
    ∧ one_mark_session.msg.msg.take 3 = [550, 500, 0]
    ∧ one_mark_session.carrier.filter_cnt = 0 := by
  decide

set_option maxRecDepth 100000 in
theorem one_mark_session_oversized :
    (ir_learn_isr_handle one_mark_session (one_mark_session.pre_time + 200000) 0).s.state
      = IR_LEARN_IDLE
    ∧ (ir_learn_isr_handle one_mark_session (one_mark_session.pre_time + 200000) 0).s.finished
      = false
    ∧ (ir_learn_start
        (ir_learn_isr_handle one_mark_session (one_mark_session.pre_time + 200000) 0).s).1
      = ESP_OK := by
  decide

/-! ## `ir_decode_get_level` on one duration -/

theorem check_range_multiple (bu bm w : Int) (k : Nat) (h0 : 0 ≤ bu) (hm : 0 ≤ bm)
    (hr : 3 * bu + bm ≤ 2147483647) (hk : k ≤ 3) :
    ir_decode_check_range w (wrap32 ((k : Int) * bu)) bm = true ↔ within_multiple bu bm w k := by
  have hkb : (k : Int) * bu ≤ 3 * bu := by
    have : (k : Int) ≤ 3 := by exact_mod_cast hk
    nlinarith
  have hk0 : 0 ≤ (k : Int) * bu := Int.mul_nonneg (Int.ofNat_nonneg k) h0
  have e0 : wrap32 ((k : Int) * bu) = (k : Int) * bu := wrap32_of_range _ (by omega) (by omega)
  have e1 : wrap32 ((k : Int) * bu + bm) = (k : Int) * bu + bm :=
    wrap32_of_range _ (by omega) (by omega)
  have e2 : wrap32 ((k : Int) * bu - bm) = (k : Int) * bu - bm :=
    wrap32_of_range _ (by omega) (by omega)
  unfold ir_decode_check_range within_multiple
  rw [e0, e1, e2]
  simp only [Bool.and_eq_true, decide_eq_true_eq, gt_iff_lt]
  exact ⟨fun h => ⟨h.2, h.1⟩, fun h => ⟨h.2, h.1⟩⟩

theorem level_avail_iff (bu bm w : Int) (k : Nat) (h0 : 0 ≤ bu) (hm : 0 ≤ bm)
    (hr : 3 * bu + bm ≤ 2147483647) (hk1 : 1 ≤ k) (hk3 : k ≤ 3) :
    level_avail bu bm w = some k
      ↔ (within_multiple bu bm w k ∧ ∀ j, 1 ≤ j → j < k → ¬ within_multiple bu bm w j) := by
  have c1 := check_range_multiple bu bm w 1 h0 hm hr (by omega)
  have c2 := check_range_multiple bu bm w 2 h0 hm hr (by omega)
  have c3 := check_range_multiple bu bm w 3 h0 hm hr (by omega)
  simp only [Nat.cast_one, one_mul, Nat.cast_ofNat] at c1 c2 c3
  have w1 : wrap32 bu = bu := wrap32_of_range _ (by omega) (by omega)
  rw [w1] at c1
  unfold level_avail
  by_cases a1 : ir_decode_check_range w bu bm = true
  · rw [if_pos a1]
    constructor
    · intro h
      cases h
      exact ⟨c1.mp a1, fun j h1 h2 => by omega⟩
    · rintro ⟨_, h2⟩
      have : k = 1 := by
        by_contra hne
        exact h2 1 (by omega) (by omega) (c1.mp a1)
      rw [this]
  · rw [if_neg a1]
    by_cases a2 : ir_decode_check_range w (wrap32 (2 * bu)) bm = true
    · rw [if_pos a2]
      constructor
      · intro h
        cases h
        refine ⟨c2.mp a2, fun j h1 h2 => ?_⟩
        have : j = 1 := by omega
        rw [this]
        exact fun hc => a1 (c1.mpr hc)
      · rintro ⟨h1, h2⟩
        have hk : k = 1 ∨ k = 2 ∨ k = 3 := by omega
        rcases hk with hk | hk | hk
        · rw [hk] at h1; exact absurd (c1.mpr h1) a1
        · rw [hk]
        · rw [hk] at h2; exact absurd (c2.mp a2) (h2 2 (by omega) (by omega))
    · rw [if_neg a2]
      by_cases a3 : ir_decode_check_range w (wrap32 (3 * bu)) bm = true
      · rw [if_pos a3]
        constructor
        · intro h
          cases h
          refine ⟨c3.mp a3, fun j h1 h2 => ?_⟩
          have : j = 1 ∨ j = 2 := by omega
          rcases this with hj | hj
          · rw [hj]; exact fun hc => a1 (c1.mpr hc)
          · rw [hj]; exact fun hc => a2 (c2.mpr hc)
        · rintro ⟨h1, _⟩
          have hk : k = 1 ∨ k = 2 ∨ k = 3 := by omega
          rcases hk with hk | hk | hk
          · rw [hk] at h1; exact absurd (c1.mpr h1) a1
          · rw [hk] at h1; exact absurd (c2.mpr h1) a2
          · rw [hk]
      · rw [if_neg a3]
        constructor
        · intro h; cases h
        · rintro ⟨h1, _⟩
          have hk : k = 1 ∨ k = 2 ∨ k = 3 := by omega
          rcases hk with hk | hk | hk
          · rw [hk] at h1; exact absurd (c1.mpr h1) a1
          · rw [hk] at h1; exact absurd (c2.mpr h1) a2
          · rw [hk] at h1; exact absurd (c3.mpr h1) a3

theorem get_level_of_none (r : ir_learn_result_t) (off used : Nat) (bu bm : Int)
    (hlt : off < r.message_len)
    (ha : level_avail bu bm (r.message.getD off 0 : Nat) = none) :
    ir_decode_get_level r off used bu bm = (-1, off, used) := by
  have hge : ¬ (off ≥ r.message_len) := by omega
  unfold level_avail at ha
  unfold ir_decode_get_level
  simp only [hge, if_false]
  split_ifs at ha with h1 h2 h3
  simp only [h1, h2, h3, Bool.false_eq_true, if_false]

theorem level_avail_none_iff (bu bm w : Int) (h0 : 0 ≤ bu) (hm : 0 ≤ bm)
    (hr : 3 * bu + bm ≤ 2147483647) :
    level_avail bu bm w = none ↔ ∀ k, 1 ≤ k → k ≤ 3 → ¬ within_multiple bu bm w k := by
  constructor
  · intro h k hk1 hk3 hc
    -- the smallest multiple that fits gives a unit count
    have h1 := level_avail_iff bu bm w 1 h0 hm hr (by omega) (by omega)
    have h2 := level_avail_iff bu bm w 2 h0 hm hr (by omega) (by omega)
    have h3 := level_avail_iff bu bm w 3 h0 hm hr (by omega) (by omega)
    rw [h] at h1 h2 h3
    by_cases w1 : within_multiple bu bm w 1
    · exact absurd (h1.mpr ⟨w1, fun j a b => by omega⟩) (by simp)
    · by_cases w2 : within_multiple bu bm w 2
      · refine absurd (h2.mpr ⟨w2, fun j a b => ?_⟩) (by simp)
        have : j = 1 := by omega
        rw [this]; exact w1
      · by_cases w3 : within_multiple bu bm w 3
        · refine absurd (h3.mpr ⟨w3, fun j a b => ?_⟩) (by simp)
          have : j = 1 ∨ j = 2 := by omega
          rcases this with hj | hj
          · rw [hj]; exact w1
          · rw [hj]; exact w2
        · have : k = 1 ∨ k = 2 ∨ k = 3 := by omega
          rcases this with hk | hk | hk
          · rw [hk] at hc; exact w1 hc
          · rw [hk] at hc; exact w2 hc
          · rw [hk] at hc; exact w3 hc
  · intro h
    cases ha : level_avail bu bm w with
    | none => rfl
    | some n =>
      obtain ⟨n1, n3⟩ := level_avail_le ha
      exact absurd ((level_avail_iff bu bm w n h0 hm hr n1 n3).mp ha).1 (h n n1 n3)

theorem get_level_units (r : ir_learn_result_t) (off k : Nat) (bu bm : Int)
    (hlt : off < r.message_len)
    (ha : level_avail bu bm (r.message.getD off 0 : Nat) = some k) :
    ∀ j, j < k →
      ir_decode_get_level r off j bu bm
        = (parity_level off, if j + 1 < k then off else off + 1, if j + 1 < k then j + 1 else 0) := by
  intro j hj
  rw [get_level_of_avail r off j k bu bm hlt ha]
  by_cases h : j + 1 < k
  · rw [if_neg (by omega), if_pos h, if_pos h]
  · rw [if_pos (by omega), if_neg h, if_neg h]

/-! ## The completion signal -/

theorem isr_exit_gave (o : isr_out) (h : o.gave = false) :
    (isr_exit o).gave = (isr_exit o).s.finished := by
  rw [(isr_exit_phase o).2]
  unfold isr_exit
  cases hf : o.s.finished
  · simp only [Bool.false_eq_true, if_false]
    exact h
  · simp only [if_true]

theorem isr_carrier_filter_gave (s : ir_learn_t) (period : Int) :
    (isr_carrier_filter s period).gave = (isr_carrier_filter s period).s.finished := by
  unfold isr_carrier_filter
  simp only []
  split_ifs
  all_goals
    apply isr_exit_gave
    first
      | exact (slot_add_shape _ _).2.trans ((filter_flush_shape _ _).2.trans rfl)
      | exact (slot_add_shape _ _).2.trans rfl
      | rfl

theorem isr_carrier_gave (s : ir_learn_t) (period gpio_level : Int) :
    (isr_carrier s period gpio_level).gave = (isr_carrier s period gpio_level).s.finished := by
  unfold isr_carrier
  split_ifs
  · exact isr_carrier_filter_gave _ _
  · exact isr_carrier_filter_gave _ _
  · exact isr_exit_gave _ rfl
  · exact isr_carrier_filter_gave _ _

theorem isr_bit_start_gave (s : ir_learn_t) : (isr_bit_start s).gave = false := by
  unfold isr_bit_start
  simp only []
  split_ifs
  all_goals first
    | rfl
    | exact (filter_flush_shape _ _).2.trans rfl

theorem isr_bit_gave (s : ir_learn_t) (period : Int) :
    (isr_bit s period).gave = (isr_bit s period).s.finished := by
  unfold isr_bit
  simp only []
  split_ifs
  · exact isr_exit_gave _ (isr_bit_start_gave s)
  · exact isr_exit_gave _ (isr_bit_start_gave s)
  · exact isr_exit_gave _ (isr_bit_start_gave s)

theorem isr_repeat_gave (s : ir_learn_t) (period : Int) :
    (isr_repeat s period).gave = (isr_repeat s period).s.finished := by
  unfold isr_repeat
  simp only []
  split_ifs
  all_goals exact isr_exit_gave _ rfl

theorem isr_oversized_gave (s : ir_learn_t) :
    (isr_oversized s).gave = (isr_oversized s).s.finished := by
  unfold isr_oversized
  simp only []
  split_ifs
  all_goals exact isr_exit_gave _ rfl

/-- The handler gives the completion signal exactly in a call that finds `finished` false
and leaves it true. -/
theorem isr_handle_gave_iff (s : ir_learn_t) (cur_time gpio_level : Int) :
    (ir_learn_isr_handle s cur_time gpio_level).gave = true
      ↔ (s.finished = false ∧ (ir_learn_isr_handle s cur_time gpio_level).s.finished = true) := by
  unfold ir_learn_isr_handle
  simp only []
  split_ifs with h1 h2 h3 h4 h5 h6
  · constructor
    · intro h; cases h
    · rintro ⟨ha, hb⟩
      have hb2 : s.finished = true := hb
      rw [ha] at hb2
      cases hb2
  all_goals
    have hf : s.finished = false := by
      cases hc : s.finished
      · rfl
      · exact absurd (Or.inr hc) h1
  · rw [isr_exit_gave _ rfl]; exact ⟨fun h => ⟨hf, h⟩, fun h => h.2⟩
  · rw [isr_carrier_gave]; exact ⟨fun h => ⟨hf, h⟩, fun h => h.2⟩
  · rw [isr_bit_gave]; exact ⟨fun h => ⟨hf, h⟩, fun h => h.2⟩
  · rw [isr_repeat_gave]; exact ⟨fun h => ⟨hf, h⟩, fun h => h.2⟩
  · rw [isr_oversized_gave]; exact ⟨fun h => ⟨hf, h⟩, fun h => h.2⟩
  · rw [isr_exit_gave _ rfl]; exact ⟨fun h => ⟨hf, h⟩, fun h => h.2⟩

theorem signal_count_finished (es : List (Int × Int)) :
    ∀ s : ir_learn_t, s.finished = true → signal_count s es = 0 := by
  induction es with
  | nil => intro s _; rfl
  | cons e es ih =>
    intro s h
    rw [signal_count, isr_handle_finished s e.1 e.2 h]
    simp only [Bool.false_eq_true, if_false, Nat.zero_add]
    exact ih _ h

theorem signal_count_le_one (es : List (Int × Int)) :
    ∀ s : ir_learn_t, signal_count s es ≤ 1 := by
  induction es with
  | nil => intro s; exact Nat.zero_le _
  | cons e es ih =>
    intro s
    rw [signal_count]
    by_cases hg : (ir_learn_isr_handle s e.1 e.2).gave = true
    · rw [if_pos hg, signal_count_finished es _ ((isr_handle_gave_iff s e.1 e.2).mp hg).2]
    · rw [if_neg hg, Nat.zero_add]
      exact ih _

/-! ## What the decoders depend on -/

theorem nec_decode_loop_congr (r r' : ir_learn_result_t) (hm : r.message = r'.message) :
    ∀ (n i off data : Nat), nec_decode_loop r n i off data = nec_decode_loop r' n i off data := by
  intro n
  induction n with
  | zero => intro i off data; rfl
  | succ n ih =>
    intro i off data
    rw [nec_decode_loop, nec_decode_loop]
    simp only [hm, ih]

/-- The function `ir_nec_decode` reads only `message` and `message_len`: the verdict and, on
success, all five decoded fields are the same on two results that agree on those. -/
theorem ir_nec_decode_congr (r r' : ir_learn_result_t) (hm : r.message = r'.message)
    (hl : r.message_len = r'.message_len) :
    (ir_nec_decode r).1 = (ir_nec_decode r').1
    ∧ ((ir_nec_decode r).1 = true →
        (ir_nec_decode r).2.proto = (ir_nec_decode r').2.proto
        ∧ (ir_nec_decode r).2.bits = (ir_nec_decode r').2.bits
        ∧ (ir_nec_decode r).2.value = (ir_nec_decode r').2.value
        ∧ (ir_nec_decode r).2.addr = (ir_nec_decode r').2.addr
        ∧ (ir_nec_decode r).2.cmd = (ir_nec_decode r').2.cmd) := by
  unfold ir_nec_decode
  rw [nec_decode_loop_congr r r' hm, hm, hl]
  split_ifs
  · exact ⟨rfl, fun h => h.elim⟩
  · exact ⟨rfl, fun h => h.elim⟩
  · exact ⟨rfl, fun h => h.elim⟩
  · cases nec_decode_loop r' NEC_DATA_BITS 0 2 0 with
    | none => exact ⟨rfl, fun h => absurd h Bool.false_ne_true⟩
    | some d => exact ⟨rfl, fun _ => ⟨rfl, rfl, rfl, rfl, rfl⟩⟩

theorem rc5_loop_head (fuel : Nat) :
    ∀ (r r' : ir_learn_result_t) (bits off used data : Nat),
      r.message = r'.message → r.message_len = r'.message_len →
      Option.map decoded_head (rc5_decode_loop fuel r bits off used data)
        = Option.map decoded_head (rc5_decode_loop fuel r' bits off used data) := by
  induction fuel with
  | zero => intro r r' bits off used data _ _; rfl
  | succ f ih =>
    intro r r' bits off used data hm hl
    rw [rc5_decode_loop, rc5_decode_loop]
    simp only [get_level_congr r r' hm hl, hl]
    split_ifs <;>
      first | rfl | exact ih _ _ _ _ _ _ hm hl | exact ih _ _ _ _ _ _ hm rfl

theorem rc6_loop_head (fuel : Nat) :
    ∀ (r r' : ir_learn_result_t) (bits off used data : Nat),
      r.message = r'.message → r.message_len = r'.message_len →
      Option.map decoded_head (rc6_decode_loop fuel r bits off used data)
        = Option.map decoded_head (rc6_decode_loop fuel r' bits off used data) := by
  induction fuel with
  | zero => intro r r' bits off used data _ _; rfl
  | succ f ih =>
    intro r r' bits off used data hm hl
    rw [rc6_decode_loop, rc6_decode_loop]
    simp only [get_level_congr r r' hm hl, hl]
    split_ifs <;>
      first | rfl | exact ih _ _ _ _ _ _ hm hl | exact ih _ _ _ _ _ _ hm rfl

/-- The verdict of `ir_rc5_decode` and, on success, `proto`, `bits` and `value` depend on
`message` and `message_len` only. -/
theorem ir_rc5_decode_head (r r' : ir_learn_result_t) (hm : r.message = r'.message)
    (hl : r.message_len = r'.message_len) :
    decoded_head (ir_rc5_decode r) = decoded_head (ir_rc5_decode r') := by
  have hloop := fun off used =>
    rc5_loop_head (3 * r'.message_len + 1) r r' 0 off used 0 hm hl
  unfold ir_rc5_decode
  simp only [get_level_congr r r' hm hl, hl]
  split_ifs <;> try rfl
  have hq := hloop
    (ir_decode_get_level r'
      (ir_decode_get_level r' (ir_decode_get_level r' 0 0 RC5_BIT_US RC5_BIT_MARGIN).2.1
        (ir_decode_get_level r' 0 0 RC5_BIT_US RC5_BIT_MARGIN).2.2 RC5_BIT_US
        RC5_BIT_MARGIN).2.1
      (ir_decode_get_level r' (ir_decode_get_level r' 0 0 RC5_BIT_US RC5_BIT_MARGIN).2.1
        (ir_decode_get_level r' 0 0 RC5_BIT_US RC5_BIT_MARGIN).2.2 RC5_BIT_US
        RC5_BIT_MARGIN).2.2 RC5_BIT_US RC5_BIT_MARGIN).2.1
    (ir_decode_get_level r'
      (ir_decode_get_level r' (ir_decode_get_level r' 0 0 RC5_BIT_US RC5_BIT_MARGIN).2.1
        (ir_decode_get_level r' 0 0 RC5_BIT_US RC5_BIT_MARGIN).2.2 RC5_BIT_US
        RC5_BIT_MARGIN).2.1
      (ir_decode_get_level r' (ir_decode_get_level r' 0 0 RC5_BIT_US RC5_BIT_MARGIN).2.1
        (ir_decode_get_level r' 0 0 RC5_BIT_US RC5_BIT_MARGIN).2.2 RC5_BIT_US
        RC5_BIT_MARGIN).2.2 RC5_BIT_US RC5_BIT_MARGIN).2.2
  split
  · rename_i out hout
    split
    · rename_i out2 hout2
      rw [hout, hout2] at hq
      exact Option.some.inj hq
    · rename_i hout2
      rw [hout, hout2] at hq
      cases hq
  · rename_i hout
    split
    · rename_i out2 hout2
      rw [hout, hout2] at hq
      cases hq
    · rfl

/-- The verdict of `ir_rc6_decode` and, on success, `proto`, `bits` and `value` depend on
`message` and `message_len` only. -/
theorem ir_rc6_decode_head (r r' : ir_learn_result_t) (hm : r.message = r'.message)
    (hl : r.message_len = r'.message_len) :
    decoded_head (ir_rc6_decode r) = decoded_head (ir_rc6_decode r') := by
  have hloop := fun off used =>
    rc6_loop_head (3 * r'.message_len + 1) r r' 0 off used 0 hm hl
  unfold ir_rc6_decode
  simp only [get_level_congr r r' hm hl, hl, hm]
  split_ifs <;> try rfl
  have hq := hloop
    (ir_decode_get_level r' (ir_decode_get_level r' 2 0 RC6_BIT_US RC6_BIT_MARGIN).2.1
      (ir_decode_get_level r' 2 0 RC6_BIT_US RC6_BIT_MARGIN).2.2 RC6_BIT_US
      RC6_BIT_MARGIN).2.1
    (ir_decode_get_level r' (ir_decode_get_level r' 2 0 RC6_BIT_US RC6_BIT_MARGIN).2.1
      (ir_decode_get_level r' 2 0 RC6_BIT_US RC6_BIT_MARGIN).2.2 RC6_BIT_US
      RC6_BIT_MARGIN).2.2
  split
  · rename_i out hout
    split
    · rename_i out2 hout2
      rw [hout, hout2] at hq
      exact Option.some.inj hq
    · rename_i hout2
      rw [hout, hout2] at hq
      cases hq
  · rename_i hout
    split
    · rename_i out2 hout2
      rw [hout, hout2] at hq
      cases hq
    · rfl

theorem rc5_loop_fields_congr (fuel : Nat) :
    ∀ (r r' : ir_learn_result_t) (bits off used data : Nat),
      r.message = r'.message → r.message_len = r'.message_len →
      r.addr = r'.addr → r.cmd = r'.cmd →
      Option.map decoded_fields (rc5_decode_loop fuel r bits off used data)
        = Option.map decoded_fields (rc5_decode_loop fuel r' bits off used data) := by
  induction fuel with
  | zero => intro r r' bits off used data _ _ _ _; rfl
  | succ f ih =>
    intro r r' bits off used data hm hl ha hc
    rw [rc5_decode_loop, rc5_decode_loop]
    simp only [get_level_congr r r' hm hl, hl]
    split_ifs
    all_goals first
      | (apply ih
         all_goals first
           | exact hm
           | exact hl
           | exact ha
           | exact hc
           | rfl
           | exact congrArg (fun a => (a ||| _) % 65536) ha
           | exact congrArg (fun a => (a ||| _) % 65536) hc)
      | simp only [Option.map_some', decoded_fields, ha, hc]

theorem rc6_loop_fields_congr (fuel : Nat) :
    ∀ (r r' : ir_learn_result_t) (bits off used data : Nat),
      r.message = r'.message → r.message_len = r'.message_len →
      r.addr = r'.addr → r.cmd = r'.cmd →
      Option.map decoded_fields (rc6_decode_loop fuel r bits off used data)
        = Option.map decoded_fields (rc6_decode_loop fuel r' bits off used data) := by
  induction fuel with
  | zero => intro r r' bits off used data _ _ _ _; rfl
  | succ f ih =>
    intro r r' bits off used data hm hl ha hc
    rw [rc6_decode_loop, rc6_decode_loop]
    simp only [get_level_congr r r' hm hl, hl]
    split_ifs
    all_goals first
      | (apply ih
         all_goals first
           | exact hm
           | exact hl
           | exact ha
           | exact hc
           | rfl
           | exact congrArg (fun a => (a ||| _) % 65536) ha
           | exact congrArg (fun a => (a ||| _) % 65536) hc)
      | simp only [Option.map_some', decoded_fields, ha, hc]

/-- The fields `addr` and `cmd` that `ir_rc5_decode` leaves depend on `message`,
`message_len` and the `addr` and `cmd` that it finds. -/
theorem ir_rc5_decode_fields (r r' : ir_learn_result_t) (hm : r.message = r'.message)
    (hl : r.message_len = r'.message_len) (ha : r.addr = r'.addr) (hc : r.cmd = r'.cmd) :
    decoded_fields (ir_rc5_decode r) = decoded_fields (ir_rc5_decode r') := by
  have hloop := fun off used =>
    rc5_loop_fields_congr (3 * r'.message_len + 1) r r' 0 off used 0 hm hl ha hc
  unfold ir_rc5_decode
  simp only [get_level_congr r r' hm hl, hl]
  split_ifs <;> try exact Prod.ext ha hc
  have hq := hloop
    (ir_decode_get_level r'
      (ir_decode_get_level r' (ir_decode_get_level r' 0 0 RC5_BIT_US RC5_BIT_MARGIN).2.1
        (ir_decode_get_level r' 0 0 RC5_BIT_US RC5_BIT_MARGIN).2.2 RC5_BIT_US
        RC5_BIT_MARGIN).2.1
      (ir_decode_get_level r' (ir_decode_get_level r' 0 0 RC5_BIT_US RC5_BIT_MARGIN).2.1
        (ir_decode_get_level r' 0 0 RC5_BIT_US RC5_BIT_MARGIN).2.2 RC5_BIT_US
        RC5_BIT_MARGIN).2.2 RC5_BIT_US RC5_BIT_MARGIN).2.1
    (ir_decode_get_level r'
      (ir_decode_get_level r' (ir_decode_get_level r' 0 0 RC5_BIT_US RC5_BIT_MARGIN).2.1
        (ir_decode_get_level r' 0 0 RC5_BIT_US RC5_BIT_MARGIN).2.2 RC5_BIT_US
        RC5_BIT_MARGIN).2.1
      (ir_decode_get_level r' (ir_decode_get_level r' 0 0 RC5_BIT_US RC5_BIT_MARGIN).2.1
        (ir_decode_get_level r' 0 0 RC5_BIT_US RC5_BIT_MARGIN).2.2 RC5_BIT_US
        RC5_BIT_MARGIN).2.2 RC5_BIT_US RC5_BIT_MARGIN).2.2
  split
  · rename_i out hout
    split
    · rename_i out2 hout2
      rw [hout, hout2] at hq
      exact Option.some.inj hq
    · rename_i hout2
      rw [hout, hout2] at hq
      cases hq
  · rename_i hout
    split
    · rename_i out2 hout2
      rw [hout, hout2] at hq
      cases hq
    · exact Prod.ext ha hc

/-- The fields `addr` and `cmd` that `ir_rc6_decode` leaves depend on `message`,
`message_len` and the `addr` and `cmd` that it finds. -/
theorem ir_rc6_decode_fields (r r' : ir_learn_result_t) (hm : r.message = r'.message)
    (hl : r.message_len = r'.message_len) (ha : r.addr = r'.addr) (hc : r.cmd = r'.cmd) :
    decoded_fields (ir_rc6_decode r) = decoded_fields (ir_rc6_decode r') := by
  have hloop := fun off used =>
    rc6_loop_fields_congr (3 * r'.message_len + 1) r r' 0 off used 0 hm hl ha hc
  unfold ir_rc6_decode
  simp only [get_level_congr r r' hm hl, hl, hm]
  split_ifs <;> try exact Prod.ext ha hc
  have hq := hloop
    (ir_decode_get_level r' (ir_decode_get_level r' 2 0 RC6_BIT_US RC6_BIT_MARGIN).2.1
      (ir_decode_get_level r' 2 0 RC6_BIT_US RC6_BIT_MARGIN).2.2 RC6_BIT_US
      RC6_BIT_MARGIN).2.1
    (ir_decode_get_level r' (ir_decode_get_level r' 2 0 RC6_BIT_US RC6_BIT_MARGIN).2.1
      (ir_decode_get_level r' 2 0 RC6_BIT_US RC6_BIT_MARGIN).2.2 RC6_BIT_US
      RC6_BIT_MARGIN).2.2
  split
  · rename_i out hout
    split
    · rename_i out2 hout2
      rw [hout, hout2] at hq
      exact Option.some.inj hq
    · rename_i hout2
      rw [hout, hout2] at hq
      cases hq
  · rename_i hout
    split
    · rename_i out2 hout2
      rw [hout, hout2] at hq
      cases hq
    · exact Prod.ext ha hc

set_option maxRecDepth 100000 in
theorem rc5_stale_result_decode :
    rc5_stale_result.message = rc5_example_result.message
    ∧ rc5_stale_result.message_len = rc5_example_result.message_len
    ∧ (ir_rc5_decode rc5_example_result).1 = true
    ∧ (ir_rc5_decode rc5_stale_result).1 = true
    ∧ (ir_rc5_decode rc5_example_result).2.addr = 0x14
    ∧ (ir_rc5_decode rc5_stale_result).2.addr = 0x1e
    ∧ (ir_rc5_decode rc5_example_result).2.cmd = 0x25
    ∧ (ir_rc5_decode rc5_stale_result).2.cmd = 0x35 := by
  decide

set_option maxRecDepth 100000 in
theorem rc5_distorted_result_decode :
    (rc5_distorted_result.message_len ≠ 0 ∨ rc5_distorted_result.repeat_len ≠ 0)
    ∧ (ir_learn_decode rc5_distorted_result).1 = ESP_FAIL
    ∧ rc5_distorted_result.addr = 0
    ∧ rc5_distorted_result.cmd = 0
    ∧ (ir_learn_decode rc5_distorted_result).2.addr = 0x14
    ∧ (ir_learn_decode rc5_distorted_result).2.cmd = 0x20
    ∧ (ir_rc5_decode rc5_distorted_result).1 = false
    ∧ (ir_rc5_decode rc5_distorted_result).2.addr = 0x14 := by
  decide

theorem rc5_loop_false_keeps (fuel : Nat) :
    ∀ (r : ir_learn_result_t) (bits off used data : Nat) (out : Bool × ir_learn_result_t),
      rc5_decode_loop fuel r bits off used data = some out → out.1 = false →
      out.2.proto = r.proto ∧ out.2.bits = r.bits ∧ out.2.value = r.value := by
  induction fuel with
  | zero => intro r bits off used data out h; cases h
  | succ f ih =>
    intro r bits off used data out h hv
    rw [rc5_decode_loop] at h
    simp only [] at h
    split_ifs at h <;>
      first
      | (have hq := ih _ _ _ _ _ _ h hv; exact hq)
      | (cases h; exact ⟨rfl, rfl, rfl⟩)
      | (cases h; cases hv)

theorem rc6_loop_false_keeps (fuel : Nat) :
    ∀ (r : ir_learn_result_t) (bits off used data : Nat) (out : Bool × ir_learn_result_t),
      rc6_decode_loop fuel r bits off used data = some out → out.1 = false →
      out.2.proto = r.proto ∧ out.2.bits = r.bits ∧ out.2.value = r.value := by
  induction fuel with
  | zero => intro r bits off used data out h; cases h
  | succ f ih =>
    intro r bits off used data out h hv
    rw [rc6_decode_loop] at h
    simp only [] at h
    split_ifs at h <;>
      first
      | (have hq := ih _ _ _ _ _ _ h hv; exact hq)
      | (cases h; exact ⟨rfl, rfl, rfl⟩)
      | (cases h; cases hv)

theorem ir_rc5_decode_cases (r : ir_learn_result_t) :
    ir_rc5_decode r = (false, r)
    ∨ ∃ off used out, rc5_decode_loop (3 * r.message_len + 1) r 0 off used 0 = some out
        ∧ ir_rc5_decode r = out := by
  unfold ir_rc5_decode
  simp only []
  split_ifs <;> try exact Or.inl rfl
  split
  · rename_i out hout
    exact Or.inr ⟨_, _, out, hout, rfl⟩
  · exact Or.inl rfl

theorem ir_rc6_decode_cases (r : ir_learn_result_t) :
    ir_rc6_decode r = (false, r)
    ∨ ∃ off used out, rc6_decode_loop (3 * r.message_len + 1) r 0 off used 0 = some out
        ∧ ir_rc6_decode r = out := by
  unfold ir_rc6_decode
  simp only []
  split_ifs <;> try exact Or.inl rfl
  split
  · rename_i out hout
    exact Or.inr ⟨_, _, out, hout, rfl⟩
  · exact Or.inl rfl

theorem ir_rc5_decode_false_keeps (r : ir_learn_result_t) (h : (ir_rc5_decode r).1 = false) :
    (ir_rc5_decode r).2.proto = r.proto ∧ (ir_rc5_decode r).2.bits = r.bits
      ∧ (ir_rc5_decode r).2.value = r.value := by
  rcases ir_rc5_decode_cases r with e | ⟨off, used, out, hout, e⟩
  · rw [e]; exact ⟨rfl, rfl, rfl⟩
  · rw [e] at h ⊢
    exact rc5_loop_false_keeps _ _ _ _ _ _ _ hout h

theorem ir_rc6_decode_false_keeps (r : ir_learn_result_t) (h : (ir_rc6_decode r).1 = false) :
    (ir_rc6_decode r).2.proto = r.proto ∧ (ir_rc6_decode r).2.bits = r.bits
      ∧ (ir_rc6_decode r).2.value = r.value := by
  rcases ir_rc6_decode_cases r with e | ⟨off, used, out, hout, e⟩
  · rw [e]; exact ⟨rfl, rfl, rfl⟩
  · rw [e] at h ⊢
    exact rc6_loop_false_keeps _ _ _ _ _ _ _ hout h

theorem pair_parts {α β : Type} (x : α × β) (a : α) (b : β) (e : x = (a, b)) :
    x.1 = a ∧ x.2 = b := by
  subst e
  exact ⟨rfl, rfl⟩

/-- The five ways through `ir_learn_decode`. -/
theorem ir_learn_decode_cases (r : ir_learn_result_t) :
    (r.message_len = 0 ∧ r.repeat_len = 0 ∧ ir_learn_decode r = (ESP_ERR_INVALID_ARG, r))
    ∨ ((ir_nec_decode r).1 = true ∧ ir_learn_decode r = (ESP_OK, (ir_nec_decode r).2))
    ∨ ((ir_nec_decode r).1 = false ∧ (ir_rc5_decode r).1 = true
        ∧ ir_learn_decode r = (ESP_OK, (ir_rc5_decode r).2))
    ∨ ((ir_nec_decode r).1 = false ∧ (ir_rc5_decode r).1 = false
        ∧ (ir_rc6_decode (ir_rc5_decode r).2).1 = true
        ∧ ir_learn_decode r = (ESP_OK, (ir_rc6_decode (ir_rc5_decode r).2).2))
    ∨ ((ir_nec_decode r).1 = false ∧ (ir_rc5_decode r).1 = false
        ∧ (ir_rc6_decode (ir_rc5_decode r).2).1 = false
        ∧ ir_learn_decode r = (ESP_FAIL, (ir_rc6_decode (ir_rc5_decode r).2).2)) := by
  by_cases hz : r.message_len = 0 ∧ r.repeat_len = 0
  · left
    refine ⟨hz.1, hz.2, ?_⟩
    unfold ir_learn_decode
    simp only [hz, and_self, if_true]
  · right
    cases hn : (ir_nec_decode r).1 with
    | true =>
      left
      refine ⟨rfl, ?_⟩
      unfold ir_learn_decode
      simp only [hz, if_false, hn, if_true]
    | false =>
      right
      have hr := ir_nec_decode_false r hn
      cases h5 : (ir_rc5_decode r).1 with
      | true =>
        left
        refine ⟨rfl, rfl, ?_⟩
        unfold ir_learn_decode
        simp only [hz, if_false, hn, hr, h5, if_true, Bool.false_eq_true]
      | false =>
        right
        cases h6 : (ir_rc6_decode (ir_rc5_decode r).2).1 with
        | true =>
          left
          refine ⟨rfl, rfl, rfl, ?_⟩
          unfold ir_learn_decode
          simp only [hz, if_false, hn, hr, h5, h6, if_true, Bool.false_eq_true]
        | false =>
          right
          refine ⟨rfl, rfl, rfl, ?_⟩
          unfold ir_learn_decode
          simp only [hz, if_false, hn, hr, h5, h6, Bool.false_eq_true]

/-- A failing `ir_learn_decode` leaves `proto`, `bits` and `value` as they were. -/
theorem ir_learn_decode_failure_keeps (r : ir_learn_result_t)
    (h : (ir_learn_decode r).1 ≠ ESP_OK) :
    (ir_learn_decode r).2.proto = r.proto ∧ (ir_learn_decode r).2.bits = r.bits
      ∧ (ir_learn_decode r).2.value = r.value := by
  rcases ir_learn_decode_cases r with ⟨_, _, e⟩ | ⟨_, e⟩ | ⟨_, _, e⟩ | ⟨_, _, _, e⟩
      | ⟨_, h5, h6, e⟩
  · have p := (pair_parts _ _ _ e).2
    exact ⟨congrArg ir_learn_result_t.proto p, congrArg ir_learn_result_t.bits p,
      congrArg ir_learn_result_t.value p⟩
  · exact absurd (pair_parts _ _ _ e).1 h
  · exact absurd (pair_parts _ _ _ e).1 h
  · exact absurd (pair_parts _ _ _ e).1 h
  · have p := (pair_parts _ _ _ e).2
    have k5 := ir_rc5_decode_false_keeps r h5
    have k6 := ir_rc6_decode_false_keeps (ir_rc5_decode r).2 h6
    exact ⟨(congrArg ir_learn_result_t.proto p).trans (k6.1.trans k5.1),
      (congrArg ir_learn_result_t.bits p).trans (k6.2.1.trans k5.2.1),
      (congrArg ir_learn_result_t.value p).trans (k6.2.2.trans k5.2.2)⟩

/-! ## The handler band by band -/

/-- The handler on an unfinished session past its first edge whose message buffer is not
full: the band of the interval decides. -/
theorem isr_handle_bands (s : ir_learn_t) (cur_time gpio_level : Int)
    (hp : s.pre_time ≠ 0) (hf : s.finished = false) (hl : s.msg.msg_len < 250) :
    ir_learn_isr_handle s cur_time gpio_level
      = if cur_time - s.pre_time ≥ IR_LEARN_CARRIER_WIDTH_MIN
            ∧ cur_time - s.pre_time ≤ IR_LEARN_CARRIER_WIDTH_MAX then
          isr_carrier { s with pre_time := cur_time } (cur_time - s.pre_time) gpio_level
        else if cur_time - s.pre_time > IR_LEARN_CARRIER_WIDTH_MAX
            ∧ cur_time - s.pre_time ≤ IR_LEARN_PERIOD_MAX then
          isr_bit { s with pre_time := cur_time } (cur_time - s.pre_time)
        else if cur_time - s.pre_time > IR_LEARN_PERIOD_MAX
            ∧ cur_time - s.pre_time ≤ IR_LEARN_REPEAT_MAX then
          isr_repeat { s with pre_time := cur_time } (cur_time - s.pre_time)
        else if cur_time - s.pre_time > IR_LEARN_REPEAT_MAX then
          isr_oversized { s with pre_time := cur_time }
        else
          isr_exit { s := { s with pre_time := cur_time }, gave := false, msg_writes := [],
                     repeat_writes := [] } := by
  have hl2 : ¬ (s.msg.msg_len ≥ IR_LEARN_MSG_BUF_LEN) := by
    simp only [IR_LEARN_MSG_BUF_LEN]; omega
  unfold ir_learn_isr_handle
  simp only [hp, hf, Bool.false_eq_true, or_self, if_false, hl2]

theorem isr_handle_repeat_band (s : ir_learn_t) (cur_time gpio_level : Int)
    (hp : s.pre_time ≠ 0) (hf : s.finished = false) (hl : s.msg.msg_len < 250)
    (h1 : 20000 < cur_time - s.pre_time) (h2 : cur_time - s.pre_time ≤ 120000) :
    ir_learn_isr_handle s cur_time gpio_level
      = isr_repeat { s with pre_time := cur_time } (cur_time - s.pre_time) := by
  rw [isr_handle_bands s cur_time gpio_level hp hf hl]
  have a1 : ¬ (cur_time - s.pre_time ≥ IR_LEARN_CARRIER_WIDTH_MIN
      ∧ cur_time - s.pre_time ≤ IR_LEARN_CARRIER_WIDTH_MAX) := by
    simp only [IR_LEARN_CARRIER_WIDTH_MAX, IR_LEARN_FREQ_MIN]
    norm_num
    intro _
    omega
  have a2 : ¬ (cur_time - s.pre_time > IR_LEARN_CARRIER_WIDTH_MAX
      ∧ cur_time - s.pre_time ≤ IR_LEARN_PERIOD_MAX) := by
    simp only [IR_LEARN_PERIOD_MAX]
    norm_num
    intro _
    omega
  have a3 : cur_time - s.pre_time > IR_LEARN_PERIOD_MAX
      ∧ cur_time - s.pre_time ≤ IR_LEARN_REPEAT_MAX := by
    simp only [IR_LEARN_PERIOD_MAX, IR_LEARN_REPEAT_MAX]
    exact ⟨h1, h2⟩
  rw [if_neg a1, if_neg a2, if_pos a3]

theorem isr_handle_oversized_band (s : ir_learn_t) (cur_time gpio_level : Int)
    (hp : s.pre_time ≠ 0) (hf : s.finished = false) (hl : s.msg.msg_len < 250)
    (h1 : 120000 < cur_time - s.pre_time) :
    ir_learn_isr_handle s cur_time gpio_level = isr_oversized { s with pre_time := cur_time } := by
  rw [isr_handle_bands s cur_time gpio_level hp hf hl]
  have a1 : ¬ (cur_time - s.pre_time ≥ IR_LEARN_CARRIER_WIDTH_MIN
      ∧ cur_time - s.pre_time ≤ IR_LEARN_CARRIER_WIDTH_MAX) := by
    simp only [IR_LEARN_CARRIER_WIDTH_MAX, IR_LEARN_FREQ_MIN]
    norm_num
    intro _
    omega
  have a2 : ¬ (cur_time - s.pre_time > IR_LEARN_CARRIER_WIDTH_MAX
      ∧ cur_time - s.pre_time ≤ IR_LEARN_PERIOD_MAX) := by
    simp only [IR_LEARN_PERIOD_MAX]
    norm_num
    intro _
    omega
  have a3 : ¬ (cur_time - s.pre_time > IR_LEARN_PERIOD_MAX
      ∧ cur_time - s.pre_time ≤ IR_LEARN_REPEAT_MAX) := by
    simp only [IR_LEARN_REPEAT_MAX]
    norm_num
    intro _
    omega
  have a4 : cur_time - s.pre_time > IR_LEARN_REPEAT_MAX := by
    simp only [IR_LEARN_REPEAT_MAX]
    exact h1
  rw [if_neg a1, if_neg a2, if_neg a3, if_pos a4]

/-! ## Message mode and repeat mode -/

theorem mode_inv_congr (a b : ir_learn_t) (h : SameShape a b) (hb : ModeInv b) : ModeInv a := by
  obtain ⟨a1, a2, a3, _, _, a6, _, _, _, a10, a11⟩ := h
  obtain ⟨b1, b2, b3, b4⟩ := hb
  refine ⟨a10.trans b1, a11.trans b2, ?_, ?_⟩
  · intro hf ht
    rw [a2]
    exact b3 (a6 ▸ hf) (a1 ▸ ht)
  · intro hm
    rw [a1, a3]
    exact b4 (a2 ▸ hm)

theorem mode_inv_finished (s : ir_learn_t) (h1 : s.msg.msg.length = 250)
    (h2 : s.msg.repeat_buf.length = 10) (hf : s.finished = true)
    (h4 : s.msg.msg_len = 0 → s.msg.type = IR_LEARN_TYPE_MSG ∧ s.msg.repeat_len = 0) :
    ModeInv s := by
  refine ⟨h1, h2, fun h => ?_, h4⟩
  rw [hf] at h
  cases h

theorem isr_exit_mode (o : isr_out) (hm : o.s.msg.msg_len < 65535) (hi : ModeInv o.s) :
    ModeInv (isr_exit o).s := by
  obtain ⟨b1, b2, b3, b4⟩ := hi
  unfold isr_exit
  split
  · rename_i hfin
    split
    · refine mode_inv_finished _ b1 b2 hfin (fun h0 => ?_)
      exfalso
      have h0 : (o.s.msg.msg_len + 1) % 65536 = 0 := h0
      omega
    · exact mode_inv_finished _ b1 b2 hfin b4
  · exact ⟨b1, b2, b3, b4⟩

theorem isr_carrier_filter_mode (s : ir_learn_t) (period : Int) (hf : s.finished = false)
    (hm : s.msg.msg_len < 250) (hi : ModeInv s) :
    ModeInv (isr_carrier_filter s period).s := by
  obtain ⟨b1, b2, b3, b4⟩ := hi
  unfold isr_carrier_filter
  split
  · rw [isr_exit_unfinished _ hf]
    exact ⟨b1, b2, b3, b4⟩
  · split
    · simp only []
      split
      · rename_i h1
        have hs := (slot_add_shape (filter_flush
          ({ s := { s with
                    carrier := { s.carrier with filter_cnt := (s.carrier.filter_cnt + 1) % 256 },
                    msg := { s.msg with msg_len := (s.msg.msg_len + 1) % 65536 } },
             gave := false, msg_writes := [], repeat_writes := [] } : isr_out)
          IR_FILTER_BUF_LEN) period).1.trans' (filter_flush_shape _ _).1
        refine isr_exit_mode _ ?_ (mode_inv_congr _ _ hs ?_)
        · rw [hs.2.1]
          show (s.msg.msg_len + 1) % 65536 < 65535
          omega
        · refine ⟨b1, b2, fun _ ht => ?_, fun h0 => ?_⟩
          · have ht : s.msg.type = IR_LEARN_RPT := ht
            rw [h1.1] at ht
            cases ht
          · exfalso
            have h0 : (s.msg.msg_len + 1) % 65536 = 0 := h0
            omega
      · split
        · rename_i h1 h2
          have hs := (slot_add_shape (filter_flush
            ({ s := { s with
                      carrier := { s.carrier with
                                   filter_cnt := (s.carrier.filter_cnt + 1) % 256 },
                      msg := { s.msg with repeat_len := (s.msg.repeat_len + 1) % 65536 } },
               gave := false, msg_writes := [], repeat_writes := [] } : isr_out)
            IR_FILTER_BUF_LEN) period).1.trans' (filter_flush_shape _ _).1
          refine isr_exit_mode _ ?_ (mode_inv_congr _ _ hs ?_)
          · rw [hs.2.1]
            show s.msg.msg_len < 65535
            omega
          · refine ⟨b1, b2, b3, fun h0 => ?_⟩
            exfalso
            have e := (b4 h0).1
            rw [h2.1] at e
            cases e
        · have hs := (slot_add_shape (filter_flush
            ({ s := { s with
                      carrier := { s.carrier with
                                   filter_cnt := (s.carrier.filter_cnt + 1) % 256 } },
               gave := false, msg_writes := [], repeat_writes := [] } : isr_out)
            IR_FILTER_BUF_LEN) period).1.trans' (filter_flush_shape _ _).1
          refine isr_exit_mode _ ?_ (mode_inv_congr _ _ hs ⟨b1, b2, b3, b4⟩)
          rw [hs.2.1]
          show s.msg.msg_len < 65535
          omega
    · have hs := (slot_add_shape
        ({ s := s, gave := false, msg_writes := [], repeat_writes := [] } : isr_out) period).1
      refine isr_exit_mode _ ?_ (mode_inv_congr _ _ hs ⟨b1, b2, b3, b4⟩)
      rw [hs.2.1]
      show s.msg.msg_len < 65535
      omega

theorem isr_carrier_mode (s : ir_learn_t) (period gpio_level : Int) (hf : s.finished = false)
    (hm : s.msg.msg_len < 250) (hi : ModeInv s) :
    ModeInv (isr_carrier s period gpio_level).s := by
  unfold isr_carrier
  split
  · split
    · exact isr_carrier_filter_mode _ period hf hm hi
    · exact isr_carrier_filter_mode _ period hf hm hi
  · split
    · exact isr_exit_mode _ (show s.msg.msg_len < 65535 by omega)
        (mode_inv_finished _ hi.1 hi.2.1 rfl hi.2.2.2)
    · exact isr_carrier_filter_mode ({ s with state := IR_LEARN_CARRIER } : ir_learn_t)
        period hf hm hi

theorem isr_bit_start_mode (s : ir_learn_t) (hf : s.finished = false)
    (hm : s.msg.msg_len < 250) (hi : ModeInv s) :
    ModeInv (isr_bit_start s).s ∧ (isr_bit_start s).s.finished = false
      ∧ (isr_bit_start s).s.msg.msg_len < 65535 := by
  obtain ⟨b1, b2, b3, b4⟩ := hi
  unfold isr_bit_start
  simp only []
  split
  · split
    · rename_i h1
      refine ⟨⟨b1, b2, fun _ ht => ?_, fun h0 => ?_⟩, hf, ?_⟩
      · have ht : s.msg.type = IR_LEARN_RPT := ht
        rw [h1] at ht
        cases ht
      · exfalso
        have h0 : (s.msg.msg_len + 1) % 65536 = 0 := h0
        omega
      · show (s.msg.msg_len + 1) % 65536 < 65535
        omega
    · split
      · rename_i h1 h2
        refine ⟨⟨b1, b2, b3, fun h0 => ?_⟩, hf, by show s.msg.msg_len < 65535; omega⟩
        exact absurd (b4 h0).1 h1
      · exact ⟨⟨b1, b2, b3, b4⟩, hf, by show s.msg.msg_len < 65535; omega⟩
  · split
    · have hfl := filter_flush_shape
        ({ s := s, gave := false, msg_writes := [], repeat_writes := [] } : isr_out)
        s.carrier.filter_cnt
      refine ⟨mode_inv_congr _ _ hfl.1 ⟨b1, b2, b3, b4⟩, ?_, ?_⟩
      · rw [hfl.1.2.2.2.2.2.1]
        exact hf
      · rw [hfl.1.2.1]
        show s.msg.msg_len < 65535
        omega
    · exact ⟨⟨b1, b2, b3, b4⟩, hf, by show s.msg.msg_len < 65535; omega⟩

theorem isr_bit_mode (s : ir_learn_t) (period : Int) (hf : s.finished = false)
    (hm : s.msg.msg_len < 250) (hi : ModeInv s) :
    ModeInv (isr_bit s period).s := by
  obtain ⟨h1, h2, h3⟩ := isr_bit_start_mode s hf hm hi
  unfold isr_bit
  simp only []
  generalize isr_bit_start s = o1 at h1 h2 h3
  have hi2 : ModeInv
      ({ o1 with s := { o1.s with carrier := { o1.s.carrier with filter_cnt := 0 } } }
        : isr_out).s := h1
  split
  · exact isr_exit_mode _ h3 (mode_inv_congr _ _ (msg_slot_add_shape _ period).1 hi2)
  · split
    · exact isr_exit_mode _ h3 (mode_inv_congr _ _ (repeat_slot_add_shape _ period).1 hi2)
    · exact isr_exit_mode _ h3 hi2

theorem isr_repeat_mode (s : ir_learn_t) (period : Int)
    (hm : s.msg.msg_len < 250) (hi : ModeInv s) :
    ModeInv (isr_repeat s period).s := by
  obtain ⟨b1, b2, b3, b4⟩ := hi
  unfold isr_repeat
  simp only []
  split
  · rename_i h
    refine isr_exit_mode _ (show s.msg.msg_len < 65535 by omega)
      ⟨b1, (buf_store_length _ _ _ _).trans b2, fun _ _ => hm, fun h0 => ?_⟩
    have h0 : s.msg.msg_len = 0 := h0
    omega
  · split
    · rename_i h
      refine isr_exit_mode _ (show s.msg.msg_len < 65535 by omega)
        (mode_inv_finished _ b1 ((buf_store_length _ _ _ _).trans b2) rfl (fun h0 => ?_))
      have h0 : s.msg.msg_len = 0 := h0
      have e := (b4 h0).1
      rw [h.1] at e
      cases e
    · exact isr_exit_mode _ (show s.msg.msg_len < 65535 by omega) ⟨b1, b2, b3, b4⟩

theorem isr_oversized_mode (s : ir_learn_t) (hm : s.msg.msg_len < 250) (hi : ModeInv s) :
    ModeInv (isr_oversized s).s := by
  obtain ⟨b1, b2, b3, b4⟩ := hi
  unfold isr_oversized
  simp only []
  split
  · exact isr_exit_mode _ (show s.msg.msg_len < 65535 by omega) ⟨b1, b2, b3, b4⟩
  · split
    · exact isr_exit_mode _ (show s.msg.msg_len < 65535 by omega)
        (mode_inv_finished _ b1 b2 rfl b4)
    · exact isr_exit_mode _ (show s.msg.msg_len < 65535 by omega) ⟨b1, b2, b3, b4⟩

theorem isr_handle_mode (s : ir_learn_t) (cur_time gpio_level : Int)
    (hm : s.msg.msg_len ≤ 250) (hi : ModeInv s) :
    ModeInv (ir_learn_isr_handle s cur_time gpio_level).s := by
  by_cases h0 : s.pre_time = 0 ∨ s.finished = true
  · unfold ir_learn_isr_handle
    simp only [h0, if_true]
    exact hi
  · have hp : s.pre_time ≠ 0 := fun h => h0 (Or.inl h)
    have hf : s.finished = false := by
      cases hfin : s.finished
      · rfl
      · exact absurd (Or.inr hfin) h0
    by_cases hl : s.msg.msg_len < 250
    · rw [isr_handle_bands s cur_time gpio_level hp hf hl]
      split
      · exact isr_carrier_mode ({ s with pre_time := cur_time } : ir_learn_t) _ _ hf hl hi
      · split
        · exact isr_bit_mode ({ s with pre_time := cur_time } : ir_learn_t) _ hf hl hi
        · split
          · exact isr_repeat_mode ({ s with pre_time := cur_time } : ir_learn_t) _ hl hi
          · split
            · exact isr_oversized_mode ({ s with pre_time := cur_time } : ir_learn_t) hl hi
            · exact isr_exit_mode _ (show s.msg.msg_len < 65535 by omega) hi
    · have hge : s.msg.msg_len ≥ IR_LEARN_MSG_BUF_LEN := by
        simp only [IR_LEARN_MSG_BUF_LEN]; omega
      unfold ir_learn_isr_handle
      simp only [hp, hf, Bool.false_eq_true, or_self, if_false, hge, if_true]
      exact isr_exit_mode _ (show s.msg.msg_len < 65535 by omega)
        (mode_inv_finished _ hi.1 hi.2.1 rfl hi.2.2.2)

theorem reachable_mode (s : ir_learn_t) (h : Reachable s) : ModeInv s := by
  induction h with
  | start x hx =>
    unfold ir_learn_start at hx ⊢
    split_ifs at hx ⊢
    exact ⟨List.length_replicate _ _, List.length_replicate _ _,
      fun _ _ => Nat.succ_pos 249, fun _ => ⟨rfl, rfl⟩⟩
  | edge s t l hs ih => exact isr_handle_mode s t l (reachable_lens s hs).1 ih

/-! ## The repeat-gap band and the oversized band -/

theorem buf_store_u32 (buf : List Nat) (i : Nat) (v : Int) (h1 : 0 ≤ v) (h2 : v < 4294967296) :
    buf_store 4294967296 buf i v = buf.set i v.toNat := by
  unfold buf_store
  congr 1
  congr 1
  exact Int.emod_eq_of_lt h1 h2

/-- The repeat-gap band on an unfinished session with a message and no repeat data. -/
theorem isr_repeat_first (s : ir_learn_t) (period : Int) (hf : s.finished = false)
    (hm : 0 < s.msg.msg_len) (hr : s.msg.repeat_len = 0) :
    isr_repeat s period
      = { s := { s with msg := { s.msg with
                  type := IR_LEARN_RPT,
                  repeat_buf := buf_store 4294967296 s.msg.repeat_buf 0 period,
                  repeat_len := 1 } },
          gave := false, msg_writes := [], repeat_writes := [0] } := by
  unfold isr_repeat
  simp only []
  rw [if_pos ⟨hm, hr⟩]
  exact (isr_exit_unfinished _ hf).trans (by rw [hr])

/-- The repeat-gap band on an unfinished session in repeat mode with 1 to 8 repeat
durations. -/
theorem isr_repeat_second (s : ir_learn_t) (period : Int)
    (ht : s.msg.type = IR_LEARN_RPT) (h1 : 0 < s.msg.repeat_len) (h2 : s.msg.repeat_len < 9)
    (hm : s.msg.msg_len < 250) :
    isr_repeat s period
      = { s := { s with
                 msg := { s.msg with
                  msg_len := s.msg.msg_len + 1,
                  repeat_buf := buf_store 4294967296 s.msg.repeat_buf (s.msg.repeat_len + 1)
                    period,
                  repeat_len := s.msg.repeat_len + 2,
                  type := IR_LEARN_TYPE_MSG },
                 state := IR_LEARN_FINISH,
                 finished := true,
                 sem := true },
          gave := true, msg_writes := [], repeat_writes := [s.msg.repeat_len + 1] } := by
  have e1 : (s.msg.repeat_len + 1) % 65536 = s.msg.repeat_len + 1 := by omega
  have e2 : (s.msg.repeat_len + 1 + 1) % 65536 = s.msg.repeat_len + 2 := by omega
  have e3 : (s.msg.msg_len + 1) % 65536 = s.msg.msg_len + 1 := by omega
  have c1 : ¬ (s.msg.msg_len > 0 ∧ s.msg.repeat_len = 0) := by
    rintro ⟨_, h⟩
    omega
  have c2 : s.msg.type = IR_LEARN_RPT ∧ s.msg.repeat_len > 0
      ∧ s.msg.repeat_len < IR_LEARN_RPT_BUF_LEN - 1 := ⟨ht, h1, h2⟩
  unfold isr_repeat
  simp only []
  rw [if_neg c1, if_pos c2]
  unfold isr_exit
  simp only [if_true, e1, e2, e3]

/-- The repeat-gap band where neither of its two branches applies. -/
theorem isr_repeat_idle (s : ir_learn_t) (period : Int) (hf : s.finished = false)
    (c1 : ¬ (s.msg.msg_len > 0 ∧ s.msg.repeat_len = 0))
    (c2 : ¬ (s.msg.type = IR_LEARN_RPT ∧ s.msg.repeat_len > 0 ∧ s.msg.repeat_len < 9)) :
    isr_repeat s period = { s := s, gave := false, msg_writes := [], repeat_writes := [] } := by
  have c2 : ¬ (s.msg.type = IR_LEARN_RPT ∧ s.msg.repeat_len > 0
      ∧ s.msg.repeat_len < IR_LEARN_RPT_BUF_LEN - 1) := c2
  unfold isr_repeat
  simp only []
  rw [if_neg c1, if_neg c2]
  exact isr_exit_unfinished _ hf

/-- The oversized band on an unfinished session, case by case. -/
theorem isr_oversized_cases (s : ir_learn_t) (hf : s.finished = false)
    (hm : s.msg.msg_len < 250) :
    (s.msg.msg_len = 0 →
      isr_oversized s = { s := s, gave := false, msg_writes := [], repeat_writes := [] })
    ∧ (s.msg.msg_len ≠ 0 → s.state = IR_LEARN_CARRIER →
      isr_oversized s
        = { s := { s with msg := { s.msg with msg_len := s.msg.msg_len + 1 },
                          state := IR_LEARN_FINISH, finished := true, sem := true },
            gave := true, msg_writes := [], repeat_writes := [] })
    ∧ (s.msg.msg_len ≠ 0 → s.state ≠ IR_LEARN_CARRIER →
      isr_oversized s
        = { s := { s with state := IR_LEARN_IDLE }, gave := false, msg_writes := [],
            repeat_writes := [] }) := by
  have e3 : (s.msg.msg_len + 1) % 65536 = s.msg.msg_len + 1 := by omega
  refine ⟨fun h0 => ?_, fun h0 hc => ?_, fun h0 hc => ?_⟩
  · unfold isr_oversized
    simp only []
    rw [if_pos h0]
    exact isr_exit_unfinished _ hf
  · unfold isr_oversized
    simp only []
    rw [if_neg h0, if_pos hc]
    unfold isr_exit
    simp only [if_true, e3]
  · unfold isr_oversized
    simp only []
    rw [if_neg h0, if_neg hc]
    exact isr_exit_unfinished _ hf

/-! ## The jitter filter -/

theorem buf_add_add (buf : List Nat) (i : Nat) (x y : Int) (hi : i < buf.length) :
    buf_add (buf_add buf i x) i y = buf_add buf i (x + y) := by
  unfold buf_add
  rw [List.set_set]
  congr 2
  have e : (buf.set i ((((buf.getD i 0 : Nat) : Int) + x) % 4294967296).toNat).getD i 0
      = ((((buf.getD i 0 : Nat) : Int) + x) % 4294967296).toNat := by
    simp only [List.getD_eq_getElem?_getD, List.getElem?_set, hi, if_true, Option.getD_some]
  rw [e, Int.toNat_of_nonneg (Int.emod_nonneg _ (by decide)), Int.emod_add_emod, add_assoc]

theorem buf_add_foldl_end (buf : List Nat) (i : Nat) (hi : i < buf.length) (vs : List Int)
    (p : Int) :
    buf_add (vs.foldl (fun b x => buf_add b i x) buf) i p = buf_add buf i (vs.sum + p) := by
  induction vs generalizing buf with
  | nil => simp only [List.foldl_nil, List.sum_nil, zero_add]
  | cons v vs ih =>
    rw [List.foldl_cons, ih (buf_add buf i v) (by rw [buf_add_length]; exact hi), buf_add_add _ _ _ _ hi,
      List.sum_cons, add_assoc]

theorem buf_add_getD (buf : List Nat) (i j : Nat) (v : Nat) (hi : i < buf.length) :
    (buf_add buf i (v : Int)).getD j 0
      = if j = i then (buf.getD i 0 + v) % 4294967296 else buf.getD j 0 := by
  unfold buf_add
  have e : ((((buf.getD i 0 : Nat) : Int) + (v : Int)) % 4294967296).toNat
      = (buf.getD i 0 + v) % 4294967296 := by
    omega
  rw [e]
  simp only [List.getD_eq_getElem?_getD, List.getElem?_set]
  by_cases h : j = i
  · subst h
    simp [hi]
  · rw [if_neg (Ne.symm h), if_neg h]

/-- The flush loop in message mode adds the samples to the slot `msg[msg_len]`, one by one. -/
theorem flush_fold_msg (l : List Nat) (o : isr_out) (ht : o.s.msg.type = IR_LEARN_TYPE_MSG) :
    (l.foldl (fun o i => slot_add o (o.s.carrier.filter.getD i 0 : Nat)) o).s
      = { o.s with msg := { o.s.msg with
            msg := l.foldl (fun b i => buf_add b o.s.msg.msg_len
                      ((o.s.carrier.filter.getD i 0 : Nat) : Int)) o.s.msg.msg } } := by
  induction l generalizing o with
  | nil => rfl
  | cons i l ih =>
    rw [List.foldl_cons]
    have e : slot_add o (o.s.carrier.filter.getD i 0 : Nat)
        = msg_slot_add o (o.s.carrier.filter.getD i 0 : Nat) := by
      unfold slot_add
      rw [if_pos ht]
    rw [e]
    exact ih (msg_slot_add o (o.s.carrier.filter.getD i 0 : Nat)) ht

/-- The session after the flush loop over the whole filter and the statement
`msg[msg_len] += period`, in message mode. -/
theorem flush_commit_msg (o : isr_out) (period : Int)
    (ht : o.s.msg.type = IR_LEARN_TYPE_MSG) (hi : o.s.msg.msg_len < o.s.msg.msg.length) :
    (slot_add (filter_flush o IR_FILTER_BUF_LEN) period).s
      = { o.s with msg := { o.s.msg with
            msg := buf_add o.s.msg.msg o.s.msg.msg_len
                    ((filter_sum o.s.carrier.filter : Nat) + period) } } := by
  have hs := (filter_flush_shape o IR_FILTER_BUF_LEN).1
  have e : slot_add (filter_flush o IR_FILTER_BUF_LEN) period
      = msg_slot_add (filter_flush o IR_FILTER_BUF_LEN) period := by
    unfold slot_add
    rw [if_pos (hs.1.trans ht)]
  rw [e]
  unfold msg_slot_add
  simp only []
  unfold filter_flush
  rw [flush_fold_msg _ o ht]
  simp only []
  have e2 : (List.range IR_FILTER_BUF_LEN).foldl
        (fun b i => buf_add b o.s.msg.msg_len ((o.s.carrier.filter.getD i 0 : Nat) : Int))
        o.s.msg.msg
      = ((List.range IR_FILTER_BUF_LEN).map
            (fun i => ((o.s.carrier.filter.getD i 0 : Nat) : Int))).foldl
          (fun b x => buf_add b o.s.msg.msg_len x) o.s.msg.msg := by
    rw [List.foldl_map]
  have e3 : (((List.range IR_FILTER_BUF_LEN).map
      (fun i => ((o.s.carrier.filter.getD i 0 : Nat) : Int))).sum)
      = ((filter_sum o.s.carrier.filter : Nat) : Int) := by
    unfold filter_sum
    induction (List.range IR_FILTER_BUF_LEN) with
    | nil => rfl
    | cons a l ih =>
      simp only [List.map_cons, List.sum_cons, Nat.cast_add]
      rw [ih]
  rw [e2, buf_add_foldl_end _ _ hi, e3]

/-- The carrier band on an unfinished session that it does not finish: the interval goes
through the jitter filter of a session with the same message data and the same filter. -/
theorem isr_carrier_unfinished (s : ir_learn_t) (period gpio_level : Int)
    (hn : (isr_carrier s period gpio_level).s.finished = false) :
    ∃ s2 : ir_learn_t, isr_carrier s period gpio_level = isr_carrier_filter s2 period
      ∧ s2.msg = s.msg ∧ s2.carrier.filter = s.carrier.filter
      ∧ s2.carrier.filter_cnt = s.carrier.filter_cnt ∧ s2.finished = s.finished := by
  unfold isr_carrier at hn ⊢
  split_ifs at hn ⊢ with h1 h2 h3
  · exact ⟨_, rfl, rfl, rfl, rfl, rfl⟩
  · exact ⟨_, rfl, rfl, rfl, rfl, rfl⟩
  · rw [(isr_exit_phase _).2] at hn
    cases hn
  · exact ⟨_, rfl, rfl, rfl, rfl, rfl⟩

/-- The jitter filter on its eleventh sample, in message mode with a message: the slot
index advances and the new slot takes the ten buffered samples and the new one. -/
theorem isr_carrier_filter_commit (s : ir_learn_t) (period : Int) (hf : s.finished = false)
    (ht : s.msg.type = IR_LEARN_TYPE_MSG) (hc : s.carrier.filter_cnt = 10)
    (h0 : 0 < s.msg.msg_len) (hm : s.msg.msg_len + 1 < s.msg.msg.length)
    (hl : s.msg.msg_len < 65535) :
    (isr_carrier_filter s period).s
      = { s with
          carrier := { s.carrier with filter_cnt := 11 },
          msg := { s.msg with
            msg_len := s.msg.msg_len + 1,
            msg := buf_add s.msg.msg (s.msg.msg_len + 1)
                    ((filter_sum s.carrier.filter : Nat) + period) } } := by
  have e3 : (s.msg.msg_len + 1) % 65536 = s.msg.msg_len + 1 := by omega
  have c1 : ¬ (s.carrier.filter_cnt < IR_FILTER_BUF_LEN) := by
    rw [hc]
    decide
  have c2 : s.carrier.filter_cnt = IR_FILTER_BUF_LEN := hc
  unfold isr_carrier_filter
  simp only []
  rw [if_neg c1, if_pos c2, if_pos ⟨ht, h0⟩]
  have hs := (slot_add_shape (filter_flush
    ({ s := { s with
              carrier := { s.carrier with filter_cnt := (s.carrier.filter_cnt + 1) % 256 },
              msg := { s.msg with msg_len := (s.msg.msg_len + 1) % 65536 } },
       gave := false, msg_writes := [], repeat_writes := [] } : isr_out)
    IR_FILTER_BUF_LEN) period).1.trans' (filter_flush_shape _ _).1
  rw [isr_exit_unfinished _ (hs.2.2.2.2.2.1.trans hf)]
  rw [flush_commit_msg _ period ht (by show (s.msg.msg_len + 1) % 65536 < _; rw [e3]; exact hm)]
  simp only [e3, hc]

/-- The jitter filter on its eleventh sample, in message mode before the first message
slot: the ten buffered samples and the new one go to slot 0. -/
theorem isr_carrier_filter_commit_first (s : ir_learn_t) (period : Int)
    (hf : s.finished = false) (ht : s.msg.type = IR_LEARN_TYPE_MSG)
    (hc : s.carrier.filter_cnt = 10) (h0 : s.msg.msg_len = 0) (hm : 0 < s.msg.msg.length) :
    (isr_carrier_filter s period).s
      = { s with
          carrier := { s.carrier with filter_cnt := 11 },
          msg := { s.msg with
            msg := buf_add s.msg.msg 0 ((filter_sum s.carrier.filter : Nat) + period) } } := by
  have c1 : ¬ (s.carrier.filter_cnt < IR_FILTER_BUF_LEN) := by
    rw [hc]
    decide
  have c2 : s.carrier.filter_cnt = IR_FILTER_BUF_LEN := hc
  have c3 : ¬ (s.msg.type = IR_LEARN_TYPE_MSG ∧ s.msg.msg_len > 0) := by
    rintro ⟨_, h⟩
    omega
  have c4 : ¬ (s.msg.type = IR_LEARN_RPT ∧ s.msg.repeat_len > 0
      ∧ s.msg.repeat_len < IR_LEARN_RPT_BUF_LEN) := by
    rintro ⟨h, _⟩
    rw [ht] at h
    cases h
  unfold isr_carrier_filter
  simp only []
  rw [if_neg c1, if_pos c2, if_neg c3, if_neg c4]
  have hs := (slot_add_shape (filter_flush
    ({ s := { s with
              carrier := { s.carrier with filter_cnt := (s.carrier.filter_cnt + 1) % 256 } },
       gave := false, msg_writes := [], repeat_writes := [] } : isr_out)
    IR_FILTER_BUF_LEN) period).1.trans' (filter_flush_shape _ _).1
  rw [isr_exit_unfinished _ (hs.2.2.2.2.2.1.trans hf)]
  rw [flush_commit_msg _ period ht (by show s.msg.msg_len < _; rw [h0]; exact hm)]
  simp only [h0, hc]

/-- The bit band on an unfinished session in message mode whose jitter filter holds
samples: the slot index advances, the interval goes to the new slot, and the filter count
is reset; the buffered samples are added to no slot. -/
theorem isr_bit_advance (s : ir_learn_t) (period : Int) (hf : s.finished = false)
    (ht : s.msg.type = IR_LEARN_TYPE_MSG) (hc : 0 < s.carrier.filter_cnt)
    (hl : s.msg.msg_len < 65535) :
    isr_bit s period
      = { s := { s with
                 carrier := { s.carrier with filter_cnt := 0 },
                 msg := { s.msg with
                   msg_len := s.msg.msg_len + 1,
                   msg := buf_add s.msg.msg (s.msg.msg_len + 1) period } },
          gave := false, msg_writes := [s.msg.msg_len + 1], repeat_writes := [] } := by
  have e3 : (s.msg.msg_len + 1) % 65536 = s.msg.msg_len + 1 := by omega
  have c1 : s.carrier.filter_cnt > IR_LEARN_TYPE_MSG := hc
  have e1 : isr_bit_start s
      = { s := { s with msg := { s.msg with msg_len := s.msg.msg_len + 1 } }, gave := false,
          msg_writes := [], repeat_writes := [] } := by
    unfold isr_bit_start
    simp only []
    rw [if_pos c1, if_pos ht, e3]
  unfold isr_bit
  simp only []
  rw [e1]
  simp only []
  rw [if_pos ⟨ht, Nat.succ_pos _⟩]
  exact isr_exit_unfinished _ hf

/-! ## More concrete captures -/

theorem one_mark_fed_reachable (ivs : List (Int × Int)) :
    Reachable (feed_intervals one_mark_session ivs) :=
  feed_intervals_reachable _ _ one_mark_session_reachable

set_option maxRecDepth 100000 in
theorem residual_session_fields :
    residual_session.finished = false
    ∧ residual_session.pre_time ≠ 0
    ∧ residual_session.msg.type = IR_LEARN_TYPE_MSG
    ∧ residual_session.msg.msg_len = 1
    ∧ residual_session.carrier.filter_cnt = 3
    ∧ residual_session.carrier.filter.take 3 = [50, 50, 50]
    ∧ residual_session.msg.msg.take 4 = [550, 500, 0, 0] := by
  decide

set_option maxRecDepth 100000 in
theorem residual_session_bit :
    (ir_learn_isr_handle residual_session (residual_session.pre_time + 500) 0).s.msg.msg_len = 2
    ∧ (ir_learn_isr_handle residual_session (residual_session.pre_time + 500) 0).s.msg.msg.take 4
        = [550, 500, 500, 0]
    ∧ (ir_learn_isr_handle residual_session
        (residual_session.pre_time + 500) 0).s.carrier.filter_cnt = 0
    ∧ (ir_learn_isr_handle residual_session (residual_session.pre_time + 500) 0).msg_writes
        = [2] := by
  decide

set_option maxRecDepth 100000 in
theorem full_filter_session_fields :
    full_filter_session.finished = false
    ∧ full_filter_session.pre_time ≠ 0
    ∧ full_filter_session.msg.type = IR_LEARN_TYPE_MSG
    ∧ full_filter_session.msg.msg_len = 1
    ∧ full_filter_session.carrier.filter_cnt = 10
    ∧ full_filter_session.msg.msg.length = 250
    ∧ full_filter_session.carrier.filter.length = 10
    ∧ (ir_learn_isr_handle full_filter_session
        (full_filter_session.pre_time + 50) 1).s.finished = false := by
  decide

set_option maxRecDepth 100000 in
theorem repeat_mode_session_fields :
    repeat_mode_session.finished = false
    ∧ repeat_mode_session.pre_time ≠ 0
    ∧ repeat_mode_session.msg.type = IR_LEARN_RPT
    ∧ repeat_mode_session.msg.repeat_len = 1 := by
  decide

set_option maxRecDepth 100000 in
theorem long_repeat_mode_session_fields :
    long_repeat_mode_session.finished = false
    ∧ long_repeat_mode_session.pre_time ≠ 0
    ∧ long_repeat_mode_session.msg.type = IR_LEARN_RPT
    ∧ long_repeat_mode_session.msg.repeat_len = 9 := by
  decide

set_option maxRecDepth 1000000 in
theorem full_carrier_session_fields :
    full_carrier_session.finished = false
    ∧ full_carrier_session.pre_time ≠ 0
    ∧ full_carrier_session.msg.type = IR_LEARN_TYPE_MSG
    ∧ full_carrier_session.carrier.filter_cnt = 0
    ∧ full_carrier_session.carrier.high_cnt = 100
    ∧ full_carrier_session.msg.msg_len = 3
    ∧ full_carrier_session.state = IR_LEARN_IDLE := by
  decide

set_option maxRecDepth 1000000 in
theorem full_carrier_session_carrier :
    (ir_learn_isr_handle full_carrier_session (full_carrier_session.pre_time + 50) 1).s.msg.msg_len
      = 4
    ∧ (ir_learn_isr_handle full_carrier_session
        (full_carrier_session.pre_time + 50) 1).s.carrier.filter
      = full_carrier_session.carrier.filter
    ∧ (ir_learn_isr_handle full_carrier_session
        (full_carrier_session.pre_time + 50) 1).s.carrier.filter_cnt = 0
    ∧ (ir_learn_isr_handle full_carrier_session
        (full_carrier_session.pre_time + 50) 1).s.finished = true := by
  decide

/-! ## Successive calls of `ir_decode_get_level` -/

theorem get_level_calls_run (r : ir_learn_result_t) (off k : Nat) (bu bm : Int)
    (hlt : off < r.message_len)
    (ha : level_avail bu bm (r.message.getD off 0 : Nat) = some k) :
    ∀ n i, i < k → i + n ≤ k →
      get_level_calls r bu bm n (off, i)
        = (List.replicate n (parity_level off),
           if i + n < k then (off, i + n) else (off + 1, 0)) := by
  intro n
  induction n with
  | zero =>
    intro i hi _
    rw [get_level_calls, Nat.add_zero, if_pos hi]
    rfl
  | succ n ih =>
    intro i hi hin
    have hc := get_level_units r off k bu bm hlt ha i hi
    rw [get_level_calls]
    simp only [hc]
    by_cases h : i + 1 < k
    · simp only [if_pos h]
      rw [ih (i + 1) h (by omega)]
      have e : i + 1 + n = i + (n + 1) := by omega
      rw [e]
      rfl
    · have hn : n = 0 := by omega
      subst hn
      simp only [if_neg h]
      exact Eq.refl _

/-! ## The handler on carrier-band and bit-band intervals -/

theorem isr_handle_carrier_band (s : ir_learn_t) (cur_time gpio_level : Int)
    (hp : s.pre_time ≠ 0) (hf : s.finished = false) (hl : s.msg.msg_len < 250)
    (h1 : 6 ≤ cur_time - s.pre_time) (h2 : cur_time - s.pre_time ≤ 50) :
    ir_learn_isr_handle s cur_time gpio_level
      = isr_carrier { s with pre_time := cur_time } (cur_time - s.pre_time) gpio_level := by
  rw [isr_handle_bands s cur_time gpio_level hp hf hl]
  have a1 : cur_time - s.pre_time ≥ IR_LEARN_CARRIER_WIDTH_MIN
      ∧ cur_time - s.pre_time ≤ IR_LEARN_CARRIER_WIDTH_MAX := by
    constructor
    · show ((6 : Nat) : Int) ≤ cur_time - s.pre_time
      omega
    · show cur_time - s.pre_time ≤ ((50 : Nat) : Int)
      omega
  rw [if_pos a1]

theorem isr_handle_bit_band (s : ir_learn_t) (cur_time gpio_level : Int)
    (hp : s.pre_time ≠ 0) (hf : s.finished = false) (hl : s.msg.msg_len < 250)
    (h1 : 50 < cur_time - s.pre_time) (h2 : cur_time - s.pre_time ≤ 20000) :
    ir_learn_isr_handle s cur_time gpio_level
      = isr_bit { s with pre_time := cur_time } (cur_time - s.pre_time) := by
  rw [isr_handle_bands s cur_time gpio_level hp hf hl]
  have a1 : ¬ (cur_time - s.pre_time ≥ IR_LEARN_CARRIER_WIDTH_MIN
      ∧ cur_time - s.pre_time ≤ IR_LEARN_CARRIER_WIDTH_MAX) := by
    intro h
    have : cur_time - s.pre_time ≤ ((50 : Nat) : Int) := h.2
    omega
  have a2 : cur_time - s.pre_time > IR_LEARN_CARRIER_WIDTH_MAX
      ∧ cur_time - s.pre_time ≤ IR_LEARN_PERIOD_MAX := by
    constructor
    · show cur_time - s.pre_time > ((50 : Nat) : Int)
      omega
    · show cur_time - s.pre_time ≤ ((20000 : Nat) : Int)
      omega
  rw [if_neg a1, if_pos a2]

/-- A call of the handler that leaves an unfinished session past its first edge unfinished
found fewer than 250 message slots committed. -/
theorem isr_handle_unfinished_len (s : ir_learn_t) (cur_time gpio_level : Int)
    (hp : s.pre_time ≠ 0) (hf : s.finished = false)
    (hn : (ir_learn_isr_handle s cur_time gpio_level).s.finished = false) :
    s.msg.msg_len < 250 := by
  by_contra hc
  have hge : s.msg.msg_len ≥ IR_LEARN_MSG_BUF_LEN := by
    show 250 ≤ s.msg.msg_len
    omega
  rw [isr_handle_overflow s cur_time gpio_level hp hf hge] at hn
  cases hn

/-- A carrier-band interval that does not finish the session goes through the jitter filter
of a session with the same message data and the same filter. -/
theorem isr_handle_carrier_filter (s : ir_learn_t) (cur_time gpio_level : Int)
    (hp : s.pre_time ≠ 0) (hf : s.finished = false)
    (h1 : 6 ≤ cur_time - s.pre_time) (h2 : cur_time - s.pre_time ≤ 50)
    (hn : (ir_learn_isr_handle s cur_time gpio_level).s.finished = false) :
    ∃ s2 : ir_learn_t,
      ir_learn_isr_handle s cur_time gpio_level = isr_carrier_filter s2 (cur_time - s.pre_time)
      ∧ s2.msg = s.msg ∧ s2.carrier.filter = s.carrier.filter
      ∧ s2.carrier.filter_cnt = s.carrier.filter_cnt ∧ s2.finished = false := by
  have hl := isr_handle_unfinished_len s cur_time gpio_level hp hf hn
  have e := isr_handle_carrier_band s cur_time gpio_level hp hf hl h1 h2
  rw [e] at hn
  obtain ⟨s2, e2, a, b, c, d⟩ := isr_carrier_unfinished _ _ _ hn
  exact ⟨s2, e.trans e2, a, b, c, d.trans hf⟩

theorem buf_store_u8 (buf : List Nat) (i : Nat) (v : Int) (h1 : 0 ≤ v) (h2 : v < 256) :
    buf_store 256 buf i v = buf.set i v.toNat := by
  unfold buf_store
  congr 1
  congr 1
  exact Int.emod_eq_of_lt h1 h2

/-- The oversized band of the handler, case by case. -/
theorem isr_handle_oversized (s : ir_learn_t) (cur_time gpio_level : Int)
    (hp : s.pre_time ≠ 0) (hf : s.finished = false) (hl : s.msg.msg_len < 250)
    (h1 : 120000 < cur_time - s.pre_time) :
    (s.msg.msg_len = 0 →
      ir_learn_isr_handle s cur_time gpio_level
        = { s := { s with pre_time := cur_time }, gave := false, msg_writes := [],
            repeat_writes := [] })
    ∧ (s.msg.msg_len ≠ 0 → s.state = IR_LEARN_CARRIER →
      ir_learn_isr_handle s cur_time gpio_level
        = { s := { s with pre_time := cur_time,
                          msg := { s.msg with msg_len := s.msg.msg_len + 1 },
                          state := IR_LEARN_FINISH, finished := true, sem := true },
            gave := true, msg_writes := [], repeat_writes := [] })
    ∧ (s.msg.msg_len ≠ 0 → s.state ≠ IR_LEARN_CARRIER →
      ir_learn_isr_handle s cur_time gpio_level
        = { s := { s with pre_time := cur_time, state := IR_LEARN_IDLE }, gave := false,
            msg_writes := [], repeat_writes := [] }) := by
  rw [isr_handle_oversized_band s cur_time gpio_level hp hf hl h1]
  exact isr_oversized_cases ({ s with pre_time := cur_time } : ir_learn_t) hf hl

/-! ## Example durations -/

set_option maxRecDepth 100000 in
theorem rc5_distorted_result_slot :
    rc5_distorted_result.message_len = 17 ∧ rc5_distorted_result.message.getD 14 0 = 100 := by
  decide

theorem rc5_distorted_no_multiple :
    ∀ k, 1 ≤ k → k ≤ 3 →
      ¬ within_multiple RC5_BIT_US RC5_BIT_MARGIN
          (rc5_distorted_result.message.getD 14 0 : Nat) k := by
  intro k h1 h3 h
  rw [rc5_distorted_result_slot.2] at h
  unfold within_multiple at h
  have e1 : RC5_BIT_US = 889 := rfl
  have e2 : RC5_BIT_MARGIN = 100 := rfl
  rw [e1, e2] at h
  have hk : (1 : Int) ≤ (k : Int) := by exact_mod_cast h1
  obtain ⟨ha, _⟩ := h
  push_cast at ha
  omega

set_option maxRecDepth 100000 in
theorem rc5_example_result_slot :
    rc5_example_result.message_len = 17 ∧ rc5_example_result.message.getD 2 0 = 1760 := by
  decide

theorem rc5_example_double :
    within_multiple RC5_BIT_US RC5_BIT_MARGIN (rc5_example_result.message.getD 2 0 : Nat) 2
    ∧ ∀ j, 1 ≤ j → j < 2 →
        ¬ within_multiple RC5_BIT_US RC5_BIT_MARGIN
            (rc5_example_result.message.getD 2 0 : Nat) j := by
  rw [rc5_example_result_slot.2]
  have e1 : RC5_BIT_US = 889 := rfl
  have e2 : RC5_BIT_MARGIN = 100 := rfl
  unfold within_multiple
  rw [e1, e2]
  refine ⟨⟨by norm_num, by norm_num⟩, ?_⟩
  intro j h1 h2 h
  have hj : j = 1 := by omega
  subst hj
  obtain ⟨_, hb⟩ := h
  norm_num at hb

theorem parity_level_eq (offset : Nat) :
    parity_level offset = if offset % 2 = 0 then RC_MARK else RC_SPACE := by
  unfold parity_level
  by_cases h : offset % 2 = 0
  · rw [if_pos h, if_neg (not_not.mpr h)]
  · rw [if_neg h, if_pos h]

/-! ## The carrier band: sample buffers and full buffers -/

/-- The carrier band when a sample buffer is full: the session finishes when `state` is 0,
else `state` becomes `IR_LEARN_CARRIER` and the interval goes through the jitter filter. -/
theorem isr_carrier_full (s : ir_learn_t) (period gpio_level : Int)
    (hfull : ¬ (s.carrier.high_cnt < 100 ∧ s.carrier.low_cnt < 100))
    (hl : s.msg.msg_len < 250) :
    (s.state = IR_LEARN_IDLE →
      isr_carrier s period gpio_level
        = { s := { s with msg := { s.msg with msg_len := s.msg.msg_len + 1 },
                          state := IR_LEARN_FINISH, finished := true, sem := true },
            gave := true, msg_writes := [], repeat_writes := [] })
    ∧ (s.state ≠ IR_LEARN_IDLE →
      isr_carrier s period gpio_level
        = isr_carrier_filter { s with state := IR_LEARN_CARRIER } period) := by
  have e3 : (s.msg.msg_len + 1) % 65536 = s.msg.msg_len + 1 := by omega
  have c1 : ¬ (s.carrier.high_cnt < IR_CARRIER_BUF_LEN ∧ s.carrier.low_cnt < IR_CARRIER_BUF_LEN) :=
    hfull
  refine ⟨fun h0 => ?_, fun h0 => ?_⟩
  · unfold isr_carrier
    rw [if_neg c1, if_pos h0]
    unfold isr_exit
    simp only [if_true, e3]
  · unfold isr_carrier
    rw [if_neg c1, if_neg h0]

/-- The carrier band while both sample buffers have room: the interval is stored in the
high buffer at line level 1, else in the low buffer, and goes through the jitter filter. -/
theorem isr_carrier_room (s : ir_learn_t) (period gpio_level : Int)
    (hroom : s.carrier.high_cnt < 100 ∧ s.carrier.low_cnt < 100) :
    (gpio_level = 1 →
      isr_carrier s period gpio_level
        = isr_carrier_filter
            { s with carrier := { s.carrier with
                high := buf_store 256 s.carrier.high s.carrier.high_cnt period,
                high_cnt := s.carrier.high_cnt + 1 } } period)
    ∧ (gpio_level ≠ 1 →
      isr_carrier s period gpio_level
        = isr_carrier_filter
            { s with carrier := { s.carrier with
                low := buf_store 256 s.carrier.low s.carrier.low_cnt period,
                low_cnt := s.carrier.low_cnt + 1 } } period) := by
  have e1 : (s.carrier.high_cnt + 1) % 256 = s.carrier.high_cnt + 1 := by omega
  have e2 : (s.carrier.low_cnt + 1) % 256 = s.carrier.low_cnt + 1 := by omega
  have c1 : s.carrier.high_cnt < IR_CARRIER_BUF_LEN ∧ s.carrier.low_cnt < IR_CARRIER_BUF_LEN :=
    hroom
  refine ⟨fun h1 => ?_, fun h1 => ?_⟩
  · unfold isr_carrier
    rw [if_pos c1, if_pos h1, e1]
  · unfold isr_carrier
    rw [if_pos c1, if_neg h1, e2]

/-! ## Finishing calls -/

theorem isr_exit_finished (o : isr_out) (h : o.s.finished = true) :
    isr_exit o
      = { o with
          s := { (if o.s.state = IR_LEARN_FINISH then
                    { o.s with msg := { o.s.msg with msg_len := (o.s.msg.msg_len + 1) % 65536 } }
                  else o.s) with sem := true },
          gave := true } := by
  unfold isr_exit
  rw [if_pos h]

theorem isr_carrier_final (s : ir_learn_t) (period gpio_level : Int)
    (hf : s.finished = false) (hl : s.msg.msg_len < 250)
    (hn : (isr_carrier s period gpio_level).s.finished = true) :
    (isr_carrier s period gpio_level).s.state = IR_LEARN_FINISH
      ∧ (isr_carrier s period gpio_level).s.msg.msg_len = s.msg.msg_len + 1 := by
  have e3 : (s.msg.msg_len + 1) % 65536 = s.msg.msg_len + 1 := by omega
  unfold isr_carrier at hn ⊢
  split_ifs at hn ⊢ with h1 h2 h3
  · rw [(isr_carrier_filter_phase _ _).2] at hn
    exact absurd (hf.symm.trans hn) (by decide)
  · rw [(isr_carrier_filter_phase _ _).2] at hn
    exact absurd (hf.symm.trans hn) (by decide)
  · rw [isr_exit_finished _ rfl, if_pos rfl]
    exact ⟨rfl, e3⟩
  · rw [(isr_carrier_filter_phase _ _).2] at hn
    exact absurd (hf.symm.trans hn) (by decide)

theorem isr_repeat_final (s : ir_learn_t) (period : Int)
    (hf : s.finished = false) (hl : s.msg.msg_len < 250)
    (hn : (isr_repeat s period).s.finished = true) :
    (isr_repeat s period).s.state = IR_LEARN_FINISH
      ∧ (isr_repeat s period).s.msg.msg_len = s.msg.msg_len + 1 := by
  by_cases c1 : s.msg.msg_len > 0 ∧ s.msg.repeat_len = 0
  · rw [isr_repeat_first s period hf c1.1 c1.2] at hn
    exact absurd (hf.symm.trans hn) (by decide)
  · by_cases c2 : s.msg.type = IR_LEARN_RPT ∧ s.msg.repeat_len > 0 ∧ s.msg.repeat_len < 9
    · rw [isr_repeat_second s period c2.1 c2.2.1 c2.2.2 hl]
      exact ⟨rfl, rfl⟩
    · rw [isr_repeat_idle s period hf c1 c2] at hn
      exact absurd (hf.symm.trans hn) (by decide)

theorem isr_oversized_final (s : ir_learn_t)
    (hf : s.finished = false) (hl : s.msg.msg_len < 250)
    (hn : (isr_oversized s).s.finished = true) :
    (isr_oversized s).s.state = IR_LEARN_FINISH
      ∧ (isr_oversized s).s.msg.msg_len = s.msg.msg_len + 1 := by
  obtain ⟨a, b, c⟩ := isr_oversized_cases s hf hl
  by_cases h0 : s.msg.msg_len = 0
  · rw [a h0] at hn
    exact absurd (hf.symm.trans hn) (by decide)
  · by_cases hc : s.state = IR_LEARN_CARRIER
    · rw [b h0 hc]
      exact ⟨rfl, rfl⟩
    · rw [c h0 hc] at hn
      exact absurd (hf.symm.trans hn) (by decide)

/-- A call of the handler that latches `finished` leaves `IR_LEARN_FINISH` with `msg_len`
counted up by one, or `IR_LEARN_OVERFLOW` with `msg_len` unchanged. -/
theorem isr_handle_final (s : ir_learn_t) (cur_time gpio_level : Int)
    (hf : s.finished = false)
    (hn : (ir_learn_isr_handle s cur_time gpio_level).s.finished = true) :
    FinalStep s (ir_learn_isr_handle s cur_time gpio_level).s := by
  by_cases hp : s.pre_time = 0
  · have e : ir_learn_isr_handle s cur_time gpio_level
        = { s := { s with pre_time := cur_time }, gave := false, msg_writes := [],
            repeat_writes := [] } := by
      unfold ir_learn_isr_handle
      simp only [hp, true_or, if_true]
    rw [e] at hn
    exact absurd (hf.symm.trans hn) (by decide)
  · by_cases hl : s.msg.msg_len < 250
    · rw [isr_handle_bands s cur_time gpio_level hp hf hl] at hn ⊢
      split_ifs at hn ⊢
      · exact Or.inl (isr_carrier_final ({ s with pre_time := cur_time } : ir_learn_t) _ _
          hf hl hn)
      · rw [(isr_bit_phase _ _).2] at hn
        exact absurd (hf.symm.trans hn) (by decide)
      · exact Or.inl (isr_repeat_final ({ s with pre_time := cur_time } : ir_learn_t) _ hf hl hn)
      · exact Or.inl (isr_oversized_final ({ s with pre_time := cur_time } : ir_learn_t) hf hl hn)
      · rw [(isr_exit_phase _).2] at hn
        exact absurd (hf.symm.trans hn) (by decide)
    · have hge : s.msg.msg_len ≥ IR_LEARN_MSG_BUF_LEN := by
        show 250 ≤ s.msg.msg_len
        omega
      rw [isr_handle_overflow s cur_time gpio_level hp hf hge]
      exact Or.inr ⟨rfl, rfl⟩

/-! ## Captures with full sample buffers -/

set_option maxRecDepth 1000000 in
theorem full_carrier_session_finish :
    (ir_learn_isr_handle full_carrier_session (full_carrier_session.pre_time + 50) 1).s.state
      = IR_LEARN_FINISH
    ∧ (ir_learn_isr_handle full_carrier_session (full_carrier_session.pre_time + 50) 1).gave
      = true
    ∧ (ir_learn_isr_handle full_carrier_session (full_carrier_session.pre_time + 50) 1).msg_writes
      = []
    ∧ (ir_learn_isr_handle full_carrier_session
        (full_carrier_session.pre_time + 50) 1).repeat_writes = [] := by
  decide

theorem alternating_full_session_reachable : Reachable alternating_full_session :=
  feed_intervals_reachable _ _ (Reachable.edge _ _ _ (Reachable.start (ir_learn_create 17) rfl))

set_option maxRecDepth 1000000 in
theorem alternating_full_session_fields :
    alternating_full_session.finished = false
    ∧ alternating_full_session.pre_time ≠ 0
    ∧ alternating_full_session.msg.msg_len = 0
    ∧ alternating_full_session.carrier.high_cnt = 100
    ∧ alternating_full_session.carrier.low_cnt = 99 := by
  decide

set_option maxRecDepth 1000000 in
theorem alternating_full_session_carrier :
    (ir_learn_isr_handle alternating_full_session
      (alternating_full_session.pre_time + 50) 0).s.carrier.low_cnt = 99
    ∧ (ir_learn_isr_handle alternating_full_session
      (alternating_full_session.pre_time + 50) 0).s.carrier.low
      = alternating_full_session.carrier.low
    ∧ (ir_learn_isr_handle alternating_full_session
      (alternating_full_session.pre_time + 50) 0).s.finished = false := by
  decide

/-! ## `array_sort` -/

theorem swap_getD (a : List Nat) (i j k : Nat) (hi : i < a.length) (hj : j < a.length) :
    ((a.set i (a.getD j 0)).set j (a.getD i 0)).getD k 0
      = if k = j then a.getD i 0 else if k = i then a.getD j 0 else a.getD k 0 := by
  simp only [List.getD_eq_getElem?_getD, List.getElem?_set, List.length_set]
  by_cases h1 : k = j
  · subst h1
    simp [hj]
  · by_cases h2 : k = i
    · subst h2
      simp [hi, h1, Ne.symm h1]
    · simp [h1, h2, Ne.symm h1, Ne.symm h2]

theorem swap_perm (a : List Nat) (i j : Nat) (hi : i < a.length) (hj : j < a.length)
    (hij : i ≠ j) : ((a.set i (a.getD j 0)).set j (a.getD i 0)).Perm a := by
  rw [List.perm_iff_count]
  intro b
  have hj2 : j < (a.set i (a.getD j 0)).length := by rw [List.length_set]; exact hj
  rw [List.count_set _ _ _ _ hj2, List.count_set _ _ _ _ hi]
  have e1 : (a.set i (a.getD j 0))[j] = a[j] := by
    rw [List.getElem_set]
    rw [if_neg hij]
  have e2 : a.getD j 0 = a[j] := by simp [List.getD_eq_getElem?_getD, hj]
  have e3 : a.getD i 0 = a[i] := by simp [List.getD_eq_getElem?_getD, hi]
  rw [e1, e2, e3]
  have m1 : a[i] ∈ a := List.getElem_mem hi
  have m2 : a[j] ∈ a := List.getElem_mem hj
  by_cases c1 : a[i] = b
  · have p1 : 0 < a.count b := by
      rw [← c1]
      exact List.count_pos_iff.mpr m1
    by_cases c2 : a[j] = b
    · simp only [c1, c2, beq_self_eq_true, if_true]
      omega
    · have c2b : (a[j] == b) = false := by simpa using c2
      simp only [c1, c2b, beq_self_eq_true, if_true, Bool.false_eq_true, if_false]
      omega
  · have c1b : (a[i] == b) = false := by simpa using c1
    by_cases c2 : a[j] = b
    · have p2 : 0 < a.count b := by
        rw [← c2]
        exact List.count_pos_iff.mpr m2
      simp only [c1b, c2, beq_self_eq_true, if_true, Bool.false_eq_true, if_false]
      omega
    · have c2b : (a[j] == b) = false := by simpa using c2
      simp only [c1b, c2b, Bool.false_eq_true, if_false]
      omega

theorem sort_keeps_refl (n : Nat) (a : List Nat) : SortKeeps n a a :=
  ⟨rfl, List.Perm.refl _, rfl⟩

theorem sort_keeps_trans {n : Nat} {a b c : List Nat} (h1 : SortKeeps n a b)
    (h2 : SortKeeps n b c) : SortKeeps n a c :=
  ⟨h2.1.trans h1.1, h2.2.1.trans h1.2.1, h2.2.2.trans h1.2.2⟩

theorem array_sort_step_keeps (a : List Nat) (n i j : Nat) (hi : i < j) (hj : j < n)
    (hn : n ≤ a.length) : SortKeeps n a (array_sort_step a i j) := by
  unfold array_sort_step
  split_ifs with hc
  · refine ⟨by simp, swap_perm a i j (by omega) (by omega) (by omega), ?_⟩
    rw [List.drop_set_of_lt _ _ hj, List.drop_set_of_lt _ _ (by omega)]
  · exact sort_keeps_refl n a

theorem array_sort_step_inv (a : List Nat) (n i j : Nat) (hi : i < j) (hj : j < n)
    (hn : n ≤ a.length) (h : InnerInv n i j a) : InnerInv n i (j + 1) (array_sort_step a i j) := by
  obtain ⟨hs, hm⟩ := h
  unfold array_sort_step
  split_ifs with hc
  · have gi : ((a.set i (a.getD j 0)).set j (a.getD i 0)).getD i 0 = a.getD j 0 := by
      rw [swap_getD a i j i (by omega) (by omega), if_neg (by omega), if_pos rfl]
    have gj : ((a.set i (a.getD j 0)).set j (a.getD i 0)).getD j 0 = a.getD i 0 := by
      rw [swap_getD a i j j (by omega) (by omega), if_pos rfl]
    have go : ∀ k, k ≠ i → k ≠ j →
        ((a.set i (a.getD j 0)).set j (a.getD i 0)).getD k 0 = a.getD k 0 := by
      intro k h1 h2
      rw [swap_getD a i j k (by omega) (by omega), if_neg h2, if_neg h1]
    refine ⟨fun p q hp hpq hq => ?_, fun k hk1 hk2 => ?_⟩
    · rw [go p (by omega) (by omega)]
      by_cases hqi : q = i
      · rw [hqi, gi]
        exact hs p j hp (by omega) (by omega)
      · by_cases hqj : q = j
        · rw [hqj, gj]
          exact hs p i hp (by omega) (by omega)
        · rw [go q hqi hqj]
          exact hs p q hp hpq hq
    · rw [gi]
      by_cases hkj : k = j
      · rw [hkj, gj]
        omega
      · rw [go k (by omega) hkj]
        have := hm k hk1 (by omega)
        omega
  · refine ⟨hs, fun k hk1 hk2 => ?_⟩
    by_cases hkj : k = j
    · subst hkj
      omega
    · exact hm k hk1 (by omega)

theorem array_sort_inner_aux (n i : Nat) :
    ∀ (len j : Nat) (a : List Nat), i < j → j + len = n → n ≤ a.length → InnerInv n i j a →
      InnerInv n i n ((List.range' j len).foldl (fun a j => array_sort_step a i j) a)
      ∧ SortKeeps n a ((List.range' j len).foldl (fun a j => array_sort_step a i j) a) := by
  intro len
  induction len with
  | zero =>
    intro j a _ hjn _ h
    have e : j = n := by omega
    subst e
    exact ⟨h, sort_keeps_refl _ a⟩
  | succ len ih =>
    intro j a hij hjn hn h
    rw [List.range'_succ, List.foldl_cons]
    have hk := array_sort_step_keeps a n i j hij (by omega) hn
    have hi2 := array_sort_step_inv a n i j hij (by omega) hn h
    obtain ⟨r1, r2⟩ := ih (j + 1) (array_sort_step a i j) (by omega) (by omega)
      (by rw [hk.1]; exact hn) hi2
    exact ⟨r1, sort_keeps_trans hk r2⟩

theorem array_sort_inner_inv (a : List Nat) (n i : Nat) (hi : i < n) (hn : n ≤ a.length)
    (h : SortedBelow n i a) :
    SortedBelow n (i + 1) (array_sort_inner a n i) ∧ SortKeeps n a (array_sort_inner a n i) := by
  unfold array_sort_inner
  obtain ⟨r1, r2⟩ := array_sort_inner_aux n i (n - (i + 1)) (i + 1) a (by omega) (by omega) hn
    ⟨h, fun k hk1 hk2 => by omega⟩
  refine ⟨fun p q hp hpq hq => ?_, r2⟩
  by_cases hpi : p < i
  · exact r1.1 p q hpi hpq hq
  · have e : p = i := by omega
    subst e
    exact r1.2 q hpq hq

theorem array_sort_outer_aux (n : Nat) :
    ∀ (len i : Nat) (a : List Nat), i + len = n → n ≤ a.length → SortedBelow n i a →
      SortedBelow n n ((List.range' i len).foldl (fun a i => array_sort_inner a n i) a)
      ∧ SortKeeps n a ((List.range' i len).foldl (fun a i => array_sort_inner a n i) a) := by
  intro len
  induction len with
  | zero =>
    intro i a hin _ h
    have e : i = n := by omega
    subst e
    exact ⟨h, sort_keeps_refl _ a⟩
  | succ len ih =>
    intro i a hin hn h
    rw [List.range'_succ, List.foldl_cons]
    obtain ⟨s1, k1⟩ := array_sort_inner_inv a n i (by omega) hn h
    obtain ⟨r1, r2⟩ := ih (i + 1) (array_sort_inner a n i) (by omega) (by rw [k1.1]; exact hn) s1
    exact ⟨r1, sort_keeps_trans k1 r2⟩

/-- The function `array_sort` on an array of at least `n` elements: the first `n` are in
non-decreasing order afterwards, the array is a permutation of what it was, and the elements
from index `n` on are untouched. -/
theorem array_sort_sorted (a : List Nat) (n : Nat) (hn : n ≤ a.length) :
    SortedBelow n n (array_sort a n) ∧ SortKeeps n a (array_sort a n) := by
  unfold array_sort
  rw [List.range_eq_range']
  exact array_sort_outer_aux n n 0 a (by omega) hn (fun p q hp => absurd hp (Nat.not_lt_zero _))

theorem sort_keeps_take (n : Nat) (a b : List Nat) (h : SortKeeps n a b) :
    (b.take n).Perm (a.take n) := by
  obtain ⟨_, hp, hd⟩ := h
  have e1 := List.take_append_drop n a
  have e2 := List.take_append_drop n b
  rw [← e1, ← e2, hd] at hp
  exact (List.perm_append_right_iff _).mp hp

/-! ## The copy loops of `ir_learn_get_result` -/

theorem copy_u16_length (dst src : List Nat) (n : Nat) :
    (copy_u16 dst src n).length = dst.length := by
  unfold copy_u16
  induction n with
  | zero => rfl
  | succ n ih => rw [List.range_succ, List.foldl_append, List.foldl_cons, List.foldl_nil,
      List.length_set, ih]

theorem copy_u16_getD (dst src : List Nat) (n i : Nat) :
    (copy_u16 dst src n).getD i 0
      = if i < n ∧ i < dst.length then src.getD i 0 % 65536 else dst.getD i 0 := by
  induction n with
  | zero =>
    rw [if_neg (fun h => Nat.not_lt_zero _ h.1)]
    rfl
  | succ n ih =>
    have e : copy_u16 dst src (n + 1) = (copy_u16 dst src n).set n (src.getD n 0 % 65536) := by
      unfold copy_u16
      rw [List.range_succ, List.foldl_append, List.foldl_cons, List.foldl_nil]
    rw [e]
    simp only [List.getD_eq_getElem?_getD, List.getElem?_set, copy_u16_length] at ih ⊢
    by_cases hin : n = i
    · subst hin
      by_cases hl : n < dst.length
      · simp [hl]
      · have hge : dst.length ≤ n := Nat.le_of_not_lt hl
        simp [hl, List.getElem?_eq_none hge]
    · rw [if_neg hin, ih]
      by_cases h1 : i < n
      · have h2 : i < n + 1 := by omega
        simp only [h1, h2, true_and]
      · have h2 : ¬ i < n + 1 := by omega
        simp only [h1, h2, false_and, if_false]

/-- The outcome of a successful `ir_learn_get_result`: the session and the result. -/
theorem get_result_ok_eq (s : ir_learn_t) (r : ir_learn_result_t) (d : Bool)
    (h : (ir_learn_get_result s r d).1 = ESP_OK) :
    (ir_learn_get_result s r d).2.1 = result_session s
    ∧ (ir_learn_get_result s r d).2.2.message_len = s.msg.msg_len
    ∧ (ir_learn_get_result s r d).2.2.repeat_len = (result_session s).msg.repeat_len
    ∧ (ir_learn_get_result s r d).2.2.message = copy_u16 r.message s.msg.msg s.msg.msg_len
    ∧ (ir_learn_get_result s r d).2.2.repeat_buf
        = copy_u16 r.repeat_buf s.msg.repeat_buf (result_session s).msg.repeat_len := by
  obtain ⟨h1, h2, h3, h4⟩ := get_result_ok_inv s r d h
  have e := get_result_ok s r d h1 h2 h3 h4
  have p := (pair_parts _ _ _ e).2
  have p1 := (pair_parts _ _ _ p).1
  have p2 := (pair_parts _ _ _ p).2
  exact ⟨p1, congrArg ir_learn_result_t.message_len p2, congrArg ir_learn_result_t.repeat_len p2,
    congrArg ir_learn_result_t.message p2, congrArg ir_learn_result_t.repeat_buf p2⟩

theorem result_session_repeat_len (s : ir_learn_t) :
    (result_session s).msg.repeat_len = if 9 ≤ s.msg.repeat_len then 0 else s.msg.repeat_len :=
  rfl

/-! ## The capture with wide repeat gaps -/

theorem wide_repeat_session_reachable : Reachable wide_repeat_session :=
  feed_intervals_reachable _ _ (Reachable.edge _ _ _ (Reachable.start (ir_learn_create 17) rfl))

set_option maxRecDepth 1000000 in
theorem wide_repeat_session_fields :
    wide_repeat_session.state = IR_LEARN_FINISH
    ∧ wide_repeat_session.msg.msg_len = 3
    ∧ wide_repeat_session.msg.repeat_len = 3
    ∧ wide_repeat_session.msg.msg.take 3 = [550, 500, 550]
    ∧ wide_repeat_session.msg.repeat_buf.take 3 = [70000, 250, 70000]
    ∧ wide_repeat_session.msg.repeat_buf.getD 0 0 = 70000
    ∧ period_check_fails wide_repeat_session.msg.msg wide_repeat_session.msg.msg_len
        IR_LEARN_PERIOD_MAX = false
    ∧ period_check_fails wide_repeat_session.msg.repeat_buf
        wide_repeat_session.msg.repeat_len IR_LEARN_REPEAT_MAX = false := by
  decide

theorem wide_repeat_session_ok :
    (ir_learn_get_result wide_repeat_session result_buffer false).1 = ESP_OK :=
  (pair_parts _ _ _ (get_result_ok wide_repeat_session result_buffer false
    wide_repeat_session_fields.1 (by rw [wide_repeat_session_fields.2.1]; decide)
    wide_repeat_session_fields.2.2.2.2.2.2.1 (Or.inr wide_repeat_session_fields.2.2.2.2.2.2.2))).1

theorem short_carrier_session_ok :
    (ir_learn_get_result short_carrier_session result_buffer false).1 = ESP_OK :=
  (pair_parts _ _ _ (get_result_ok short_carrier_session result_buffer false
    short_carrier_session_fields.1 (by rw [short_carrier_session_fields.2.2.1]; decide)
    short_carrier_session_checks.1 (Or.inr short_carrier_session_checks.2.1))).1

/-! ## The NEC frame -/

set_option maxRecDepth 1000000 in
theorem nec_build_bits_bytes : ∀ a, a < 256 →
    nec_build_bits 16 (nec_send_arg a)
      = (byte_bits_lsb a ++ byte_bits_lsb (255 - a)).map
          (fun b => layout_item 560 (if b then 1690 else 560)) := by
  decide

theorem nec_send_items_layout (a c : Nat) (ha : a < 256) (hc : c < 256) :
    ir_nec_send_items a c = nec_layout a c := by
  have h1 : ir_encode_set_level 1 NEC_HDR_HIGH_US NEC_HDR_LOW_US = layout_item 9000 4500 := by
    decide
  have h2 : ir_encode_set_level 1 NEC_BIT_HIGH_US 0x7fff = layout_item 560 0x7fff := by
    decide
  unfold ir_nec_send_items nec_build_items nec_layout
  rw [nec_build_bits_bytes a ha, nec_build_bits_bytes c hc, h1, h2]
  simp only [List.map_append, List.append_assoc]

/-! ## The value that `ir_nec_decode` assembles -/

theorem check_range_within (w t m : Int) (h1 : -2147483648 ≤ t - m) (h2 : t - m ≤ 2147483647)
    (h3 : -2147483648 ≤ t + m) (h4 : t + m ≤ 2147483647) :
    ir_decode_check_range w t m = true ↔ within_margin w t m := by
  unfold ir_decode_check_range within_margin
  rw [wrap32_of_range _ h3 h4, wrap32_of_range _ h1 h2]
  simp only [Bool.and_eq_true, decide_eq_true_eq, gt_iff_lt]
  exact ⟨fun h => ⟨h.2, h.1⟩, fun h => ⟨h.2, h.1⟩⟩

theorem nec_decode_loop_match (r : ir_learn_result_t) :
    ∀ (n i off data : Nat),
      (∀ k, k < n →
        ir_decode_check_range (r.message.getD (off + 2 * k) 0 : Nat) NEC_BIT_HIGH_US
            NEC_BIT_MARGIN = true
        ∧ (ir_decode_check_range (r.message.getD (off + 2 * k + 1) 0 : Nat) NEC_ONE_LOW_US
              NEC_BIT_MARGIN = true
          ∨ ir_decode_check_range (r.message.getD (off + 2 * k + 1) 0 : Nat) NEC_ZERO_LOW_US
              NEC_BIT_MARGIN = true)) →
      nec_decode_loop r n i off data = some (nec_acc (nec_space_bits r n off) i data) := by
  intro n
  induction n with
  | zero => intro i off data _; rfl
  | succ n ih =>
    intro i off data h
    have hk0 := h 0 (Nat.succ_pos n)
    rw [Nat.mul_zero, Nat.add_zero] at hk0
    have hih := fun d => ih (i + 1) (off + 2) d (fun k hk => by
      have := h (k + 1) (by omega)
      rw [show off + 2 * (k + 1) = off + 2 + 2 * k by omega] at this
      exact this)
    rw [nec_space_bits, nec_acc, nec_decode_loop]
    simp only []
    rw [if_neg (by rw [hk0.1]; decide)]
    cases h1 : ir_decode_check_range (r.message.getD (off + 1) 0 : Nat) NEC_ONE_LOW_US
        NEC_BIT_MARGIN
    · have z := hk0.2
      rw [h1] at z
      have z2 : ir_decode_check_range (r.message.getD (off + 1) 0 : Nat) NEC_ZERO_LOW_US
          NEC_BIT_MARGIN = true := by
        rcases z with z | z
        · cases z
        · exact z
      simp only [Bool.false_eq_true, if_false, z2, if_true]
      exact hih data
    · simp only [if_true]
      exact hih _

theorem nec_space_bits_length (r : ir_learn_result_t) :
    ∀ (n off : Nat), (nec_space_bits r n off).length = n := by
  intro n
  induction n with
  | zero => intro off; rfl
  | succ n ih =>
    intro off
    rw [nec_space_bits, List.length_cons, ih]

theorem nec_space_bits_getD (r : ir_learn_result_t) :
    ∀ (n off j : Nat), (nec_space_bits r n off).getD j false
      = (decide (j < n)
          && ir_decode_check_range (r.message.getD (off + 2 * j + 1) 0 : Nat) NEC_ONE_LOW_US
              NEC_BIT_MARGIN) := by
  intro n
  induction n with
  | zero =>
    intro off j
    simp [nec_space_bits]
  | succ n ih =>
    intro off j
    rw [nec_space_bits]
    cases j with
    | zero =>
      simp
    | succ j =>
      rw [List.getD_cons_succ, ih (off + 2) j,
        show off + 2 + 2 * j + 1 = off + 2 * (j + 1) + 1 by omega]
      simp

theorem nec_acc_lt (bs : List Bool) :
    ∀ (i d : Nat), d < 4294967296 → nec_acc bs i d < 4294967296 := by
  induction bs with
  | nil => intro i d h; exact h
  | cons b bs ih =>
    intro i d h
    rw [nec_acc]
    apply ih
    split
    · exact Nat.mod_lt _ (by decide)
    · exact h

theorem nec_acc_testBit (bs : List Bool) :
    ∀ (i d j : Nat), d < 4294967296 → i + bs.length ≤ 32 →
      (nec_acc bs i d).testBit j
        = (d.testBit j || (decide (i ≤ j) && bs.getD (j - i) false)) := by
  induction bs with
  | nil =>
    intro i d j _ _
    simp [nec_acc]
  | cons b bs ih =>
    intro i d j hd hl
    have hl2 : i + 1 + bs.length ≤ 32 := by
      simp only [List.length_cons] at hl
      omega
    have hi : i < 32 := by omega
    rw [nec_acc]
    have hp : (1 : Nat) <<< i < 4294967296 := by
      rw [Nat.one_shiftLeft]
      exact Nat.pow_lt_pow_right (by decide) hi
    have hor : (d ||| 1 <<< i) % 4294967296 = d ||| 1 <<< i :=
      Nat.mod_eq_of_lt (Nat.or_lt_two_pow (n := 32) hd hp)
    by_cases hb : b = true
    · subst hb
      rw [if_pos rfl, hor,
        ih (i + 1) (d ||| 1 <<< i) j (Nat.or_lt_two_pow (n := 32) hd hp) hl2,
        Nat.testBit_or, Nat.one_shiftLeft, Nat.testBit_two_pow]
      by_cases h1 : i = j
      · subst h1
        simp
      · by_cases h2 : i < j
        · have e : j - i = (j - (i + 1)) + 1 := by omega
          rw [e]
          simp [h1, show i + 1 ≤ j by omega, show i ≤ j by omega]
        · simp [h1, show ¬ i + 1 ≤ j by omega, show ¬ i ≤ j by omega]
    · have hb2 : b = false := by simpa using hb
      subst hb2
      rw [if_neg (by decide), ih (i + 1) d j hd hl2]
      by_cases h1 : i = j
      · subst h1
        simp
      · by_cases h2 : i < j
        · have e : j - i = (j - (i + 1)) + 1 := by omega
          rw [e]
          simp [show i + 1 ≤ j by omega, show i ≤ j by omega]
        · simp [show ¬ i + 1 ≤ j by omega, show ¬ i ≤ j by omega]

/-- On a matching message of at least 64 durations `ir_nec_decode` succeeds; bit `i` of the
value is set exactly when the space of pair `i` is within the margin of 1690 us. -/
theorem ir_nec_decode_value (r : ir_learn_result_t) (hlen : 64 ≤ r.message_len)
    (hm : NecMatches r) :
    ∃ v : Nat,
      ir_nec_decode r
        = (true, { r with proto := IR_PROTO_NEC, bits := 32, value := v,
                          addr := (v &&& 255) % 65536,
                          cmd := ((v >>> 16) &&& 255) % 65536 })
      ∧ v < 4294967296
      ∧ ∀ j, v.testBit j = true
          ↔ (j < 32 ∧ within_margin (r.message.getD (3 + 2 * j) 0 : Nat) 1690 100) := by
  obtain ⟨h0, h1, hp⟩ := hm
  have c0 : ir_decode_check_range (r.message.getD 0 0 : Nat) NEC_HDR_HIGH_US NEC_BIT_MARGIN
      = true :=
    (check_range_within (r.message.getD 0 0 : Nat) 9000 100 (by decide) (by decide)
      (by decide) (by decide)).mpr h0
  have c1 : ir_decode_check_range (r.message.getD 1 0 : Nat) NEC_HDR_LOW_US NEC_BIT_MARGIN
      = true :=
    (check_range_within (r.message.getD 1 0 : Nat) 4500 100 (by decide) (by decide)
      (by decide) (by decide)).mpr h1
  have hloop := nec_decode_loop_match r 32 0 2 0 (fun k hk => by
    obtain ⟨a, b⟩ := hp k hk
    refine ⟨(check_range_within _ 560 100 (by decide) (by decide) (by decide) (by decide)).mpr a,
      ?_⟩
    rw [show 2 + 2 * k + 1 = 3 + 2 * k by omega]
    rcases b with b | b
    · exact Or.inl ((check_range_within _ 1690 100 (by decide) (by decide) (by decide)
        (by decide)).mpr b)
    · exact Or.inr ((check_range_within _ 560 100 (by decide) (by decide) (by decide)
        (by decide)).mpr b))
  refine ⟨nec_acc (nec_space_bits r 32 2) 0 0, ?_, nec_acc_lt _ 0 0 (by decide), fun j => ?_⟩
  · unfold ir_nec_decode
    have e2 : ¬ (r.message_len < 2 * NEC_DATA_BITS) := by
      show ¬ (r.message_len < 64)
      omega
    rw [if_neg (by rw [c0]; decide), if_neg e2, if_neg (by rw [c1]; decide)]
    rw [show NEC_DATA_BITS = 32 from rfl, hloop]
    exact Eq.refl _
  · rw [nec_acc_testBit _ 0 0 j (by decide) (Nat.le_of_eq (congrArg (fun x => 0 + x) (nec_space_bits_length r 32 2))),
      Nat.zero_testBit, Bool.false_or, Nat.sub_zero, nec_space_bits_getD]
    simp only [Nat.zero_le, decide_True, Bool.true_and, Bool.and_eq_true, decide_eq_true_eq]
    rw [show 2 + 2 * j + 1 = 3 + 2 * j by omega]
    exact and_congr_right (fun _ => check_range_within _ 1690 100 (by decide) (by decide)
      (by decide) (by decide))

theorem low_byte_testBit (v j : Nat) :
    ((v &&& 255) % 65536).testBit j = (v.testBit j && decide (j < 8)) := by
  have e : (255 : Nat) = 2 ^ 8 - 1 := by decide
  have h : v &&& 255 < 65536 := Nat.lt_of_le_of_lt Nat.and_le_right (by decide)
  rw [Nat.mod_eq_of_lt h, Nat.testBit_and, e, Nat.testBit_two_pow_sub_one]

theorem low_byte_eq (v : Nat) : (v &&& 255) % 65536 = v &&& 255 :=
  Nat.mod_eq_of_lt (Nat.lt_of_le_of_lt Nat.and_le_right (by decide))

/-! ## The reads of the decoders -/

theorem get_level_reads_lt (r : ir_learn_result_t) (off : Nat) :
    ∀ i ∈ get_level_reads r off, i < r.message_len := by
  intro i hi
  unfold get_level_reads at hi
  split_ifs at hi with h
  · cases hi
  · rw [List.mem_singleton] at hi
    omega

theorem rc5_loop_reads_lt (fuel : Nat) :
    ∀ (r : ir_learn_result_t) (off used : Nat),
      ∀ i ∈ rc5_loop_reads fuel r off used, i < r.message_len := by
  induction fuel with
  | zero => intro r off used i hi; cases hi
  | succ f ih =>
    intro r off used i hi
    rw [rc5_loop_reads] at hi
    simp only [] at hi
    split_ifs at hi
    all_goals
      try simp only [List.mem_append, List.not_mem_nil, or_false] at hi
    all_goals
      repeat' (first
        | exact get_level_reads_lt _ _ i hi
        | exact ih _ _ _ i hi
        | refine Or.elim hi (fun hi => ?_) (fun hi => ?_))

/-- Every index at which `ir_rc5_decode` reads `message` is below `message_len`. -/
theorem ir_rc5_decode_reads_lt (r : ir_learn_result_t) :
    ∀ i ∈ ir_rc5_decode_reads r, i < r.message_len := by
  intro i hi
  unfold ir_rc5_decode_reads at hi
  simp only [] at hi
  split_ifs at hi
  all_goals
    try simp only [List.mem_append, List.not_mem_nil, or_false] at hi
  all_goals
    repeat' (first
      | exact get_level_reads_lt _ _ i hi
      | exact rc5_loop_reads_lt _ _ _ _ i hi
      | refine Or.elim hi (fun hi => ?_) (fun hi => ?_))

theorem rc6_loop_reads_lt (fuel : Nat) :
    ∀ (r : ir_learn_result_t) (bits off used : Nat),
      ∀ i ∈ rc6_loop_reads fuel r bits off used, i < r.message_len := by
  induction fuel with
  | zero => intro r bits off used i hi; cases hi
  | succ f ih =>
    intro r bits off used i hi
    rw [rc6_loop_reads] at hi
    simp only [] at hi
    split_ifs at hi
    all_goals
      try simp only [List.mem_append, List.not_mem_nil, or_false, false_or] at hi
    all_goals
      repeat' (first
        | exact get_level_reads_lt _ _ i hi
        | exact ih _ _ _ _ i hi
        | refine Or.elim hi (fun hi => ?_) (fun hi => ?_))

/-- Every index at which `ir_rc6_decode` reads `message` is below `message_len`: the header
reads of 0 and 1 come after the check `message_len < RC6_BIT_LEN`. -/
theorem ir_rc6_decode_reads_lt (r : ir_learn_result_t) :
    ∀ i ∈ ir_rc6_decode_reads r, i < r.message_len := by
  intro i hi
  unfold ir_rc6_decode_reads at hi
  simp only [] at hi
  split_ifs at hi with h0
  · cases hi
  all_goals
    have h16 : 16 ≤ r.message_len := by
      have h1 : ¬ r.message_len < 16 := h0
      omega
    simp only [List.mem_append, List.mem_cons, List.not_mem_nil, or_false] at hi
    repeat' (first
      | exact get_level_reads_lt _ _ i hi
      | exact rc6_loop_reads_lt _ _ _ _ _ i hi
      | omega
      | refine Or.elim hi (fun hi => ?_) (fun hi => ?_))

/-- The reads of `ir_nec_decode` on a result with no message and one repeat duration: the
dispatcher lets the result through and the decoder reads index 0. -/
theorem repeat_only_result_reads :
    repeat_only_result.message_len = 0
    ∧ repeat_only_result.repeat_len = 1
    ∧ (ir_learn_decode repeat_only_result).1 = ESP_FAIL
    ∧ ir_nec_decode_reads repeat_only_result = [0] := by
  decide

set_option maxRecDepth 1000000 in
/-- The reads of `ir_nec_decode` on the NEC frame declared 64 long: indices 0 to 65, in
order, and the value at index 65 decides the outcome. -/
theorem nec_short_len_result_reads :
    ir_nec_decode_reads nec_short_len_result = List.range 66
    ∧ (ir_nec_decode { nec_short_len_result with
          message := nec_short_len_result.message.set 65 0 }).1 = false := by
  decide

/-! ## The dispatcher on RC5 and RC6 frames -/

/-- A width that `ir_decode_get_level` accepts with the RC5 bit time is not an NEC header
mark. -/
theorem rc5_avail_not_nec_header (w : Int) (n : Nat)
    (h : level_avail RC5_BIT_US RC5_BIT_MARGIN w = some n) :
    ir_decode_check_range w NEC_HDR_HIGH_US NEC_BIT_MARGIN = false := by
  have hw : w < 2767 := by
    unfold level_avail at h
    have c1 : wrap32 ((RC5_BIT_US : Nat) + RC5_BIT_MARGIN) = 989 := by decide
    have c2 : wrap32 (wrap32 (2 * (RC5_BIT_US : Nat)) + RC5_BIT_MARGIN) = 1878 := by decide
    have c3 : wrap32 (wrap32 (3 * (RC5_BIT_US : Nat)) + RC5_BIT_MARGIN) = 2767 := by decide
    unfold ir_decode_check_range at h
    rw [c1, c2, c3] at h
    by_contra hc
    have h1 : ¬ w < 989 := by omega
    have h2 : ¬ w < 1878 := by omega
    have h3 : ¬ w < 2767 := hc
    simp only [h1, h2, h3, decide_False, Bool.false_and, Bool.false_eq_true, if_false] at h
    cases h
  unfold ir_decode_check_range
  have c4 : wrap32 ((NEC_HDR_HIGH_US : Nat) - NEC_BIT_MARGIN) = 8900 := by decide
  rw [c4]
  have h5 : ¬ w > 8900 := by omega
  simp only [h5, decide_False, Bool.and_false]

/-- The NEC decoder returns false at its first check when the first duration is not a
header mark, leaving the result as it was. -/
theorem ir_nec_decode_header (r : ir_learn_result_t)
    (h : ir_decode_check_range (r.message.getD 0 0 : Nat) NEC_HDR_HIGH_US NEC_BIT_MARGIN
      = false) :
    ir_nec_decode r = (false, r) := by
  unfold ir_nec_decode
  rw [if_pos h]

/-- The NEC decoder rejects every received RC5 frame and leaves the result as it was. -/
theorem nec_rejects_rc5 (r0 : ir_learn_result_t) (toggle : Bool) (a c : Nat) :
    ir_nec_decode
        (result_of_message r0 (received_durations_us (ir_rc5_send_items toggle a c)))
      = (false,
          result_of_message r0 (received_durations_us (ir_rc5_send_items toggle a c))) := by
  have hp := rc5_readPos toggle a c
  generalize received_durations_us (ir_rc5_send_items toggle a c) = msg at hp ⊢
  apply ir_nec_decode_header
  cases hp with
  | run off used n U V h1 h2 h3 h4 h5 =>
    exact rc5_avail_not_nec_header _ n h2

/-- The NEC decoder rejects every received RC6 frame and leaves the result as it was. -/
theorem nec_rejects_rc6 (r0 : ir_learn_result_t) (mode : Nat) (toggle : Bool) (a c : Nat) :
    ir_nec_decode
        (result_of_message r0 (received_durations_us (ir_rc6_send_items mode toggle a c)))
      = (false,
          result_of_message r0
            (received_durations_us (ir_rc6_send_items mode toggle a c))) := by
  have hrx := rc6_received mode toggle a c
  generalize received_durations_us (ir_rc6_send_items mode toggle a c) = msg at hrx ⊢
  apply ir_nec_decode_header
  have h0 : (result_of_message r0 msg).message.getD 0 0 = 2660 := by
    show msg.getD 0 0 = 2660
    rw [hrx]; rfl
  rw [h0]
  decide

/-- The RC5 decoder rejects every received RC6 frame and leaves the result as it was: the
2660 us header mark reads as three RC5 units of mark, so the second start level is a mark
where a space is required. -/
theorem rc5_rejects_rc6 (r0 : ir_learn_result_t) (mode : Nat) (toggle : Bool) (a c : Nat) :
    ir_rc5_decode
        (result_of_message r0 (received_durations_us (ir_rc6_send_items mode toggle a c)))
      = (false,
          result_of_message r0
            (received_durations_us (ir_rc6_send_items mode toggle a c))) := by
  have hrx := rc6_received mode toggle a c
  generalize received_durations_us (ir_rc6_send_items mode toggle a c) = msg at hrx ⊢
  generalize hr : result_of_message r0 msg = r
  have hm : r.message = msg := by rw [← hr]; rfl
  have hl : r.message_len = msg.length := by rw [← hr]; rfl
  have h0 : r.message.getD 0 0 = 2660 := by rw [hm, hrx]; rfl
  have hpos : 0 < r.message_len := by
    rw [hl, hrx]
    simp
  have ha : level_avail RC5_BIT_US RC5_BIT_MARGIN (r.message.getD 0 0 : Nat) = some 3 := by
    rw [h0]; decide
  have g1 := get_level_of_avail r 0 0 3 RC5_BIT_US RC5_BIT_MARGIN hpos ha
  have g2 := get_level_of_avail r 0 1 3 RC5_BIT_US RC5_BIT_MARGIN hpos ha
  rw [if_neg (by decide)] at g1 g2
  unfold ir_rc5_decode
  simp only []
  rw [g1]
  simp only []
  rw [g2]
  split_ifs with h1 h2 h3 h4
  · rfl
  · rfl
  · rfl
  · rfl
  · exact absurd h3 (by decide)

/-- The dispatcher when the NEC decoder rejects and the RC5 decoder accepts. -/
theorem ir_learn_decode_rc5 (r : ir_learn_result_t) (hlen : r.message_len ≠ 0)
    (hn : ir_nec_decode r = (false, r)) (h5 : (ir_rc5_decode r).1 = true) :
    ir_learn_decode r = (ESP_OK, (ir_rc5_decode r).2) := by
  have hz : ¬ (r.message_len = 0 ∧ r.repeat_len = 0) := fun h => hlen h.1
  unfold ir_learn_decode
  simp only [hz, if_false, hn, h5, if_true, Bool.false_eq_true]

/-- The dispatcher when the NEC and RC5 decoders reject and the RC6 decoder accepts. -/
theorem ir_learn_decode_rc6 (r : ir_learn_result_t) (hlen : r.message_len ≠ 0)
    (hn : ir_nec_decode r = (false, r)) (h5 : ir_rc5_decode r = (false, r))
    (h6 : (ir_rc6_decode r).1 = true) :
    ir_learn_decode r = (ESP_OK, (ir_rc6_decode r).2) := by
  have hz : ¬ (r.message_len = 0 ∧ r.repeat_len = 0) := fun h => hlen h.1
  unfold ir_learn_decode
  simp only [hz, if_false, hn, h5, h6, if_true, Bool.false_eq_true]

/-- A received RC5 frame is not empty. -/
theorem rc5_received_len (r0 : ir_learn_result_t) (toggle : Bool) (a c : Nat) :
    (result_of_message r0 (received_durations_us (ir_rc5_send_items toggle a c))).message_len
      ≠ 0 := by
  have hp := rc5_readPos toggle a c
  generalize received_durations_us (ir_rc5_send_items toggle a c) = msg at hp ⊢
  show msg.length ≠ 0
  cases hp with
  | run off used n U V h1 h2 h3 h4 h5 => omega

/-- A received RC6 frame is not empty. -/
theorem rc6_received_len (r0 : ir_learn_result_t) (mode : Nat) (toggle : Bool) (a c : Nat) :
    (result_of_message r0
      (received_durations_us (ir_rc6_send_items mode toggle a c))).message_len ≠ 0 := by
  have hrx := rc6_received mode toggle a c
  generalize received_durations_us (ir_rc6_send_items mode toggle a c) = msg at hrx ⊢
  show msg.length ≠ 0
  rw [hrx]
  simp

/-- The dispatcher on a received RC5 frame: ESP_OK with the RC5 decoder's result. -/
theorem ir_learn_decode_rc5_frame (r0 : ir_learn_result_t) (toggle : Bool) (a c : Nat)
    (ha : a < 32) (hc : c < 64) (h0 : r0.addr = 0) (h1 : r0.cmd = 0) :
    (ir_learn_decode (result_of_message r0
        (received_durations_us (ir_rc5_send_items toggle a c)))).1 = ESP_OK
    ∧ (ir_learn_decode (result_of_message r0
        (received_durations_us (ir_rc5_send_items toggle a c)))).2.proto = IR_PROTO_RC5
    ∧ (ir_learn_decode (result_of_message r0
        (received_durations_us (ir_rc5_send_items toggle a c)))).2.addr = a
    ∧ (ir_learn_decode (result_of_message r0
        (received_durations_us (ir_rc5_send_items toggle a c)))).2.cmd = c := by
  have hd := rc5_decode_received r0 toggle a c
  rw [ir_learn_decode_rc5 _ (rc5_received_len r0 toggle a c) (nec_rejects_rc5 r0 toggle a c)
    (pair_parts _ _ _ hd).1, hd, rc5_fold_fields]
  obtain ⟨e1, e2⟩ := rc5_symbols_fields toggle a c ha hc
  refine ⟨rfl, rfl, ?_, ?_⟩
  · show rc5_addr_acc (rc5_symbols toggle a c) 0 r0.addr = a
    rw [h0, e1]
  · show rc5_cmd_acc (rc5_symbols toggle a c) 0 r0.cmd = c
    rw [h1, e2]

/-- The dispatcher on a received RC6 frame: ESP_OK with the RC6 decoder's result. -/
theorem ir_learn_decode_rc6_frame (r0 : ir_learn_result_t) (mode : Nat) (toggle : Bool)
    (a c : Nat) (ha : a < 256) (hc : c < 256) (h0 : r0.addr = 0) (h1 : r0.cmd = 0) :
    (ir_learn_decode (result_of_message r0
        (received_durations_us (ir_rc6_send_items mode toggle a c)))).1 = ESP_OK
    ∧ (ir_learn_decode (result_of_message r0
        (received_durations_us (ir_rc6_send_items mode toggle a c)))).2.proto = IR_PROTO_RC6
    ∧ (ir_learn_decode (result_of_message r0
        (received_durations_us (ir_rc6_send_items mode toggle a c)))).2.addr = a
    ∧ (ir_learn_decode (result_of_message r0
        (received_durations_us (ir_rc6_send_items mode toggle a c)))).2.cmd = c := by
  obtain ⟨d, hd⟩ := rc6_decode_received r0 mode toggle a c
  rw [ir_learn_decode_rc6 _ (rc6_received_len r0 mode toggle a c)
    (nec_rejects_rc6 r0 mode toggle a c) (rc5_rejects_rc6 r0 mode toggle a c)
    (pair_parts _ _ _ hd).1, hd, rc6_fold_fields, rc6_fold_fields]
  obtain ⟨e1, e2⟩ := rc6_data_fields a c ha hc
  obtain ⟨m1, m2⟩ := rc6_acc_early (rc6_mode_symbols mode) 0 0 (by simp [rc6_mode_symbols])
  refine ⟨rfl, rfl, ?_, ?_⟩
  · show rc6_addr_acc (rc6_data_symbols a c) 4
      (rc6_addr_acc (rc6_mode_symbols mode) 0 r0.addr) = a
    rw [h0, m1, e1]
  · show rc6_cmd_acc (rc6_data_symbols a c) 4
      (rc6_cmd_acc (rc6_mode_symbols mode) 0 r0.cmd) = c
    rw [h1, m2, e2]

/-! ## Carrier samples of one handler call -/

/-- The sample counts and buffers after a carrier-band interval on an unfinished session
past its first edge with fewer than 250 committed durations. -/
theorem isr_handle_carrier_samples (s : ir_learn_t) (cur_time gpio_level : Int)
    (hp : s.pre_time ≠ 0) (hf : s.finished = false) (hl : s.msg.msg_len < 250)
    (h1 : 6 ≤ cur_time - s.pre_time) (h2 : cur_time - s.pre_time ≤ 50) :
    (s.carrier.high_cnt < 100 ∧ s.carrier.low_cnt < 100 → gpio_level = 1 →
      carrier_samples (ir_learn_isr_handle s cur_time gpio_level).s
        = (s.carrier.high_cnt + 1, s.carrier.low_cnt,
           s.carrier.high.set s.carrier.high_cnt (cur_time - s.pre_time).toNat,
           s.carrier.low))
    ∧ (s.carrier.high_cnt < 100 ∧ s.carrier.low_cnt < 100 → gpio_level ≠ 1 →
      carrier_samples (ir_learn_isr_handle s cur_time gpio_level).s
        = (s.carrier.high_cnt, s.carrier.low_cnt + 1, s.carrier.high,
           s.carrier.low.set s.carrier.low_cnt (cur_time - s.pre_time).toNat))
    ∧ (¬ (s.carrier.high_cnt < 100 ∧ s.carrier.low_cnt < 100) →
      carrier_samples (ir_learn_isr_handle s cur_time gpio_level).s = carrier_samples s) := by
  have e := isr_handle_carrier_band s cur_time gpio_level hp hf hl h1 h2
  have hs1 : buf_store 256 s.carrier.high s.carrier.high_cnt (cur_time - s.pre_time)
      = s.carrier.high.set s.carrier.high_cnt (cur_time - s.pre_time).toNat :=
    buf_store_u8 _ _ _ (by omega) (by omega)
  have hs2 : buf_store 256 s.carrier.low s.carrier.low_cnt (cur_time - s.pre_time)
      = s.carrier.low.set s.carrier.low_cnt (cur_time - s.pre_time).toNat :=
    buf_store_u8 _ _ _ (by omega) (by omega)
  refine ⟨fun hroom hlv => ?_, fun hroom hlv => ?_, fun hfull => ?_⟩
  · rw [e, (isr_carrier_room ({ s with pre_time := cur_time } : ir_learn_t) _ gpio_level
      hroom).1 hlv, isr_carrier_filter_samples]
    show (s.carrier.high_cnt + 1, s.carrier.low_cnt,
      buf_store 256 s.carrier.high s.carrier.high_cnt (cur_time - s.pre_time), s.carrier.low) = _
    rw [hs1]
  · rw [e, (isr_carrier_room ({ s with pre_time := cur_time } : ir_learn_t) _ gpio_level
      hroom).2 hlv, isr_carrier_filter_samples]
    show (s.carrier.high_cnt, s.carrier.low_cnt + 1, s.carrier.high,
      buf_store 256 s.carrier.low s.carrier.low_cnt (cur_time - s.pre_time)) = _
    rw [hs2]
  · by_cases h0 : s.state = IR_LEARN_IDLE
    · rw [e, (isr_carrier_full ({ s with pre_time := cur_time } : ir_learn_t) _ gpio_level
        hfull hl).1 h0]
      rfl
    · rw [e, (isr_carrier_full ({ s with pre_time := cur_time } : ir_learn_t) _ gpio_level
        hfull hl).2 h0, isr_carrier_filter_samples]
      rfl

set_option maxRecDepth 1000000 in
theorem one_mark_session_samples :
    one_mark_session.carrier.high_cnt = 6
    ∧ one_mark_session.carrier.low_cnt = 5
    ∧ one_mark_session.carrier.high.take 8 = [50, 50, 50, 50, 50, 50, 0, 0] := by
  decide

/-! ## The NEC example frame -/

set_option maxRecDepth 1000000 in
theorem nec_example_result_matches :
    nec_example_result.message_len = 68 ∧ NecMatches nec_example_result := by
  unfold NecMatches within_margin
  decide

set_option maxRecDepth 1000000 in
theorem nec_example_result_decode :
    (ir_nec_decode nec_example_result).1 = true
    ∧ (ir_nec_decode nec_example_result).2.value = 0x649bcc33
    ∧ (ir_nec_decode nec_example_result).2.addr = 0x33
    ∧ (ir_nec_decode nec_example_result).2.cmd = 0x9b := by
  decide

/-! ## The results of the example captures -/

set_option maxRecDepth 100000 in
/-- The zeroed result buffer has room for the 250 message entries it declares and for the
10 repeat entries. -/
theorem result_buffer_capacity :
    result_buffer.message_len ≤ result_buffer.message.length
    ∧ result_buffer.repeat_buf.length = 10 := by
  decide

set_option maxRecDepth 1000000 in
theorem wide_repeat_result_repeat :
    (ir_learn_get_result wide_repeat_session result_buffer false).2.2.repeat_len = 3
    ∧ (ir_learn_get_result wide_repeat_session result_buffer false).2.2.repeat_buf.getD 0 0
        = 4464 := by
  obtain ⟨a, b, c, d, e⟩ := get_result_ok_eq _ _ _ wide_repeat_session_ok
  rw [c, e, result_session_repeat_len, copy_u16_getD, wide_repeat_session_fields.2.2.1,
    wide_repeat_session_fields.2.2.2.2.2.1]
  decide

/-! ## The claims -/

/-- Claim C1 (NEC round trip): for every address `a` and command `c` below 256, the 34-item
frame that `ir_nec_send` builds, read back as its mark/space durations in microseconds, is
accepted by `ir_nec_decode`, which sets `proto = IR_PROTO_NEC`, `addr = a`, `cmd = c` and
`bits = 32`, whatever the result struct held before. -/
theorem nec_round_trip (r0 : ir_learn_result_t) (a c : Nat) (ha : a < 256) (hc : c < 256) :
    (ir_nec_send_items a c).length = 34
    ∧ (ir_nec_decode (result_of_message r0 (frame_durations_us (ir_nec_send_items a c)))).1 = true
    ∧ (ir_nec_decode (result_of_message r0 (frame_durations_us (ir_nec_send_items a c)))).2.proto
        = IR_PROTO_NEC
    ∧ (ir_nec_decode (result_of_message r0 (frame_durations_us (ir_nec_send_items a c)))).2.addr = a
    ∧ (ir_nec_decode (result_of_message r0 (frame_durations_us (ir_nec_send_items a c)))).2.cmd = c
    ∧ (ir_nec_decode (result_of_message r0 (frame_durations_us (ir_nec_send_items a c)))).2.bits
        = 32 := by
  refine ⟨rfl, ?_⟩
  have hm := nec_frame_durations a c
  have hlen : (frame_durations_us (ir_nec_send_items a c)).length = 68 := by
    rw [hm]
    simp only [List.length_append, List.length_cons, List.length_nil, nec_bits_flatMap_length,
      lsb_bits_length]
  have hd := ir_nec_decode_of_frame
    (result_of_message r0 (frame_durations_us (ir_nec_send_items a c)))
    (lsb_bits 16 (nec_send_arg a) ++ lsb_bits 16 (nec_send_arg c)) [560, 32760] hm
    (by simp [lsb_bits_length]) (by simp only [result_of_message, hlen]; omega)
  rw [hd]
  obtain ⟨ha1, ha2, ha3⟩ := nec_low_field a ha
  obtain ⟨hc1, hc2⟩ := nec_high_field c hc
  have hacc : nec_acc (lsb_bits 16 (nec_send_arg a) ++ lsb_bits 16 (nec_send_arg c)) 0 0
      = nec_acc (lsb_bits 16 (nec_send_arg a)) 0 0
        ||| nec_acc (lsb_bits 16 (nec_send_arg c)) 16 0 := by
    rw [nec_acc_append, lsb_bits_length, Nat.zero_add, nec_acc_or _ 16 _ ha1]
  refine ⟨rfl, rfl, ?_, ?_, rfl⟩
  · show (nec_acc _ 0 0 &&& 255) % 65536 = a
    rw [hacc, or_and_right, ha2, hc1, Nat.or_zero]
    omega
  · show ((nec_acc _ 0 0 >>> 16) &&& 255) % 65536 = c
    rw [hacc, or_shiftRight, ha3, Nat.zero_or, hc2]
    omega

/-- The frame of the test, address 0x33 and command 0x9B, decoded into a zeroed result. -/
theorem nec_round_trip_witness :
    (0x33 < 256 ∧ 0x9b < 256)
    ∧ (ir_nec_send_items 0x33 0x9b).length = 34
    ∧ (ir_nec_decode (result_of_message result_zero
        (frame_durations_us (ir_nec_send_items 0x33 0x9b)))).1 = true
    ∧ (ir_nec_decode (result_of_message result_zero
        (frame_durations_us (ir_nec_send_items 0x33 0x9b)))).2.proto = IR_PROTO_NEC
    ∧ (ir_nec_decode (result_of_message result_zero
        (frame_durations_us (ir_nec_send_items 0x33 0x9b)))).2.addr = 0x33
    ∧ (ir_nec_decode (result_of_message result_zero
        (frame_durations_us (ir_nec_send_items 0x33 0x9b)))).2.cmd = 0x9b
    ∧ (ir_nec_decode (result_of_message result_zero
        (frame_durations_us (ir_nec_send_items 0x33 0x9b)))).2.bits = 32 :=
  ⟨⟨by decide, by decide⟩, nec_round_trip result_zero 0x33 0x9b (by decide) (by decide)⟩

/-- Claim C2 (RC5 round trip): for every toggle value, address `a` below 32 and command `c`
below 64, the 14-item frame that `ir_rc5_send` builds, taken as the received duration sequence
(leading idle space dropped, adjacent half-bits of equal level merged, trailing space dropped,
ticks converted to microseconds), is accepted by `ir_rc5_decode` on a result whose `addr` and
`cmd` start at 0, giving `proto = IR_PROTO_RC5`, `addr = a` and `cmd = c`. -/
theorem rc5_round_trip (r0 : ir_learn_result_t) (toggle : Bool) (a c : Nat)
    (ha : a < 32) (hc : c < 64) (h0 : r0.addr = 0) (h1 : r0.cmd = 0) :
    (ir_rc5_send_items toggle a c).length = 14
    ∧ (ir_rc5_decode (result_of_message r0
        (received_durations_us (ir_rc5_send_items toggle a c)))).1 = true
    ∧ (ir_rc5_decode (result_of_message r0
        (received_durations_us (ir_rc5_send_items toggle a c)))).2.proto = IR_PROTO_RC5
    ∧ (ir_rc5_decode (result_of_message r0
        (received_durations_us (ir_rc5_send_items toggle a c)))).2.addr = a
    ∧ (ir_rc5_decode (result_of_message r0
        (received_durations_us (ir_rc5_send_items toggle a c)))).2.cmd = c := by
  refine ⟨rfl, ?_⟩
  rw [rc5_decode_received, rc5_fold_fields]
  obtain ⟨e1, e2⟩ := rc5_symbols_fields toggle a c ha hc
  refine ⟨rfl, rfl, ?_, ?_⟩
  · show rc5_addr_acc (rc5_symbols toggle a c) 0 r0.addr = a
    rw [h0, e1]
  · show rc5_cmd_acc (rc5_symbols toggle a c) 0 r0.cmd = c
    rw [h1, e2]

/-- The frame of the example, toggle set, address 0x14 and command 0x25, decoded into a
zeroed result. -/
theorem rc5_round_trip_witness :
    (0x14 < 32 ∧ 0x25 < 64 ∧ result_zero.addr = 0 ∧ result_zero.cmd = 0)
    ∧ (ir_rc5_send_items true 0x14 0x25).length = 14
    ∧ (ir_rc5_decode (result_of_message result_zero
        (received_durations_us (ir_rc5_send_items true 0x14 0x25)))).1 = true
    ∧ (ir_rc5_decode (result_of_message result_zero
        (received_durations_us (ir_rc5_send_items true 0x14 0x25)))).2.proto = IR_PROTO_RC5
    ∧ (ir_rc5_decode (result_of_message result_zero
        (received_durations_us (ir_rc5_send_items true 0x14 0x25)))).2.addr = 0x14
    ∧ (ir_rc5_decode (result_of_message result_zero
        (received_durations_us (ir_rc5_send_items true 0x14 0x25)))).2.cmd = 0x25 :=
  ⟨⟨by decide, by decide, rfl, rfl⟩,
    rc5_round_trip result_zero true 0x14 0x25 (by decide) (by decide) rfl rfl⟩

/-- Claim C3 (RC6 round trip): for every mode, toggle value, address `a` and command `c` below
256, the 22-item frame that `ir_rc6_send` builds, taken as the received duration sequence
(adjacent half-bits of equal level merged, trailing space dropped, ticks converted to
microseconds), is accepted by `ir_rc6_decode` on a result whose `addr` and `cmd` start at 0,
giving `proto = IR_PROTO_RC6`, `addr = a` and `cmd = c`. -/
theorem rc6_round_trip (r0 : ir_learn_result_t) (mode : Nat) (toggle : Bool) (a c : Nat)
    (ha : a < 256) (hc : c < 256) (h0 : r0.addr = 0) (h1 : r0.cmd = 0) :
    (ir_rc6_send_items mode toggle a c).length = 22
    ∧ (ir_rc6_decode (result_of_message r0
        (received_durations_us (ir_rc6_send_items mode toggle a c)))).1 = true
    ∧ (ir_rc6_decode (result_of_message r0
        (received_durations_us (ir_rc6_send_items mode toggle a c)))).2.proto = IR_PROTO_RC6
    ∧ (ir_rc6_decode (result_of_message r0
        (received_durations_us (ir_rc6_send_items mode toggle a c)))).2.addr = a
    ∧ (ir_rc6_decode (result_of_message r0
        (received_durations_us (ir_rc6_send_items mode toggle a c)))).2.cmd = c := by
  refine ⟨rfl, ?_⟩
  obtain ⟨d, hd⟩ := rc6_decode_received r0 mode toggle a c
  rw [hd, rc6_fold_fields, rc6_fold_fields]
  obtain ⟨e1, e2⟩ := rc6_data_fields a c ha hc
  obtain ⟨m1, m2⟩ := rc6_acc_early (rc6_mode_symbols mode) 0 0 (by simp [rc6_mode_symbols])
  refine ⟨rfl, rfl, ?_, ?_⟩
  · show rc6_addr_acc (rc6_data_symbols a c) 4
      (rc6_addr_acc (rc6_mode_symbols mode) 0 r0.addr) = a
    rw [h0, m1, e1]
  · show rc6_cmd_acc (rc6_data_symbols a c) 4
      (rc6_cmd_acc (rc6_mode_symbols mode) 0 r0.cmd) = c
    rw [h1, m2, e2]

/-- The frame of the example, mode 0, toggle set, address 0x34 and command 0x29, decoded into
a zeroed result. -/
theorem rc6_round_trip_witness :
    (0x34 < 256 ∧ 0x29 < 256 ∧ result_zero.addr = 0 ∧ result_zero.cmd = 0)
    ∧ (ir_rc6_send_items 0 true 0x34 0x29).length = 22
    ∧ (ir_rc6_decode (result_of_message result_zero
        (received_durations_us (ir_rc6_send_items 0 true 0x34 0x29)))).1 = true
    ∧ (ir_rc6_decode (result_of_message result_zero
        (received_durations_us (ir_rc6_send_items 0 true 0x34 0x29)))).2.proto = IR_PROTO_RC6
    ∧ (ir_rc6_decode (result_of_message result_zero
        (received_durations_us (ir_rc6_send_items 0 true 0x34 0x29)))).2.addr = 0x34
    ∧ (ir_rc6_decode (result_of_message result_zero
        (received_durations_us (ir_rc6_send_items 0 true 0x34 0x29)))).2.cmd = 0x29 :=
  ⟨⟨by decide, by decide, rfl, rfl⟩,
    rc6_round_trip result_zero 0 true 0x34 0x29 (by decide) (by decide) rfl rfl⟩

/-- Claim C4 (decode priority): on a result with `message_len` or `repeat_len` non-zero,
`ir_learn_decode` returns `ESP_OK` exactly when one of `ir_nec_decode`, `ir_rc5_decode`,
`ir_rc6_decode` accepts the message; it stops at the first that accepts, in that order, and
`proto` is then that decoder's protocol; it returns `ESP_FAIL` when none accepts. -/
theorem ir_learn_decode_priority (r : ir_learn_result_t)
    (h : r.message_len ≠ 0 ∨ r.repeat_len ≠ 0) :
    ((ir_learn_decode r).1 = ESP_OK ↔
      ((ir_nec_decode r).1 = true ∨ (ir_rc5_decode r).1 = true ∨ (ir_rc6_decode r).1 = true))
    ∧ ((ir_nec_decode r).1 = true →
        ir_learn_decode r = (ESP_OK, (ir_nec_decode r).2)
          ∧ (ir_learn_decode r).2.proto = IR_PROTO_NEC)
    ∧ ((ir_nec_decode r).1 = false → (ir_rc5_decode r).1 = true →
        ir_learn_decode r = (ESP_OK, (ir_rc5_decode r).2)
          ∧ (ir_learn_decode r).2.proto = IR_PROTO_RC5)
    ∧ ((ir_nec_decode r).1 = false → (ir_rc5_decode r).1 = false →
        (ir_rc6_decode r).1 = true →
        ir_learn_decode r = (ESP_OK, (ir_rc6_decode (ir_rc5_decode r).2).2)
          ∧ (ir_learn_decode r).2.proto = IR_PROTO_RC6)
    ∧ ((ir_nec_decode r).1 = false → (ir_rc5_decode r).1 = false →
        (ir_rc6_decode r).1 = false → (ir_learn_decode r).1 = ESP_FAIL) := by
  have hne : ¬ (r.message_len = 0 ∧ r.repeat_len = 0) := by
    intro hz
    rcases h with h | h
    · exact h hz.1
    · exact h hz.2
  have h5 := ir_rc5_decode_props r
  have hv : (ir_rc6_decode (ir_rc5_decode r).2).1 = (ir_rc6_decode r).1 :=
    ir_rc6_decode_verdict _ _ h5.1 h5.2.1
  cases hn : (ir_nec_decode r).1 with
  | true =>
    have e : ir_learn_decode r = (ESP_OK, (ir_nec_decode r).2) := by
      unfold ir_learn_decode
      simp only [hne, if_false, hn, if_true]
    refine ⟨?_, ?_, ?_, ?_, ?_⟩
    · rw [e]; exact ⟨fun _ => Or.inl rfl, fun _ => rfl⟩
    · intro _
      exact pair_proto _ _ _ e (ir_nec_decode_proto r hn)
    · intro hc; cases hc
    · intro hc; cases hc
    · intro hc; cases hc
  | false =>
    have hr := ir_nec_decode_false r hn
    cases hc5 : (ir_rc5_decode r).1 with
    | true =>
      have e : ir_learn_decode r = (ESP_OK, (ir_rc5_decode r).2) := by
        unfold ir_learn_decode
        simp only [hne, if_false, hn, hr, hc5, if_true, Bool.false_eq_true]
      refine ⟨?_, ?_, ?_, ?_, ?_⟩
      · rw [e]; exact ⟨fun _ => Or.inr (Or.inl rfl), fun _ => rfl⟩
      · intro hc; cases hc
      · intro _ _
        exact pair_proto _ _ _ e (h5.2.2 hc5)
      · intro _ hc; cases hc
      · intro _ hc; cases hc
    | false =>
      cases hc6 : (ir_rc6_decode r).1 with
      | true =>
        rw [hc6] at hv
        have e : ir_learn_decode r = (ESP_OK, (ir_rc6_decode (ir_rc5_decode r).2).2) := by
          unfold ir_learn_decode
          simp only [hne, if_false, hn, hr, hc5, hv, if_true, Bool.false_eq_true]
        refine ⟨?_, ?_, ?_, ?_, ?_⟩
        · rw [e]; exact ⟨fun _ => Or.inr (Or.inr rfl), fun _ => rfl⟩
        · intro hc; cases hc
        · intro _ hc; cases hc
        · intro _ _ _
          exact pair_proto _ _ _ e (ir_rc6_decode_proto _ hv)
        · intro _ _ hc; cases hc
      | false =>
        rw [hc6] at hv
        have e : ir_learn_decode r = (ESP_FAIL, (ir_rc6_decode (ir_rc5_decode r).2).2) := by
          unfold ir_learn_decode
          simp only [hne, if_false, hn, hr, hc5, hv, Bool.false_eq_true]
        refine ⟨?_, ?_, ?_, ?_, ?_⟩
        · rw [e]
          constructor
          · intro hc; cases hc
          · intro hc
            rcases hc with hc | hc | hc <;> cases hc
        · intro hc; cases hc
        · intro _ hc; cases hc
        · intro _ _ hc; cases hc
        · intro _ _ _; rw [e]

/-- The dispatcher on a result holding one 9000 us duration, which no decoder accepts. -/
theorem ir_learn_decode_priority_witness :
    (one_duration_result.message_len ≠ 0 ∨ one_duration_result.repeat_len ≠ 0)
    ∧ ((ir_nec_decode one_duration_result).1 = false →
        (ir_rc5_decode one_duration_result).1 = false →
        (ir_rc6_decode one_duration_result).1 = false →
        (ir_learn_decode one_duration_result).1 = ESP_FAIL) :=
  ⟨Or.inl (by decide),
    (ir_learn_decode_priority one_duration_result (Or.inl (by decide))).2.2.2.2⟩

/-- Claim C5 (timing window): for `int` values `d`, `t`, `m` whose sum `t + m` and difference
`t - m` are `int` values too, `ir_decode_check_range d t m` is true exactly when
`t - m < d < t + m`; it is false at `d = t - m`, at `d = t + m` and beyond. -/
theorem ir_decode_check_range_iff (d t m : Int)
    (h1 : -2147483648 ≤ t + m) (h2 : t + m ≤ 2147483647)
    (h3 : -2147483648 ≤ t - m) (h4 : t - m ≤ 2147483647) :
    (ir_decode_check_range d t m = true ↔ t - m < d ∧ d < t + m)
    ∧ ir_decode_check_range (t - m) t m = false
    ∧ ir_decode_check_range (t + m) t m = false
    ∧ (d ≤ t - m → ir_decode_check_range d t m = false)
    ∧ (t + m ≤ d → ir_decode_check_range d t m = false) := by
  have e1 : wrap32 (t + m) = t + m := wrap32_of_range _ h1 h2
  have e2 : wrap32 (t - m) = t - m := wrap32_of_range _ h3 h4
  unfold ir_decode_check_range
  rw [e1, e2]
  refine ⟨?_, ?_, ?_, ?_, ?_⟩
  · simp only [Bool.and_eq_true, decide_eq_true_eq, gt_iff_lt]
    exact ⟨fun h => ⟨h.2, h.1⟩, fun h => ⟨h.2, h.1⟩⟩
  · simp
  · simp
  · intro h
    simp only [Bool.and_eq_false_imp, decide_eq_true_eq, decide_eq_false_iff_not, gt_iff_lt]
    intro _; omega
  · intro h
    simp only [Bool.and_eq_false_imp, decide_eq_true_eq, decide_eq_false_iff_not, gt_iff_lt]
    intro _; omega

/-- The NEC bit mark window: target 560, margin 100, duration 600. -/
theorem ir_decode_check_range_iff_witness :
    ((-2147483648 : Int) ≤ 560 + 100 ∧ (560 : Int) + 100 ≤ 2147483647
      ∧ (-2147483648 : Int) ≤ 560 - 100 ∧ (560 : Int) - 100 ≤ 2147483647)
    ∧ (ir_decode_check_range 600 560 100 = true ↔ (560 : Int) - 100 < 600 ∧ (600 : Int) < 560 + 100)
    ∧ ir_decode_check_range (560 - 100) 560 100 = false
    ∧ ir_decode_check_range (560 + 100) 560 100 = false
    ∧ ((600 : Int) ≤ 560 - 100 → ir_decode_check_range 600 560 100 = false)
    ∧ ((560 : Int) + 100 ≤ 600 → ir_decode_check_range 600 560 100 = false) :=
  ⟨⟨by decide, by decide, by decide, by decide⟩,
    ir_decode_check_range_iff 600 560 100 (by decide) (by decide) (by decide) (by decide)⟩

/-- Claim C6 (capture monotonicity): when `finished` is true at entry, a call of the edge
handler changes nothing but `pre_time`, writes no message or repeat slot and gives no
completion signal. -/
theorem isr_handle_finished_is_noop (s : ir_learn_t) (cur_time gpio_level : Int)
    (h : s.finished = true) :
    ir_learn_isr_handle s cur_time gpio_level
      = { s := { s with pre_time := cur_time }, gave := false, msg_writes := [],
          repeat_writes := [] } :=
  isr_handle_finished s cur_time gpio_level h

/-- A stopped fresh session taking an edge at time 5000. -/
theorem isr_handle_finished_is_noop_witness :
    stopped_session.finished = true
    ∧ ir_learn_isr_handle stopped_session 5000 1
      = { s := { stopped_session with pre_time := 5000 }, gave := false, msg_writes := [],
          repeat_writes := [] } :=
  ⟨rfl, isr_handle_finished_is_noop stopped_session 5000 1 rfl⟩

/-- Claim C7 (overflow guard): when the edge handler runs on an unfinished session past its
first edge whose `msg_len` is already at least 250, it sets `state = IR_LEARN_OVERFLOW`,
latches `finished` and gives the completion signal, whatever the interval and the level, and
it changes no buffer and no length. -/
theorem isr_handle_overflow_guard (s : ir_learn_t) (cur_time gpio_level : Int)
    (hp : s.pre_time ≠ 0) (hf : s.finished = false)
    (hl : s.msg.msg_len ≥ IR_LEARN_MSG_BUF_LEN) :
    ir_learn_isr_handle s cur_time gpio_level
      = { s := { s with pre_time := cur_time, state := IR_LEARN_OVERFLOW, finished := true,
                        sem := true },
          gave := true, msg_writes := [], repeat_writes := [] } :=
  isr_handle_overflow s cur_time gpio_level hp hf hl

/-- A session with 250 committed message slots taking an edge at time 5000. -/
theorem isr_handle_overflow_guard_witness :
    (full_session.pre_time ≠ 0 ∧ full_session.finished = false
      ∧ full_session.msg.msg_len ≥ IR_LEARN_MSG_BUF_LEN)
    ∧ ir_learn_isr_handle full_session 5000 0
      = { s := { full_session with pre_time := 5000, state := IR_LEARN_OVERFLOW,
                                   finished := true, sem := true },
          gave := true, msg_writes := [], repeat_writes := [] } :=
  ⟨⟨by decide, rfl, by decide⟩,
    isr_handle_overflow_guard full_session 5000 0 (by decide) rfl (by decide)⟩

/-- Claim C8 (writes stay inside the buffers) fails on the code.  After a first edge, 249
(carrier, bit) interval pairs and one more carrier interval, the session is reachable and
unfinished with `msg_len = 249`; the next bit-band edge writes `msg.msg[250]`, one past the
250-element buffer.  Likewise after one pair, a repeat gap, eight pairs and a carrier
interval, the next bit-band edge writes `msg.repeat[10]`, one past the 10-element buffer. -/
theorem isr_handle_writes_past_buffers :
    Reachable (feed_intervals first_edge_session msg_overflow_intervals)
    ∧ (feed_intervals first_edge_session msg_overflow_intervals).msg.msg.length = 250
    ∧ (ir_learn_isr_handle (feed_intervals first_edge_session msg_overflow_intervals)
        ((feed_intervals first_edge_session msg_overflow_intervals).pre_time + 500) 1).msg_writes
        = [250]
    ∧ Reachable (feed_intervals first_edge_session repeat_overflow_intervals)
    ∧ (feed_intervals first_edge_session repeat_overflow_intervals).msg.repeat_buf.length = 10
    ∧ (ir_learn_isr_handle (feed_intervals first_edge_session repeat_overflow_intervals)
        ((feed_intervals first_edge_session repeat_overflow_intervals).pre_time + 500)
        1).repeat_writes = [10] := by
  have hreach : Reachable first_edge_session :=
    Reachable.edge _ _ _ (Reachable.start (ir_learn_create 17) rfl)
  have h0 : PairReady 0 first_edge_session :=
    start_first_edge (ir_learn_create 17) 1000 1 rfl (by decide)
  have h249 := feed_pairs (List.replicate 249 ((10, 1), (500, 1))) 0 first_edge_session h0
    (pair_bands_replicate 249) (by rw [List.length_replicate]; decide)
  rw [List.length_replicate, Nat.zero_add] at h249
  have e : feed_intervals first_edge_session msg_overflow_intervals
      = (ir_learn_isr_handle
          (feed_intervals first_edge_session
            (pair_intervals (List.replicate 249 ((10, 1), (500, 1)))))
          ((feed_intervals first_edge_session
            (pair_intervals (List.replicate 249 ((10, 1), (500, 1))))).pre_time + 10) 1).s := by
    rw [msg_overflow_intervals, feed_intervals_append]
    rfl
  obtain ⟨c1, c2, c3, c4, c5, _, _, _⟩ := isr_handle_pair_carrier 249 _ 10 1 h249 (by omega)
    (by decide) (by decide)
  obtain ⟨_, _, hty, hlen, hfc, _, hbuf⟩ := h249
  rw [← e] at c1 c2 c3 c4 c5
  have hb := isr_handle_pair_bit 249 (feed_intervals first_edge_session msg_overflow_intervals)
    500 1 c1 c2 (by rw [c3]; exact hty) (by rw [c3]; exact hlen) (by rw [c4]; omega) c5
    (by rw [c3]; exact hbuf) (by omega) (by decide) (by decide)
  refine ⟨feed_intervals_reachable _ _ hreach, by rw [c3]; exact hbuf, hb.2.1,
    feed_intervals_reachable _ _ hreach, by decide, by decide⟩

/-- Claim C9 as stated fails on the code: after a first edge, 251 bit-band intervals of
500 microseconds leave a freshly started session in `IR_LEARN_READY` with nothing stored. -/
theorem isr_bit_band_only_stays_ready :
    (feed_intervals first_edge_session (List.replicate 251 (500, 1))).state = IR_LEARN_READY
    ∧ (feed_intervals first_edge_session (List.replicate 251 (500, 1))).state
        ≠ IR_LEARN_OVERFLOW
    ∧ (feed_intervals first_edge_session (List.replicate 251 (500, 1))).msg.msg_len = 0 := by
  have hidle : IdleReady first_edge_session := ⟨rfl, by decide, rfl, rfl, rfl⟩
  have hb : ∀ iv ∈ List.replicate 251 ((500 : Int), (1 : Int)), 50 < iv.1 ∧ iv.1 ≤ 20000 := by
    intro iv hiv
    rw [List.eq_of_mem_replicate hiv]
    exact ⟨by decide, by decide⟩
  obtain ⟨_, h2, h3⟩ := feed_bit_idle _ first_edge_session hidle hb
  refine ⟨h2.trans rfl, ?_, by rw [h3]; rfl⟩
  rw [h2]
  decide

/-- Claim C9, amended (overflow): for every freshly started session whose handler has seen a
first edge, feeding more than 250 bit-band intervals (50 < period <= 20000), each preceded by
a carrier-band interval (6 <= period <= 50), leaves the session in `IR_LEARN_OVERFLOW`. -/
theorem isr_interval_pairs_overflow (x : ir_learn_t) (t0 l0 : Int)
    (ps : List ((Int × Int) × (Int × Int)))
    (hx : (ir_learn_start x).1 = ESP_OK) (ht : 0 < t0)
    (hb : ∀ p ∈ ps, PairBands p) (hn : 250 < ps.length) :
    (feed_intervals (ir_learn_isr_handle (ir_learn_start x).2 t0 l0).s
      (pair_intervals ps)).state = IR_LEARN_OVERFLOW :=
  (feed_pairs_overflow _ ps (start_first_edge x t0 l0 hx ht) hb hn).1

/-- A fresh session, a first edge at time 1000 and 251 pairs of a 10 and a 500 microsecond
interval. -/
theorem isr_interval_pairs_overflow_witness :
    ((ir_learn_start (ir_learn_create 17)).1 = ESP_OK ∧ (0 : Int) < 1000
      ∧ 250 < (List.replicate 251 (((10 : Int), (1 : Int)), ((500 : Int), (1 : Int)))).length)
    ∧ (feed_intervals (ir_learn_isr_handle (ir_learn_start (ir_learn_create 17)).2 1000 1).s
        (pair_intervals (List.replicate 251 ((10, 1), (500, 1))))).state = IR_LEARN_OVERFLOW :=
  ⟨⟨rfl, by decide, by rw [List.length_replicate]; decide⟩,
    isr_interval_pairs_overflow (ir_learn_create 17) 1000 1
      (List.replicate 251 ((10, 1), (500, 1))) rfl (by decide) (pair_bands_replicate 251)
      (by rw [List.length_replicate]; decide)⟩

/-- Claim C10 (length invariant): in every session state reachable from `ir_learn_start` by
calls of the edge handler, with any levels and time stamps, `msg_len <= 250` and
`repeat_len <= 10`. -/
theorem reachable_lengths_within_capacity (s : ir_learn_t) (h : Reachable s) :
    s.msg.msg_len ≤ IR_LEARN_MSG_BUF_LEN ∧ s.msg.repeat_len ≤ IR_LEARN_RPT_BUF_LEN :=
  reachable_lens s h

/-- The session right after `ir_learn_start` and the one after its first edge. -/
theorem reachable_lengths_within_capacity_witness :
    Reachable first_edge_session
    ∧ first_edge_session.msg.msg_len ≤ IR_LEARN_MSG_BUF_LEN
    ∧ first_edge_session.msg.repeat_len ≤ IR_LEARN_RPT_BUF_LEN :=
  ⟨Reachable.edge _ _ _ (Reachable.start (ir_learn_create 17) rfl),
    reachable_lengths_within_capacity first_edge_session
      (Reachable.edge _ _ _ (Reachable.start (ir_learn_create 17) rfl))⟩

/-- Claim C11 (forward-only state) fails on the code.  `ir_learn.c` defines the macro
`IR_LEARN_MSG` as 0 after `ir_learn.h` has declared the state enumerator of that name, so the
statement `state = IR_LEARN_MSG` of the oversized-gap band stores the state of value 0.  On
the capture with one committed mark, which is in `IR_LEARN_READY`, an edge 200 ms after the
last one moves `state` back to `IR_LEARN_IDLE`, the first state of the enumeration, and the
capture stays unfinished. -/
theorem isr_handle_state_backwards :
    ApiReachable one_mark_session
    ∧ one_mark_session.state = IR_LEARN_READY
    ∧ (ir_learn_isr_handle one_mark_session (one_mark_session.pre_time + 200000) 0).s.state
        = IR_LEARN_IDLE
    ∧ (ir_learn_isr_handle one_mark_session (one_mark_session.pre_time + 200000) 0).s.finished
        = false
    ∧ state_value
          (ir_learn_isr_handle one_mark_session (one_mark_session.pre_time + 200000) 0).s.state
        < state_value one_mark_session.state := by
  refine ⟨reachable_api _ one_mark_session_reachable, one_mark_session_fields.1,
    one_mark_session_oversized.1, one_mark_session_oversized.2.1, ?_⟩
  rw [one_mark_session_oversized.1, one_mark_session_fields.1]
  decide

/-- Claim C12 (rejected calls): `ir_learn_get_result` returns `ESP_ERR_INVALID_STATE` when
`state` is not `IR_LEARN_FINISH`, and otherwise `ESP_ERR_INVALID_ARG` when the caller's
`message_len` is smaller than the captured `msg_len`; in both cases the session and the
result are returned unchanged. -/
theorem get_result_rejects (s : ir_learn_t) (result : ir_learn_result_t) (enable_debug : Bool)
    (h : s.state ≠ IR_LEARN_FINISH ∨ result.message_len < s.msg.msg_len) :
    ir_learn_get_result s result enable_debug
      = (if s.state ≠ IR_LEARN_FINISH then ESP_ERR_INVALID_STATE else ESP_ERR_INVALID_ARG,
         s, result) := by
  by_cases hs : s.state = IR_LEARN_FINISH
  · rcases h with h | h
    · exact absurd hs h
    · rw [if_neg (not_not.mpr hs)]
      exact get_result_invalid_arg s result enable_debug hs h
  · rw [if_pos hs]
    exact get_result_invalid_state s result enable_debug hs

/-- A fresh session, which is not finished, and the finished short capture of three
durations with a result struct of capacity 0. -/
theorem get_result_rejects_witness :
    (fresh_session.state ≠ IR_LEARN_FINISH
      ∧ ir_learn_get_result fresh_session result_buffer false
          = (ESP_ERR_INVALID_STATE, fresh_session, result_buffer))
    ∧ (short_carrier_session.state = IR_LEARN_FINISH
      ∧ result_zero.message_len < short_carrier_session.msg.msg_len
      ∧ ir_learn_get_result short_carrier_session result_zero false
          = (ESP_ERR_INVALID_ARG, short_carrier_session, result_zero)) := by
  have h1 : fresh_session.state ≠ IR_LEARN_FINISH := by decide
  have h2 : result_zero.message_len < short_carrier_session.msg.msg_len := by
    rw [short_carrier_session_fields.2.2.1]; decide
  have e1 := get_result_rejects fresh_session result_buffer false (Or.inl h1)
  have e2 := get_result_rejects short_carrier_session result_zero false (Or.inr h2)
  rw [if_pos h1] at e1
  rw [if_neg (not_not.mpr short_carrier_session_fields.1)] at e2
  exact ⟨⟨h1, e1⟩, short_carrier_session_fields.1, h2, e2⟩

/-- Claim C13 (duration check): when `state` is `IR_LEARN_FINISH` and the capacity suffices,
`ir_learn_get_result` returns `ESP_FAIL` with `state = IR_LEARN_CHECK_FAIL` exactly when some
message duration `msg[i]`, `i < msg_len`, lies outside [200, 20000], or `repeat_len < 9` and
some repeat duration `repeat[i]`, `i < repeat_len`, lies outside [200, 120000]; the caller's
result is then unchanged and the session changes in `state` only; otherwise the call
returns `ESP_OK`. -/
theorem get_result_check_fail (s : ir_learn_t) (result : ir_learn_result_t)
    (enable_debug : Bool) (h : s.state = IR_LEARN_FINISH)
    (hl : s.msg.msg_len ≤ result.message_len) :
    (((ir_learn_get_result s result enable_debug).1 = ESP_FAIL
        ∧ (ir_learn_get_result s result enable_debug).2.1.state = IR_LEARN_CHECK_FAIL)
      ↔ DurationOutOfRange s)
    ∧ (DurationOutOfRange s →
        (ir_learn_get_result s result enable_debug).2.2 = result
        ∧ (ir_learn_get_result s result enable_debug).2.1
            = { s with state := IR_LEARN_CHECK_FAIL })
    ∧ (¬ DurationOutOfRange s → (ir_learn_get_result s result enable_debug).1 = ESP_OK) := by
  rcases get_result_checked s result enable_debug h hl with ⟨hb, e⟩ | ⟨hb, e1, e2⟩
  · refine ⟨⟨fun _ => hb, fun _ => ?_⟩, fun _ => ?_, fun hn => absurd hb hn⟩
    · rw [e]; exact ⟨rfl, rfl⟩
    · rw [e]; exact ⟨rfl, rfl⟩
  · refine ⟨⟨fun hc => ?_, fun hc => absurd hc hb⟩, fun hc => absurd hc hb, fun _ => e1⟩
    rw [e1] at hc
    exact absurd hc.1 (by decide)

/-- The capture whose first message duration is 0, and the short capture, whose durations
are all in range. -/
theorem get_result_check_fail_witness :
    (bad_duration_session.state = IR_LEARN_FINISH
      ∧ bad_duration_session.msg.msg_len ≤ result_buffer.message_len
      ∧ DurationOutOfRange bad_duration_session
      ∧ (ir_learn_get_result bad_duration_session result_buffer false).1 = ESP_FAIL
      ∧ (ir_learn_get_result bad_duration_session result_buffer false).2.1.state
          = IR_LEARN_CHECK_FAIL
      ∧ (ir_learn_get_result bad_duration_session result_buffer false).2.2 = result_buffer)
    ∧ (short_carrier_session.state = IR_LEARN_FINISH
      ∧ short_carrier_session.msg.msg_len ≤ result_buffer.message_len
      ∧ ¬ DurationOutOfRange short_carrier_session
      ∧ (ir_learn_get_result short_carrier_session result_buffer false).1 = ESP_OK) := by
  have hb : DurationOutOfRange bad_duration_session :=
    Or.inl ⟨0, by rw [bad_duration_session_fields.2.1]; decide,
      Or.inl (by rw [bad_duration_session_fields.2.2.1]; decide)⟩
  have hl1 : bad_duration_session.msg.msg_len ≤ result_buffer.message_len := by
    rw [bad_duration_session_fields.2.1]; decide
  have hl2 : short_carrier_session.msg.msg_len ≤ result_buffer.message_len := by
    rw [short_carrier_session_fields.2.2.1]; decide
  have t1 := get_result_check_fail bad_duration_session result_buffer false
    bad_duration_session_fields.1 hl1
  have t2 := get_result_check_fail short_carrier_session result_buffer false
    short_carrier_session_fields.1 hl2
  have hs : ¬ DurationOutOfRange short_carrier_session := by
    intro hc
    have h3 := t2.1.mpr hc
    have h4 := get_result_ok short_carrier_session result_buffer false
      short_carrier_session_fields.1 hl2 short_carrier_session_checks.1
      (Or.inr short_carrier_session_checks.2.1)
    rw [h4] at h3
    exact absurd h3.1 (by decide)
  exact ⟨⟨bad_duration_session_fields.1, hl1, hb, (t1.1.mpr hb).1, (t1.1.mpr hb).2,
    (t1.2.1 hb).1⟩, short_carrier_session_fields.1, hl2, hs, t2.2.2 hs⟩

/-- Claim C14 (long repeat data are discarded): when `state` is `IR_LEARN_FINISH`, the
capacity suffices, every message duration lies in [200, 20000] and `repeat_len` is 9 or
more, `ir_learn_get_result` returns `ESP_OK` with `repeat_len = 0` in the result and in the
session, whatever the repeat durations are. -/
theorem get_result_discards_long_repeat (s : ir_learn_t) (result : ir_learn_result_t)
    (enable_debug : Bool) (h : s.state = IR_LEARN_FINISH)
    (hl : s.msg.msg_len ≤ result.message_len)
    (hm : ∀ i, i < s.msg.msg_len → 200 ≤ s.msg.msg.getD i 0 ∧ s.msg.msg.getD i 0 ≤ 20000)
    (h9 : 9 ≤ s.msg.repeat_len) :
    (ir_learn_get_result s result enable_debug).1 = ESP_OK
    ∧ (ir_learn_get_result s result enable_debug).2.2.repeat_len = 0
    ∧ (ir_learn_get_result s result enable_debug).2.1.msg.repeat_len = 0 := by
  have h9b : s.msg.repeat_len ≥ IR_LEARN_RPT_BUF_LEN - 1 := h9
  rw [get_result_ok s result enable_debug h hl
    ((period_check_passes_iff _ _ _).mpr hm) (Or.inl h9b)]
  simp only [result_session, h9b, if_true, and_self]

/-- The short capture with `repeat_len` set to 9: the repeat slots 3 to 8 hold 0, which is
out of range, and the call succeeds. -/
theorem get_result_discards_long_repeat_witness :
    (long_repeat_session.state = IR_LEARN_FINISH
      ∧ long_repeat_session.msg.msg_len ≤ result_buffer.message_len
      ∧ (∀ i, i < long_repeat_session.msg.msg_len →
          200 ≤ long_repeat_session.msg.msg.getD i 0
          ∧ long_repeat_session.msg.msg.getD i 0 ≤ 20000)
      ∧ 9 ≤ long_repeat_session.msg.repeat_len
      ∧ period_check_fails long_repeat_session.msg.repeat_buf
          long_repeat_session.msg.repeat_len IR_LEARN_REPEAT_MAX = true)
    ∧ (ir_learn_get_result long_repeat_session result_buffer false).1 = ESP_OK
    ∧ (ir_learn_get_result long_repeat_session result_buffer false).2.2.repeat_len = 0
    ∧ (ir_learn_get_result long_repeat_session result_buffer false).2.1.msg.repeat_len = 0 := by
  have hl : long_repeat_session.msg.msg_len ≤ result_buffer.message_len := by
    rw [long_repeat_session_fields.2.1]; decide
  have hm := (period_check_passes_iff _ _ _).mp long_repeat_session_fields.2.2.2.1
  have h9 : 9 ≤ long_repeat_session.msg.repeat_len := by
    rw [long_repeat_session_fields.2.2.1]
  exact ⟨⟨long_repeat_session_fields.1, hl, hm, h9, long_repeat_session_fields.2.2.2.2⟩,
    get_result_discards_long_repeat long_repeat_session result_buffer false
      long_repeat_session_fields.1 hl hm h9⟩

/-- Claim C15 (short carrier captures) fails on the code.  A short capture (two marks of 11
carrier intervals, a space, two repeat gaps around a repeat mark of 5 carrier intervals) is
reachable and finishes with 15 high and 12 low carrier samples, fewer than 21 on each side;
`ir_learn_get_result` returns `ESP_OK` on it, with no guard before the division by
`12 - 20`. -/
theorem get_result_short_carrier_ok :
    Reachable short_carrier_session
    ∧ short_carrier_session.state = IR_LEARN_FINISH
    ∧ min short_carrier_session.carrier.high_cnt short_carrier_session.carrier.low_cnt = 12
    ∧ (ir_learn_get_result short_carrier_session result_buffer false).1 = ESP_OK
    ∧ (ir_learn_get_result short_carrier_session result_buffer false).2.1.state
        = IR_LEARN_SUCCESS := by
  have hl : short_carrier_session.msg.msg_len ≤ result_buffer.message_len := by
    rw [short_carrier_session_fields.2.2.1]; decide
  have e := get_result_ok short_carrier_session result_buffer false
    short_carrier_session_fields.1 hl short_carrier_session_checks.1
    (Or.inr short_carrier_session_checks.2.1)
  refine ⟨short_carrier_session_reachable, short_carrier_session_fields.1, ?_, ?_, ?_⟩
  · rw [short_carrier_session_fields.2.2.2.2.2.2.1, short_carrier_session_fields.2.2.2.2.2.2.2]
    decide
  · rw [e]
  · rw [e]; rfl

/-- Claim C16 (carrier values in range) fails on the code.  On the short capture
`ir_learn_get_result` returns `ESP_OK` although the trimmed sums `H` and `L` are both 0 and
the trimmed count is `12 - 20`: the quotients `H / (H + L)` and
`1000000 * (n - 20) / (H + L)` have the divisor 0, and the reported `duty` is not in (0, 1)
and the reported `freq` is not positive. -/
theorem get_result_short_carrier_values :
    (ir_learn_get_result short_carrier_session result_buffer false).1 = ESP_OK
    ∧ trimmed_high_sum short_carrier_session = 0
    ∧ trimmed_low_sum short_carrier_session = 0
    ∧ ((min short_carrier_session.carrier.high_cnt
          short_carrier_session.carrier.low_cnt : Nat) : Int) - 20 = -8
    ∧ ¬ (0 < (ir_learn_get_result short_carrier_session result_buffer false).2.2.duty)
    ∧ ¬ (0 < (ir_learn_get_result short_carrier_session result_buffer false).2.2.freq) := by
  have hl : short_carrier_session.msg.msg_len ≤ result_buffer.message_len := by
    rw [short_carrier_session_fields.2.2.1]; decide
  have e := get_result_ok short_carrier_session result_buffer false
    short_carrier_session_fields.1 hl short_carrier_session_checks.1
    (Or.inr short_carrier_session_checks.2.1)
  refine ⟨by rw [e], short_carrier_session_checks.2.2.1, short_carrier_session_checks.2.2.2,
    ?_, ?_, ?_⟩
  · rw [short_carrier_session_fields.2.2.2.2.2.2.1, short_carrier_session_fields.2.2.2.2.2.2.2]
    decide
  · rw [e]
    simp only [short_carrier_session_checks.2.2.1, short_carrier_session_checks.2.2.2]
    norm_num
  · rw [e]
    simp only [short_carrier_session_checks.2.2.1, short_carrier_session_checks.2.2.2]
    norm_num

/-- Claim C17 (restart): on every session, `ir_learn_stop` followed by `ir_learn_start`
returns `ESP_OK` and leaves `state = IR_LEARN_READY`, `finished = false`, `msg.type` Message,
all five counters 0 and every message, repeat, carrier and filter slot 0. -/
theorem stop_start_resets (s : ir_learn_t) :
    (ir_learn_stop s).1 = ESP_OK
    ∧ (ir_learn_start (ir_learn_stop s).2).1 = ESP_OK
    ∧ (ir_learn_start (ir_learn_stop s).2).2.state = IR_LEARN_READY
    ∧ (ir_learn_start (ir_learn_stop s).2).2.finished = false
    ∧ (ir_learn_start (ir_learn_stop s).2).2.msg.type = IR_LEARN_TYPE_MSG
    ∧ (ir_learn_start (ir_learn_stop s).2).2.msg.msg_len = 0
    ∧ (ir_learn_start (ir_learn_stop s).2).2.msg.repeat_len = 0
    ∧ (ir_learn_start (ir_learn_stop s).2).2.carrier.high_cnt = 0
    ∧ (ir_learn_start (ir_learn_stop s).2).2.carrier.low_cnt = 0
    ∧ (ir_learn_start (ir_learn_stop s).2).2.carrier.filter_cnt = 0
    ∧ (ir_learn_start (ir_learn_stop s).2).2.msg.msg = List.replicate 250 0
    ∧ (ir_learn_start (ir_learn_stop s).2).2.msg.repeat_buf = List.replicate 10 0
    ∧ (ir_learn_start (ir_learn_stop s).2).2.carrier.high = List.replicate 100 0
    ∧ (ir_learn_start (ir_learn_stop s).2).2.carrier.low = List.replicate 100 0
    ∧ (ir_learn_start (ir_learn_stop s).2).2.carrier.filter = List.replicate 10 0 := by
  have e : ir_learn_start (ir_learn_stop s).2
      = (ESP_OK,
         { (ir_learn_stop s).2 with
           state := IR_LEARN_READY,
           finished := false,
           carrier := { low_cnt := 0, high_cnt := 0, filter_cnt := 0,
                        low := List.replicate IR_CARRIER_BUF_LEN 0,
                        high := List.replicate IR_CARRIER_BUF_LEN 0,
                        filter := List.replicate IR_FILTER_BUF_LEN 0 },
           msg := { type := 0, msg_len := 0, repeat_len := 0,
                    msg := List.replicate IR_LEARN_MSG_BUF_LEN 0,
                    repeat_buf := List.replicate IR_LEARN_RPT_BUF_LEN 0 } }) := by
    unfold ir_learn_start
    rw [if_neg]
    rintro ⟨_, h⟩
    exact h rfl
  rw [e]
  exact ⟨rfl, rfl, rfl, rfl, rfl, rfl, rfl, rfl, rfl, rfl, rfl, rfl, rfl, rfl, rfl⟩

/-- Claim C18 as stated fails on the code: after `ir_learn_stop` a session in
`IR_LEARN_READY` has `finished` latched, and `ir_learn_start` accepts it. -/
theorem start_accepted_from_ready :
    (ir_learn_stop first_edge_session).2.state = IR_LEARN_READY
    ∧ (ir_learn_stop first_edge_session).2.finished = true
    ∧ (ir_learn_start (ir_learn_stop first_edge_session).2).1 = ESP_OK
    ∧ (ir_learn_start (ir_learn_stop first_edge_session).2).1 ≠ ESP_ERR_INVALID_STATE := by
  decide

/-- Claim C18, amended (start precondition): `ir_learn_start` returns `ESP_OK` exactly when
`state` is `IR_LEARN_IDLE` or `finished` is true; when `state` is not `IR_LEARN_IDLE` and
`finished` is false, so from `IR_LEARN_READY`, `IR_LEARN_CARRIER` or `IR_LEARN_MSG` during a
capture, it returns `ESP_ERR_INVALID_STATE` and leaves the session unchanged. -/
theorem start_accepted_iff (s : ir_learn_t) :
    ((ir_learn_start s).1 = ESP_OK ↔ (s.state = IR_LEARN_IDLE ∨ s.finished = true))
    ∧ (s.state ≠ IR_LEARN_IDLE → s.finished = false →
        ir_learn_start s = (ESP_ERR_INVALID_STATE, s)) := by
  rcases ir_learn_start_cases s with ⟨h1, _, h3⟩ | ⟨h1, h2, h3⟩
  · refine ⟨⟨fun _ => h3, fun _ => h1⟩, fun hs hf => ?_⟩
    rcases h3 with h3 | h3
    · exact absurd h3 hs
    · rw [hf] at h3; cases h3
  · refine ⟨⟨fun hc => ?_, fun hc => ?_⟩, fun _ _ => h1⟩
    · rw [h1] at hc; cases hc
    · rcases hc with hc | hc
      · exact absurd hc h2
      · rw [h3] at hc; cases hc

/-- A running capture in `IR_LEARN_READY` refuses a start; the created session, in
`IR_LEARN_IDLE`, accepts it. -/
theorem start_accepted_iff_witness :
    (first_edge_session.state ≠ IR_LEARN_IDLE ∧ first_edge_session.finished = false
      ∧ first_edge_session.state = IR_LEARN_READY
      ∧ ir_learn_start first_edge_session = (ESP_ERR_INVALID_STATE, first_edge_session))
    ∧ ((ir_learn_create 17).state = IR_LEARN_IDLE
      ∧ (ir_learn_start (ir_learn_create 17)).1 = ESP_OK) :=
  ⟨⟨by decide, by decide, by decide,
    (start_accepted_iff first_edge_session).2 (by decide) (by decide)⟩,
   rfl, (start_accepted_iff (ir_learn_create 17)).1.mpr (Or.inl rfl)⟩

/-- Claim C19 (NEC rejection) fails on the code in its length clause.  On a result whose
`message_len` is 64 and whose buffer holds the 68 durations of a received NEC frame,
`ir_nec_decode` passes its check `message_len < 64`, reads the data durations up to index 65
and returns true with the address and command of the frame. -/
theorem ir_nec_decode_accepts_short_len :
    nec_short_len_result.message_len = 64
    ∧ nec_short_len_result.message_len < 66
    ∧ nec_short_len_result.message.length = 68
    ∧ (ir_nec_decode nec_short_len_result).1 = true
    ∧ (ir_nec_decode nec_short_len_result).2.addr = 0x33
    ∧ (ir_nec_decode nec_short_len_result).2.cmd = 0x9b :=
  ⟨nec_short_len_result_decode.1, by rw [nec_short_len_result_decode.1]; decide,
    nec_short_len_result_decode.2⟩

/-- Claim C20 (RC6 toggle consistency): when `ir_rc6_decode` gets to the head of the pass
with `bits == 3` with durations left, and there the level read first differs from the
next level read, or the level read third differs from the one read after it, the decoder
returns false. -/
theorem rc6_toggle_consistency (r : ir_learn_result_t) (st0 st : rc6_loop_state)
    (he : rc6_entry r = some st0) (hr : rc6_run 3 st0 = some st)
    (ho : st.offset < r.message_len) (hm : rc6_toggle_mismatch st) :
    st.bits = 3 ∧ (ir_rc6_decode r).1 = false := by
  obtain ⟨hb, e⟩ := ir_rc6_decode_toggle r st0 st he hr ho hm
  rw [e]
  exact ⟨hb, rfl⟩

/-- The received RC6 frame with the toggle mark shortened to two half-bit units: the first
half of the toggle bit reads mark, then space. -/
theorem rc6_toggle_consistency_witness :
    (rc6_entry rc6_bad_toggle_result = some rc6_bad_toggle_entry
      ∧ rc6_run 3 rc6_bad_toggle_entry = some rc6_bad_toggle_state
      ∧ rc6_bad_toggle_state.offset < rc6_bad_toggle_result.message_len
      ∧ rc6_toggle_mismatch rc6_bad_toggle_state)
    ∧ rc6_bad_toggle_state.bits = 3
    ∧ (ir_rc6_decode rc6_bad_toggle_result).1 = false :=
  ⟨rc6_bad_toggle_facts,
    rc6_toggle_consistency rc6_bad_toggle_result rc6_bad_toggle_entry rc6_bad_toggle_state
      rc6_bad_toggle_facts.1 rc6_bad_toggle_facts.2.1 rc6_bad_toggle_facts.2.2.1
      rc6_bad_toggle_facts.2.2.2⟩

/-- Claim C21 (the decoders are functions of the durations) fails on the code for
`ir_rc5_decode`, which builds `addr` and `cmd` with `|=` in the caller's struct and never
clears them (`ir_rc6_decode` does the same; `ir_nec_decode` assigns both fields).  The
received RC5 frame of address 0x14 and command 0x25 is accepted in a zeroed result and in a
result that holds `addr = 0x0A` and `cmd = 0x10`, the message and its length being the same,
and the decoder leaves 0x14 and 0x25 in the first, 0x1E and 0x35 in the second. -/
theorem rc5_decode_keeps_stale_fields :
    rc5_stale_result.message = rc5_example_result.message
    ∧ rc5_stale_result.message_len = rc5_example_result.message_len
    ∧ (ir_rc5_decode rc5_example_result).1 = true
    ∧ (ir_rc5_decode rc5_stale_result).1 = true
    ∧ (ir_rc5_decode rc5_example_result).2.addr = 0x14
    ∧ (ir_rc5_decode rc5_stale_result).2.addr = 0x1e
    ∧ (ir_rc5_decode rc5_example_result).2.cmd = 0x25
    ∧ (ir_rc5_decode rc5_stale_result).2.cmd = 0x35
    ∧ (ir_rc5_decode rc5_stale_result).2.addr ≠ (ir_rc5_decode rc5_example_result).2.addr :=
  ⟨rc5_stale_result_decode.1, rc5_stale_result_decode.2.1, rc5_stale_result_decode.2.2.1,
    rc5_stale_result_decode.2.2.2.1, rc5_stale_result_decode.2.2.2.2.1,
    rc5_stale_result_decode.2.2.2.2.2.1, rc5_stale_result_decode.2.2.2.2.2.2.1,
    rc5_stale_result_decode.2.2.2.2.2.2.2,
    by rw [rc5_stale_result_decode.2.2.2.2.1, rc5_stale_result_decode.2.2.2.2.2.1]; decide⟩

/-- Claim C22 (decoded fields only after success) fails on the code for `addr` and `cmd`.
On the received RC5 frame whose duration at index 14 is distorted to 100 us, in a zeroed
result, all three decoders reject and `ir_learn_decode` returns `ESP_FAIL`, yet `addr` has
changed from 0 to 0x14 and `cmd` from 0 to 0x20: `ir_rc5_decode` stores each decoded bit in
the caller's struct before it knows that the frame is complete. -/
theorem ir_learn_decode_failure_changes_fields :
    (ir_learn_decode rc5_distorted_result).1 = ESP_FAIL
    ∧ rc5_distorted_result.addr = 0
    ∧ (ir_learn_decode rc5_distorted_result).2.addr = 0x14
    ∧ rc5_distorted_result.cmd = 0
    ∧ (ir_learn_decode rc5_distorted_result).2.cmd = 0x20
    ∧ (ir_learn_decode rc5_distorted_result).2.addr ≠ rc5_distorted_result.addr :=
  ⟨rc5_distorted_result_decode.2.1, rc5_distorted_result_decode.2.2.1,
    rc5_distorted_result_decode.2.2.2.2.1, rc5_distorted_result_decode.2.2.2.1,
    rc5_distorted_result_decode.2.2.2.2.2.1,
    by rw [rc5_distorted_result_decode.2.2.2.2.1, rc5_distorted_result_decode.2.2.1]; decide⟩

/-- Claim C23 (`ir_decode_get_level` where it reads nothing): with `bit_us` and `bit_margin`
non-negative and `3 * bit_us + bit_margin` within the range of `int`, the function returns
`RC_SPACE` and the unchanged `offset` and `used` when `offset >= message_len`, and it returns
-1 and the unchanged `offset` and `used` when `offset < message_len` and `message[offset]` is
within `bit_margin` of none of `bit_us`, `2 * bit_us` and `3 * bit_us`. -/
theorem get_level_stops (result : ir_learn_result_t) (offset used : Nat)
    (bit_us bit_margin : Int) (h0 : 0 ≤ bit_us) (hm : 0 ≤ bit_margin)
    (hr : 3 * bit_us + bit_margin ≤ 2147483647) :
    (result.message_len ≤ offset →
      ir_decode_get_level result offset used bit_us bit_margin = (RC_SPACE, offset, used))
    ∧ (offset < result.message_len →
        (∀ k, 1 ≤ k → k ≤ 3 →
          ¬ within_multiple bit_us bit_margin (result.message.getD offset 0 : Nat) k) →
        ir_decode_get_level result offset used bit_us bit_margin = (-1, offset, used)) :=
  ⟨fun h => get_level_past_end result offset used bit_us bit_margin h,
    fun hlt hn => get_level_of_none result offset used bit_us bit_margin hlt
      ((level_avail_none_iff bit_us bit_margin _ h0 hm hr).mpr hn)⟩

/-- The received RC5 frame with the duration at index 14 distorted to 100 us, read with the
RC5 half-bit of 889 us and the margin of 100 us: no match at offset 14, a space at offset 17,
past the 17 durations. -/
theorem get_level_stops_witness :
    (0 ≤ RC5_BIT_US ∧ 0 ≤ RC5_BIT_MARGIN ∧ 3 * RC5_BIT_US + RC5_BIT_MARGIN ≤ 2147483647)
    ∧ rc5_distorted_result.message_len = 17
    ∧ ir_decode_get_level rc5_distorted_result 17 1 RC5_BIT_US RC5_BIT_MARGIN
        = (RC_SPACE, 17, 1)
    ∧ ir_decode_get_level rc5_distorted_result 14 1 RC5_BIT_US RC5_BIT_MARGIN = (-1, 14, 1) :=
  ⟨⟨by decide, by decide, by decide⟩, rc5_distorted_result_slot.1,
    (get_level_stops rc5_distorted_result 17 1 RC5_BIT_US RC5_BIT_MARGIN (by decide)
      (by decide) (by decide)).1 (by rw [rc5_distorted_result_slot.1]),
    (get_level_stops rc5_distorted_result 14 1 RC5_BIT_US RC5_BIT_MARGIN (by decide)
      (by decide) (by decide)).2 (by rw [rc5_distorted_result_slot.1]; decide)
      rc5_distorted_no_multiple⟩

/-- Claim C24 (level-run consumption): with `bit_us` and `bit_margin` non-negative and
`3 * bit_us + bit_margin` within the range of `int`, let `offset < message_len` and let `k`
in 1..3 be the smallest multiple for which `message[offset]` is within `bit_margin` of
`k * bit_us`.  Then `n <= k` successive calls of `ir_decode_get_level` from `used = 0` each
return the symbol of the slot, `RC_MARK` for an even and `RC_SPACE` for an odd offset; after
fewer than `k` calls `offset` is unchanged and `used` is the number of calls, and after the
`k`-th call `offset` has advanced by one and `used` is 0. -/
theorem get_level_run (result : ir_learn_result_t) (offset k : Nat) (bit_us bit_margin : Int)
    (h0 : 0 ≤ bit_us) (hm : 0 ≤ bit_margin) (hr : 3 * bit_us + bit_margin ≤ 2147483647)
    (hlt : offset < result.message_len) (hk1 : 1 ≤ k) (hk3 : k ≤ 3)
    (hw : within_multiple bit_us bit_margin (result.message.getD offset 0 : Nat) k)
    (hmin : ∀ j, 1 ≤ j → j < k →
      ¬ within_multiple bit_us bit_margin (result.message.getD offset 0 : Nat) j) :
    ∀ n, n ≤ k →
      get_level_calls result bit_us bit_margin n (offset, 0)
        = (List.replicate n (if offset % 2 = 0 then RC_MARK else RC_SPACE),
           if n < k then (offset, n) else (offset + 1, 0)) := by
  intro n hn
  have ha := (level_avail_iff bit_us bit_margin _ k h0 hm hr hk1 hk3).mpr ⟨hw, hmin⟩
  have h := get_level_calls_run result offset k bit_us bit_margin hlt ha n 0 (by omega)
    (by omega)
  rw [Nat.zero_add, parity_level_eq] at h
  exact h

/-- The received RC5 frame of the example: the duration at offset 2 is 1760 us, two
half-bits of 889 us, so two calls return a mark each; after the first the reader is still
at offset 2 with `used = 1`, after the second at offset 3 with `used = 0`. -/
theorem get_level_run_witness :
    (0 ≤ RC5_BIT_US ∧ 0 ≤ RC5_BIT_MARGIN ∧ 3 * RC5_BIT_US + RC5_BIT_MARGIN ≤ 2147483647)
    ∧ rc5_example_result.message.getD 2 0 = 1760
    ∧ get_level_calls rc5_example_result RC5_BIT_US RC5_BIT_MARGIN 1 (2, 0)
        = ([RC_MARK], (2, 1))
    ∧ get_level_calls rc5_example_result RC5_BIT_US RC5_BIT_MARGIN 2 (2, 0)
        = ([RC_MARK, RC_MARK], (3, 0)) :=
  ⟨⟨by decide, by decide, by decide⟩, rc5_example_result_slot.2,
    get_level_run rc5_example_result 2 2 RC5_BIT_US RC5_BIT_MARGIN (by decide) (by decide)
      (by decide) (by rw [rc5_example_result_slot.1]; decide) (by decide) (by decide)
      rc5_example_double.1 rc5_example_double.2 1 (by decide),
    get_level_run rc5_example_result 2 2 RC5_BIT_US RC5_BIT_MARGIN (by decide) (by decide)
      (by decide) (by rw [rc5_example_result_slot.1]; decide) (by decide) (by decide)
      rc5_example_double.1 rc5_example_double.2 2 (by decide)⟩

/-- Claim C25 (one completion signal): over every sequence of handler calls that follows
an `ir_learn_start`, the handler gives the completion signal at most once, and a call gives
it exactly when it finds `finished` false and leaves it true. -/
theorem completion_signalled_once (x : ir_learn_t) (es : List (Int × Int)) :
    signal_count (ir_learn_start x).2 es ≤ 1
    ∧ ∀ (s : ir_learn_t) (cur_time gpio_level : Int),
        (ir_learn_isr_handle s cur_time gpio_level).gave = true
          ↔ (s.finished = false
              ∧ (ir_learn_isr_handle s cur_time gpio_level).s.finished = true) :=
  ⟨signal_count_le_one es _, fun s t l => isr_handle_gave_iff s t l⟩

/-- Claim C26 as stated fails on the code in its first clause: a carrier-band interval
that arrives when a carrier sample buffer is full and the message is saved finishes the
session, whatever the filter count.  On the capture with a full high sample buffer, in
message mode with `filter_cnt = 0`, an edge 50 us after the last one is not appended to the
filter and `msg_len` goes from 3 to 4. -/
theorem carrier_interval_finishes_session :
    Reachable full_carrier_session
    ∧ full_carrier_session.finished = false
    ∧ full_carrier_session.msg.type = IR_LEARN_TYPE_MSG
    ∧ full_carrier_session.carrier.filter_cnt < 10
    ∧ full_carrier_session.msg.msg_len = 3
    ∧ (ir_learn_isr_handle full_carrier_session
        (full_carrier_session.pre_time + 50) 1).s.msg.msg_len = 4
    ∧ (ir_learn_isr_handle full_carrier_session
        (full_carrier_session.pre_time + 50) 1).s.carrier.filter
        = full_carrier_session.carrier.filter
    ∧ (ir_learn_isr_handle full_carrier_session
        (full_carrier_session.pre_time + 50) 1).s.carrier.filter_cnt = 0 :=
  ⟨one_mark_fed_reachable _, full_carrier_session_fields.1, full_carrier_session_fields.2.2.1,
    by rw [full_carrier_session_fields.2.2.2.1]; decide,
    full_carrier_session_fields.2.2.2.2.2.1, full_carrier_session_carrier.1,
    full_carrier_session_carrier.2.1, full_carrier_session_carrier.2.2.1⟩

/-- Claim C26, amended (jitter-filter commit): let a carrier-band interval `p`
(6 <= p <= 50) arrive on an unfinished session past its first edge, in message mode and with
a message buffer of 250 slots, and let the call not finish the session.  While
`filter_cnt < 10`, `p` is stored at `filter[filter_cnt]`, `filter_cnt` grows by one, and the
message data (type, lengths, both buffers) is unchanged and no slot is written.  With
`filter_cnt == 10` and `0 < msg_len < 249`, `filter_cnt` becomes 11, `msg_len` grows by one
and the slot at the new `msg_len` grows by `filter[0] + ... + filter[9] + p` (modulo 2^32),
all other message slots and the repeat data being unchanged; with `filter_cnt == 10` and
`msg_len == 0` the same sum goes to slot 0 and `msg_len` stays 0. -/
theorem jitter_filter_commit (s : ir_learn_t) (cur_time gpio_level : Int)
    (hp : s.pre_time ≠ 0) (hf : s.finished = false) (ht : s.msg.type = IR_LEARN_TYPE_MSG)
    (hb : s.msg.msg.length = 250)
    (h1 : 6 ≤ cur_time - s.pre_time) (h2 : cur_time - s.pre_time ≤ 50)
    (hn : (ir_learn_isr_handle s cur_time gpio_level).s.finished = false) :
    (s.carrier.filter_cnt < 10 →
      (ir_learn_isr_handle s cur_time gpio_level).s.carrier.filter
          = s.carrier.filter.set s.carrier.filter_cnt (cur_time - s.pre_time).toNat
        ∧ (ir_learn_isr_handle s cur_time gpio_level).s.carrier.filter_cnt
          = s.carrier.filter_cnt + 1
        ∧ (ir_learn_isr_handle s cur_time gpio_level).s.msg = s.msg
        ∧ (ir_learn_isr_handle s cur_time gpio_level).msg_writes = []
        ∧ (ir_learn_isr_handle s cur_time gpio_level).repeat_writes = [])
    ∧ (s.carrier.filter_cnt = 10 → 0 < s.msg.msg_len → s.msg.msg_len < 249 →
      (ir_learn_isr_handle s cur_time gpio_level).s.carrier.filter_cnt = 11
        ∧ (ir_learn_isr_handle s cur_time gpio_level).s.msg.msg_len = s.msg.msg_len + 1
        ∧ (∀ j, (ir_learn_isr_handle s cur_time gpio_level).s.msg.msg.getD j 0
            = if j = s.msg.msg_len + 1 then
                (s.msg.msg.getD (s.msg.msg_len + 1) 0 + (filter_sum s.carrier.filter
                  + (cur_time - s.pre_time).toNat)) % 4294967296
              else s.msg.msg.getD j 0)
        ∧ (ir_learn_isr_handle s cur_time gpio_level).s.msg.repeat_buf = s.msg.repeat_buf
        ∧ (ir_learn_isr_handle s cur_time gpio_level).s.msg.repeat_len = s.msg.repeat_len)
    ∧ (s.carrier.filter_cnt = 10 → s.msg.msg_len = 0 →
      (ir_learn_isr_handle s cur_time gpio_level).s.carrier.filter_cnt = 11
        ∧ (ir_learn_isr_handle s cur_time gpio_level).s.msg.msg_len = 0
        ∧ (∀ j, (ir_learn_isr_handle s cur_time gpio_level).s.msg.msg.getD j 0
            = if j = 0 then
                (s.msg.msg.getD 0 0 + (filter_sum s.carrier.filter
                  + (cur_time - s.pre_time).toNat)) % 4294967296
              else s.msg.msg.getD j 0)
        ∧ (ir_learn_isr_handle s cur_time gpio_level).s.msg.repeat_buf = s.msg.repeat_buf
        ∧ (ir_learn_isr_handle s cur_time gpio_level).s.msg.repeat_len = s.msg.repeat_len) := by
  obtain ⟨s2, e, em, ef, ec, efin⟩ :=
    isr_handle_carrier_filter s cur_time gpio_level hp hf h1 h2 hn
  have hv : ((filter_sum s.carrier.filter : Nat) : Int) + (cur_time - s.pre_time)
      = ((filter_sum s.carrier.filter + (cur_time - s.pre_time).toNat : Nat) : Int) := by
    rw [Nat.cast_add, Int.toNat_of_nonneg (by omega)]
  rw [e]
  refine ⟨fun hc => ?_, fun hc h0 hl => ?_, fun hc h0 => ?_⟩
  · rw [isr_carrier_filter_append s2 _ efin (ec ▸ hc)]
    have hmod : (s.carrier.filter_cnt + 1) % 256 = s.carrier.filter_cnt + 1 := by omega
    refine ⟨?_, ?_, em, rfl, rfl⟩
    · show buf_store 256 s2.carrier.filter s2.carrier.filter_cnt (cur_time - s.pre_time) = _
      rw [ef, ec, buf_store_u8 _ _ _ (by omega) (by omega)]
    · show (s2.carrier.filter_cnt + 1) % 256 = _
      rw [ec, hmod]
  · rw [isr_carrier_filter_commit s2 _ efin (em ▸ ht) (ec ▸ hc) (em ▸ h0)
      (by rw [em, hb]; omega) (by rw [em]; omega)]
    refine ⟨rfl, by rw [em], fun j => ?_, by rw [em], by rw [em]⟩
    show (buf_add s2.msg.msg (s2.msg.msg_len + 1) _).getD j 0 = _
    rw [em, ef, hv, buf_add_getD _ _ _ _ (by rw [hb]; omega)]
  · rw [isr_carrier_filter_commit_first s2 _ efin (em ▸ ht) (ec ▸ hc) (em ▸ h0)
      (by rw [em, hb]; omega)]
    refine ⟨rfl, by rw [em]; exact h0, fun j => ?_, by rw [em], by rw [em]⟩
    show (buf_add s2.msg.msg 0 _).getD j 0 = _
    rw [em, ef, hv, buf_add_getD _ _ _ _ (by rw [hb]; omega)]

/-- The capture with one committed mark and a full jitter filter of ten 50 us samples,
taking an edge 50 us after the last one: `filter_cnt` becomes 11 and `msg_len` 2. -/
theorem jitter_filter_commit_witness :
    (full_filter_session.pre_time ≠ 0 ∧ full_filter_session.finished = false
      ∧ full_filter_session.msg.type = IR_LEARN_TYPE_MSG
      ∧ full_filter_session.msg.msg.length = 250
      ∧ (ir_learn_isr_handle full_filter_session
          (full_filter_session.pre_time + 50) 1).s.finished = false
      ∧ full_filter_session.carrier.filter_cnt = 10
      ∧ full_filter_session.msg.msg_len = 1)
    ∧ (ir_learn_isr_handle full_filter_session
        (full_filter_session.pre_time + 50) 1).s.carrier.filter_cnt = 11
    ∧ (ir_learn_isr_handle full_filter_session
        (full_filter_session.pre_time + 50) 1).s.msg.msg_len
        = full_filter_session.msg.msg_len + 1 :=
  ⟨⟨full_filter_session_fields.2.1, full_filter_session_fields.1,
      full_filter_session_fields.2.2.1, full_filter_session_fields.2.2.2.2.2.1,
      full_filter_session_fields.2.2.2.2.2.2.2, full_filter_session_fields.2.2.2.2.1,
      full_filter_session_fields.2.2.2.1⟩,
    ((jitter_filter_commit full_filter_session (full_filter_session.pre_time + 50) 1
      full_filter_session_fields.2.1 full_filter_session_fields.1
      full_filter_session_fields.2.2.1 full_filter_session_fields.2.2.2.2.2.1
      (by omega) (by omega) full_filter_session_fields.2.2.2.2.2.2.2).2.1
      full_filter_session_fields.2.2.2.2.1
      (by rw [full_filter_session_fields.2.2.2.1]; decide)
      (by rw [full_filter_session_fields.2.2.2.1]; decide)).1,
    ((jitter_filter_commit full_filter_session (full_filter_session.pre_time + 50) 1
      full_filter_session_fields.2.1 full_filter_session_fields.1
      full_filter_session_fields.2.2.1 full_filter_session_fields.2.2.2.2.2.1
      (by omega) (by omega) full_filter_session_fields.2.2.2.2.2.2.2).2.1
      full_filter_session_fields.2.2.2.2.1
      (by rw [full_filter_session_fields.2.2.2.1]; decide)
      (by rw [full_filter_session_fields.2.2.2.1]; decide)).2.1⟩

/-- Claim C27 (bit-band residual flush) fails on the code: the handler tests
`filter_cnt > IR_LEARN_MSG`, that is `filter_cnt > 0`, so with buffered samples it only
advances the slot, and the loop that adds the buffered samples runs only when there are
none.  On the capture with one committed mark and three buffered samples of 50 us, the
slots being 550, 500, an edge 500 us after the last one leaves slot 1 at 500 instead of 650,
puts 500 in slot 2 and resets `filter_cnt`: the three samples are dropped. -/
theorem isr_bit_drops_filter_samples :
    Reachable residual_session
    ∧ residual_session.finished = false
    ∧ residual_session.msg.msg_len = 1
    ∧ residual_session.carrier.filter_cnt = 3
    ∧ residual_session.carrier.filter.take 3 = [50, 50, 50]
    ∧ residual_session.msg.msg.take 4 = [550, 500, 0, 0]
    ∧ (ir_learn_isr_handle residual_session (residual_session.pre_time + 500) 0).s.msg.msg_len
        = 2
    ∧ (ir_learn_isr_handle residual_session
        (residual_session.pre_time + 500) 0).s.msg.msg.take 4 = [550, 500, 500, 0]
    ∧ (ir_learn_isr_handle residual_session (residual_session.pre_time + 500) 0).msg_writes
        = [2]
    ∧ (ir_learn_isr_handle residual_session
        (residual_session.pre_time + 500) 0).s.carrier.filter_cnt = 0 :=
  ⟨one_mark_fed_reachable _, residual_session_fields.1, residual_session_fields.2.2.2.1,
    residual_session_fields.2.2.2.2.1, residual_session_fields.2.2.2.2.2.1,
    residual_session_fields.2.2.2.2.2.2, residual_session_bit.1, residual_session_bit.2.1,
    residual_session_bit.2.2.2, residual_session_bit.2.2.1⟩

/-- Claim C28 (first repeat gap): let an interval `p` with `20000 < p <= 120000` arrive on
an unfinished session past its first edge.  With `0 < msg_len < 250` and `repeat_len == 0`
the handler sets `msg.type` to repeat, stores `p` in `repeat[0]` and sets `repeat_len` to 1;
state, `finished`, `msg_len`, the message buffer and the carrier data are unchanged and no
signal is given.  With `msg_len == 0`, on a session with `repeat_len == 0` or one that
`ir_learn_start` and the handler lead to, nothing changes but the time stamp `pre_time`. -/
theorem first_repeat_gap (s : ir_learn_t) (cur_time gpio_level : Int)
    (hp : s.pre_time ≠ 0) (hf : s.finished = false)
    (h1 : 20000 < cur_time - s.pre_time) (h2 : cur_time - s.pre_time ≤ 120000) :
    (0 < s.msg.msg_len → s.msg.msg_len < 250 → s.msg.repeat_len = 0 →
      ir_learn_isr_handle s cur_time gpio_level
        = { s := { s with
                   pre_time := cur_time,
                   msg := { s.msg with
                     type := IR_LEARN_RPT,
                     repeat_buf := s.msg.repeat_buf.set 0 (cur_time - s.pre_time).toNat,
                     repeat_len := 1 } },
            gave := false, msg_writes := [], repeat_writes := [0] })
    ∧ (s.msg.msg_len = 0 → (s.msg.repeat_len = 0 ∨ Reachable s) →
      ir_learn_isr_handle s cur_time gpio_level
        = { s := { s with pre_time := cur_time }, gave := false, msg_writes := [],
            repeat_writes := [] }) := by
  refine ⟨fun h0 hl hr => ?_, fun h0 hr => ?_⟩
  · rw [isr_handle_repeat_band s cur_time gpio_level hp hf hl h1 h2,
      isr_repeat_first ({ s with pre_time := cur_time } : ir_learn_t) _ hf h0 hr,
      buf_store_u32 _ _ _ (by omega) (by omega)]
  · have hr0 : s.msg.repeat_len = 0 := by
      rcases hr with hr | hr
      · exact hr
      · exact ((reachable_mode s hr).2.2.2 h0).2
    rw [isr_handle_repeat_band s cur_time gpio_level hp hf (by omega) h1 h2]
    exact isr_repeat_idle ({ s with pre_time := cur_time } : ir_learn_t) _ hf
      (fun h => absurd h0 (Nat.pos_iff_ne_zero.mp h.1))
      (fun h => absurd hr0 (Nat.pos_iff_ne_zero.mp h.2.1))

/-- The capture with one committed mark, taking an edge 30 ms after the last one. -/
theorem first_repeat_gap_witness :
    (one_mark_session.pre_time ≠ 0 ∧ one_mark_session.finished = false
      ∧ one_mark_session.msg.msg_len = 1 ∧ one_mark_session.msg.repeat_len = 0)
    ∧ ir_learn_isr_handle one_mark_session (one_mark_session.pre_time + 30000) 0
        = { s := { one_mark_session with
                   pre_time := one_mark_session.pre_time + 30000,
                   msg := { one_mark_session.msg with
                     type := IR_LEARN_RPT,
                     repeat_buf := one_mark_session.msg.repeat_buf.set 0
                       (one_mark_session.pre_time + 30000 - one_mark_session.pre_time).toNat,
                     repeat_len := 1 } },
            gave := false, msg_writes := [], repeat_writes := [0] } :=
  ⟨⟨one_mark_session_fields.2.2.1, one_mark_session_fields.2.1,
      one_mark_session_fields.2.2.2.2.1, one_mark_session_fields.2.2.2.2.2.1⟩,
    (first_repeat_gap one_mark_session (one_mark_session.pre_time + 30000) 0
      one_mark_session_fields.2.2.1 one_mark_session_fields.2.1 (by omega) (by omega)).1
      (by rw [one_mark_session_fields.2.2.2.2.1]; decide)
      (by rw [one_mark_session_fields.2.2.2.2.1]; decide)
      one_mark_session_fields.2.2.2.2.2.1⟩

/-- Claim C29 (second repeat gap): let an interval `p` with `20000 < p <= 120000` arrive on
an unfinished session in repeat mode that `ir_learn_start` and the handler lead to.  With
`0 < repeat_len < 9` the handler stores `p` in `repeat[repeat_len + 1]`, the last element of
the repeat frame of the new length `repeat_len + 2 <= 10`, sets `msg.type` back to message,
sets `state = IR_LEARN_FINISH`, latches `finished` and gives the completion signal (and the
exit code counts `msg_len` up by one).  With `repeat_len >= 9` nothing changes but the time
stamp `pre_time`. -/
theorem second_repeat_gap (s : ir_learn_t) (cur_time gpio_level : Int) (hs : Reachable s)
    (hp : s.pre_time ≠ 0) (hf : s.finished = false) (ht : s.msg.type = IR_LEARN_RPT)
    (h1 : 20000 < cur_time - s.pre_time) (h2 : cur_time - s.pre_time ≤ 120000) :
    (0 < s.msg.repeat_len → s.msg.repeat_len < 9 →
      ir_learn_isr_handle s cur_time gpio_level
          = { s := { s with
                     pre_time := cur_time,
                     msg := { s.msg with
                       msg_len := s.msg.msg_len + 1,
                       repeat_buf := s.msg.repeat_buf.set (s.msg.repeat_len + 1)
                         (cur_time - s.pre_time).toNat,
                       repeat_len := s.msg.repeat_len + 2,
                       type := IR_LEARN_TYPE_MSG },
                     state := IR_LEARN_FINISH,
                     finished := true,
                     sem := true },
              gave := true, msg_writes := [], repeat_writes := [s.msg.repeat_len + 1] }
        ∧ (ir_learn_isr_handle s cur_time gpio_level).s.msg.repeat_len ≤ 10
        ∧ (ir_learn_isr_handle s cur_time gpio_level).s.msg.repeat_buf.getD
              ((ir_learn_isr_handle s cur_time gpio_level).s.msg.repeat_len - 1) 0
            = (cur_time - s.pre_time).toNat)
    ∧ (9 ≤ s.msg.repeat_len →
      ir_learn_isr_handle s cur_time gpio_level
        = { s := { s with pre_time := cur_time }, gave := false, msg_writes := [],
            repeat_writes := [] }) := by
  obtain ⟨_, hb, hm, _⟩ := reachable_mode s hs
  have hl : s.msg.msg_len < 250 := hm hf ht
  have e := isr_handle_repeat_band s cur_time gpio_level hp hf hl h1 h2
  refine ⟨fun r1 r2 => ?_, fun r9 => ?_⟩
  · have e2 := e.trans ((isr_repeat_second ({ s with pre_time := cur_time } : ir_learn_t)
      (cur_time - s.pre_time) ht r1 r2 hl).trans
      (by rw [buf_store_u32 _ _ _ (by omega) (by omega)]))
    refine ⟨e2, ?_, ?_⟩
    · rw [e2]
      show s.msg.repeat_len + 2 ≤ 10
      omega
    · rw [e2]
      show (s.msg.repeat_buf.set (s.msg.repeat_len + 1) (cur_time - s.pre_time).toNat).getD
        (s.msg.repeat_len + 2 - 1) 0 = _
      have hi : s.msg.repeat_len + 1 < s.msg.repeat_buf.length := by
        rw [hb]
        omega
      have e3 : s.msg.repeat_len + 2 - 1 = s.msg.repeat_len + 1 := by omega
      rw [e3]
      simp [hi]
  · rw [e]
    exact isr_repeat_idle ({ s with pre_time := cur_time } : ir_learn_t) _ hf
      (fun h => by
        have h9 : s.msg.repeat_len = 0 := h.2
        omega)
      (fun h => by
        have h9 : s.msg.repeat_len < 9 := h.2.2
        omega)

/-- The capture in repeat mode with one repeat duration, taking an edge 30 ms after the
last one, which finishes it with three repeat durations; and the capture in repeat mode with
nine repeat durations, on which the same edge changes nothing but the time stamp. -/
theorem second_repeat_gap_witness :
    (Reachable repeat_mode_session ∧ repeat_mode_session.pre_time ≠ 0
      ∧ repeat_mode_session.finished = false ∧ repeat_mode_session.msg.type = IR_LEARN_RPT
      ∧ repeat_mode_session.msg.repeat_len = 1)
    ∧ (ir_learn_isr_handle repeat_mode_session
        (repeat_mode_session.pre_time + 30000) 0).s.msg.repeat_len ≤ 10
    ∧ (Reachable long_repeat_mode_session ∧ long_repeat_mode_session.pre_time ≠ 0
      ∧ long_repeat_mode_session.finished = false
      ∧ long_repeat_mode_session.msg.type = IR_LEARN_RPT
      ∧ long_repeat_mode_session.msg.repeat_len = 9)
    ∧ ir_learn_isr_handle long_repeat_mode_session
        (long_repeat_mode_session.pre_time + 30000) 0
        = { s := { long_repeat_mode_session with
                   pre_time := long_repeat_mode_session.pre_time + 30000 },
            gave := false, msg_writes := [], repeat_writes := [] } :=
  ⟨⟨one_mark_fed_reachable _, repeat_mode_session_fields.2.1, repeat_mode_session_fields.1,
      repeat_mode_session_fields.2.2.1, repeat_mode_session_fields.2.2.2⟩,
    ((second_repeat_gap repeat_mode_session (repeat_mode_session.pre_time + 30000) 0
      (one_mark_fed_reachable _) repeat_mode_session_fields.2.1 repeat_mode_session_fields.1
      repeat_mode_session_fields.2.2.1 (by omega) (by omega)).1
      (by rw [repeat_mode_session_fields.2.2.2]; decide)
      (by rw [repeat_mode_session_fields.2.2.2]; decide)).2.1,
    ⟨feed_intervals_reachable _ _ (one_mark_fed_reachable _),
      long_repeat_mode_session_fields.2.1, long_repeat_mode_session_fields.1,
      long_repeat_mode_session_fields.2.2.1, long_repeat_mode_session_fields.2.2.2⟩,
    (second_repeat_gap long_repeat_mode_session (long_repeat_mode_session.pre_time + 30000) 0
      (feed_intervals_reachable _ _ (one_mark_fed_reachable _))
      long_repeat_mode_session_fields.2.1 long_repeat_mode_session_fields.1
      long_repeat_mode_session_fields.2.2.1 (by omega) (by omega)).2
      (by rw [long_repeat_mode_session_fields.2.2.2])⟩

/-- Claim C30 (oversized gap) fails on the code in its last case.  `ir_learn.c` defines
the macro `IR_LEARN_MSG` as 0 after `ir_learn.h` has declared the state enumerator of that
name, so the statement `state = IR_LEARN_MSG` stores the state of value 0.  On the capture
with one committed mark, unfinished and in `IR_LEARN_READY`, an edge 200 ms after the last
one leaves `state` at `IR_LEARN_IDLE`, not at the state `IR_LEARN_MSG`; `finished` stays
false. -/
theorem isr_handle_oversized_stores_idle :
    one_mark_session.finished = false
    ∧ one_mark_session.msg.msg_len = 1
    ∧ one_mark_session.state = IR_LEARN_READY
    ∧ (ir_learn_isr_handle one_mark_session (one_mark_session.pre_time + 200000) 0).s.state
        = IR_LEARN_IDLE
    ∧ (ir_learn_isr_handle one_mark_session (one_mark_session.pre_time + 200000) 0).s.state
        ≠ ir_learn_state_t.IR_LEARN_MSG
    ∧ (ir_learn_isr_handle one_mark_session (one_mark_session.pre_time + 200000) 0).s.finished
        = false :=
  ⟨one_mark_session_fields.2.1, one_mark_session_fields.2.2.2.2.1, one_mark_session_fields.1,
    one_mark_session_oversized.1, by rw [one_mark_session_oversized.1]; decide,
    one_mark_session_oversized.2.1⟩

/-- Claim C32 (carrier sample recording) does not hold as stated: the low buffer having
room is not enough for a level-0 interval to be recorded.  After 199 carrier intervals with
alternating line level the high buffer holds 100 samples and the low buffer 99; the next
carrier interval, at level 0, is stored in neither buffer: `low_cnt` stays 99 and the low
buffer is unchanged. -/
theorem carrier_sample_dropped :
    Reachable alternating_full_session
    ∧ alternating_full_session.finished = false
    ∧ alternating_full_session.carrier.high_cnt = 100
    ∧ alternating_full_session.carrier.low_cnt = 99
    ∧ alternating_full_session.carrier.low_cnt < 100
    ∧ (ir_learn_isr_handle alternating_full_session
        (alternating_full_session.pre_time + 50) 0).s.carrier.low_cnt = 99
    ∧ (ir_learn_isr_handle alternating_full_session
        (alternating_full_session.pre_time + 50) 0).s.carrier.low
        = alternating_full_session.carrier.low :=
  ⟨alternating_full_session_reachable, alternating_full_session_fields.1,
    alternating_full_session_fields.2.2.2.1, alternating_full_session_fields.2.2.2.2,
    by rw [alternating_full_session_fields.2.2.2.2]; decide,
    alternating_full_session_carrier.1, alternating_full_session_carrier.2.1⟩

/-- Claim C32, amended: let a carrier-band interval `p` (6..50 us) arrive on an unfinished
session past its first edge that `ir_learn_start` and the handler lead to, with fewer than
250 committed message durations.  While both sample buffers hold fewer than 100 samples,
`p` is appended to the high buffer when the line level is 1 and to the low buffer
otherwise, whatever the fill count of the jitter filter; once either buffer holds 100
samples, nothing is recorded in either.  Both counts are at most 100 before and after. -/
theorem carrier_sample_recording (s : ir_learn_t) (cur_time gpio_level : Int)
    (hr : Reachable s) (hp : s.pre_time ≠ 0) (hf : s.finished = false)
    (hl : s.msg.msg_len < 250)
    (h1 : 6 ≤ cur_time - s.pre_time) (h2 : cur_time - s.pre_time ≤ 50) :
    (s.carrier.high_cnt < 100 ∧ s.carrier.low_cnt < 100 → gpio_level = 1 →
      carrier_samples (ir_learn_isr_handle s cur_time gpio_level).s
        = (s.carrier.high_cnt + 1, s.carrier.low_cnt,
           s.carrier.high.set s.carrier.high_cnt (cur_time - s.pre_time).toNat,
           s.carrier.low))
    ∧ (s.carrier.high_cnt < 100 ∧ s.carrier.low_cnt < 100 → gpio_level ≠ 1 →
      carrier_samples (ir_learn_isr_handle s cur_time gpio_level).s
        = (s.carrier.high_cnt, s.carrier.low_cnt + 1, s.carrier.high,
           s.carrier.low.set s.carrier.low_cnt (cur_time - s.pre_time).toNat))
    ∧ (¬ (s.carrier.high_cnt < 100 ∧ s.carrier.low_cnt < 100) →
      carrier_samples (ir_learn_isr_handle s cur_time gpio_level).s = carrier_samples s)
    ∧ s.carrier.high_cnt ≤ 100 ∧ s.carrier.low_cnt ≤ 100
    ∧ (ir_learn_isr_handle s cur_time gpio_level).s.carrier.high_cnt ≤ 100
    ∧ (ir_learn_isr_handle s cur_time gpio_level).s.carrier.low_cnt ≤ 100 := by
  obtain ⟨a, b, c⟩ := isr_handle_carrier_samples s cur_time gpio_level hp hf hl h1 h2
  have i1 := reachable_carrier_inv s hr
  have i2 := reachable_carrier_inv _ (Reachable.edge s cur_time gpio_level hr)
  exact ⟨a, b, c, i1.2.2.1, i1.2.2.2.1, i2.2.2.1, i2.2.2.2.1⟩

/-- The capture with one committed mark (six high and five low samples), taking a carrier
interval of 50 us at line level 1: the interval becomes the seventh high sample. -/
theorem carrier_sample_recording_witness :
    (Reachable one_mark_session ∧ one_mark_session.pre_time ≠ 0
      ∧ one_mark_session.finished = false ∧ one_mark_session.msg.msg_len < 250
      ∧ one_mark_session.carrier.high_cnt < 100 ∧ one_mark_session.carrier.low_cnt < 100)
    ∧ carrier_samples
        (ir_learn_isr_handle one_mark_session (one_mark_session.pre_time + 50) 1).s
        = (one_mark_session.carrier.high_cnt + 1, one_mark_session.carrier.low_cnt,
           one_mark_session.carrier.high.set one_mark_session.carrier.high_cnt
            (one_mark_session.pre_time + 50 - one_mark_session.pre_time).toNat,
           one_mark_session.carrier.low) :=
  ⟨⟨one_mark_session_reachable, one_mark_session_fields.2.2.1, one_mark_session_fields.2.1,
      by rw [one_mark_session_fields.2.2.2.2.1]; decide,
      by rw [one_mark_session_samples.1]; decide,
      by rw [one_mark_session_samples.2.1]; decide⟩,
    (carrier_sample_recording one_mark_session (one_mark_session.pre_time + 50) 1
      one_mark_session_reachable one_mark_session_fields.2.2.1 one_mark_session_fields.2.1
      (by rw [one_mark_session_fields.2.2.2.2.1]; decide) (by omega) (by omega)).1
      ⟨by rw [one_mark_session_samples.1]; decide,
        by rw [one_mark_session_samples.2.1]; decide⟩ rfl⟩

/-- Claim C33 (finalize accounting): a call of the edge handler that latches `finished`
(finds it false and leaves it true) leaves `state` at `IR_LEARN_FINISH` or at
`IR_LEARN_OVERFLOW`; with `IR_LEARN_FINISH`, `msg_len` at exit is its value at entry plus
one, and with `IR_LEARN_OVERFLOW`, `msg_len` is unchanged. -/
theorem finalize_accounting (s : ir_learn_t) (cur_time gpio_level : Int)
    (hf : s.finished = false)
    (hn : (ir_learn_isr_handle s cur_time gpio_level).s.finished = true) :
    ((ir_learn_isr_handle s cur_time gpio_level).s.state = IR_LEARN_FINISH
      ∨ (ir_learn_isr_handle s cur_time gpio_level).s.state = IR_LEARN_OVERFLOW)
    ∧ ((ir_learn_isr_handle s cur_time gpio_level).s.state = IR_LEARN_FINISH →
        (ir_learn_isr_handle s cur_time gpio_level).s.msg.msg_len = s.msg.msg_len + 1)
    ∧ ((ir_learn_isr_handle s cur_time gpio_level).s.state = IR_LEARN_OVERFLOW →
        (ir_learn_isr_handle s cur_time gpio_level).s.msg.msg_len = s.msg.msg_len) := by
  rcases isr_handle_final s cur_time gpio_level hf hn with h | h
  · exact ⟨Or.inl h.1, fun _ => h.2, fun ho => absurd (h.1.symm.trans ho) (by decide)⟩
  · exact ⟨Or.inr h.1, fun hfin => absurd (h.1.symm.trans hfin) (by decide), fun _ => h.2⟩

/-- The capture with a full high sample buffer and three committed durations, taking a
carrier interval of 50 us: the call latches `finished` with `IR_LEARN_FINISH` and `msg_len`
goes from 3 to 4. -/
theorem finalize_accounting_witness :
    (full_carrier_session.finished = false
      ∧ (ir_learn_isr_handle full_carrier_session
          (full_carrier_session.pre_time + 50) 1).s.finished = true)
    ∧ (ir_learn_isr_handle full_carrier_session
        (full_carrier_session.pre_time + 50) 1).s.state = IR_LEARN_FINISH
    ∧ (ir_learn_isr_handle full_carrier_session
        (full_carrier_session.pre_time + 50) 1).s.msg.msg_len
        = full_carrier_session.msg.msg_len + 1 :=
  ⟨⟨full_carrier_session_fields.1, full_carrier_session_carrier.2.2.2⟩,
    full_carrier_session_finish.1,
    (finalize_accounting full_carrier_session (full_carrier_session.pre_time + 50) 1
      full_carrier_session_fields.1 full_carrier_session_carrier.2.2.2).2.1
      full_carrier_session_finish.1⟩

/-- Claim C34 (`array_sort` sorts ascending): for every array and every length
`n <= 255` within the array, after `array_sort(array, n)` the first `n` elements are in
non-decreasing order and are a permutation of the first `n` elements before the call, and
the elements from index `n` on are unchanged. -/
theorem array_sort_sorts (array : List Nat) (n : Nat) (hn : n ≤ array.length)
    (_h255 : n ≤ 255) :
    (∀ p q, p < q → q < n → (array_sort array n).getD p 0 ≤ (array_sort array n).getD q 0)
    ∧ ((array_sort array n).take n).Perm (array.take n)
    ∧ (array_sort array n).drop n = array.drop n
    ∧ (array_sort array n).length = array.length := by
  obtain ⟨h1, h2⟩ := array_sort_sorted array n hn
  exact ⟨fun p q hpq hq => h1 p q (by omega) hpq hq, sort_keeps_take n _ _ h2, h2.2.2, h2.1⟩

/-- Sorting the first four of six bytes: 50, 20, 40, 10 become 10, 20, 40, 50 and the
last two stay. -/
theorem array_sort_sorts_witness :
    (4 ≤ [50, 20, 40, 10, 30, 7].length ∧ 4 ≤ 255)
    ∧ array_sort [50, 20, 40, 10, 30, 7] 4 = [10, 20, 40, 50, 30, 7]
    ∧ ((array_sort [50, 20, 40, 10, 30, 7] 4).take 4).Perm ([50, 20, 40, 10, 30, 7].take 4) :=
  ⟨⟨by decide, by decide⟩, by decide,
    (array_sort_sorts [50, 20, 40, 10, 30, 7] 4 (by decide) (by decide)).2.1⟩

/-- Claim C35 (result of a successful `ir_learn_get_result`): when the call returns
`ESP_OK` on a result buffer that has room for the `message_len` entries it declares, the
session state is `IR_LEARN_SUCCESS`, `result->message_len` is the captured `msg_len`,
`result->repeat_len` is the captured `repeat_len`, or 0 when that is 9 or more and the
repeat data is discarded, and for every `i < msg_len`, `result->message[i]` is the captured
`msg[i]`, which is at most 20000, so the narrowing to 16 bits loses nothing. -/
theorem get_result_copies_message (s : ir_learn_t) (r : ir_learn_result_t) (d : Bool)
    (h : (ir_learn_get_result s r d).1 = ESP_OK) (hcap : r.message_len ≤ r.message.length) :
    (ir_learn_get_result s r d).2.1.state = IR_LEARN_SUCCESS
    ∧ (ir_learn_get_result s r d).2.2.message_len = s.msg.msg_len
    ∧ (ir_learn_get_result s r d).2.2.repeat_len
        = (if 9 ≤ s.msg.repeat_len then 0 else s.msg.repeat_len)
    ∧ ∀ i, i < s.msg.msg_len →
        (ir_learn_get_result s r d).2.2.message.getD i 0 = s.msg.msg.getD i 0
        ∧ s.msg.msg.getD i 0 ≤ 20000 := by
  obtain ⟨a, b, c, e, _⟩ := get_result_ok_eq s r d h
  obtain ⟨_, h2, h3, _⟩ := get_result_ok_inv s r d h
  have hb := (period_check_passes_iff _ _ _).mp h3
  refine ⟨by rw [a]; rfl, b, by rw [c, result_session_repeat_len], fun i hi => ?_⟩
  have hle : s.msg.msg.getD i 0 ≤ 20000 := (hb i hi).2
  refine ⟨?_, hle⟩
  rw [e, copy_u16_getD, if_pos ⟨hi, by omega⟩]
  exact Nat.mod_eq_of_lt (by omega)

/-- The short capture read into a zeroed buffer of 250 entries: `ESP_OK`, and the first
message entry of the result is the captured one. -/
theorem get_result_copies_message_witness :
    ((ir_learn_get_result short_carrier_session result_buffer false).1 = ESP_OK
      ∧ result_buffer.message_len ≤ result_buffer.message.length)
    ∧ (ir_learn_get_result short_carrier_session result_buffer false).2.1.state
        = IR_LEARN_SUCCESS
    ∧ (ir_learn_get_result short_carrier_session result_buffer false).2.2.message.getD 0 0
        = short_carrier_session.msg.msg.getD 0 0 :=
  ⟨⟨short_carrier_session_ok, result_buffer_capacity.1⟩,
    (get_result_copies_message short_carrier_session result_buffer false
      short_carrier_session_ok result_buffer_capacity.1).1,
    ((get_result_copies_message short_carrier_session result_buffer false
      short_carrier_session_ok result_buffer_capacity.1).2.2.2 0
      (by rw [short_carrier_session_fields.2.2.1]; decide)).1⟩

/-- Claim C36 (NEC frame layout): for every address `a` and command `c` in 0..255 the item
array built for `ir_nec_send` is the layout of the definition `nec_layout`: a 9000/4500 us
header item, 32 data items with a 560 us mark and a space of 1690 us (one) or 560 us
(zero), carrying `a`, the 8-bit complement of `a`, `c` and the 8-bit complement of `c`, each
least significant bit first, and one trailing item with a 560 us mark, 34 items in all, the
durations stored as ticks `(us / 10) * 8`. -/
theorem nec_frame_layout (a c : Nat) (ha : a < 256) (hc : c < 256) :
    ir_nec_send_items a c = nec_layout a c ∧ (ir_nec_send_items a c).length = 34 := by
  have h := nec_send_items_layout a c ha hc
  refine ⟨h, ?_⟩
  rw [h]
  rfl

/-- The frame of address 0x33 and command 0x9B: the header, the bytes 0x33, 0xCC, 0x9B and
0x64 and the trailing mark. -/
theorem nec_frame_layout_witness :
    (0x33 < 256 ∧ 0x9b < 256)
    ∧ ir_nec_send_items 0x33 0x9b = nec_layout 0x33 0x9b
    ∧ byte_bits_lsb 0x33 = [true, true, false, false, true, true, false, false]
    ∧ byte_bits_lsb (255 - 0x33) = [false, false, true, true, false, false, true, true] :=
  ⟨⟨by decide, by decide⟩, (nec_frame_layout 0x33 0x9b (by decide) (by decide)).1,
    by decide, by decide⟩

/-- Claim C37 (NEC decode value): for every result with at least 66 message durations
whose header is within 100 us of 9000/4500 and whose 32 pairs have the mark within 100 us of
560 and the space within 100 us of 1690 or of 560, `ir_nec_decode` returns true with
`proto = IR_PROTO_NEC`, `bits = 32` and `value = v`, where `v < 2^32` and bit `j` of `v` is
set exactly when `j < 32` and the space `message[3 + 2j]` is within 100 us of 1690;
`addr = v & 0xFF` and `cmd = (v >> 16) & 0xFF`, so `addr` has the bits 0..7 and `cmd` the
bits 16..23 of `v` and nothing else; the complement bytes are not compared. -/
theorem nec_decode_value (r : ir_learn_result_t) (hlen : 66 ≤ r.message_len)
    (hm : NecMatches r) :
    ∃ v : Nat,
      ir_nec_decode r
        = (true, { r with proto := IR_PROTO_NEC, bits := 32, value := v,
                          addr := v &&& 0xff, cmd := (v >>> 16) &&& 0xff })
      ∧ v < 4294967296
      ∧ (∀ j, v.testBit j = true
          ↔ (j < 32 ∧ within_margin (r.message.getD (3 + 2 * j) 0 : Nat) 1690 100))
      ∧ (∀ j, (v &&& 0xff).testBit j = (v.testBit j && decide (j < 8)))
      ∧ (∀ j, ((v >>> 16) &&& 0xff).testBit j = (v.testBit (16 + j) && decide (j < 8))) := by
  obtain ⟨v, h1, h2, h3⟩ := ir_nec_decode_value r (by omega) hm
  refine ⟨v, ?_, h2, h3, fun j => ?_, fun j => ?_⟩
  · rw [h1, low_byte_eq, low_byte_eq]
  · rw [← low_byte_eq, low_byte_testBit]
  · rw [← low_byte_eq, low_byte_testBit, Nat.testBit_shiftRight]

/-- The NEC frame of address 0x33 and command 0x9B as 68 durations: the header and all
pairs match, and the decoder accepts it with the value 0x649BCC33. -/
theorem nec_decode_value_witness :
    (66 ≤ nec_example_result.message_len ∧ NecMatches nec_example_result)
    ∧ (ir_nec_decode nec_example_result).2.value = 0x649bcc33
    ∧ ∃ v : Nat,
      ir_nec_decode nec_example_result
        = (true, { nec_example_result with
                    proto := IR_PROTO_NEC, bits := 32, value := v,
                    addr := v &&& 0xff, cmd := (v >>> 16) &&& 0xff })
      ∧ v < 4294967296
      ∧ (∀ j, v.testBit j = true
          ↔ (j < 32
            ∧ within_margin (nec_example_result.message.getD (3 + 2 * j) 0 : Nat) 1690 100))
      ∧ (∀ j, (v &&& 0xff).testBit j = (v.testBit j && decide (j < 8)))
      ∧ (∀ j, ((v >>> 16) &&& 0xff).testBit j = (v.testBit (16 + j) && decide (j < 8))) :=
  ⟨⟨by rw [nec_example_result_matches.1]; decide, nec_example_result_matches.2⟩,
    nec_example_result_decode.2.1,
    nec_decode_value nec_example_result (by rw [nec_example_result_matches.1]; decide)
      nec_example_result_matches.2⟩

/-- Claim C38 (decoders stay inside the captured data) fails on the code for
`ir_nec_decode`.  The function reads `message[0]` before it looks at `message_len`: on a
result with `message_len = 0` and `repeat_len = 1`, which `ir_learn_decode` lets through
(it answers `ESP_FAIL`, not `ESP_ERR_INVALID_ARG`), the reads of `ir_nec_decode` are index
0.  Its length check admits `message_len = 64` although the loop consumes 66 durations: on
the NEC frame of address 0x33 and command 0x9B declared 64 long the reads are the indices
0 to 65, and the value at index 65 decides the outcome. -/
theorem nec_decode_reads_past_length :
    repeat_only_result.message_len = 0
    ∧ repeat_only_result.repeat_len = 1
    ∧ (ir_learn_decode repeat_only_result).1 = ESP_FAIL
    ∧ ir_nec_decode_reads repeat_only_result = [0]
    ∧ nec_short_len_result.message_len = 64
    ∧ ir_nec_decode_reads nec_short_len_result = List.range 66
    ∧ (ir_nec_decode nec_short_len_result).1 = true
    ∧ (ir_nec_decode { nec_short_len_result with
          message := nec_short_len_result.message.set 65 0 }).1 = false :=
  ⟨repeat_only_result_reads.1, repeat_only_result_reads.2.1, repeat_only_result_reads.2.2.1,
    repeat_only_result_reads.2.2.2, nec_short_len_result_decode.1,
    nec_short_len_result_reads.1, nec_short_len_result_decode.2.2.1,
    nec_short_len_result_reads.2⟩

/-- Claim C39 (protocol identification through the dispatcher): take the received
durations of an RC5 frame (address below 32, command below 64) and of an RC6 frame
(address and command below 256) in a zeroed result.  On the RC5 frame `ir_nec_decode`
returns false and leaves the result as it was, and `ir_learn_decode` returns `ESP_OK` with
`proto = IR_PROTO_RC5` and the address and command of the frame.  On the RC6 frame
`ir_nec_decode` and `ir_rc5_decode` return false and leave the result as it was, and
`ir_learn_decode` returns `ESP_OK` with `proto = IR_PROTO_RC6` and the address and command
of the frame. -/
theorem dispatcher_identifies_protocol (toggle5 : Bool) (a5 c5 : Nat)
    (mode : Nat) (toggle6 : Bool) (a6 c6 : Nat)
    (h1 : a5 < 32) (h2 : c5 < 64) (h3 : a6 < 256) (h4 : c6 < 256) :
    (ir_nec_decode (result_of_message result_zero
        (received_durations_us (ir_rc5_send_items toggle5 a5 c5)))
      = (false, result_of_message result_zero
          (received_durations_us (ir_rc5_send_items toggle5 a5 c5)))
    ∧ (ir_learn_decode (result_of_message result_zero
        (received_durations_us (ir_rc5_send_items toggle5 a5 c5)))).1 = ESP_OK
    ∧ (ir_learn_decode (result_of_message result_zero
        (received_durations_us (ir_rc5_send_items toggle5 a5 c5)))).2.proto = IR_PROTO_RC5
    ∧ (ir_learn_decode (result_of_message result_zero
        (received_durations_us (ir_rc5_send_items toggle5 a5 c5)))).2.addr = a5
    ∧ (ir_learn_decode (result_of_message result_zero
        (received_durations_us (ir_rc5_send_items toggle5 a5 c5)))).2.cmd = c5)
    ∧ (ir_nec_decode (result_of_message result_zero
        (received_durations_us (ir_rc6_send_items mode toggle6 a6 c6)))
      = (false, result_of_message result_zero
          (received_durations_us (ir_rc6_send_items mode toggle6 a6 c6)))
    ∧ ir_rc5_decode (result_of_message result_zero
        (received_durations_us (ir_rc6_send_items mode toggle6 a6 c6)))
      = (false, result_of_message result_zero
          (received_durations_us (ir_rc6_send_items mode toggle6 a6 c6)))
    ∧ (ir_learn_decode (result_of_message result_zero
        (received_durations_us (ir_rc6_send_items mode toggle6 a6 c6)))).1 = ESP_OK
    ∧ (ir_learn_decode (result_of_message result_zero
        (received_durations_us (ir_rc6_send_items mode toggle6 a6 c6)))).2.proto
        = IR_PROTO_RC6
    ∧ (ir_learn_decode (result_of_message result_zero
        (received_durations_us (ir_rc6_send_items mode toggle6 a6 c6)))).2.addr = a6
    ∧ (ir_learn_decode (result_of_message result_zero
        (received_durations_us (ir_rc6_send_items mode toggle6 a6 c6)))).2.cmd = c6) :=
  ⟨⟨nec_rejects_rc5 result_zero toggle5 a5 c5,
      ir_learn_decode_rc5_frame result_zero toggle5 a5 c5 h1 h2 rfl rfl⟩,
    ⟨nec_rejects_rc6 result_zero mode toggle6 a6 c6,
      rc5_rejects_rc6 result_zero mode toggle6 a6 c6,
      ir_learn_decode_rc6_frame result_zero mode toggle6 a6 c6 h3 h4 rfl rfl⟩⟩

/-- The RC5 frame of address 0x14 and command 0x25 and the RC6 frame of mode 0, address
0x34 and command 0x29, both with the toggle bit set, through the dispatcher. -/
theorem dispatcher_identifies_protocol_witness :
    (0x14 < 32 ∧ 0x25 < 64 ∧ 0x34 < 256 ∧ 0x29 < 256)
    ∧ (ir_learn_decode (result_of_message result_zero
        (received_durations_us (ir_rc5_send_items true 0x14 0x25)))).2.proto = IR_PROTO_RC5
    ∧ (ir_learn_decode (result_of_message result_zero
        (received_durations_us (ir_rc5_send_items true 0x14 0x25)))).2.addr = 0x14
    ∧ (ir_learn_decode (result_of_message result_zero
        (received_durations_us (ir_rc6_send_items 0 true 0x34 0x29)))).2.proto
        = IR_PROTO_RC6
    ∧ (ir_learn_decode (result_of_message result_zero
        (received_durations_us (ir_rc6_send_items 0 true 0x34 0x29)))).2.cmd = 0x29 :=
  ⟨⟨by decide, by decide, by decide, by decide⟩,
    (dispatcher_identifies_protocol true 0x14 0x25 0 true 0x34 0x29 (by decide) (by decide)
      (by decide) (by decide)).1.2.2.1,
    (dispatcher_identifies_protocol true 0x14 0x25 0 true 0x34 0x29 (by decide) (by decide)
      (by decide) (by decide)).1.2.2.2.1,
    (dispatcher_identifies_protocol true 0x14 0x25 0 true 0x34 0x29 (by decide) (by decide)
      (by decide) (by decide)).2.2.2.2.1,
    (dispatcher_identifies_protocol true 0x14 0x25 0 true 0x34 0x29 (by decide) (by decide)
      (by decide) (by decide)).2.2.2.2.2.2⟩

/-- Claim C40 (repeat narrowing): when `ir_learn_get_result` returns `ESP_OK` on a result
whose `repeat` array has its 10 entries, then for every `i` below the `repeat_len` of the
result, `result->repeat[i]` is the captured `repeat[i]` modulo 65536, it equals the captured
duration exactly when that is at most 65535, and the captured duration has passed the
validation, whose upper bound is 120000. -/
theorem get_result_narrows_repeat (s : ir_learn_t) (r : ir_learn_result_t) (d : Bool)
    (h : (ir_learn_get_result s r d).1 = ESP_OK) (hcap : r.repeat_buf.length = 10) :
    ∀ i, i < (ir_learn_get_result s r d).2.2.repeat_len →
      (ir_learn_get_result s r d).2.2.repeat_buf.getD i 0 = s.msg.repeat_buf.getD i 0 % 65536
      ∧ ((ir_learn_get_result s r d).2.2.repeat_buf.getD i 0 = s.msg.repeat_buf.getD i 0
          ↔ s.msg.repeat_buf.getD i 0 ≤ 65535)
      ∧ s.msg.repeat_buf.getD i 0 ≤ 120000 := by
  obtain ⟨_, _, c, _, e⟩ := get_result_ok_eq s r d h
  obtain ⟨_, _, _, h4⟩ := get_result_ok_inv s r d h
  intro i hi
  rw [c, result_session_repeat_len] at hi
  rw [e, copy_u16_getD, result_session_repeat_len]
  by_cases h9 : 9 ≤ s.msg.repeat_len
  · rw [if_pos h9] at hi
    exact absurd hi (Nat.not_lt_zero _)
  · rw [if_neg h9] at hi
    rw [if_neg h9, if_pos ⟨hi, by omega⟩]
    have hchk : period_check_fails s.msg.repeat_buf s.msg.repeat_len IR_LEARN_REPEAT_MAX
        = false := by
      rcases h4 with h4 | h4
      · have h5 : 10 - 1 ≤ s.msg.repeat_len := h4
        omega
      · exact h4
    have hle : s.msg.repeat_buf.getD i 0 ≤ 120000 :=
      ((period_check_passes_iff _ _ _).mp hchk i hi).2
    refine ⟨rfl, ?_, hle⟩
    omega

/-- The short capture with repeat gaps of 70 ms read into a zeroed buffer: `ESP_OK`, the
first repeat duration is 70000 in the session and 4464 in the result. -/
theorem get_result_narrows_repeat_witness :
    ((ir_learn_get_result wide_repeat_session result_buffer false).1 = ESP_OK
      ∧ result_buffer.repeat_buf.length = 10)
    ∧ wide_repeat_session.msg.repeat_buf.getD 0 0 = 70000
    ∧ (ir_learn_get_result wide_repeat_session result_buffer false).2.2.repeat_buf.getD 0 0
        = 4464
    ∧ (ir_learn_get_result wide_repeat_session result_buffer false).2.2.repeat_buf.getD 0 0
        = wide_repeat_session.msg.repeat_buf.getD 0 0 % 65536 :=
  ⟨⟨wide_repeat_session_ok, result_buffer_capacity.2⟩,
    wide_repeat_session_fields.2.2.2.2.2.1, wide_repeat_result_repeat.2,
    ((get_result_narrows_repeat wide_repeat_session result_buffer false wide_repeat_session_ok
      result_buffer_capacity.2) 0 (by rw [wide_repeat_result_repeat.1]; decide)).1⟩

end IrLearn
